import Mathlib

/-!
# Frame pipeline of `Mawi1e::D3DApp`

A shallow embedding of the frame-resource ring of `D3DApp.cpp`
(`Update`, `Draw`, `FlushCommandQueue`, `ResizeBuffer`, `Initialize`) together
with the fence of the command queue, and the properties of the ring that the
specification states.

Conventions of the embedding.

* `UINT64` values are natural numbers below `2 ^ 64`; `++m_FenceCount` is the
  increment modulo `2 ^ 64`.
* `int` values are integers; `%` on `int` is the truncating remainder
  (`Int.tmod`), and signed overflow is undefined behaviour.
* A call that does not return (undefined behaviour such as a null or
  out-of-range access, or a wait with `INFINITE` timeout on a fence value that
  no queued signal ever reaches) evaluates to `none`.
* The command queue is a FIFO list of the work submitted to it that the GPU has
  not retired yet; the GPU retires the items in order, and retiring a signal
  sets the completed value of the fence.
* Every call appends the device effects it performs, in program order, to
  `trace`.
-/

namespace Mawi1e

/-- The ring depth, `static const int gNumFrameResources = 3` of `D3DApp.h`. -/
def gNumFrameResources : Int := 3

/-- The number of values of a `UINT64`. -/
def UINT64_RANGE : Nat := 2 ^ 64

/-- The largest `int`. -/
def INT_MAX : Int := 2147483647

/-- Modelled from the spec: `FrameResource.h` of this stage is missing; the frame
resource set carries a stamped counter value `m_Fence` (a `UINT64`), where 0
means that the set was never submitted. -/
structure FrameResource where
  m_Fence : Nat
deriving DecidableEq, Repr

/-- An entry of the command queue that the GPU has not retired yet. -/
inductive QueueItem where
  /-- Command lists handed over by `ExecuteCommandLists`; `slot` is the ring
  slot whose buffers the recorded commands read (`none` for the set-up
  command list, which reads no ring slot). -/
  | execute (slot : Option Nat)
  /-- The fence update requested by `ID3D12CommandQueue::Signal`. -/
  | signal (value : Nat)
deriving DecidableEq, Repr

/-- A device effect, as performed by the CPU in program order. -/
inductive Event where
  | allocatorReset (slot : Nat)
  | commandListReset
  | recordDrawRenderItems (slot : Nat)
  | commandListClose
  | executeCommandLists (slot : Option Nat)
  | present
  | stamp (slot : Nat) (value : Nat)
  | signal (value : Nat)
  | waitForFence (value : Nat)
  | updateInstanceBuffers (slot : Nat)
  | updateMatetialCBs (slot : Nat)
  | updatePassCB (slot : Nat)
deriving DecidableEq, Repr

/-- The part of `D3DApp` that the frame pipeline reads and writes. -/
structure D3DApp where
  /-- The member `UINT64 m_FenceCount`. -/
  m_FenceCount : Nat
  /-- The member `std::vector<std::unique_ptr<FrameResource>> m_FrameResources`. -/
  m_FrameResources : List FrameResource
  /-- The member `FrameResource* m_CurrFrameResource`: `none` is `nullptr`, `some i` points to
  the element `i` of `m_FrameResources`. -/
  m_CurrFrameResource : Option Nat
  /-- The member `int m_CurrFrameResourceIndex`. -/
  m_CurrFrameResourceIndex : Int
  /-- The value that `m_Fence->GetCompletedValue()` returns. -/
  m_Fence : Nat
  /-- The work submitted to `m_CommandQueue` that the GPU has not retired yet. -/
  m_CommandQueue : List QueueItem
  /-- The device effects performed so far. -/
  trace : List Event
deriving DecidableEq, Repr

/-- The fence value after the GPU has retired one queue item. -/
def QueueItem.retire : QueueItem → Nat → Nat
  | .execute _, fence => fence
  | .signal v, _ => v

/-- The GPU retires the oldest item of the queue (an environment step). -/
def gpuRetire (s : D3DApp) : D3DApp :=
  match s.m_CommandQueue with
  | [] => s
  | item :: rest => { s with m_Fence := item.retire s.m_Fence, m_CommandQueue := rest }

/-- The GPU works through the queue until the fence has reached `target`: the
fence value and the remaining queue at the first such moment, or `none` when the
queue runs empty before (the event is never set). -/
def gpuRunUntil (target : Nat) : List QueueItem → Nat → Option (Nat × List QueueItem)
  | [], fence => if target ≤ fence then some (fence, []) else none
  | item :: rest, fence =>
    if target ≤ fence then some (fence, item :: rest)
    else gpuRunUntil target rest (item.retire fence)

/-- The calls `m_Fence->SetEventOnCompletion(target, hEvent)` and
`WaitForSingleObject(hEvent, INFINITE)`: returns once the fence has reached
`target`. -/
def waitForFence (target : Nat) (s : D3DApp) : Option D3DApp :=
  match gpuRunUntil target s.m_CommandQueue s.m_Fence with
  | none => none
  | some (fence, rest) =>
    some { s with m_Fence := fence, m_CommandQueue := rest,
                  trace := s.trace ++ [Event.waitForFence target] }

/-- The stamp of ring slot `i`, `m_FrameResources[i]->m_Fence` (0 where there is no such slot). -/
def D3DApp.stampOf (s : D3DApp) (i : Nat) : Nat :=
  match s.m_FrameResources.get? i with
  | some fr => fr.m_Fence
  | none => 0

/-- The stamp of the current frame resource, `m_CurrFrameResource->m_Fence` (0 for `nullptr`). -/
def D3DApp.currStamp (s : D3DApp) : Nat :=
  match s.m_CurrFrameResource with
  | some i => s.stampOf i
  | none => 0

/-- The function `D3DApp::FlushCommandQueue` (lines 93-108). -/
def FlushCommandQueue (s : D3DApp) : Option D3DApp :=
  let count := (s.m_FenceCount + 1) % UINT64_RANGE
  let s1 := { s with m_FenceCount := count,
                     m_CommandQueue := s.m_CommandQueue ++ [QueueItem.signal count],
                     trace := s.trace ++ [Event.signal count] }
  if s1.m_Fence < count then waitForFence count s1 else some s1

/-- The ring index that `Update` selects: `(m_CurrFrameResourceIndex + 1) % gNumFrameResources`. -/
def D3DApp.nextIndex (s : D3DApp) : Int :=
  Int.tmod (s.m_CurrFrameResourceIndex + 1) gNumFrameResources

/-- The function `D3DApp::Update` (lines 110-128). `OnKeyboardInput` and `UpdateWindowTitle`
touch the camera, two flags and the window title only; the three update calls
at the end write the buffers of `m_CurrFrameResource`. -/
def Update (s : D3DApp) : Option D3DApp :=
  if INT_MAX < s.m_CurrFrameResourceIndex + 1 then none
  else
    let idx := s.nextIndex
    if idx < 0 then none
    else
      match s.m_FrameResources.get? idx.toNat with
      | none => none
      | some fr =>
        let s1 := { s with m_CurrFrameResourceIndex := idx,
                           m_CurrFrameResource := some idx.toNat }
        let waited :=
          if fr.m_Fence ≠ 0 ∧ s1.m_Fence < fr.m_Fence then waitForFence fr.m_Fence s1
          else some s1
        match waited with
        | none => none
        | some s2 =>
          some { s2 with trace := s2.trace ++
            [Event.updateInstanceBuffers idx.toNat, Event.updateMatetialCBs idx.toNat,
             Event.updatePassCB idx.toNat] }

/-- The function `D3DApp::Draw` (lines 130-191). -/
def Draw (s : D3DApp) : Option D3DApp :=
  match s.m_CurrFrameResource with
  | none => none
  | some i =>
    match s.m_FrameResources.get? i with
    | none => none
    | some fr =>
      let count := (s.m_FenceCount + 1) % UINT64_RANGE
      some { s with
        m_FenceCount := count,
        m_FrameResources := s.m_FrameResources.set i { fr with m_Fence := count },
        m_CommandQueue := s.m_CommandQueue ++ [QueueItem.execute (some i), QueueItem.signal count],
        trace := s.trace ++
          [Event.allocatorReset i, Event.commandListReset, Event.recordDrawRenderItems i,
           Event.commandListClose, Event.executeCommandLists (some i), Event.present,
           Event.stamp i count, Event.signal count] }

/-- The function `D3DApp::ResizeBuffer` (lines 193-271), as far as the queue and the fence go:
a flush, the set-up command list, a second flush. -/
def ResizeBuffer (s : D3DApp) : Option D3DApp :=
  match FlushCommandQueue s with
  | none => none
  | some s1 =>
    FlushCommandQueue { s1 with
      m_CommandQueue := s1.m_CommandQueue ++ [QueueItem.execute none],
      trace := s1.trace ++
        [Event.commandListReset, Event.commandListClose, Event.executeCommandLists none] }

/-- The function `D3DApp::BuildFrameResources` (lines 821-826): one frame resource set, never
submitted, per ring position. -/
def BuildFrameResources (s : D3DApp) : D3DApp :=
  { s with m_FrameResources :=
      s.m_FrameResources ++ List.replicate gNumFrameResources.toNat { m_Fence := 0 } }

/-- The members of a `D3DApp` object right after its constructor, with their in-class initialisers. -/
def D3DApp.constructed : D3DApp :=
  { m_FenceCount := 0, m_FrameResources := [], m_CurrFrameResource := none,
    m_CurrFrameResourceIndex := 0, m_Fence := 0, m_CommandQueue := [], trace := [] }

/-- The function `D3DApp::Initialize` (lines 20-72), as far as the queue, the fence and the ring
go: `CreateFence(0, ...)`, `ResizeBuffer`, `BuildFrameResources`, the set-up
command list and the final flush. -/
def Initialize (s : D3DApp) : Option D3DApp :=
  match ResizeBuffer { s with m_Fence := 0 } with
  | none => none
  | some s1 =>
    let s2 := BuildFrameResources s1
    FlushCommandQueue { s2 with
      m_CommandQueue := s2.m_CommandQueue ++ [QueueItem.execute none],
      trace := s2.trace ++
        [Event.commandListReset, Event.commandListClose, Event.executeCommandLists none] }

/-- A step of a run: a call made by the application, or the GPU retiring one queue item. -/
inductive Action where
  | Update
  | Draw
  | FlushCommandQueue
  | ResizeBuffer
  | gpuRetire
deriving DecidableEq, Repr

/-- One step of a run. -/
def step : Action → D3DApp → Option D3DApp
  | .Update, s => Update s
  | .Draw, s => Draw s
  | .FlushCommandQueue, s => FlushCommandQueue s
  | .ResizeBuffer, s => ResizeBuffer s
  | .gpuRetire, s => some (gpuRetire s)

/-- The state after a run, `none` when a step of it does not return. -/
def run : List Action → D3DApp → Option D3DApp
  | [], s => some s
  | a :: rest, s =>
    match step a s with
    | none => none
    | some s1 => run rest s1

/-- The counter values stamped by `Draw` so far, one per submitted frame, oldest first. -/
def D3DApp.submitted (s : D3DApp) : List Nat :=
  s.trace.filterMap fun e =>
    match e with
    | Event.stamp _ v => some v
    | _ => none

/-- The number of submitted frames that the fence has not reached yet. -/
def D3DApp.inFlight (s : D3DApp) : Nat :=
  ((s.submitted).filter fun v => decide (s.m_Fence < v)).length

/-- The values of the signals in a queue, oldest first. -/
def pendingSignals (q : List QueueItem) : List Nat :=
  q.filterMap fun item =>
    match item with
    | QueueItem.signal v => some v
    | _ => none

/-- The frame resources are freshly built and nothing is in flight: three ring slots with
stamp 0, a ring index in range, the current pointer null or at the ring index,
an empty queue with the fence at the counter, and no frame submitted. -/
def Fresh (s : D3DApp) : Prop :=
  s.m_FrameResources.length = 3 ∧
  (∀ fr ∈ s.m_FrameResources, fr.m_Fence = 0) ∧
  0 ≤ s.m_CurrFrameResourceIndex ∧ s.m_CurrFrameResourceIndex < 3 ∧
  (s.m_CurrFrameResource = none ∨
    s.m_CurrFrameResource = some s.m_CurrFrameResourceIndex.toNat) ∧
  s.m_FenceCount < UINT64_RANGE ∧
  s.m_Fence = s.m_FenceCount ∧
  s.m_CommandQueue = [] ∧
  s.submitted = []

instance (s : D3DApp) : Decidable (Fresh s) := by
  unfold Fresh
  infer_instance

/-- The frame loop: the `Update` and `Draw` calls of a run alternate, starting with `Update`
when `expectUpdate` is true; flushes, resizes and GPU steps may occur anywhere.
The result says whether the next call of the loop is `Update`. -/
def frameLoop : List Action → Bool → Option Bool
  | [], expectUpdate => some expectUpdate
  | Action.Update :: rest, true => frameLoop rest false
  | Action.Update :: _, false => none
  | Action.Draw :: rest, false => frameLoop rest true
  | Action.Draw :: _, true => none
  | _ :: rest, expectUpdate => frameLoop rest expectUpdate

/-- The state that `Initialize` leaves behind, when it returns. -/
def initialApp : D3DApp :=
  match Initialize D3DApp.constructed with
  | some s => s
  | none => D3DApp.constructed

/-- The number of times a step increments `m_FenceCount`. -/
def increment : Action → Nat
  | .Update => 0
  | .Draw => 1
  | .FlushCommandQueue => 1
  | .ResizeBuffer => 2
  | .gpuRetire => 0

/-- The number of times a run increments `m_FenceCount`. -/
def increments (acts : List Action) : Nat :=
  (acts.map increment).sum

/-- A run in which no `Draw` is called twice without an `Update` in between (the first call
being an `Update` when `expectUpdate` is true). Every frame loop is such a run.
The result says whether a `Draw` would now need an `Update` first. -/
def drawsFollowUpdates : List Action → Bool → Option Bool
  | [], expectUpdate => some expectUpdate
  | Action.Update :: rest, _ => drawsFollowUpdates rest false
  | Action.Draw :: rest, false => drawsFollowUpdates rest true
  | Action.Draw :: _, true => none
  | _ :: rest, expectUpdate => drawsFollowUpdates rest expectUpdate

/-- A run together with, for every ring slot, the value that `m_FenceCount` had right after
the last `Draw` on that slot (`none` before the first one). -/
def runTracking : List Action → D3DApp → (Nat → Option Nat) →
    Option (D3DApp × (Nat → Option Nat))
  | [], s, g => some (s, g)
  | a :: rest, s, g =>
    match step a s with
    | none => none
    | some s1 =>
      runTracking rest s1
        (match a, s.m_CurrFrameResource with
         | Action.Draw, some i => Function.update g i (some s1.m_FenceCount)
         | _, _ => g)

/-- Every command list in the queue that reads a ring slot is followed, in the queue, by a
signal whose value is at most the stamp of that slot. -/
def Covered (stamp : Nat → Nat) : List QueueItem → Prop
  | [] => True
  | QueueItem.execute (some i) :: q => (∃ v ∈ pendingSignals q, v ≤ stamp i) ∧ Covered stamp q
  | _ :: q => Covered stamp q

/-- The invariant of the pipeline while the counter has not wrapped. -/
structure WellFormed (s : D3DApp) : Prop where
  ring : s.m_FrameResources.length = 3
  index_nonneg : 0 ≤ s.m_CurrFrameResourceIndex
  index_lt : s.m_CurrFrameResourceIndex < 3
  curr : s.m_CurrFrameResource = none ∨
    s.m_CurrFrameResource = some s.m_CurrFrameResourceIndex.toNat
  fence_le : s.m_Fence ≤ s.m_FenceCount
  signals : pendingSignals s.m_CommandQueue =
    List.range' (s.m_Fence + 1) (s.m_FenceCount - s.m_Fence)
  stamps_le : ∀ i, s.stampOf i ≤ s.m_FenceCount
  submitted_le : ∀ v ∈ s.submitted, v ≤ s.m_FenceCount
  submitted_sorted : s.submitted.Pairwise (· < ·)
  covered : Covered s.stampOf s.m_CommandQueue

/-- The invariant of runs in which draws follow updates: every submitted frame is complete or
is the last frame of a ring slot, and after `Update` (when `expectUpdate` is
false) that slot is not the current one. -/
def LoopInv (expectUpdate : Bool) (s : D3DApp) : Prop :=
  if expectUpdate then
    ∀ v ∈ s.submitted, v ≤ s.m_Fence ∨ ∃ j, j < 3 ∧ v = s.stampOf j
  else
    s.m_CurrFrameResource = some s.m_CurrFrameResourceIndex.toNat ∧
    ∀ v ∈ s.submitted, v ≤ s.m_Fence ∨
      ∃ j, j < 3 ∧ j ≠ s.m_CurrFrameResourceIndex.toNat ∧ v = s.stampOf j

/-- A state with freshly built frame resources, nothing in flight and the counter at `count`. -/
def freshApp (count : Nat) : D3DApp :=
  { m_FenceCount := count, m_FrameResources := List.replicate 3 { m_Fence := 0 },
    m_CurrFrameResource := none, m_CurrFrameResourceIndex := 0, m_Fence := count,
    m_CommandQueue := [], trace := [] }

/-- The largest `UINT64`, `2 ^ 64 - 1`. -/
def UINT64_MAX : Nat := 18446744073709551615

/-- The state after three frames that the GPU has not started on: from `initialApp`, three
rounds of `Update` and `Draw` without any GPU step. -/
def stalledApp : D3DApp :=
  match run [Action.Update, Action.Draw, Action.Update, Action.Draw, Action.Update, Action.Draw]
      initialApp with
  | some s => s
  | none => initialApp

/-- A state right after the first `Update` of a program run: counter and fence at 3, the
current pointer at slot 1, nothing submitted. -/
def updatedApp : D3DApp :=
  { freshApp 3 with m_CurrFrameResource := some 1, m_CurrFrameResourceIndex := 1 }

/-- Whether an effect is a wait on the fence. -/
def Event.isWait : Event → Bool
  | Event.waitForFence _ => true
  | _ => false

/-! ## The scene, the per-frame buffers and the culling pass

`float` values are idealised as rational numbers. The functions of this part
move such values around (loads, stores, transposition); the arithmetic of
DirectXMath and DirectXCollision and the `Camera` class, which are not part of
the sources, are bundled in `External` and taken as parameters.
-/

/-- The type `XMFLOAT3`. -/
structure XMFLOAT3 where
  x : ℚ
  y : ℚ
  z : ℚ

/-- The type `XMFLOAT4`. -/
structure XMFLOAT4 where
  x : ℚ
  y : ℚ
  z : ℚ
  w : ℚ

/-- The types `XMFLOAT4X4` and `XMMATRIX`: four rows of four entries. -/
abbrev XMFLOAT4X4 : Type := Matrix (Fin 4) (Fin 4) ℚ

/-- The function `XMMatrixTranspose`: entry `(i, j)` of the result is entry `(j, i)` of the argument. -/
def XMMatrixTranspose (M : XMFLOAT4X4) : XMFLOAT4X4 :=
  fun i j => M j i

/-- The enumeration `DirectX::ContainmentType`. -/
inductive ContainmentType where
  | DISJOINT
  | INTERSECTS
  | CONTAINS
deriving DecidableEq, Repr

/-- The type `DirectX::BoundingBox`. -/
structure BoundingBox where
  Center : XMFLOAT3
  Extents : XMFLOAT3

/-- The type `DirectX::BoundingFrustum`. -/
structure BoundingFrustum where
  Origin : XMFLOAT3
  Orientation : XMFLOAT4
  RightSlope : ℚ
  LeftSlope : ℚ
  TopSlope : ℚ
  BottomSlope : ℚ
  Near : ℚ
  Far : ℚ

/-- Modelled from the spec: the `Camera` class is missing; of the camera the code reads the
view matrix, the projection matrix and the position. -/
structure Camera where
  View : XMFLOAT4X4
  Proj : XMFLOAT4X4
  Position : XMFLOAT3

/-- The code outside the sources that the scene functions call: DirectXMath, DirectXCollision
and the methods of `Camera`. -/
structure External where
  /-- The function `XMMatrixInverse` (its determinant argument is an output). -/
  XMMatrixInverse : XMFLOAT4X4 → XMFLOAT4X4
  /-- The function `XMMatrixMultiply`. -/
  XMMatrixMultiply : XMFLOAT4X4 → XMFLOAT4X4 → XMFLOAT4X4
  /-- The method `BoundingFrustum::Transform(Out, M)`. -/
  Transform : BoundingFrustum → XMFLOAT4X4 → BoundingFrustum
  /-- The method `BoundingFrustum::Contains(box)`. -/
  Contains : BoundingFrustum → BoundingBox → ContainmentType
  /-- The function `BoundingFrustum::CreateFromMatrix(Out, Projection)`. -/
  CreateFromMatrix : XMFLOAT4X4 → BoundingFrustum
  /-- The method `Camera::Walk`. -/
  Walk : ℚ → Camera → Camera
  /-- The method `Camera::Strafe`. -/
  Strafe : ℚ → Camera → Camera
  /-- The method `Camera::UpdateViewMatrix`. -/
  UpdateViewMatrix : Camera → Camera
  /-- The method `Camera::SetLens(fovY, aspect, zn, zf)`; the field of view is `0.25 * XM_PI`. -/
  SetLens : ℚ → ℚ → ℚ → Camera → Camera

/-- Modelled from the spec: the declaration of the instance record is missing; an instance
has a world transform, a texture transform and a material index. -/
structure InstanceData where
  World : XMFLOAT4X4
  TexTransform : XMFLOAT4X4
  MaterialIndex : Nat

/-- Modelled from the spec: the declaration of `InstanceConstants` is missing; the element of
the instance buffer has the three members that `UpdateInstanceBuffers` stores. -/
structure InstanceConstants where
  World : XMFLOAT4X4
  TexTransform : XMFLOAT4X4
  MaterialIndex : Nat

/-- Modelled from the spec: the declaration of `Material` is missing; these are the members
that `BuildMaterials` and `UpdateMatetialCBs` use, `NumFramesDirty` starting at the ring depth. -/
structure Material where
  Name : String
  MatCBIndex : Nat
  DiffuseSrvHeapIndex : Nat
  NumFramesDirty : Int
  DiffuseAlbedo : XMFLOAT4
  FresnelR0 : XMFLOAT3
  Roughness : ℚ
  MatTransform : XMFLOAT4X4

/-- Modelled from the spec: the declaration of `MaterialConstants` is missing; the element of
the material buffer has the members that `UpdateMatetialCBs` stores. -/
structure MaterialConstants where
  MatTransform : XMFLOAT4X4
  DiffuseAlbedo : XMFLOAT4
  FresnelR0 : XMFLOAT3
  Roughness : ℚ
  DiffuseMapIndex : Nat

/-- A light of the pass constants. -/
structure Light where
  Direction : XMFLOAT3
  Strength : XMFLOAT3

/-- Modelled from the spec: the declaration of `PassConstants` is missing; these are the
members that `UpdatePassCB` assigns. -/
structure PassConstants where
  View : XMFLOAT4X4
  InvView : XMFLOAT4X4
  Proj : XMFLOAT4X4
  InvProj : XMFLOAT4X4
  ViewProj : XMFLOAT4X4
  InvViewProj : XMFLOAT4X4
  EyePosW : XMFLOAT3
  RTSize : ℚ × ℚ
  InvRTSize : ℚ × ℚ
  NearZ : ℚ
  FarZ : ℚ
  TotalTime : ℚ
  DeltaTime : ℚ
  AmbientLight : XMFLOAT4
  Lights : List Light

/-- The members of a submesh (`SubMeshGeometry`) that the render item copies. -/
structure SubMeshGeometry where
  IndexCount : Nat
  StartIndexLocation : Nat
  BaseVertexLocation : Int
  Bounds : BoundingBox

/-- The render item of this stage: the members of `RenderItem` that instanced drawing uses;
`Instances`, `Bounds` and `InstanceCount` are declared in the missing header
of the stage. -/
structure RenderItem where
  Instances : List InstanceData
  Bounds : BoundingBox
  InstanceCount : Nat
  IndexCount : Nat
  StartIndexLocation : Nat
  BaseVertexLocation : Int

/-- Modelled from the spec: `UploadBuffer.h` is missing; an upload buffer is a fixed number of
elements, each unwritten (`none`) until `CopyData` overwrites it in full. -/
abbrev UploadBuffer (T : Type) : Type := List (Option T)

/-- Modelled from the spec: the method `UploadBuffer::CopyData(index, data)` overwrites element
`index`; an index outside the buffer is a write outside the mapped memory
(undefined behaviour, `none`). -/
def UploadBuffer.CopyData {T : Type} (b : UploadBuffer T) (index : Nat) (data : T) :
    Option (UploadBuffer T) :=
  if index < b.length then some (b.set index (some data)) else none

/-- The dynamic buffers of one frame resource set (`m_PassCB`, `m_MatVB`, `m_InstCB` of
`FrameResource`), kept apart from its stamp. -/
structure FrameBuffers where
  m_PassCB : UploadBuffer PassConstants
  m_MatVB : UploadBuffer MaterialConstants
  m_InstCB : UploadBuffer InstanceConstants

/-- Modelled from the spec: the constructor `FrameResource(device, passCount, instanceCount,
materialCount)` of this stage is missing (the sources hold the one of an earlier
stage, which sizes its buffers by its count arguments); it creates a pass
buffer of `passCount` elements, an instance buffer of `instanceCount` elements and
a material buffer of `materialCount` elements. -/
def FrameBuffers.create (passCount instanceCount materialCount : Nat) : FrameBuffers :=
  { m_PassCB := List.replicate passCount none,
    m_MatVB := List.replicate materialCount none,
    m_InstCB := List.replicate instanceCount none }

/-- A write to a buffer of a ring slot, as made by `CopyData`. -/
inductive BufferWrite where
  | instanceCB (slot index : Nat) (data : InstanceConstants)
  | materialVB (slot index : Nat) (data : MaterialConstants)
  | passCB (slot index : Nat) (data : PassConstants)

/-- The ring slot that a write targets. -/
def BufferWrite.slot : BufferWrite → Nat
  | .instanceCB slot _ _ => slot
  | .materialVB slot _ _ => slot
  | .passCB slot _ _ => slot

/-- Whether a write goes to a material buffer. -/
def BufferWrite.isMaterial : BufferWrite → Bool
  | .materialVB _ _ _ => true
  | _ => false

/-- The text that `UpdateWindowTitle` formats: skull count, frames per second, and the
culling label. -/
structure WindowTitle where
  skullCount : Nat
  fps : Int
  frustumCulling : String
deriving DecidableEq, Repr

/-- What the environment supplies to one `Update`: the keys that are down
(`GetAsyncKeyState`) and the readings of the game timer. -/
structure FrameInput where
  keyW : Bool
  keyS : Bool
  keyA : Bool
  keyD : Bool
  key1 : Bool
  keyF : Bool
  DeltaTime : ℚ
  TotalTime : ℚ

/-- An instanced draw recorded by `DrawRenderItems`: the ring slot whose instance buffer is
bound, the element of that buffer at which the bound address starts, and the
arguments of `DrawIndexedInstanced`. -/
structure DrawCall where
  instanceBufferSlot : Nat
  instanceBufferStart : Nat
  IndexCount : Nat
  InstanceCount : Nat
  StartIndexLocation : Nat
  BaseVertexLocation : Int
  StartInstanceLocation : Nat
deriving DecidableEq, Repr

/-- What `BuildInstancesTheSkull` reads from `skull.txt`: the vertex positions and the
triangle count. -/
structure SkullFile where
  positions : List XMFLOAT3
  tcount : Nat

/-- The `D3DApp` object with its scene: the frame pipeline part together with the render
items, the materials, the camera, the flags and the buffers of the ring slots. -/
structure App extends D3DApp where
  /-- The buffers of `m_FrameResources[i]`, for every ring slot `i`. -/
  buffers : List FrameBuffers
  /-- The writes to the ring buffers made so far. -/
  writes : List BufferWrite
  /-- The member `m_AllRItems`. -/
  m_AllRItems : List RenderItem
  /-- The member `mRitemLayer[(int)RenderLayer::Opaque]`, as positions in `m_AllRItems`. -/
  mRitemLayer : List Nat
  /-- The member `m_Materials`, in the order in which the map is traversed. -/
  m_Materials : List Material
  /-- The member `m_isFrustumCulling`. -/
  m_isFrustumCulling : Bool
  /-- The member `m_IsWireFrames`. -/
  m_IsWireFrames : Bool
  /-- The member `m_SkullCounts`. -/
  m_SkullCounts : Nat
  /-- The member `m_InstanceCount`. -/
  m_InstanceCount : Nat
  /-- The member `m_Camera`. -/
  m_Camera : Camera
  /-- The member `m_LocalProjFrustum`. -/
  m_LocalProjFrustum : BoundingFrustum
  /-- The member `m_MainPassCB`. -/
  m_MainPassCB : PassConstants
  /-- The member `m_d3dSettings.screenWidth`. -/
  screenWidth : Int
  /-- The member `m_d3dSettings.screenHeight`. -/
  screenHeight : Int
  /-- The submesh `m_DrawArgs["lskullGeo"]->DrawArgs["lskull"]`, when the geometry was built. -/
  lskull : Option SubMeshGeometry
  /-- The instanced draws recorded so far. -/
  drawCalls : List DrawCall
  /-- The title of the window, when one was set. -/
  windowTitle : Option WindowTitle
  /-- The static `elapsedTime` of `UpdateWindowTitle`. -/
  elapsedTime : ℚ
  /-- The static `fps` of `UpdateWindowTitle`. -/
  fps : Int

/-- The function `D3DApp::OnKeyboardInput` (lines 888-912): camera moves, the wireframe flag
follows key `1`, and key `F` toggles `m_isFrustumCulling`. -/
def OnKeyboardInput (ext : External) (input : FrameInput) (s : App) : App :=
  let dt := input.DeltaTime
  let walkSpeed : ℚ := 30
  let c1 := if input.keyW then ext.Walk (dt * walkSpeed) s.m_Camera else s.m_Camera
  let c2 := if input.keyS then ext.Walk (-dt * walkSpeed) c1 else c1
  let c3 := if input.keyA then ext.Strafe (-dt * walkSpeed) c2 else c2
  let c4 := if input.keyD then ext.Strafe (dt * walkSpeed) c3 else c3
  { s with
    m_Camera := ext.UpdateViewMatrix c4,
    m_IsWireFrames := input.key1,
    m_isFrustumCulling := if input.keyF then !s.m_isFrustumCulling else s.m_isFrustumCulling }

/-- The label of the window title for the flag: `(m_isFrustumCulling ? "Off" : "On")`. -/
def frustumCullingLabel (flag : Bool) : String :=
  if flag then "Off" else "On"

/-- The function `D3DApp::UpdateWindowTitle` (lines 914-928). -/
def UpdateWindowTitle (input : FrameInput) (s : App) : App :=
  let fps := s.fps + 1
  if input.TotalTime - s.elapsedTime ≥ 1 then
    { s with
      windowTitle := some { skullCount := s.m_SkullCounts, fps := fps,
                            frustumCulling := frustumCullingLabel s.m_isFrustumCulling },
      elapsedTime := s.elapsedTime + 1,
      fps := 0 }
  else { s with fps := fps }

/-- The test of one instance in `UpdateInstanceBuffers` (lines 841-850): the frustum, moved by
`toLocal = XMMatrixMultiply(invView, invWorld)`, against the bounding box of the item. -/
def instanceTest (ext : External) (frustum : BoundingFrustum) (invView : XMFLOAT4X4)
    (bounds : BoundingBox) (inst : InstanceData) : ContainmentType :=
  let world := inst.World
  let invWorld := ext.XMMatrixInverse world
  let toLocal := ext.XMMatrixMultiply invView invWorld
  let bFrustum := ext.Transform frustum toLocal
  ext.Contains bFrustum bounds

/-- The element that `UpdateInstanceBuffers` stores for an instance (lines 851-854). -/
def instanceConstantsOf (inst : InstanceData) : InstanceConstants :=
  { World := XMMatrixTranspose inst.World,
    TexTransform := XMMatrixTranspose inst.TexTransform,
    MaterialIndex := inst.MaterialIndex }

/-- The inner loop of `UpdateInstanceBuffers` (lines 840-858) over the instances still to
visit: `buf` is the instance buffer and `countObjView` the running count. -/
def cullInstances (ext : External) (frustum : BoundingFrustum) (forceVisible : Bool)
    (invView : XMFLOAT4X4) (bounds : BoundingBox) (slot : Nat) :
    List InstanceData → UploadBuffer InstanceConstants → Nat → List BufferWrite →
      Option (UploadBuffer InstanceConstants × Nat × List BufferWrite)
  | [], buf, countObjView, log => some (buf, countObjView, log)
  | inst :: rest, buf, countObjView, log =>
    if instanceTest ext frustum invView bounds inst ≠ ContainmentType.DISJOINT
        ∨ forceVisible = true then
      match buf.CopyData countObjView (instanceConstantsOf inst) with
      | none => none
      | some buf1 =>
        cullInstances ext frustum forceVisible invView bounds slot rest buf1 (countObjView + 1)
          (log ++ [BufferWrite.instanceCB slot countObjView (instanceConstantsOf inst)])
    else
      cullInstances ext frustum forceVisible invView bounds slot rest buf countObjView log

/-- The outer loop of `UpdateInstanceBuffers` (lines 836-862) over the render items still to
visit: every item starts at `countObjView = 0` in the one instance buffer, and
`InstanceCount` and `m_SkullCounts` take the count of the item. -/
def cullItems (ext : External) (frustum : BoundingFrustum) (forceVisible : Bool)
    (invView : XMFLOAT4X4) (slot : Nat) :
    List RenderItem → UploadBuffer InstanceConstants → Nat → List BufferWrite →
      Option (List RenderItem × UploadBuffer InstanceConstants × Nat × List BufferWrite)
  | [], buf, skullCounts, log => some ([], buf, skullCounts, log)
  | e :: rest, buf, _, log =>
    match cullInstances ext frustum forceVisible invView e.Bounds slot e.Instances buf 0 log with
    | none => none
    | some (buf1, countObjView, log1) =>
      match cullItems ext frustum forceVisible invView slot rest buf1 countObjView log1 with
      | none => none
      | some (rest1, buf2, skullCounts, log2) =>
        some ({ e with InstanceCount := countObjView } :: rest1, buf2, skullCounts, log2)

/-- The function `D3DApp::UpdateInstanceBuffers` (lines 828-863). -/
def UpdateInstanceBuffers (ext : External) (s : App) : Option App :=
  match s.m_CurrFrameResource with
  | none => none
  | some slot =>
    match s.buffers.get? slot with
    | none => none
    | some fb =>
      let invView := ext.XMMatrixInverse s.m_Camera.View
      match cullItems ext s.m_LocalProjFrustum s.m_isFrustumCulling invView slot
          s.m_AllRItems fb.m_InstCB s.m_SkullCounts s.writes with
      | none => none
      | some (items, buf, skullCounts, log) =>
        some { s with
          m_AllRItems := items,
          m_SkullCounts := skullCounts,
          buffers := s.buffers.set slot { fb with m_InstCB := buf },
          writes := log }

/-- The element that `UpdateMatetialCBs` stores for a material (lines 872-878). -/
def materialConstantsOf (m : Material) : MaterialConstants :=
  { MatTransform := XMMatrixTranspose m.MatTransform,
    DiffuseAlbedo := m.DiffuseAlbedo,
    FresnelR0 := m.FresnelR0,
    Roughness := m.Roughness,
    DiffuseMapIndex := m.DiffuseSrvHeapIndex }

/-- The loop of `UpdateMatetialCBs` (lines 868-885) over the materials still to visit. -/
def updateMaterials (slot : Nat) :
    List Material → UploadBuffer MaterialConstants → List BufferWrite →
      Option (List Material × UploadBuffer MaterialConstants × List BufferWrite)
  | [], buf, log => some ([], buf, log)
  | m :: rest, buf, log =>
    if m.NumFramesDirty > 0 then
      match buf.CopyData m.MatCBIndex (materialConstantsOf m) with
      | none => none
      | some buf1 =>
        match updateMaterials slot rest buf1
            (log ++ [BufferWrite.materialVB slot m.MatCBIndex (materialConstantsOf m)]) with
        | none => none
        | some (rest1, buf2, log2) =>
          some ({ m with NumFramesDirty := m.NumFramesDirty - 1 } :: rest1, buf2, log2)
    else
      match updateMaterials slot rest buf log with
      | none => none
      | some (rest1, buf2, log2) => some (m :: rest1, buf2, log2)

/-- The function `D3DApp::UpdateMatetialCBs` (lines 865-886). -/
def UpdateMatetialCBs (s : App) : Option App :=
  match s.m_CurrFrameResource with
  | none => none
  | some slot =>
    match s.buffers.get? slot with
    | none => none
    | some fb =>
      match updateMaterials slot s.m_Materials fb.m_MatVB s.writes with
      | none => none
      | some (materials, buf, log) =>
        some { s with
          m_Materials := materials,
          buffers := s.buffers.set slot { fb with m_MatVB := buf },
          writes := log }

/-- The pass constants that `UpdatePassCB` computes (lines 930-966). -/
def mainPassConstants (ext : External) (input : FrameInput) (s : App) : PassConstants :=
  let view := s.m_Camera.View
  let proj := s.m_Camera.Proj
  let viewproj := ext.XMMatrixMultiply view proj
  { s.m_MainPassCB with
    RTSize := ((s.screenWidth : ℚ), (s.screenHeight : ℚ)),
    InvRTSize := (1 / (s.screenWidth : ℚ), 1 / (s.screenHeight : ℚ)),
    EyePosW := s.m_Camera.Position,
    View := XMMatrixTranspose view,
    ViewProj := XMMatrixTranspose viewproj,
    Proj := XMMatrixTranspose proj,
    InvViewProj := XMMatrixTranspose (ext.XMMatrixInverse viewproj),
    InvView := XMMatrixTranspose (ext.XMMatrixInverse view),
    InvProj := XMMatrixTranspose (ext.XMMatrixInverse proj),
    NearZ := 1,
    FarZ := 1000,
    DeltaTime := input.DeltaTime,
    TotalTime := input.TotalTime,
    AmbientLight := { x := 25 / 100, y := 25 / 100, z := 35 / 100, w := 1 },
    Lights :=
      ((s.m_MainPassCB.Lights.set 0
          { Direction := { x := 57735 / 100000, y := -57735 / 100000, z := 57735 / 100000 },
            Strength := { x := 6 / 10, y := 6 / 10, z := 6 / 10 } }).set 1
          { Direction := { x := -57735 / 100000, y := -57735 / 100000, z := 57735 / 100000 },
            Strength := { x := 3 / 10, y := 3 / 10, z := 3 / 10 } }).set 2
          { Direction := { x := 0, y := -707 / 1000, z := -707 / 1000 },
            Strength := { x := 15 / 100, y := 15 / 100, z := 15 / 100 } } }

/-- The function `D3DApp::UpdatePassCB` (lines 930-971). -/
def UpdatePassCB (ext : External) (input : FrameInput) (s : App) : Option App :=
  let pc := mainPassConstants ext input s
  match s.m_CurrFrameResource with
  | none => none
  | some slot =>
    match s.buffers.get? slot with
    | none => none
    | some fb =>
      match fb.m_PassCB.CopyData 0 pc with
      | none => none
      | some buf =>
        some { s with
          m_MainPassCB := pc,
          buffers := s.buffers.set slot { fb with m_PassCB := buf },
          writes := s.writes ++ [BufferWrite.passCB slot 0 pc] }

/-- A call that works on the frame pipeline part of the object only. -/
def App.lift (f : D3DApp → Option D3DApp) (s : App) : Option App :=
  match f s.toD3DApp with
  | none => none
  | some d => some { s with toD3DApp := d }

/-- The function `D3DApp::Update` (lines 110-128) on the whole object: the input handling, the
window title, the ring step with its wait (`Update` above), and the three
functions that fill the buffers of the selected slot. -/
def App.Update (ext : External) (input : FrameInput) (s : App) : Option App :=
  match App.lift Mawi1e.Update (UpdateWindowTitle input (OnKeyboardInput ext input s)) with
  | none => none
  | some s1 =>
    match UpdateInstanceBuffers ext s1 with
    | none => none
    | some s2 =>
      match UpdateMatetialCBs s2 with
      | none => none
      | some s3 => UpdatePassCB ext input s3

/-- The loop of `DrawRenderItems` (lines 1230-1241) over the items still to draw: the instance
buffer of the current slot is bound at its start for every item, and
`InstanceCount` instances are drawn. -/
def drawItems (s : App) (slot : Nat) : List Nat → Option (List DrawCall)
  | [] => some []
  | i :: rest =>
    match s.m_AllRItems.get? i with
    | none => none
    | some ri =>
      match drawItems s slot rest with
      | none => none
      | some calls =>
        some ({ instanceBufferSlot := slot, instanceBufferStart := 0,
                IndexCount := ri.IndexCount, InstanceCount := ri.InstanceCount,
                StartIndexLocation := ri.StartIndexLocation,
                BaseVertexLocation := ri.BaseVertexLocation,
                StartInstanceLocation := 0 } :: calls)

/-- The function `D3DApp::DrawRenderItems` (lines 1227-1242). -/
def DrawRenderItems (s : App) (rItem : List Nat) : Option (List DrawCall) :=
  match s.m_CurrFrameResource with
  | none => none
  | some slot =>
    match s.buffers.get? slot with
    | none => none
    | some _ => drawItems s slot rItem

/-- The function `D3DApp::Draw` (lines 130-191) on the whole object: the draws of the layer are
recorded, then the frame is submitted and stamped (`Draw` above). -/
def App.Draw (s : App) : Option App :=
  match DrawRenderItems s s.mRitemLayer with
  | none => none
  | some calls => App.lift Mawi1e.Draw { s with drawCalls := s.drawCalls ++ calls }

/-- The function `D3DApp::AspectRatio` (lines 80-82). -/
def AspectRatio (s : App) : ℚ :=
  (s.screenWidth : ℚ) / (s.screenHeight : ℚ)

/-- The function `D3DApp::ResizeBuffer` (lines 193-271) on the whole object: the flushes
(`ResizeBuffer` above), then the lens of the camera and the frustum of the new projection. -/
def App.ResizeBuffer (ext : External) (s : App) : Option App :=
  match App.lift Mawi1e.ResizeBuffer s with
  | none => none
  | some s1 =>
    let camera := ext.SetLens (AspectRatio s1) 1 1000 s1.m_Camera
    some { s1 with m_Camera := camera, m_LocalProjFrustum := ext.CreateFromMatrix camera.Proj }

/-- The constant `FLT_MAX`. -/
def FLT_MAX : ℚ := 340282346638528859811704183484516925440

/-- The function `XMVectorMin` on three components. -/
def XMVectorMin (a b : XMFLOAT3) : XMFLOAT3 :=
  { x := min a.x b.x, y := min a.y b.y, z := min a.z b.z }

/-- The function `XMVectorMax` on three components. -/
def XMVectorMax (a b : XMFLOAT3) : XMFLOAT3 :=
  { x := max a.x b.x, y := max a.y b.y, z := max a.z b.z }

/-- The bounding box that `BuildInstancesTheSkull` computes while it reads the vertices
(lines 703-739). -/
def skullBounds (positions : List XMFLOAT3) : BoundingBox :=
  let vMin := positions.foldl XMVectorMin { x := FLT_MAX, y := FLT_MAX, z := FLT_MAX }
  let vMax := positions.foldl XMVectorMax { x := -FLT_MAX, y := -FLT_MAX, z := -FLT_MAX }
  { Center := { x := 1 / 2 * (vMin.x + vMax.x), y := 1 / 2 * (vMin.y + vMax.y),
                z := 1 / 2 * (vMin.z + vMax.z) },
    Extents := { x := 1 / 2 * (vMax.x - vMin.x), y := 1 / 2 * (vMax.y - vMin.y),
                 z := 1 / 2 * (vMax.z - vMin.z) } }

/-- The function `D3DApp::BuildInstancesTheSkull` (lines 686-785): without the file nothing is
built; with it, the submesh `lskull` gets its index count and its bounds. -/
def BuildInstancesTheSkull (file : Option SkullFile) (s : App) : App :=
  match file with
  | none => s
  | some f =>
    let submesh : SubMeshGeometry :=
      { IndexCount := 3 * f.tcount, StartIndexLocation := 0, BaseVertexLocation := 0,
        Bounds := skullBounds f.positions }
    { s with lskull := some submesh }

/-- The assignment `m_Materials[name] = material`: the entry of that name is replaced, or a new
entry is made. -/
def insertMaterial (m : Material) : List Material → List Material
  | [] => [m]
  | x :: rest => if x.Name = m.Name then m :: rest else x :: insertMaterial m rest

/-- A material as `BuildMaterials` fills it in; `NumFramesDirty` and `MatTransform` keep their
initial values, the ring depth and the identity. -/
def mkMaterial (name : String) (matCBIndex diffuseSrvHeapIndex : Nat) (albedo : XMFLOAT4)
    (fresnel : XMFLOAT3) (roughness : ℚ) : Material :=
  { Name := name, MatCBIndex := matCBIndex, DiffuseSrvHeapIndex := diffuseSrvHeapIndex,
    NumFramesDirty := gNumFrameResources, DiffuseAlbedo := albedo, FresnelR0 := fresnel,
    Roughness := roughness, MatTransform := 1 }

/-- The eight materials of `BuildMaterials` (lines 1150-1214), in the order of their insertion
into `m_Materials`. -/
def builtMaterials : List Material :=
  [ mkMaterial "grass" 0 0 { x := 1, y := 1, z := 1, w := 1 }
      { x := 1 / 100, y := 1 / 100, z := 1 / 100 } (125 / 1000),
    mkMaterial "water" 1 1 { x := 1, y := 1, z := 1, w := 1 / 2 }
      { x := 2 / 10, y := 2 / 10, z := 2 / 10 } 0,
    mkMaterial "wirefence" 2 2 { x := 1, y := 1, z := 1, w := 1 }
      { x := 1 / 10, y := 1 / 10, z := 1 / 10 } (25 / 100),
    mkMaterial "white1x1" 3 3 { x := 1, y := 1, z := 1, w := 1 }
      { x := 5 / 100, y := 5 / 100, z := 5 / 100 } (3 / 10),
    mkMaterial "ice" 5 4 { x := 1, y := 1, z := 1, w := 3 / 10 }
      { x := 1 / 10, y := 1 / 10, z := 1 / 10 } (1 / 2),
    mkMaterial "shadowMat" 4 3 { x := 0, y := 0, z := 0, w := 1 / 2 }
      { x := 1 / 1000, y := 1 / 1000, z := 1 / 1000 } 0,
    mkMaterial "checkertile" 6 5 { x := 1, y := 1, z := 1, w := 1 }
      { x := 7 / 100, y := 7 / 100, z := 7 / 100 } (3 / 10),
    mkMaterial "bricks" 7 6 { x := 1, y := 1, z := 1, w := 1 }
      { x := 5 / 100, y := 5 / 100, z := 5 / 100 } (25 / 100) ]

/-- The function `D3DApp::BuildMaterials` (lines 1150-1225). The order in which the map is
traversed later is not fixed by the code; the list keeps the order of insertion,
and nothing below depends on the order. -/
def BuildMaterials (s : App) : App :=
  { s with m_Materials := builtMaterials.foldl (fun l m => insertMaterial m l) s.m_Materials }

/-- The instance that `BuildRenderItems` stores for the grid position `(k, i, j)` (lines
1064-1073): a translation, the texture scaling `XMMatrixScaling(2, 2, 1)`, and the
material `index % m_Materials.size()`. -/
def skullInstance (materialCount k i j : Nat) : InstanceData :=
  let n : ℚ := 7
  let width : ℚ := 200
  let height : ℚ := 200
  let depth : ℚ := 200
  let x := -(1 / 2) * width
  let y := -(1 / 2) * height
  let z := -(1 / 2) * depth
  let dx := width / (n - 1)
  let dy := height / (n - 1)
  let dz := depth / (n - 1)
  { World := Matrix.of ![![1, 0, 0, 0], ![0, 1, 0, 0], ![0, 0, 1, 0],
                         ![x + j * dx, y + i * dy, z + k * dz, 1]],
    TexTransform := Matrix.of ![![2, 0, 0, 0], ![0, 2, 0, 0], ![0, 0, 1, 0], ![0, 0, 0, 1]],
    MaterialIndex := (k * 7 * 7 + i * 7 + j) % materialCount }

/-- The three nested loops of `BuildRenderItems` (lines 1058-1076) over the resized list. -/
def fillSkullInstances (materialCount : Nat) (instances : List InstanceData) :
    List InstanceData :=
  (List.range 7).foldl (fun acck k =>
    (List.range 7).foldl (fun acci i =>
      (List.range 7).foldl (fun accj j =>
        accj.set (k * 7 * 7 + i * 7 + j) (skullInstance materialCount k i j)) acci) acck)
    instances

/-- The function `D3DApp::BuildRenderItems` (lines 1031-1080): one render item with `7 * 7 * 7`
instances. Without the skull geometry (a null `Geo`) the behaviour is undefined;
without a material `"white1x1"` the lookup puts a null material into the map,
which the material loop of the next `Update` dereferences. -/
def BuildRenderItems (s : App) : Option App :=
  match s.lskull with
  | none => none
  | some submesh =>
    if s.m_Materials.any (fun m => m.Name == "white1x1") then
      let instanceCount := 7 * 7 * 7
      let resized : List InstanceData :=
        List.replicate instanceCount { World := 1, TexTransform := 1, MaterialIndex := 0 }
      let lSkullRitems : RenderItem :=
        { Instances := fillSkullInstances s.m_Materials.length resized,
          Bounds := submesh.Bounds,
          InstanceCount := 0,
          IndexCount := submesh.IndexCount,
          StartIndexLocation := submesh.StartIndexLocation,
          BaseVertexLocation := submesh.BaseVertexLocation }
      some { s with
        m_InstanceCount := instanceCount,
        mRitemLayer := s.mRitemLayer ++ [s.m_AllRItems.length],
        m_AllRItems := s.m_AllRItems ++ [lSkullRitems] }
    else none

/-- The function `D3DApp::BuildFrameResources` (lines 821-826) on the whole object: every ring
position gets a frame resource set with 1 pass element, `m_InstanceCount` instance
elements and one material element per material. -/
def App.BuildFrameResources (s : App) : App :=
  { s with
    toD3DApp := Mawi1e.BuildFrameResources s.toD3DApp,
    buffers := s.buffers ++ List.replicate gNumFrameResources.toNat
      (FrameBuffers.create 1 s.m_InstanceCount s.m_Materials.length) }

/-- The members of the whole object right after its constructor. The initial values of
`m_isFrustumCulling` and of the camera are declared in the missing headers and
are parameters; `m_InstanceCount` and the other members without initialiser
start at zero. -/
def App.constructed (isFrustumCulling : Bool) (camera : Camera) : App :=
  { toD3DApp := D3DApp.constructed,
    buffers := [], writes := [], m_AllRItems := [], mRitemLayer := [], m_Materials := [],
    m_isFrustumCulling := isFrustumCulling, m_IsWireFrames := true, m_SkullCounts := 0,
    m_InstanceCount := 0, m_Camera := camera,
    m_LocalProjFrustum :=
      { Origin := { x := 0, y := 0, z := 0 }, Orientation := { x := 0, y := 0, z := 0, w := 1 },
        RightSlope := 1, LeftSlope := -1, TopSlope := 1, BottomSlope := -1, Near := 0, Far := 1 },
    m_MainPassCB :=
      { View := 1, InvView := 1, Proj := 1, InvProj := 1, ViewProj := 1, InvViewProj := 1,
        EyePosW := { x := 0, y := 0, z := 0 }, RTSize := (0, 0), InvRTSize := (0, 0),
        NearZ := 0, FarZ := 0, TotalTime := 0, DeltaTime := 0,
        AmbientLight := { x := 0, y := 0, z := 0, w := 1 },
        Lights := List.replicate 16
          { Direction := { x := 0, y := -1, z := 0 },
            Strength := { x := 1 / 2, y := 1 / 2, z := 1 / 2 } } },
    screenWidth := 0, screenHeight := 0, lskull := none, drawCalls := [],
    windowTitle := none, elapsedTime := 0, fps := 0 }

/-- The function `D3DApp::Initialize` (lines 20-72) on the whole object: the settings, the
fence, `ResizeBuffer`, the camera position, then `BuildInstancesTheSkull`, `BuildMaterials`,
`BuildRenderItems` and `BuildFrameResources` in this order, the set-up command
list and the final flush. -/
def App.Initialize (ext : External) (screenWidth screenHeight : Int) (file : Option SkullFile)
    (s : App) : Option App :=
  let s0 : App := { s with
    screenWidth := screenWidth, screenHeight := screenHeight,
    toD3DApp := { s.toD3DApp with m_Fence := 0 } }
  match App.ResizeBuffer ext s0 with
  | none => none
  | some s1 =>
    let s2 : App := { s1 with
      m_Camera := { s1.m_Camera with Position := { x := 0, y := 2, z := -15 } } }
    let s3 := BuildInstancesTheSkull file s2
    let s4 := BuildMaterials s3
    match BuildRenderItems s4 with
    | none => none
    | some s5 =>
      let s6 := App.BuildFrameResources s5
      App.lift (fun d => FlushCommandQueue { d with
        m_CommandQueue := d.m_CommandQueue ++ [QueueItem.execute none],
        trace := d.trace ++
          [Event.commandListReset, Event.commandListClose, Event.executeCommandLists none] }) s6

/-- A step of a run of the whole object: `Update` with what the environment supplies to it,
`Draw`, or the GPU retiring one queue item. -/
inductive FrameAction where
  | Update (input : FrameInput)
  | Draw
  | gpuRetire

/-- Whether a step is an `Update`. -/
def FrameAction.isUpdate : FrameAction → Bool
  | .Update _ => true
  | _ => false

/-- One step of the whole object. -/
def App.step (ext : External) : FrameAction → App → Option App
  | .Update input, s => App.Update ext input s
  | .Draw, s => App.Draw s
  | .gpuRetire, s => App.lift (fun d => some (gpuRetire d)) s

/-- A run of the whole object: the steps in order, `none` as soon as one does not return. -/
def App.run (ext : External) : List FrameAction → App → Option App
  | [], s => some s
  | a :: rest, s =>
    match App.step ext a s with
    | none => none
    | some s1 => App.run ext rest s1

/-- The visibility of an instance in the words of the specification: the force-visible flag is
set, or the test of the box against the transformed frustum is not `DISJOINT`. -/
def isVisible (ext : External) (frustum : BoundingFrustum) (forceVisible : Bool)
    (invView : XMFLOAT4X4) (bounds : BoundingBox) (inst : InstanceData) : Bool :=
  forceVisible || decide (instanceTest ext frustum invView bounds inst ≠ ContainmentType.DISJOINT)

/-- The visible instances of a list in the words of the specification: the sub-sequence of
the list that passes the visibility test. -/
def visibleInstances (ext : External) (frustum : BoundingFrustum) (forceVisible : Bool)
    (invView : XMFLOAT4X4) (bounds : BoundingBox) (instances : List InstanceData) :
    List InstanceData :=
  instances.filter (isVisible ext frustum forceVisible invView bounds)

/-- The visible instances of a render item in a state of the object. -/
def App.visibleOf (ext : External) (s : App) (e : RenderItem) : List InstanceData :=
  visibleInstances ext s.m_LocalProjFrustum s.m_isFrustumCulling
    (ext.XMMatrixInverse s.m_Camera.View) e.Bounds e.Instances

/-- The writes that store a list of instances at consecutive elements from `index` on. -/
def instanceWrites (slot : Nat) : Nat → List InstanceData → List BufferWrite
  | _, [] => []
  | index, inst :: rest =>
    BufferWrite.instanceCB slot index (instanceConstantsOf inst) ::
      instanceWrites slot (index + 1) rest

/-- An instance buffer after a list of instances was stored at its start. -/
def compacted (visible : List InstanceData) (buf : UploadBuffer InstanceConstants) :
    UploadBuffer InstanceConstants :=
  visible.map (fun inst => some (instanceConstantsOf inst)) ++ buf.drop visible.length

/-- A material after one pass of the material loop: a dirty material has one frame less to go. -/
def Material.afterUpdate (m : Material) : Material :=
  if m.NumFramesDirty > 0 then { m with NumFramesDirty := m.NumFramesDirty - 1 } else m

/-- The writes of one pass of the material loop: one for every dirty material, in order. -/
def materialWrites (slot : Nat) : List Material → List BufferWrite
  | [] => []
  | m :: rest =>
    if m.NumFramesDirty > 0 then
      BufferWrite.materialVB slot m.MatCBIndex (materialConstantsOf m) :: materialWrites slot rest
    else materialWrites slot rest

/-- A material buffer after one pass of the material loop. -/
def materialsStored : List Material → UploadBuffer MaterialConstants →
    UploadBuffer MaterialConstants
  | [], buf => buf
  | m :: rest, buf =>
    if m.NumFramesDirty > 0 then
      materialsStored rest (buf.set m.MatCBIndex (some (materialConstantsOf m)))
    else materialsStored rest buf

/-- The buffers of a slot have room for the scene: one pass element, an instance element for
every instance of every render item, and the element of every material. -/
def FrameBuffers.Fits (fb : FrameBuffers) (items : List RenderItem)
    (materials : List Material) : Prop :=
  0 < fb.m_PassCB.length ∧
  (∀ e ∈ items, e.Instances.length ≤ fb.m_InstCB.length) ∧
  (∀ m ∈ materials, m.MatCBIndex < fb.m_MatVB.length)

/-- A state in the start-up phase of the frame loop: three ring slots with buffers that have
room for the scene, the ring index in range, every drawn item in `m_AllRItems`,
and no stamp on any slot outside `selected`. -/
structure App.Prepared (selected : List Nat) (s : App) : Prop where
  ring : s.m_FrameResources.length = 3
  index : 0 ≤ s.m_CurrFrameResourceIndex ∧ s.m_CurrFrameResourceIndex < 3
  slots : s.buffers.length = 3
  fits : ∀ fb ∈ s.buffers, fb.Fits s.m_AllRItems s.m_Materials
  layer : ∀ i ∈ s.mRitemLayer, i < s.m_AllRItems.length
  outside : ∀ j fr, s.m_FrameResources.get? j = some fr → j ∉ selected → fr.m_Fence = 0

/-- A state in which the frame loop can start, as `Initialize` leaves it: prepared, with no
slot stamped. -/
def App.Ready (s : App) : Prop :=
  App.Prepared [] s

/-- The frustum of the concrete scenes: the eye at the origin looks along `+z`, from the near
plane `z = 1` to the far plane `z = 1000`. -/
def viewFrustum : BoundingFrustum :=
  { Origin := { x := 0, y := 0, z := 0 }, Orientation := { x := 0, y := 0, z := 0, w := 1 },
    RightSlope := 1, LeftSlope := -1, TopSlope := 1, BottomSlope := -1, Near := 1, Far := 1000 }

/-- The answers of the library in the concrete scenes, where every world matrix is the
identity, the camera does not move and every box is a point of the view axis:
the identity is its own inverse, the transformed frustum is the frustum, and
a point of the axis is contained between the near and the far plane and
disjoint elsewhere. -/
def axisLibrary : External :=
  { XMMatrixInverse := fun M => M,
    XMMatrixMultiply := fun A B => A * B,
    Transform := fun f _ => f,
    Contains := fun f b =>
      if b.Center.z < f.Near then ContainmentType.DISJOINT
      else if f.Far < b.Center.z then ContainmentType.DISJOINT
      else ContainmentType.CONTAINS,
    CreateFromMatrix := fun _ => viewFrustum,
    Walk := fun _ c => c,
    Strafe := fun _ c => c,
    UpdateViewMatrix := fun c => c,
    SetLens := fun _ _ _ c => c }

/-- A point box at `(0, 0, z)`. -/
def pointBox (z : ℚ) : BoundingBox :=
  { Center := { x := 0, y := 0, z := z }, Extents := { x := 0, y := 0, z := 0 } }

/-- An instance at the origin with a material index. -/
def plainInstance (materialIndex : Nat) : InstanceData :=
  { World := 1, TexTransform := 1, MaterialIndex := materialIndex }

/-- A render item with point bounds at `(0, 0, z)` and the instances of the given material
indices. -/
def plainItem (z : ℚ) (materialIndices : List Nat) : RenderItem :=
  { Instances := materialIndices.map plainInstance, Bounds := pointBox z,
    InstanceCount := 0, IndexCount := 3, StartIndexLocation := 0, BaseVertexLocation := 0 }

/-- A camera at the origin with identity matrices. -/
def plainCamera : Camera :=
  { View := 1, Proj := 1, Position := { x := 0, y := 0, z := 0 } }

/-- A scene for the concrete runs: the constructed object with three unstamped ring slots whose
buffers hold 1 pass element, 4 instance elements and 2 material elements, slot 0
current, the given render items, flag and view matrix, and two materials. -/
def sceneApp (items : List RenderItem) (isFrustumCulling : Bool) (view : XMFLOAT4X4) : App :=
  { App.constructed isFrustumCulling { plainCamera with View := view } with
    toD3DApp := { freshApp 0 with m_CurrFrameResource := some 0 },
    buffers := List.replicate 3 (FrameBuffers.create 1 4 2),
    m_AllRItems := items,
    mRitemLayer := List.range items.length,
    m_Materials :=
      [ mkMaterial "grass" 0 0 { x := 1, y := 1, z := 1, w := 1 }
          { x := 1 / 100, y := 1 / 100, z := 1 / 100 } (125 / 1000),
        mkMaterial "water" 1 1 { x := 1, y := 1, z := 1, w := 1 / 2 }
          { x := 2 / 10, y := 2 / 10, z := 2 / 10 } 0 ],
    m_LocalProjFrustum := viewFrustum }

/-- The input of a frame in which no key is down. -/
def idleInput : FrameInput :=
  { keyW := false, keyS := false, keyA := false, keyD := false, key1 := false, keyF := false,
    DeltaTime := 0, TotalTime := 0 }

/-- The matrix `toLocal` of `UpdateInstanceBuffers` (lines 843-846): the product
`XMMatrixMultiply(invView, invWorld)`, where `invWorld` is `XMMatrixInverse` of the world
matrix of the instance. -/
def toLocal (ext : External) (invView world : XMFLOAT4X4) : XMFLOAT4X4 :=
  ext.XMMatrixMultiply invView (ext.XMMatrixInverse world)

/-- The matrix functions of DirectXMath in exact arithmetic, with the other answers of
`axisLibrary`: `XMMatrixMultiply` is the product of matrices, and `XMMatrixInverse` divides
the matrix of cofactors by the determinant. -/
def exactLibrary : External :=
  { axisLibrary with
    XMMatrixInverse := fun M => (M.det)⁻¹ • M.adjugate,
    XMMatrixMultiply := fun A B => A * B }

/-- The place of a write in its buffer. -/
def BufferWrite.index : BufferWrite → Nat
  | .instanceCB _ index _ => index
  | .materialVB _ index _ => index
  | .passCB _ index _ => index

/-- The number of `Update` calls in a run of the frame pipeline. -/
def updateCount (acts : List Action) : Nat :=
  acts.count Action.Update

/-- Whether the command allocator of ring slot `i` is still in use: command lists recorded
with it are in the queue, not yet retired by the GPU. The method
`ID3D12CommandAllocator::Reset` fails in that case. -/
def D3DApp.allocatorInUse (s : D3DApp) (i : Nat) : Bool :=
  s.m_CommandQueue.contains (QueueItem.execute (some i))

/-- The field `NumDescriptors` of the heap that `BuildDescriptorHeaps` creates (line 1085). -/
def srvHeapNumDescriptors : Nat := 7

/-- The textures for which `BuildDescriptorHeaps` creates a view (lines 1093-1147), in the
order of their descriptors. -/
def srvHeapTextures : List String :=
  ["grassTex", "waterTex", "fenceTex", "white1x1", "ice", "checkboardTex", "bricksTex"]

/-- The function `D3DApp::GetBoundingBoxFromVertex` (lines 1365-1379) on the positions of the
vertices: both vectors are loaded from `fvecMin`, and the loop calls `XMVectorMin` and
`XMVectorMax` without storing what they return. -/
def GetBoundingBoxFromVertex (vertices : List XMFLOAT3) : BoundingBox :=
  let fvecMin : XMFLOAT3 := { x := FLT_MAX, y := FLT_MAX, z := FLT_MAX }
  let vecMin := fvecMin
  let vecMax := fvecMin
  let vecs := vertices.foldl
    (fun (acc : XMFLOAT3 × XMFLOAT3) pos =>
      let _min := XMVectorMin pos acc.1
      let _max := XMVectorMax pos acc.2
      acc)
    (vecMin, vecMax)
  { Center := { x := 1 / 2 * (vecs.2.x + vecs.1.x), y := 1 / 2 * (vecs.2.y + vecs.1.y),
                z := 1 / 2 * (vecs.2.z + vecs.1.z) },
    Extents := { x := 1 / 2 * (vecs.2.x - vecs.1.x), y := 1 / 2 * (vecs.2.y - vecs.1.y),
                 z := 1 / 2 * (vecs.2.z - vecs.1.z) } }

/-- Whether a point lies in a box: on every axis its distance from the centre is at most the
extent. -/
def BoundingBox.Holds (b : BoundingBox) (p : XMFLOAT3) : Prop :=
  |p.x - b.Center.x| ≤ b.Extents.x ∧ |p.y - b.Center.y| ≤ b.Extents.y ∧
    |p.z - b.Center.z| ≤ b.Extents.z

/-- The values of `wParam` of a `WM_SIZE` message (`winuser.h`). -/
def SIZE_RESTORED : Nat := 0

/-- The value `SIZE_MINIMIZED` (`winuser.h`). -/
def SIZE_MINIMIZED : Nat := 1

/-- The value `SIZE_MAXIMIZED` (`winuser.h`). -/
def SIZE_MAXIMIZED : Nat := 2

/-- The value `WA_INACTIVE` (`winuser.h`). -/
def WA_INACTIVE : Nat := 0

/-- The macro `LOWORD`. -/
def LOWORD (l : Nat) : Nat := l % 65536

/-- The macro `HIWORD`. -/
def HIWORD (l : Nat) : Nat := l / 65536 % 65536

/-- The window messages that change the state of the object in `MessageHandler`; the messages
of the mouse, of the keys and of closing are `other`. -/
inductive Message where
  | WM_ACTIVATE (wp : Nat)
  | WM_SIZE (wp lp : Nat)
  | WM_ENTERSIZEMOVE
  | WM_EXITSIZEMOVE
  | other

/-- The object together with what `MessageHandler` reads and writes: the three size flags (with
their initialiser `false`), the pause flag and the timer that `m_d3dSettings` points to,
whether the static pointer `m_D3DApp` is set, and the number of calls of
`ResizeBuffer` made by the handler so far. -/
structure Window extends App where
  m_SizeMinimized : Bool
  m_SizeMaximized : Bool
  m_Resizing : Bool
  appPaused : Bool
  timerStopped : Bool
  m_D3DApp : Bool
  resizeCalls : Nat

/-- The call `ResizeBuffer()` made by the handler. -/
def Window.ResizeBuffer (ext : External) (w : Window) : Option Window :=
  match App.ResizeBuffer ext w.toApp with
  | none => none
  | some a => some { w with toApp := a, resizeCalls := w.resizeCalls + 1 }

/-- The function `D3DApp::MessageHandler` (lines 1261-1359), as far as it changes the object. -/
def MessageHandler (ext : External) (msg : Message) (w : Window) : Option Window :=
  if w.m_D3DApp = false then some w
  else
    match msg with
    | .WM_ACTIVATE wp =>
      if LOWORD wp = WA_INACTIVE then some { w with appPaused := true, timerStopped := true }
      else some { w with appPaused := false, timerStopped := false }
    | .WM_SIZE wp lp =>
      let w1 : Window := { w with screenWidth := LOWORD lp, screenHeight := HIWORD lp }
      if wp = SIZE_MINIMIZED then
        some { w1 with m_SizeMinimized := true, appPaused := true, m_SizeMaximized := false }
      else if wp = SIZE_MAXIMIZED then
        Window.ResizeBuffer ext
          { w1 with m_SizeMinimized := false, appPaused := false, m_SizeMaximized := true }
      else if wp = SIZE_RESTORED then
        let afterMinimized :=
          if w1.m_SizeMinimized = true then
            Window.ResizeBuffer ext { w1 with appPaused := false, m_SizeMinimized := false }
          else some w1
        match afterMinimized with
        | none => none
        | some w2 =>
          if w2.m_SizeMaximized = true then
            Window.ResizeBuffer ext { w2 with appPaused := false, m_SizeMaximized := false }
          else some w2
      else if w1.m_Resizing = true then some w1
      else Window.ResizeBuffer ext w1
    | .WM_ENTERSIZEMOVE =>
      some { w with m_Resizing := true, appPaused := true, timerStopped := true }
    | .WM_EXITSIZEMOVE =>
      Window.ResizeBuffer ext
        { w with m_Resizing := false, appPaused := false, timerStopped := false }
    | .other => some w

/-- A window of the concrete scenes: the scene of `sceneApp` in a window of 800 by 600 that is
neither minimised nor maximised and is not being dragged. -/
def sceneWindow : Window :=
  { toApp := { sceneApp [plainItem 5 [0, 1]] false 1 with screenWidth := 800, screenHeight := 600 },
    m_SizeMinimized := false, m_SizeMaximized := false, m_Resizing := false,
    appPaused := false, timerStopped := false, m_D3DApp := true, resizeCalls := 0 }

/-! ## The fence and the queue -/

theorem gpuRunUntil_of_le {target fence : Nat} (q : List QueueItem) (h : target ≤ fence) :
    gpuRunUntil target q fence = some (fence, q) := by
  cases q <;> simp [gpuRunUntil, h]

theorem gpuRunUntil_reached {target : Nat} :
    ∀ (q : List QueueItem) (fence f : Nat) (r : List QueueItem),
      gpuRunUntil target q fence = some (f, r) → target ≤ f
  | [], fence, f, r, h => by
    simp only [gpuRunUntil] at h
    split at h
    · simp only [Option.some.injEq, Prod.mk.injEq] at h
      omega
    · simp at h
  | item :: rest, fence, f, r, h => by
    simp only [gpuRunUntil] at h
    split at h
    · simp only [Option.some.injEq, Prod.mk.injEq] at h
      omega
    · exact gpuRunUntil_reached rest _ f r h

theorem gpuRunUntil_suffix {target : Nat} :
    ∀ (q : List QueueItem) (fence f : Nat) (r : List QueueItem),
      gpuRunUntil target q fence = some (f, r) → ∃ p, q = p ++ r
  | [], fence, f, r, h => by
    simp only [gpuRunUntil] at h
    split at h
    · simp only [Option.some.injEq, Prod.mk.injEq] at h
      exact ⟨[], by simp [h.2]⟩
    · simp at h
  | item :: rest, fence, f, r, h => by
    simp only [gpuRunUntil] at h
    split at h
    · simp only [Option.some.injEq, Prod.mk.injEq] at h
      exact ⟨[], by simp [h.2]⟩
    · obtain ⟨p, hp⟩ := gpuRunUntil_suffix rest _ f r h
      exact ⟨item :: p, by simp [hp]⟩

theorem gpuRunUntil_append_signal (target : Nat) :
    ∀ (q : List QueueItem) (fence : Nat),
      ∃ f r, gpuRunUntil target (q ++ [QueueItem.signal target]) fence = some (f, r)
  | [], fence => by
    by_cases h : target ≤ fence
    · exact ⟨fence, _, gpuRunUntil_of_le _ h⟩
    · exact ⟨target, [], by simp [gpuRunUntil, h, QueueItem.retire]⟩
  | item :: rest, fence => by
    by_cases h : target ≤ fence
    · exact ⟨fence, _, gpuRunUntil_of_le _ h⟩
    · obtain ⟨f, r, hr⟩ := gpuRunUntil_append_signal target rest (item.retire fence)
      exact ⟨f, r, by simp [gpuRunUntil, h, hr]⟩

/-! ## Single calls -/

/-- What `Update` does when it returns: the checks that passed, and the state it leaves. -/
theorem Update_eq_some {s s' : D3DApp} (h : Update s = some s') :
    ∃ fr, s.m_CurrFrameResourceIndex + 1 ≤ INT_MAX ∧ 0 ≤ s.nextIndex ∧
      s.m_FrameResources.get? s.nextIndex.toNat = some fr ∧
      ((fr.m_Fence ≠ 0 ∧ s.m_Fence < fr.m_Fence ∧
          ∃ f r, gpuRunUntil fr.m_Fence s.m_CommandQueue s.m_Fence = some (f, r) ∧
            s' = { s with m_CurrFrameResourceIndex := s.nextIndex,
                          m_CurrFrameResource := some s.nextIndex.toNat,
                          m_Fence := f, m_CommandQueue := r,
                          trace := s.trace ++ [Event.waitForFence fr.m_Fence] ++
                            [Event.updateInstanceBuffers s.nextIndex.toNat,
                             Event.updateMatetialCBs s.nextIndex.toNat,
                             Event.updatePassCB s.nextIndex.toNat] }) ∨
       (¬ (fr.m_Fence ≠ 0 ∧ s.m_Fence < fr.m_Fence) ∧
            s' = { s with m_CurrFrameResourceIndex := s.nextIndex,
                          m_CurrFrameResource := some s.nextIndex.toNat,
                          trace := s.trace ++
                            [Event.updateInstanceBuffers s.nextIndex.toNat,
                             Event.updateMatetialCBs s.nextIndex.toNat,
                             Event.updatePassCB s.nextIndex.toNat] })) := by
  unfold Update at h
  split at h
  · simp at h
  rename_i h1
  simp only at h
  split at h
  · simp at h
  rename_i h2
  split at h
  · simp at h
  rename_i fr hfr
  refine ⟨fr, by omega, by omega, hfr, ?_⟩
  by_cases hc : fr.m_Fence ≠ 0 ∧ s.m_Fence < fr.m_Fence
  · left
    refine ⟨hc.1, hc.2, ?_⟩
    simp only [hc, ne_eq, not_false_eq_true, and_self, ↓reduceIte, waitForFence] at h
    split at h
    · simp at h
    rename_i s2 hs2
    split at hs2
    · simp at hs2
    rename_i f r hg
    refine ⟨f, r, hg, ?_⟩
    simp only [Option.some.injEq] at hs2 h
    rw [← h, ← hs2]
  · right
    refine ⟨hc, ?_⟩
    simp only [hc, ↓reduceIte] at h
    simp only [Option.some.injEq] at h
    rw [← h]

/-- The call `Update` when the selected slot needs no wait. -/
theorem Update_of_no_wait {s : D3DApp} {fr : FrameResource}
    (hmax : s.m_CurrFrameResourceIndex + 1 ≤ INT_MAX) (hneg : 0 ≤ s.nextIndex)
    (hfr : s.m_FrameResources.get? s.nextIndex.toNat = some fr)
    (hc : ¬ (fr.m_Fence ≠ 0 ∧ s.m_Fence < fr.m_Fence)) :
    Update s = some { s with
      m_CurrFrameResourceIndex := s.nextIndex,
      m_CurrFrameResource := some s.nextIndex.toNat,
      trace := s.trace ++
        [Event.updateInstanceBuffers s.nextIndex.toNat,
         Event.updateMatetialCBs s.nextIndex.toNat,
         Event.updatePassCB s.nextIndex.toNat] } := by
  have hmax' : ¬ INT_MAX < s.m_CurrFrameResourceIndex + 1 := by omega
  have hneg' : ¬ s.nextIndex < 0 := by omega
  simp only [Update, hmax', ↓reduceIte, hneg', hfr, hc]

/-- The call `Update` when the selected slot is waited for and the fence gets there. -/
theorem Update_of_wait {s : D3DApp} {fr : FrameResource} {f : Nat} {r : List QueueItem}
    (hmax : s.m_CurrFrameResourceIndex + 1 ≤ INT_MAX) (hneg : 0 ≤ s.nextIndex)
    (hfr : s.m_FrameResources.get? s.nextIndex.toNat = some fr)
    (hc : fr.m_Fence ≠ 0 ∧ s.m_Fence < fr.m_Fence)
    (hg : gpuRunUntil fr.m_Fence s.m_CommandQueue s.m_Fence = some (f, r)) :
    Update s = some { s with
      m_CurrFrameResourceIndex := s.nextIndex,
      m_CurrFrameResource := some s.nextIndex.toNat,
      m_Fence := f, m_CommandQueue := r,
      trace := s.trace ++ [Event.waitForFence fr.m_Fence] ++
        [Event.updateInstanceBuffers s.nextIndex.toNat,
         Event.updateMatetialCBs s.nextIndex.toNat,
         Event.updatePassCB s.nextIndex.toNat] } := by
  have hmax' : ¬ INT_MAX < s.m_CurrFrameResourceIndex + 1 := by omega
  have hneg' : ¬ s.nextIndex < 0 := by omega
  simp only [Update, hmax', ↓reduceIte, hneg', hfr, hc, ne_eq, not_false_eq_true, and_self,
    waitForFence, hg]

/-- What `Draw` does: it returns exactly when the current pointer is a slot of the ring. -/
theorem Draw_eq_some {s : D3DApp} {i : Nat} (hcur : s.m_CurrFrameResource = some i)
    (hi : i < s.m_FrameResources.length) :
    ∃ fr, s.m_FrameResources.get? i = some fr ∧
      Draw s = some { s with
        m_FenceCount := (s.m_FenceCount + 1) % UINT64_RANGE,
        m_FrameResources :=
          s.m_FrameResources.set i { fr with m_Fence := (s.m_FenceCount + 1) % UINT64_RANGE },
        m_CommandQueue := s.m_CommandQueue ++
          [QueueItem.execute (some i), QueueItem.signal ((s.m_FenceCount + 1) % UINT64_RANGE)],
        trace := s.trace ++
          [Event.allocatorReset i, Event.commandListReset, Event.recordDrawRenderItems i,
           Event.commandListClose, Event.executeCommandLists (some i), Event.present,
           Event.stamp i ((s.m_FenceCount + 1) % UINT64_RANGE),
           Event.signal ((s.m_FenceCount + 1) % UINT64_RANGE)] } := by
  obtain ⟨fr, hfr⟩ : ∃ fr, s.m_FrameResources.get? i = some fr :=
    ⟨s.m_FrameResources.get ⟨i, hi⟩, List.get?_eq_get hi⟩
  exact ⟨fr, hfr, by simp only [Draw, hcur, hfr]⟩

theorem Draw_some_inv {s s' : D3DApp} (h : Draw s = some s') :
    ∃ i, s.m_CurrFrameResource = some i ∧ i < s.m_FrameResources.length := by
  unfold Draw at h
  split at h
  · simp at h
  rename_i i hi
  split at h
  · simp at h
  rename_i fr hfr
  exact ⟨i, hi, (List.get?_eq_some.1 hfr).1⟩

/-- What `FlushCommandQueue` does: it always returns, with the fence at the new counter or beyond. -/
theorem FlushCommandQueue_eq_some (s : D3DApp) :
    ∃ f r, (∃ p, s.m_CommandQueue ++ [QueueItem.signal ((s.m_FenceCount + 1) % UINT64_RANGE)]
              = p ++ r) ∧
      (s.m_FenceCount + 1) % UINT64_RANGE ≤ f ∧
      gpuRunUntil ((s.m_FenceCount + 1) % UINT64_RANGE)
        (s.m_CommandQueue ++ [QueueItem.signal ((s.m_FenceCount + 1) % UINT64_RANGE)])
        s.m_Fence = some (f, r) ∧
      ∃ evs, FlushCommandQueue s = some { s with
        m_FenceCount := (s.m_FenceCount + 1) % UINT64_RANGE,
        m_Fence := f,
        m_CommandQueue := r,
        trace := s.trace ++ evs } ∧
        ∀ e ∈ evs, e = Event.signal ((s.m_FenceCount + 1) % UINT64_RANGE) ∨
          e = Event.waitForFence ((s.m_FenceCount + 1) % UINT64_RANGE) := by
  obtain ⟨f, r, hr⟩ := gpuRunUntil_append_signal ((s.m_FenceCount + 1) % UINT64_RANGE)
    s.m_CommandQueue s.m_Fence
  refine ⟨f, r, gpuRunUntil_suffix _ _ _ _ hr, gpuRunUntil_reached _ _ _ _ hr, hr, ?_⟩
  by_cases hlt : s.m_Fence < (s.m_FenceCount + 1) % UINT64_RANGE
  · refine ⟨[Event.signal ((s.m_FenceCount + 1) % UINT64_RANGE),
      Event.waitForFence ((s.m_FenceCount + 1) % UINT64_RANGE)], ?_, ?_⟩
    · simp only [FlushCommandQueue, hlt, ↓reduceIte, waitForFence, hr, List.append_assoc,
        List.singleton_append]
    · intro e he
      simpa using he
  · refine ⟨[Event.signal ((s.m_FenceCount + 1) % UINT64_RANGE)], ?_, ?_⟩
    · have hle : (s.m_FenceCount + 1) % UINT64_RANGE ≤ s.m_Fence := by omega
      rw [gpuRunUntil_of_le _ hle] at hr
      simp only [Option.some.injEq, Prod.mk.injEq] at hr
      simp only [FlushCommandQueue, hlt, ↓reduceIte, ← hr.1, ← hr.2]
    · intro e he
      left
      simpa using he

/-! ## The claims about single calls -/

/-- C2: for a ring index `i` in `[0, 3)` and a ring of three slots, `Update` sets
`m_CurrFrameResourceIndex` to `(i + 1) mod 3` and `m_CurrFrameResource` to the frame resource
stored at that index, leaving the ring itself as it is; the only way for it not
to return is that the wait on the selected slot never ends. -/
theorem Update_advances_ring (s : D3DApp)
    (h0 : 0 ≤ s.m_CurrFrameResourceIndex)
    (h3 : s.m_CurrFrameResourceIndex < gNumFrameResources)
    (hlen : s.m_FrameResources.length = 3) :
    (∀ s', Update s = some s' →
      s'.m_CurrFrameResourceIndex = (s.m_CurrFrameResourceIndex + 1) % 3 ∧
      s'.m_CurrFrameResource = some ((s.m_CurrFrameResourceIndex + 1) % 3).toNat ∧
      s'.m_FrameResources = s.m_FrameResources ∧
      ∃ fr, s'.m_FrameResources.get? ((s.m_CurrFrameResourceIndex + 1) % 3).toNat = some fr) ∧
    (Update s = none →
      s.stampOf ((s.m_CurrFrameResourceIndex + 1) % 3).toNat ≠ 0 ∧
      s.m_Fence < s.stampOf ((s.m_CurrFrameResourceIndex + 1) % 3).toNat ∧
      gpuRunUntil (s.stampOf ((s.m_CurrFrameResourceIndex + 1) % 3).toNat)
        s.m_CommandQueue s.m_Fence = none) := by
  have h3' : s.m_CurrFrameResourceIndex < 3 := h3
  have hnext : s.nextIndex = (s.m_CurrFrameResourceIndex + 1) % 3 := by
    unfold D3DApp.nextIndex gNumFrameResources
    rw [Int.tmod_eq_emod] <;> omega
  constructor
  · intro s' h
    obtain ⟨fr, -, -, hfr, hcase⟩ := Update_eq_some h
    rw [hnext] at hfr hcase
    rcases hcase with ⟨-, -, f, r, -, rfl⟩ | ⟨-, rfl⟩
    · exact ⟨rfl, rfl, rfl, fr, hfr⟩
    · exact ⟨rfl, rfl, rfl, fr, hfr⟩
  · intro h
    have hlt : ((s.m_CurrFrameResourceIndex + 1) % 3).toNat < s.m_FrameResources.length := by
      omega
    have hget := List.get?_eq_get hlt
    have hmax : ¬ INT_MAX < s.m_CurrFrameResourceIndex + 1 := by
      unfold INT_MAX
      omega
    have hneg : ¬ (s.m_CurrFrameResourceIndex + 1) % 3 < 0 := by omega
    simp only [Update, hmax, ↓reduceIte, hnext, hneg, hget] at h
    simp only [D3DApp.stampOf, hget]
    split at h
    · rename_i hw
      split at hw
      · rename_i hc
        refine ⟨hc.1, hc.2, ?_⟩
        simp only [waitForFence] at hw
        split at hw
        · assumption
        · simp at hw
      · simp at hw
    · simp at h

/-- C3: with the current pointer at slot `i` of the ring, `Draw` returns; it increments
`m_FenceCount` by one (the `UINT64` increment, which is `+ 1` below `2 ^ 64 - 1`), stamps slot
`i` with the new value, enqueues the signal of that same value after the command
list, and leaves the stamps of the other slots unchanged. -/
theorem Draw_stamps_current_slot (s : D3DApp) (i : Nat)
    (hcur : s.m_CurrFrameResource = some i) (hi : i < s.m_FrameResources.length) :
    ∃ s', Draw s = some s' ∧
      s'.m_FenceCount = (s.m_FenceCount + 1) % UINT64_RANGE ∧
      (s.m_FenceCount + 1 < UINT64_RANGE → s'.m_FenceCount = s.m_FenceCount + 1) ∧
      s'.m_CurrFrameResource = some i ∧
      s'.stampOf i = s'.m_FenceCount ∧
      (∀ j, j ≠ i → s'.stampOf j = s.stampOf j) ∧
      s'.m_FrameResources.length = s.m_FrameResources.length ∧
      s'.m_CommandQueue = s.m_CommandQueue ++
        [QueueItem.execute (some i), QueueItem.signal s'.m_FenceCount] ∧
      ∃ evs, s'.trace = s.trace ++ evs ∧
        (∀ v, Event.signal v ∈ evs ↔ v = s'.m_FenceCount) ∧
        (∀ j v, Event.stamp j v ∈ evs ↔ j = i ∧ v = s'.m_FenceCount) := by
  obtain ⟨fr, hfr, hd⟩ := Draw_eq_some hcur hi
  refine ⟨_, hd, rfl, ?_, hcur, ?_, ?_, ?_, rfl, _, rfl, ?_, ?_⟩
  · intro hlt
    exact Nat.mod_eq_of_lt hlt
  · simp [D3DApp.stampOf, hi]
  · intro j hj
    simp [D3DApp.stampOf, List.getElem?_set_ne (Ne.symm hj)]
  · simp
  · intro v
    simp [eq_comm]
  · intro j v
    simp [eq_comm]

/-- C7: counter value 0 means never submitted. With the counter below `2 ^ 64 - 1`, the stamp
that `Draw` writes is at least 1; and `Update` on a slot whose stamp is 0
returns without waiting, whatever the completed value of the fence is: no wait
event, fence and queue untouched. -/
theorem zero_stamp_means_never_submitted (s : D3DApp) (i : Nat)
    (hcur : s.m_CurrFrameResource = some i) (hi : i < s.m_FrameResources.length)
    (hcount : s.m_FenceCount < UINT64_RANGE - 1)
    (t : D3DApp) (hmax : t.m_CurrFrameResourceIndex + 1 ≤ INT_MAX) (hneg : 0 ≤ t.nextIndex)
    (hslot : t.nextIndex.toNat < t.m_FrameResources.length)
    (hzero : t.stampOf t.nextIndex.toNat = 0) :
    (∃ s', Draw s = some s' ∧ 1 ≤ s'.stampOf i ∧
      ∃ evs, s'.trace = s.trace ++ evs ∧ ∀ j v, Event.stamp j v ∈ evs → 1 ≤ v) ∧
    (∃ t', Update t = some t' ∧ t'.m_Fence = t.m_Fence ∧
      t'.m_CommandQueue = t.m_CommandQueue ∧
      ∃ evs, t'.trace = t.trace ++ evs ∧ ∀ v, Event.waitForFence v ∉ evs) := by
  constructor
  · obtain ⟨fr, hfr, hd⟩ := Draw_eq_some hcur hi
    have hmod : (s.m_FenceCount + 1) % UINT64_RANGE = s.m_FenceCount + 1 :=
      Nat.mod_eq_of_lt (by omega)
    refine ⟨_, hd, ?_, _, rfl, ?_⟩
    · simp [D3DApp.stampOf, hi, hmod]
    · intro j v hv
      simp only [hmod, List.mem_cons, reduceCtorEq, Event.stamp.injEq, List.mem_singleton,
        false_or, or_false, List.not_mem_nil] at hv
      omega
  · have hget := List.get?_eq_get hslot
    have hz : (t.m_FrameResources.get ⟨t.nextIndex.toNat, hslot⟩).m_Fence = 0 := by
      unfold D3DApp.stampOf at hzero
      rw [hget] at hzero
      exact hzero
    have hc : ¬ ((t.m_FrameResources.get ⟨t.nextIndex.toNat, hslot⟩).m_Fence ≠ 0 ∧
        t.m_Fence < (t.m_FrameResources.get ⟨t.nextIndex.toNat, hslot⟩).m_Fence) := by
      intro h
      exact h.1 hz
    refine ⟨_, Update_of_no_wait hmax hneg hget hc, rfl, rfl, _, rfl, ?_⟩
    intro v
    simp

/-- C8: in the effects of `Draw`, `ExecuteCommandLists` comes before the stamp of the slot
and before the signal of the fence: every stamp or signal event of the call is
preceded, within the call, by the submission of the command list, and the
signal is queued behind the command list. -/
theorem Draw_submits_before_stamping (s : D3DApp) (i : Nat)
    (hcur : s.m_CurrFrameResource = some i) (hi : i < s.m_FrameResources.length) :
    ∃ s' evs, Draw s = some s' ∧ s'.trace = s.trace ++ evs ∧
      (∃ v, Event.stamp i v ∈ evs ∧ Event.signal v ∈ evs) ∧
      (∀ pre e post, evs = pre ++ e :: post →
        ((∃ j v, e = Event.stamp j v) ∨ (∃ v, e = Event.signal v)) →
        Event.executeCommandLists (some i) ∈ pre) ∧
      (∀ pre e post, evs = pre ++ e :: post →
        e = Event.executeCommandLists (some i) →
        ∀ x ∈ pre, (∀ j v, x ≠ Event.stamp j v) ∧ (∀ v, x ≠ Event.signal v)) ∧
      ∃ v, s'.m_CommandQueue = s.m_CommandQueue ++
        [QueueItem.execute (some i), QueueItem.signal v] := by
  obtain ⟨fr, hfr, hd⟩ := Draw_eq_some hcur hi
  refine ⟨_, _, hd, rfl, ⟨(s.m_FenceCount + 1) % UINT64_RANGE, by simp, by simp⟩, ?_, ?_,
    ⟨_, rfl⟩⟩
  · intro pre e post hsplit he
    rcases pre with _ | ⟨p0, _ | ⟨p1, _ | ⟨p2, _ | ⟨p3, _ | ⟨p4, pre⟩⟩⟩⟩⟩ <;>
      simp only [List.nil_append, List.cons_append, List.cons.injEq] at hsplit
    · obtain ⟨rfl, -⟩ := hsplit
      simp at he
    · obtain ⟨-, rfl, -⟩ := hsplit
      simp at he
    · obtain ⟨-, -, rfl, -⟩ := hsplit
      simp at he
    · obtain ⟨-, -, -, rfl, -⟩ := hsplit
      simp at he
    · obtain ⟨-, -, -, -, rfl, -⟩ := hsplit
      simp at he
    · obtain ⟨-, -, -, -, rfl, -⟩ := hsplit
      simp
  · intro pre e post hsplit he x hx
    subst he
    rcases pre with _ | ⟨p0, _ | ⟨p1, _ | ⟨p2, _ | ⟨p3, _ | ⟨p4, pre⟩⟩⟩⟩⟩ <;>
      simp only [List.nil_append, List.cons_append, List.cons.injEq] at hsplit
    · simp at hx
    · simp at hsplit
    · simp at hsplit
    · simp at hsplit
    · obtain ⟨rfl, rfl, rfl, rfl, -⟩ := hsplit
      simp only [List.mem_cons, List.not_mem_nil, or_false] at hx
      rcases hx with rfl | rfl | rfl | rfl <;> simp
    · obtain ⟨-, -, -, -, h4, hrest⟩ := hsplit
      rcases pre with _ | ⟨p5, _ | ⟨p6, _ | ⟨p7, pre⟩⟩⟩ <;>
        simp only [List.nil_append, List.cons_append, List.cons.injEq] at hrest
      · simp at hrest
      · simp at hrest
      · simp at hrest
      · simp at hrest

/-! ## Queue lemmas for runs -/

@[simp]
theorem pendingSignals_nil : pendingSignals [] = [] := rfl

@[simp]
theorem pendingSignals_execute (slot : Option Nat) (q : List QueueItem) :
    pendingSignals (QueueItem.execute slot :: q) = pendingSignals q := rfl

@[simp]
theorem pendingSignals_signal (v : Nat) (q : List QueueItem) :
    pendingSignals (QueueItem.signal v :: q) = v :: pendingSignals q := rfl

@[simp]
theorem pendingSignals_append (p q : List QueueItem) :
    pendingSignals (p ++ q) = pendingSignals p ++ pendingSignals q := by
  simp [pendingSignals, List.filterMap_append]

/-- With the signals `fence + 1, ..., fence + k` pending, a wait for a value in that range
ends with the fence exactly at it, the later signals still pending. -/
theorem gpuRunUntil_of_signals (target : Nat) :
    ∀ (q : List QueueItem) (fence k : Nat),
      pendingSignals q = List.range' (fence + 1) k → fence < target → target ≤ fence + k →
      ∃ r, gpuRunUntil target q fence = some (target, r) ∧
        pendingSignals r = List.range' (target + 1) (fence + k - target)
  | [], fence, k, hq, hlt, hle => by
    cases k with
    | zero => omega
    | succ k => simp [List.range'_succ] at hq
  | QueueItem.execute slot :: rest, fence, k, hq, hlt, hle => by
    have hn : ¬ target ≤ fence := by omega
    obtain ⟨r, hr, hs⟩ := gpuRunUntil_of_signals target rest fence k (by simpa using hq) hlt hle
    exact ⟨r, by simp [gpuRunUntil, hn, QueueItem.retire, hr], hs⟩
  | QueueItem.signal v :: rest, fence, k, hq, hlt, hle => by
    have hn : ¬ target ≤ fence := by omega
    cases k with
    | zero => simp at hq
    | succ k =>
      simp only [pendingSignals_signal, List.range'_succ, List.cons.injEq] at hq
      obtain ⟨rfl, hrest⟩ := hq
      by_cases heq : target ≤ fence + 1
      · have ht : target = fence + 1 := by omega
        subst ht
        refine ⟨rest, by simp [gpuRunUntil, QueueItem.retire, gpuRunUntil_of_le], ?_⟩
        rw [hrest]
        congr 1
        omega
      · obtain ⟨r, hr, hs⟩ := gpuRunUntil_of_signals target rest (fence + 1) k hrest
          (by omega) (by omega)
        refine ⟨r, by simp [gpuRunUntil, hn, QueueItem.retire, hr], ?_⟩
        rw [hs]
        congr 1
        omega

theorem Covered.suffix {stamp : Nat → Nat} :
    ∀ (p r : List QueueItem), Covered stamp (p ++ r) → Covered stamp r
  | [], _, h => h
  | QueueItem.execute (some _) :: p, r, h => Covered.suffix p r h.2
  | QueueItem.execute none :: p, r, h => Covered.suffix p r h
  | QueueItem.signal _ :: p, r, h => Covered.suffix p r h

theorem Covered.append {stamp stamp' : Nat → Nat} (hmono : ∀ i, stamp i ≤ stamp' i) :
    ∀ (q r : List QueueItem), Covered stamp q → Covered stamp' r → Covered stamp' (q ++ r)
  | [], r, _, hr => hr
  | QueueItem.execute (some i) :: q, r, h, hr => by
    obtain ⟨⟨v, hv, hle⟩, hq⟩ := h
    refine ⟨⟨v, ?_, le_trans hle (hmono i)⟩, Covered.append hmono q r hq hr⟩
    simp [hv]
  | QueueItem.execute none :: q, r, h, hr => Covered.append hmono q r h hr
  | QueueItem.signal v :: q, r, h, hr => Covered.append hmono q r h hr

/-- A covered command list that reads slot `i` has a pending signal of at most the stamp of `i`. -/
theorem Covered.signal_of_mem {stamp : Nat → Nat} {i : Nat} :
    ∀ (q : List QueueItem), Covered stamp q → QueueItem.execute (some i) ∈ q →
      ∃ v ∈ pendingSignals q, v ≤ stamp i
  | [], _, h => by simp at h
  | QueueItem.execute (some j) :: q, hc, h => by
    rcases List.mem_cons.1 h with heq | hmem
    · simp only [QueueItem.execute.injEq, Option.some.injEq] at heq
      subst heq
      simpa using hc.1
    · simpa using Covered.signal_of_mem q hc.2 hmem
  | QueueItem.execute none :: q, hc, h => by
    rcases List.mem_cons.1 h with heq | hmem
    · simp at heq
    · simpa using Covered.signal_of_mem q hc hmem
  | QueueItem.signal v :: q, hc, h => by
    rcases List.mem_cons.1 h with heq | hmem
    · simp at heq
    · obtain ⟨w, hw, hle⟩ := Covered.signal_of_mem q hc hmem
      exact ⟨w, by simp [hw], hle⟩

/-! ## The invariant is kept by every step -/

theorem nextIndex_eq {s : D3DApp} (h0 : 0 ≤ s.m_CurrFrameResourceIndex)
    (h3 : s.m_CurrFrameResourceIndex < 3) :
    s.nextIndex = (s.m_CurrFrameResourceIndex + 1) % 3 := by
  unfold D3DApp.nextIndex gNumFrameResources
  rw [Int.tmod_eq_emod] <;> omega

theorem stampOf_eq_zero_of_unstamped {s : D3DApp}
    (hall : ∀ fr ∈ s.m_FrameResources, fr.m_Fence = 0) (i : Nat) : s.stampOf i = 0 := by
  unfold D3DApp.stampOf
  split
  · rename_i fr hfr
    exact hall fr (List.get?_mem hfr)
  · rfl

theorem Fresh.stampOf_eq_zero {s : D3DApp} (h : Fresh s) (i : Nat) : s.stampOf i = 0 :=
  stampOf_eq_zero_of_unstamped h.2.1 i

theorem Fresh.wellFormed {s : D3DApp} (h : Fresh s) : WellFormed s := by
  have hz := h.stampOf_eq_zero
  obtain ⟨hlen, -, h0, h3, hcur, hc, hf, hq, hsub⟩ := h
  refine ⟨hlen, h0, h3, hcur, by omega, by simp [hq, hf], ?_, by simp [hsub],
    by simp [hsub], by simp [hq, Covered]⟩
  intro i
  rw [hz i]
  exact Nat.zero_le _

/-- In a well-formed state `Update` returns: the selected slot is then complete or was never
submitted, no queued command list reads it any more, and the invariant holds. -/
theorem WellFormed.after_Update {s : D3DApp} (h : WellFormed s) :
    ∃ s', Update s = some s' ∧ WellFormed s' ∧
      s'.m_CurrFrameResourceIndex = (s.m_CurrFrameResourceIndex + 1) % 3 ∧
      s'.m_CurrFrameResource = some s'.m_CurrFrameResourceIndex.toNat ∧
      s'.m_FrameResources = s.m_FrameResources ∧
      s'.m_FenceCount = s.m_FenceCount ∧
      s'.submitted = s.submitted ∧
      s.m_Fence ≤ s'.m_Fence ∧
      (s'.currStamp = 0 ∨ s'.currStamp ≤ s'.m_Fence) ∧
      QueueItem.execute (some s'.m_CurrFrameResourceIndex.toNat) ∉ s'.m_CommandQueue := by
  have hnext := nextIndex_eq h.index_nonneg h.index_lt
  have hmax : s.m_CurrFrameResourceIndex + 1 ≤ INT_MAX := by
    have := h.index_lt
    unfold INT_MAX
    omega
  have hneg : 0 ≤ s.nextIndex := by omega
  have hlt : s.nextIndex.toNat < s.m_FrameResources.length := by
    have := h.ring
    omega
  have hget := List.get?_eq_get hlt
  have hstamp : s.stampOf s.nextIndex.toNat =
      (s.m_FrameResources.get ⟨s.nextIndex.toNat, hlt⟩).m_Fence := by
    unfold D3DApp.stampOf
    rw [hget]
  have hsig : ∀ v ∈ pendingSignals s.m_CommandQueue, s.m_Fence < v := by
    intro v hv
    rw [h.signals, List.mem_range'_1] at hv
    omega
  by_cases hc : (s.m_FrameResources.get ⟨s.nextIndex.toNat, hlt⟩).m_Fence ≠ 0 ∧
      s.m_Fence < (s.m_FrameResources.get ⟨s.nextIndex.toNat, hlt⟩).m_Fence
  · have hle := h.stamps_le s.nextIndex.toNat
    rw [hstamp] at hle
    obtain ⟨r, hr, hs⟩ := gpuRunUntil_of_signals _ s.m_CommandQueue s.m_Fence
      (s.m_FenceCount - s.m_Fence) h.signals hc.2 (by have := h.fence_le; omega)
    obtain ⟨p, hp⟩ := gpuRunUntil_suffix _ _ _ _ hr
    have hcov : Covered s.stampOf r := Covered.suffix p r (hp ▸ h.covered)
    refine ⟨_, Update_of_wait hmax hneg hget hc hr, ?_, hnext, rfl, rfl, rfl, ?_, ?_, ?_, ?_⟩
    · refine ⟨h.ring, hneg, by simp only; omega, Or.inr rfl, hle, ?_, h.stamps_le, ?_, ?_, hcov⟩
      · simp only
        rw [hs]
        congr 1
        have := h.fence_le
        omega
      · simpa [D3DApp.submitted, List.filterMap_append] using h.submitted_le
      · simpa [D3DApp.submitted, List.filterMap_append] using h.submitted_sorted
    · simp [D3DApp.submitted, List.filterMap_append]
    · simp only
      omega
    · right
      simp only [D3DApp.currStamp]
      exact le_of_eq hstamp
    · intro hmem
      obtain ⟨v, hv, hvle⟩ := Covered.signal_of_mem r hcov hmem
      rw [hs, List.mem_range'_1] at hv
      rw [hstamp] at hvle
      omega
  · refine ⟨_, Update_of_no_wait hmax hneg hget hc, ?_, hnext, rfl, rfl, rfl, ?_, le_refl _, ?_,
      ?_⟩
    · refine ⟨h.ring, hneg, by simp only; omega, Or.inr rfl, h.fence_le, h.signals, h.stamps_le,
        ?_, ?_, h.covered⟩
      · simpa [D3DApp.submitted, List.filterMap_append] using h.submitted_le
      · simpa [D3DApp.submitted, List.filterMap_append] using h.submitted_sorted
    · simp [D3DApp.submitted, List.filterMap_append]
    · simp only [D3DApp.currStamp]
      have : s.stampOf s.nextIndex.toNat = 0 ∨ s.stampOf s.nextIndex.toNat ≤ s.m_Fence := by
        rw [hstamp]
        by_cases hz : (s.m_FrameResources.get ⟨s.nextIndex.toNat, hlt⟩).m_Fence = 0
        · exact Or.inl hz
        · right
          by_contra hlt'
          exact hc ⟨hz, by omega⟩
      exact this
    · intro hmem
      obtain ⟨v, hv, hvle⟩ := Covered.signal_of_mem _ h.covered hmem
      have h1 := hsig v hv
      rw [hstamp] at hvle
      by_cases hz : (s.m_FrameResources.get ⟨s.nextIndex.toNat, hlt⟩).m_Fence = 0
      · omega
      · exact hc ⟨hz, by omega⟩

theorem WellFormed.after_gpuRetire {s : D3DApp} (h : WellFormed s) :
    WellFormed (gpuRetire s) ∧
      (gpuRetire s).m_CurrFrameResourceIndex = s.m_CurrFrameResourceIndex ∧
      (gpuRetire s).m_CurrFrameResource = s.m_CurrFrameResource ∧
      (gpuRetire s).m_FrameResources = s.m_FrameResources ∧
      (gpuRetire s).m_FenceCount = s.m_FenceCount ∧
      (gpuRetire s).submitted = s.submitted ∧
      s.m_Fence ≤ (gpuRetire s).m_Fence := by
  unfold Mawi1e.gpuRetire
  split
  · exact ⟨h, rfl, rfl, rfl, rfl, rfl, le_refl _⟩
  rename_i item rest hq
  have hsig := h.signals
  have hcov := h.covered
  rw [hq] at hsig hcov
  cases item with
  | execute slot =>
    refine ⟨⟨h.ring, h.index_nonneg, h.index_lt, h.curr, h.fence_le, by simpa using hsig,
      h.stamps_le, h.submitted_le, h.submitted_sorted, ?_⟩, rfl, rfl, rfl, rfl, rfl, le_refl _⟩
    exact Covered.suffix [QueueItem.execute slot] rest hcov
  | signal v =>
    have hk : ∃ k, s.m_FenceCount - s.m_Fence = k + 1 := by
      cases hd : s.m_FenceCount - s.m_Fence with
      | zero => simp [hd] at hsig
      | succ k => exact ⟨k, rfl⟩
    obtain ⟨k, hk⟩ := hk
    rw [hk] at hsig
    simp only [pendingSignals_signal, List.range'_succ, List.cons.injEq] at hsig
    obtain ⟨rfl, hrest⟩ := hsig
    refine ⟨⟨h.ring, h.index_nonneg, h.index_lt, h.curr, ?_, ?_, h.stamps_le, h.submitted_le,
      h.submitted_sorted, ?_⟩, rfl, rfl, rfl, rfl, rfl, ?_⟩
    · simp only [QueueItem.retire]
      omega
    · simp only [QueueItem.retire]
      rw [hrest]
      congr 1
      omega
    · exact Covered.suffix [QueueItem.signal (s.m_Fence + 1)] rest hcov
    · simp only [QueueItem.retire]
      omega

/-- In a well-formed state whose counter is not about to wrap, `FlushCommandQueue` returns
with the queue drained and the fence at the new counter. -/
theorem WellFormed.after_flush {s : D3DApp} (h : WellFormed s)
    (hc : s.m_FenceCount + 1 < UINT64_RANGE) :
    ∃ s', FlushCommandQueue s = some s' ∧ WellFormed s' ∧
      s'.m_CurrFrameResourceIndex = s.m_CurrFrameResourceIndex ∧
      s'.m_CurrFrameResource = s.m_CurrFrameResource ∧
      s'.m_FrameResources = s.m_FrameResources ∧
      s'.m_FenceCount = s.m_FenceCount + 1 ∧
      s'.submitted = s.submitted ∧
      s'.m_Fence = s.m_FenceCount + 1 := by
  have hmod : (s.m_FenceCount + 1) % UINT64_RANGE = s.m_FenceCount + 1 := Nat.mod_eq_of_lt hc
  have hlt : s.m_Fence < s.m_FenceCount + 1 := by
    have := h.fence_le
    omega
  have hsig : pendingSignals (s.m_CommandQueue ++ [QueueItem.signal (s.m_FenceCount + 1)]) =
      List.range' (s.m_Fence + 1) (s.m_FenceCount + 1 - s.m_Fence) := by
    have hk : s.m_FenceCount + 1 - s.m_Fence = (s.m_FenceCount - s.m_Fence) + 1 := by omega
    rw [hk, List.range'_concat, pendingSignals_append, h.signals]
    simp only [pendingSignals_signal, pendingSignals_nil, mul_one, List.append_cancel_left_eq,
      List.cons.injEq, and_true]
    omega
  obtain ⟨r, hr, hs⟩ := gpuRunUntil_of_signals (s.m_FenceCount + 1) _ s.m_Fence
    (s.m_FenceCount + 1 - s.m_Fence) hsig hlt (by omega)
  obtain ⟨p, hp⟩ := gpuRunUntil_suffix _ _ _ _ hr
  have hcov : Covered s.stampOf r := by
    refine Covered.suffix p r ?_
    rw [← hp]
    exact Covered.append (fun _ => le_refl _) _ _ h.covered (by simp [Covered])
  refine ⟨{ s with
      m_FenceCount := s.m_FenceCount + 1, m_Fence := s.m_FenceCount + 1, m_CommandQueue := r,
      trace := s.trace ++ [Event.signal (s.m_FenceCount + 1)] ++
        [Event.waitForFence (s.m_FenceCount + 1)] }, ?_, ?_, rfl, rfl, rfl, rfl, ?_, rfl⟩
  · simp only [FlushCommandQueue, hmod, hlt, ↓reduceIte, waitForFence, hr]
  · refine ⟨h.ring, h.index_nonneg, h.index_lt, h.curr, le_refl _, ?_, ?_, ?_, ?_, hcov⟩
    · simp only
      rw [hs]
      have hz : s.m_Fence + (s.m_FenceCount + 1 - s.m_Fence) - (s.m_FenceCount + 1) = 0 := by
        omega
      rw [hz]
      simp
    · intro i
      have := h.stamps_le i
      show s.stampOf i ≤ s.m_FenceCount + 1
      omega
    · intro v hv
      have hv' : v ∈ s.submitted := by
        simpa [D3DApp.submitted, List.filterMap_append] using hv
      have := h.submitted_le v hv'
      show v ≤ s.m_FenceCount + 1
      omega
    · simpa [D3DApp.submitted, List.filterMap_append] using h.submitted_sorted
  · simp [D3DApp.submitted, List.filterMap_append]

theorem stampOf_of_set (s s' : D3DApp) {i : Nat} {fr : FrameResource}
    (h : s'.m_FrameResources = s.m_FrameResources.set i fr)
    (hi : i < s.m_FrameResources.length) (j : Nat) :
    s'.stampOf j = if j = i then fr.m_Fence else s.stampOf j := by
  unfold D3DApp.stampOf
  rw [h]
  by_cases hj : j = i
  · subst hj
    simp [hi]
  · simp [hj, List.getElem?_set_ne (Ne.symm hj)]

/-- In a well-formed state whose counter is not about to wrap and whose current pointer is at
the ring index, `Draw` returns and keeps the invariant. -/
theorem WellFormed.after_Draw {s : D3DApp} (h : WellFormed s)
    (hcur : s.m_CurrFrameResource = some s.m_CurrFrameResourceIndex.toNat)
    (hc : s.m_FenceCount + 1 < UINT64_RANGE) :
    ∃ s', Draw s = some s' ∧ WellFormed s' ∧
      s'.m_CurrFrameResourceIndex = s.m_CurrFrameResourceIndex ∧
      s'.m_CurrFrameResource = s.m_CurrFrameResource ∧
      s'.m_FenceCount = s.m_FenceCount + 1 ∧
      s'.m_Fence = s.m_Fence ∧
      s'.submitted = s.submitted ++ [s.m_FenceCount + 1] ∧
      (∀ j, s'.stampOf j =
        if j = s.m_CurrFrameResourceIndex.toNat then s.m_FenceCount + 1 else s.stampOf j) := by
  have hmod : (s.m_FenceCount + 1) % UINT64_RANGE = s.m_FenceCount + 1 := Nat.mod_eq_of_lt hc
  have hi : s.m_CurrFrameResourceIndex.toNat < s.m_FrameResources.length := by
    have := h.ring
    have := h.index_lt
    omega
  obtain ⟨fr, hfr, hd⟩ := Draw_eq_some hcur hi
  rw [hmod] at hd
  have hstamp := fun j => stampOf_of_set s
    ({ s with
        m_FenceCount := s.m_FenceCount + 1,
        m_FrameResources := s.m_FrameResources.set s.m_CurrFrameResourceIndex.toNat
          { fr with m_Fence := s.m_FenceCount + 1 },
        m_CommandQueue := s.m_CommandQueue ++
          [QueueItem.execute (some s.m_CurrFrameResourceIndex.toNat),
           QueueItem.signal (s.m_FenceCount + 1)],
        trace := s.trace ++
          [Event.allocatorReset s.m_CurrFrameResourceIndex.toNat, Event.commandListReset,
           Event.recordDrawRenderItems s.m_CurrFrameResourceIndex.toNat,
           Event.commandListClose,
           Event.executeCommandLists (some s.m_CurrFrameResourceIndex.toNat), Event.present,
           Event.stamp s.m_CurrFrameResourceIndex.toNat (s.m_FenceCount + 1),
           Event.signal (s.m_FenceCount + 1)] }) rfl hi j
  dsimp only at hstamp
  have hsub : D3DApp.submitted { s with
        m_FenceCount := s.m_FenceCount + 1,
        m_FrameResources := s.m_FrameResources.set s.m_CurrFrameResourceIndex.toNat
          { fr with m_Fence := s.m_FenceCount + 1 },
        m_CommandQueue := s.m_CommandQueue ++
          [QueueItem.execute (some s.m_CurrFrameResourceIndex.toNat),
           QueueItem.signal (s.m_FenceCount + 1)],
        trace := s.trace ++
          [Event.allocatorReset s.m_CurrFrameResourceIndex.toNat, Event.commandListReset,
           Event.recordDrawRenderItems s.m_CurrFrameResourceIndex.toNat,
           Event.commandListClose,
           Event.executeCommandLists (some s.m_CurrFrameResourceIndex.toNat), Event.present,
           Event.stamp s.m_CurrFrameResourceIndex.toNat (s.m_FenceCount + 1),
           Event.signal (s.m_FenceCount + 1)] } = s.submitted ++ [s.m_FenceCount + 1] := by
    simp [D3DApp.submitted, List.filterMap_append]
  refine ⟨_, hd, ?_, rfl, rfl, rfl, rfl, hsub, hstamp⟩
  refine ⟨by simp [h.ring], h.index_nonneg, h.index_lt, h.curr, ?_, ?_, ?_, ?_, ?_, ?_⟩
  · have := h.fence_le
    show s.m_Fence ≤ s.m_FenceCount + 1
    omega
  · show pendingSignals (s.m_CommandQueue ++ _) = List.range' (s.m_Fence + 1)
      (s.m_FenceCount + 1 - s.m_Fence)
    have hk : s.m_FenceCount + 1 - s.m_Fence = (s.m_FenceCount - s.m_Fence) + 1 := by
      have := h.fence_le
      omega
    rw [hk, List.range'_concat, pendingSignals_append, h.signals]
    simp only [pendingSignals_execute, pendingSignals_signal, pendingSignals_nil, mul_one,
      List.append_cancel_left_eq, List.cons.injEq, and_true]
    have := h.fence_le
    omega
  · intro j
    rw [hstamp j]
    have := h.stamps_le j
    show (if j = _ then _ else _) ≤ s.m_FenceCount + 1
    split <;> omega
  · intro v hv
    rw [hsub] at hv
    show v ≤ s.m_FenceCount + 1
    rcases List.mem_append.1 hv with hv | hv
    · have := h.submitted_le v hv
      omega
    · simp only [List.mem_singleton] at hv
      omega
  · rw [hsub, List.pairwise_append]
    refine ⟨h.submitted_sorted, List.pairwise_singleton _ _, ?_⟩
    intro a ha b hb
    have := h.submitted_le a ha
    simp only [List.mem_singleton] at hb
    omega
  · refine Covered.append ?_ _ _ h.covered ?_
    · intro j
      rw [hstamp j]
      have := h.stamps_le j
      split <;> omega
    · refine ⟨⟨s.m_FenceCount + 1, by simp, ?_⟩, trivial⟩
      rw [hstamp]
      simp

theorem stampOf_congr {s s' : D3DApp} (h : s'.m_FrameResources = s.m_FrameResources) (j : Nat) :
    s'.stampOf j = s.stampOf j := by
  unfold D3DApp.stampOf
  rw [h]

/-- Queueing the set-up command list keeps the invariant. -/
theorem WellFormed.after_enqueueSetup {s : D3DApp} (h : WellFormed s) (evs : List Event)
    (hevs : evs.filterMap (fun e => match e with
      | Event.stamp _ v => some v
      | _ => none) = []) :
    WellFormed { s with m_CommandQueue := s.m_CommandQueue ++ [QueueItem.execute none],
                        trace := s.trace ++ evs } := by
  refine ⟨h.ring, h.index_nonneg, h.index_lt, h.curr, h.fence_le, ?_, h.stamps_le, ?_, ?_, ?_⟩
  · simpa using h.signals
  · simpa [D3DApp.submitted, List.filterMap_append, hevs] using h.submitted_le
  · simpa [D3DApp.submitted, List.filterMap_append, hevs] using h.submitted_sorted
  · exact Covered.append (fun _ => le_refl _) _ _ h.covered (by simp [Covered])

/-- In a well-formed state whose counter is two increments away from wrapping, `ResizeBuffer`
returns with the queue drained and the fence at the new counter. -/
theorem WellFormed.after_resize {s : D3DApp} (h : WellFormed s)
    (hc : s.m_FenceCount + 2 < UINT64_RANGE) :
    ∃ s', ResizeBuffer s = some s' ∧ WellFormed s' ∧
      s'.m_CurrFrameResourceIndex = s.m_CurrFrameResourceIndex ∧
      s'.m_CurrFrameResource = s.m_CurrFrameResource ∧
      s'.m_FrameResources = s.m_FrameResources ∧
      s'.m_FenceCount = s.m_FenceCount + 2 ∧
      s'.submitted = s.submitted ∧
      s'.m_Fence = s.m_FenceCount + 2 := by
  obtain ⟨s1, hf1, hw1, hi1, hc1, hr1, hn1, hs1, -⟩ := h.after_flush (by omega)
  have hw2 := hw1.after_enqueueSetup
    [Event.commandListReset, Event.commandListClose, Event.executeCommandLists none] (by simp)
  obtain ⟨s2, hf2, hw2', hi2, hc2, hr2, hn2, hs2, hfe2⟩ := hw2.after_flush (by simp only; omega)
  refine ⟨s2, ?_, hw2', ?_, ?_, ?_, ?_, ?_, ?_⟩
  · simp only [ResizeBuffer, hf1, hf2]
  · rw [hi2, ← hi1]
  · rw [hc2, ← hc1]
  · rw [hr2, ← hr1]
  · rw [hn2]
    simp only
    omega
  · rw [hs2, ← hs1]
    simp [D3DApp.submitted, List.filterMap_append]
  · rw [hfe2]
    simp only
    omega

theorem LoopInv.weaken {p : Bool} {s : D3DApp} (h : LoopInv p s) :
    ∀ v ∈ s.submitted, v ≤ s.m_Fence ∨ ∃ j, j < 3 ∧ v = s.stampOf j := by
  cases p
  · intro v hv
    rcases h.2 v hv with hle | ⟨j, hj, -, hv⟩
    · exact Or.inl hle
    · exact Or.inr ⟨j, hj, hv⟩
  · exact h

/-- A step that leaves the ring, the ring index, the current pointer and the submitted
frames alone and does not lower the fence keeps the loop invariant. -/
theorem LoopInv.frame {p : Bool} {s s' : D3DApp} (h : LoopInv p s)
    (hidx : s'.m_CurrFrameResourceIndex = s.m_CurrFrameResourceIndex)
    (hcur : s'.m_CurrFrameResource = s.m_CurrFrameResource)
    (hring : s'.m_FrameResources = s.m_FrameResources)
    (hsub : s'.submitted = s.submitted)
    (hfence : s.m_Fence ≤ s'.m_Fence) : LoopInv p s' := by
  cases p
  · refine ⟨by rw [hcur, hidx]; exact h.1, ?_⟩
    intro v hv
    rw [hsub] at hv
    rcases h.2 v hv with hle | ⟨j, hj, hne, hv⟩
    · exact Or.inl (le_trans hle hfence)
    · exact Or.inr ⟨j, hj, by rw [hidx]; exact hne, by rw [stampOf_congr hring]; exact hv⟩
  · intro v hv
    rw [hsub] at hv
    rcases h v hv with hle | ⟨j, hj, hv⟩
    · exact Or.inl (le_trans hle hfence)
    · exact Or.inr ⟨j, hj, by rw [stampOf_congr hring]; exact hv⟩

/-- One step of a run in which draws follow updates: it returns and keeps both invariants. -/
theorem LoopInv.after_loop_step {p p' : Bool} {s : D3DApp} (a : Action) (hw : WellFormed s)
    (hl : LoopInv p s) (hp : drawsFollowUpdates [a] p = some p')
    (hc : s.m_FenceCount + increment a < UINT64_RANGE) :
    ∃ s', step a s = some s' ∧ WellFormed s' ∧ LoopInv p' s' ∧
      s'.m_FenceCount = s.m_FenceCount + increment a := by
  cases a with
  | Update =>
    obtain ⟨s', hu, hw', hidx, hcur, hring, hcount, hsub, hfence, hdone, -⟩ := hw.after_Update
    have hp' : p' = false := by
      cases p <;> simp [drawsFollowUpdates] at hp <;> exact hp
    subst hp'
    refine ⟨s', hu, hw', ⟨hcur, ?_⟩, by simp [increment, hcount]⟩
    intro v hv
    rw [hsub] at hv
    rcases hl.weaken v hv with hle | ⟨j, hj, hv⟩
    · exact Or.inl (le_trans hle hfence)
    · by_cases hji : j = s'.m_CurrFrameResourceIndex.toNat
      · left
        have hcs : s'.currStamp = v := by
          simp only [D3DApp.currStamp, hcur]
          rw [stampOf_congr hring, ← hji, hv]
        rw [hcs] at hdone
        omega
      · exact Or.inr ⟨j, hj, hji, by rw [stampOf_congr hring]; exact hv⟩
  | Draw =>
    cases p
    · simp only [drawsFollowUpdates, Option.some.injEq] at hp
      subst hp
      obtain ⟨hcur, hl⟩ := hl
      obtain ⟨s', hd, hw', hidx, -, hcount, hfence, hsub, hstamp⟩ :=
        hw.after_Draw hcur (by simpa [increment] using hc)
      refine ⟨s', hd, hw', ?_, by simp [increment, hcount]⟩
      intro v hv
      rw [hsub] at hv
      rcases List.mem_append.1 hv with hv | hv
      · rcases hl v hv with hle | ⟨j, hj, hne, hv⟩
        · exact Or.inl (by rw [hfence]; exact hle)
        · exact Or.inr ⟨j, hj, by rw [hstamp j, if_neg hne]; exact hv⟩
      · simp only [List.mem_singleton] at hv
        refine Or.inr ⟨s.m_CurrFrameResourceIndex.toNat, ?_, ?_⟩
        · have := hw.index_lt
          omega
        · rw [hstamp, if_pos rfl, hv]
    · simp [drawsFollowUpdates] at hp
  | FlushCommandQueue =>
    have hp' : p' = p := by
      cases p <;> simp [drawsFollowUpdates] at hp <;> exact hp
    subst hp'
    obtain ⟨s', hf, hw', hidx, hcur, hring, hcount, hsub, hfence⟩ :=
      hw.after_flush (by simpa [increment] using hc)
    refine ⟨s', hf, hw', hl.frame hidx hcur hring hsub ?_, by simp [increment, hcount]⟩
    have := hw.fence_le
    omega
  | ResizeBuffer =>
    have hp' : p' = p := by
      cases p <;> simp [drawsFollowUpdates] at hp <;> exact hp
    subst hp'
    obtain ⟨s', hf, hw', hidx, hcur, hring, hcount, hsub, hfence⟩ :=
      hw.after_resize (by simpa [increment] using hc)
    refine ⟨s', hf, hw', hl.frame hidx hcur hring hsub ?_, by simp [increment, hcount]⟩
    have := hw.fence_le
    omega
  | gpuRetire =>
    have hp' : p' = p := by
      cases p <;> simp [drawsFollowUpdates] at hp <;> exact hp
    subst hp'
    obtain ⟨hw', hidx, hcur, hring, hcount, hsub, hfence⟩ := hw.after_gpuRetire
    exact ⟨_, rfl, hw', hl.frame hidx hcur hring hsub hfence, by simp [increment, hcount]⟩

/-! ## Runs -/

theorem drawsFollowUpdates_cons {a : Action} {rest : List Action} {p p' : Bool}
    (h : drawsFollowUpdates (a :: rest) p = some p') :
    ∃ p1, drawsFollowUpdates [a] p = some p1 ∧ drawsFollowUpdates rest p1 = some p' := by
  cases a <;> cases p <;> simp only [drawsFollowUpdates] at h ⊢ <;>
    first
    | exact ⟨_, rfl, h⟩
    | simp at h

theorem drawsFollowUpdates_append :
    ∀ (pre post : List Action) (p p' : Bool),
      drawsFollowUpdates (pre ++ post) p = some p' →
      ∃ p1, drawsFollowUpdates pre p = some p1 ∧ drawsFollowUpdates post p1 = some p'
  | [], post, p, p', h => ⟨p, rfl, h⟩
  | a :: pre, post, p, p', h => by
    obtain ⟨p1, h1, h2⟩ := drawsFollowUpdates_cons (by simpa using h)
    obtain ⟨p2, h3, h4⟩ := drawsFollowUpdates_append pre post p1 p' h2
    refine ⟨p2, ?_, h4⟩
    cases a <;> cases p <;> simp only [drawsFollowUpdates] at h1 ⊢ <;>
      first
      | (simp only [Option.some.injEq] at h1; subst h1; exact h3)
      | simp at h1

/-- Every frame loop is a run in which draws follow updates. -/
theorem frameLoop_drawsFollowUpdates :
    ∀ (acts : List Action) (p p' : Bool),
      frameLoop acts p = some p' → drawsFollowUpdates acts p = some p'
  | [], p, p', h => h
  | a :: rest, p, p', h => by
    cases a <;> cases p <;> simp only [frameLoop, drawsFollowUpdates] at h ⊢ <;>
      first
      | exact frameLoop_drawsFollowUpdates rest _ p' h
      | simp at h

theorem increments_cons (a : Action) (rest : List Action) :
    increments (a :: rest) = increment a + increments rest := by
  simp [increments]

theorem increments_append (pre post : List Action) :
    increments (pre ++ post) = increments pre + increments post := by
  simp [increments]

/-- A run in which draws follow updates, started well-formed and short of wrapping the counter,
returns and keeps both invariants. -/
theorem run_drawsFollowUpdates :
    ∀ (acts : List Action) (s : D3DApp) (p p' : Bool),
      WellFormed s → LoopInv p s → drawsFollowUpdates acts p = some p' →
      s.m_FenceCount + increments acts < UINT64_RANGE →
      ∃ s', run acts s = some s' ∧ WellFormed s' ∧ LoopInv p' s' ∧
        s'.m_FenceCount = s.m_FenceCount + increments acts
  | [], s, p, p', hw, hl, hp, _ => by
    simp only [drawsFollowUpdates, Option.some.injEq] at hp
    subst hp
    exact ⟨s, rfl, hw, hl, by simp [increments]⟩
  | a :: rest, s, p, p', hw, hl, hp, hc => by
    obtain ⟨p1, h1, h2⟩ := drawsFollowUpdates_cons hp
    rw [increments_cons] at hc
    obtain ⟨s1, hs1, hw1, hl1, hc1⟩ := hl.after_loop_step a hw h1 (by omega)
    obtain ⟨s', hs', hw', hl', hc'⟩ := run_drawsFollowUpdates rest s1 p1 p' hw1 hl1 h2
      (by omega)
    refine ⟨s', by simp only [run, hs1, hs'], hw', hl', ?_⟩
    rw [hc', hc1, increments_cons]
    omega

theorem Fresh.loopInv {s : D3DApp} (h : Fresh s) : LoopInv true s := by
  obtain ⟨-, -, -, -, -, -, -, -, hsub⟩ := h
  intro v hv
  simp [hsub] at hv

theorem submitted_filter_nodup {s : D3DApp} (h : WellFormed s) :
    ((s.submitted).filter fun v => decide (s.m_Fence < v)).Nodup :=
  (h.submitted_sorted.imp (fun hab => ne_of_lt hab)).filter _

/-- At any point of a run in which draws follow updates, at most three frames are in flight. -/
theorem LoopInv.inFlight_le_three {p : Bool} {s : D3DApp} (hw : WellFormed s)
    (hl : LoopInv p s) : s.inFlight ≤ 3 := by
  have hsub : ((s.submitted).filter fun v => decide (s.m_Fence < v)) ⊆
      (List.range 3).map s.stampOf := by
    intro v hv
    simp only [List.mem_filter, decide_eq_true_eq] at hv
    rcases hl.weaken v hv.1 with hle | ⟨j, hj, hvj⟩
    · omega
    · exact List.mem_map.2 ⟨j, List.mem_range.2 hj, hvj.symm⟩
  have := (List.subperm_of_subset (submitted_filter_nodup hw) hsub).length_le
  simpa [D3DApp.inFlight] using this

/-- Between the return of `Update` and the next `Draw`, at most two frames are in flight. -/
theorem LoopInv.inFlight_le_two {s : D3DApp} (hw : WellFormed s)
    (hl : LoopInv false s) : s.inFlight ≤ 2 := by
  have hi : s.m_CurrFrameResourceIndex.toNat ∈ List.range 3 := by
    have := hw.index_lt
    have := hw.index_nonneg
    exact List.mem_range.2 (by omega)
  have hsub : ((s.submitted).filter fun v => decide (s.m_Fence < v)) ⊆
      ((List.range 3).erase s.m_CurrFrameResourceIndex.toNat).map s.stampOf := by
    intro v hv
    simp only [List.mem_filter, decide_eq_true_eq] at hv
    rcases hl.2 v hv.1 with hle | ⟨j, hj, hne, hvj⟩
    · omega
    · refine List.mem_map.2 ⟨j, ?_, hvj.symm⟩
      exact ((List.nodup_range 3).mem_erase_iff).2 ⟨hne, List.mem_range.2 hj⟩
  have := (List.subperm_of_subset (submitted_filter_nodup hw) hsub).length_le
  rw [List.length_map, List.length_erase_of_mem hi] at this
  simpa [D3DApp.inFlight] using this

/-! ## Steps from arbitrary states -/

theorem FlushCommandQueue_frame {s s' : D3DApp} (h : FlushCommandQueue s = some s') :
    s'.m_FenceCount = (s.m_FenceCount + 1) % UINT64_RANGE ∧
      s'.m_FrameResources = s.m_FrameResources ∧
      s'.m_CurrFrameResource = s.m_CurrFrameResource ∧
      s'.m_CurrFrameResourceIndex = s.m_CurrFrameResourceIndex := by
  obtain ⟨f, r, -, -, -, evs, he, -⟩ := FlushCommandQueue_eq_some s
  rw [he] at h
  simp only [Option.some.injEq] at h
  subst h
  exact ⟨rfl, rfl, rfl, rfl⟩

theorem ResizeBuffer_frame {s s' : D3DApp} (h : ResizeBuffer s = some s') :
    s'.m_FenceCount = ((s.m_FenceCount + 1) % UINT64_RANGE + 1) % UINT64_RANGE ∧
      s'.m_FrameResources = s.m_FrameResources ∧
      s'.m_CurrFrameResource = s.m_CurrFrameResource ∧
      s'.m_CurrFrameResourceIndex = s.m_CurrFrameResourceIndex := by
  unfold ResizeBuffer at h
  split at h
  · simp at h
  rename_i s1 h1
  obtain ⟨hc1, hr1, hp1, hi1⟩ := FlushCommandQueue_frame h1
  obtain ⟨hc2, hr2, hp2, hi2⟩ := FlushCommandQueue_frame h
  simp only at hc2 hr2 hp2 hi2
  exact ⟨by rw [hc2, hc1], by rw [hr2, hr1], by rw [hp2, hp1], by rw [hi2, hi1]⟩

theorem gpuRetire_frame (s : D3DApp) :
    (gpuRetire s).m_FenceCount = s.m_FenceCount ∧
      (gpuRetire s).m_FrameResources = s.m_FrameResources ∧
      (gpuRetire s).m_CurrFrameResource = s.m_CurrFrameResource ∧
      (gpuRetire s).m_CurrFrameResourceIndex = s.m_CurrFrameResourceIndex := by
  unfold gpuRetire
  split <;> exact ⟨rfl, rfl, rfl, rfl⟩

theorem Update_frame {s s' : D3DApp} (h : Update s = some s') :
    s'.m_FenceCount = s.m_FenceCount ∧ s'.m_FrameResources = s.m_FrameResources := by
  obtain ⟨fr, -, -, -, hcase⟩ := Update_eq_some h
  rcases hcase with ⟨-, -, f, r, -, rfl⟩ | ⟨-, rfl⟩ <;> exact ⟨rfl, rfl⟩

/-- What `Draw` leaves behind, from any state in which it returns. -/
theorem Draw_frame {s s' : D3DApp} (h : Draw s = some s') :
    ∃ i, s.m_CurrFrameResource = some i ∧ i < s.m_FrameResources.length ∧
      s'.m_CurrFrameResource = some i ∧
      s'.m_FenceCount = (s.m_FenceCount + 1) % UINT64_RANGE ∧
      ∀ j, s'.stampOf j = if j = i then s'.m_FenceCount else s.stampOf j := by
  obtain ⟨i, hcur, hi⟩ := Draw_some_inv h
  obtain ⟨fr, hfr, hd⟩ := Draw_eq_some hcur hi
  rw [hd] at h
  simp only [Option.some.injEq] at h
  subst h
  refine ⟨i, hcur, hi, hcur, rfl, ?_⟩
  intro j
  exact stampOf_of_set s _ rfl hi j

/-- The counter after a step, from any state: unchanged by `Update` and by the GPU, incremented
(modulo `2 ^ 64`) once by `Draw` and by `FlushCommandQueue`, twice by `ResizeBuffer`. -/
theorem step_counter {a : Action} {s s' : D3DApp} (h : step a s = some s')
    (hc : s.m_FenceCount + increment a < UINT64_RANGE) :
    s'.m_FenceCount = s.m_FenceCount + increment a := by
  cases a with
  | Update => simpa [increment] using (Update_frame h).1
  | Draw =>
    obtain ⟨i, -, -, -, hcount, -⟩ := Draw_frame h
    rw [hcount]
    exact Nat.mod_eq_of_lt hc
  | FlushCommandQueue =>
    rw [(FlushCommandQueue_frame h).1]
    exact Nat.mod_eq_of_lt hc
  | ResizeBuffer =>
    rw [(ResizeBuffer_frame h).1]
    simp only [increment] at hc ⊢
    rw [Nat.mod_eq_of_lt (by omega : s.m_FenceCount + 1 < UINT64_RANGE),
      Nat.mod_eq_of_lt (by omega : s.m_FenceCount + 1 + 1 < UINT64_RANGE)]
  | gpuRetire =>
    simp only [step, Option.some.injEq] at h
    subst h
    simpa [increment] using (gpuRetire_frame s).1

theorem run_counter :
    ∀ (acts : List Action) (s s' : D3DApp), run acts s = some s' →
      s.m_FenceCount + increments acts < UINT64_RANGE →
      s'.m_FenceCount = s.m_FenceCount + increments acts
  | [], s, s', h, _ => by
    simp only [run, Option.some.injEq] at h
    subst h
    simp [increments]
  | a :: rest, s, s', h, hc => by
    simp only [run] at h
    split at h
    · simp at h
    rename_i s1 h1
    rw [increments_cons] at hc ⊢
    have hc1 := step_counter h1 (by omega)
    rw [run_counter rest s1 s' h (by omega), hc1]
    omega

/-- A step from a well-formed state short of wrapping the counter keeps the invariant. -/
theorem WellFormed.after_step {a : Action} {s s' : D3DApp} (hw : WellFormed s)
    (h : Mawi1e.step a s = some s') (hc : s.m_FenceCount + increment a < UINT64_RANGE) :
    WellFormed s' := by
  cases a with
  | Update =>
    obtain ⟨s1, h1, hw1, -⟩ := hw.after_Update
    simp only [Mawi1e.step, h1, Option.some.injEq] at h
    exact h ▸ hw1
  | Draw =>
    obtain ⟨i, hcur, -⟩ := Draw_some_inv h
    have hcur' : s.m_CurrFrameResource = some s.m_CurrFrameResourceIndex.toNat := by
      rcases hw.curr with hn | hs
      · rw [hn] at hcur
        simp at hcur
      · exact hs
    obtain ⟨s1, h1, hw1, -⟩ := hw.after_Draw hcur' (by simpa [increment] using hc)
    simp only [Mawi1e.step, h1, Option.some.injEq] at h
    exact h ▸ hw1
  | FlushCommandQueue =>
    obtain ⟨s1, h1, hw1, -⟩ := hw.after_flush (by simpa [increment] using hc)
    simp only [Mawi1e.step, h1, Option.some.injEq] at h
    exact h ▸ hw1
  | ResizeBuffer =>
    obtain ⟨s1, h1, hw1, -⟩ := hw.after_resize (by simpa [increment] using hc)
    simp only [Mawi1e.step, h1, Option.some.injEq] at h
    exact h ▸ hw1
  | gpuRetire =>
    simp only [Mawi1e.step, Option.some.injEq] at h
    exact h ▸ hw.after_gpuRetire.1

theorem WellFormed.after_run :
    ∀ (acts : List Action) (s s' : D3DApp), WellFormed s → run acts s = some s' →
      s.m_FenceCount + increments acts < UINT64_RANGE → WellFormed s'
  | [], s, s', hw, h, _ => by
    simp only [Mawi1e.run, Option.some.injEq] at h
    exact h ▸ hw
  | a :: rest, s, s', hw, h, hc => by
    simp only [Mawi1e.run] at h
    split at h
    · simp at h
    rename_i s1 h1
    rw [increments_cons] at hc
    have hc1 := step_counter h1 (by omega)
    exact WellFormed.after_run rest s1 s' (hw.after_step h1 (by omega)) h (by omega)

theorem run_append :
    ∀ (pre post : List Action) (s : D3DApp),
      run (pre ++ post) s = (run pre s).bind (run post)
  | [], post, s => rfl
  | a :: pre, post, s => by
    simp only [List.cons_append, run]
    split
    · rfl
    · exact run_append pre post _

theorem runTracking_run :
    ∀ (acts : List Action) (s s' : D3DApp) (g g' : Nat → Option Nat),
      runTracking acts s g = some (s', g') → run acts s = some s'
  | [], s, s', g, g', h => by
    simp only [runTracking, Option.some.injEq, Prod.mk.injEq] at h
    simp [run, h.1]
  | a :: rest, s, s', g, g', h => by
    simp only [runTracking] at h
    split at h
    · simp at h
    rename_i s1 h1
    simp only [run, h1]
    exact runTracking_run rest s1 s' _ g' h

theorem step_ring {a : Action} {s s' : D3DApp} (h : step a s = some s') (ha : a ≠ Action.Draw) :
    s'.m_FrameResources = s.m_FrameResources := by
  cases a with
  | Update => exact (Update_frame h).2
  | Draw => exact absurd rfl ha
  | FlushCommandQueue => exact (FlushCommandQueue_frame h).2.1
  | ResizeBuffer => exact (ResizeBuffer_frame h).2.1
  | gpuRetire =>
    simp only [step, Option.some.injEq] at h
    subst h
    exact (gpuRetire_frame s).2.1

/-- Along a run every stamp is the counter value recorded at the last `Draw` on its slot. -/
theorem runTracking_stamps :
    ∀ (acts : List Action) (s s' : D3DApp) (g g' : Nat → Option Nat),
      (∀ i, s.stampOf i = (g i).getD 0) → runTracking acts s g = some (s', g') →
      ∀ i, s'.stampOf i = (g' i).getD 0
  | [], s, s', g, g', hg, h => by
    simp only [runTracking, Option.some.injEq, Prod.mk.injEq] at h
    obtain ⟨rfl, rfl⟩ := h
    exact hg
  | a :: rest, s, s', g, g', hg, h => by
    simp only [runTracking] at h
    split at h
    · simp at h
    rename_i s1 h1
    refine runTracking_stamps rest s1 s' _ g' ?_ h
    intro i
    by_cases ha : a = Action.Draw
    · subst ha
      obtain ⟨k, hcur, -, -, -, hstamp⟩ := Draw_frame h1
      simp only [hcur]
      rw [hstamp i]
      by_cases hik : i = k
      · subst hik
        simp
      · simp [hik, Function.update_noteq hik, hg i]
    · have hring := step_ring h1 ha
      rw [stampOf_congr hring, hg i]
      cases a <;> first | rfl | exact absurd rfl ha

theorem Update_unstamped {s : D3DApp}
    (hlen : s.m_FrameResources.length = 3)
    (hall : ∀ fr ∈ s.m_FrameResources, fr.m_Fence = 0)
    (h0 : 0 ≤ s.m_CurrFrameResourceIndex) (h3 : s.m_CurrFrameResourceIndex < 3) :
    Update s = some { s with
      m_CurrFrameResourceIndex := (s.m_CurrFrameResourceIndex + 1) % 3,
      m_CurrFrameResource := some ((s.m_CurrFrameResourceIndex + 1) % 3).toNat,
      trace := s.trace ++
        [Event.updateInstanceBuffers ((s.m_CurrFrameResourceIndex + 1) % 3).toNat,
         Event.updateMatetialCBs ((s.m_CurrFrameResourceIndex + 1) % 3).toNat,
         Event.updatePassCB ((s.m_CurrFrameResourceIndex + 1) % 3).toNat] } := by
  have hnext := nextIndex_eq h0 h3
  have hmax : s.m_CurrFrameResourceIndex + 1 ≤ INT_MAX := by
    unfold INT_MAX
    omega
  have hlt : s.nextIndex.toNat < s.m_FrameResources.length := by omega
  have hget := List.get?_eq_get hlt
  have hz := hall _ (List.get?_mem hget)
  have := Update_of_no_wait hmax (by omega) hget (fun hc => hc.1 hz)
  rw [hnext] at this
  exact this

/-- Updates in a row on a ring that was never drawn to: each returns at once. -/
theorem run_updates_unstamped :
    ∀ (n : Nat) (s : D3DApp), s.m_FrameResources.length = 3 →
      (∀ fr ∈ s.m_FrameResources, fr.m_Fence = 0) →
      0 ≤ s.m_CurrFrameResourceIndex → s.m_CurrFrameResourceIndex < 3 →
      ∃ s', run (List.replicate n Action.Update) s = some s' ∧
        s'.m_CurrFrameResourceIndex = (s.m_CurrFrameResourceIndex + n) % 3 ∧
        (0 < n → s'.m_CurrFrameResource = some ((s.m_CurrFrameResourceIndex + n) % 3).toNat) ∧
        s'.m_FrameResources = s.m_FrameResources ∧
        s'.m_Fence = s.m_Fence ∧ s'.m_CommandQueue = s.m_CommandQueue ∧
        ∃ evs, s'.trace = s.trace ++ evs ∧ ∀ v, Event.waitForFence v ∉ evs
  | 0, s, _, _, h0, h3 => by
    refine ⟨s, rfl, ?_, by simp, rfl, rfl, rfl, [], by simp, by simp⟩
    simp only [Nat.cast_zero, add_zero]
    omega
  | n + 1, s, hlen, hall, h0, h3 => by
    have hu := Update_unstamped hlen hall h0 h3
    obtain ⟨s', hrun, hidx, hcur, hr, hf, hq, evs, htr, hw⟩ :=
      run_updates_unstamped n { s with
        m_CurrFrameResourceIndex := (s.m_CurrFrameResourceIndex + 1) % 3,
        m_CurrFrameResource := some ((s.m_CurrFrameResourceIndex + 1) % 3).toNat,
        trace := s.trace ++
          [Event.updateInstanceBuffers ((s.m_CurrFrameResourceIndex + 1) % 3).toNat,
           Event.updateMatetialCBs ((s.m_CurrFrameResourceIndex + 1) % 3).toNat,
           Event.updatePassCB ((s.m_CurrFrameResourceIndex + 1) % 3).toNat] }
        hlen hall (by simp only; omega) (by simp only; omega)
    simp only at hidx hcur hr hf hq htr
    have hmod : ((s.m_CurrFrameResourceIndex + 1) % 3 + (n : Int)) % 3 =
        (s.m_CurrFrameResourceIndex + ((n + 1 : Nat) : Int)) % 3 := by
      push_cast
      omega
    refine ⟨s', by simp only [List.replicate_succ, run, step, hu, hrun], ?_, ?_, hr, hf, hq,
      _, by rw [htr, List.append_assoc], ?_⟩
    · rw [hidx, hmod]
    · intro _
      rw [← hmod]
      cases n with
      | zero =>
        simp only [List.replicate_zero, run, Option.some.injEq] at hrun
        subst hrun
        simp
      | succ m => exact hcur (by omega)
    · intro v hv
      rcases List.mem_append.1 hv with hv | hv
      · simp at hv
      · exact hw v hv

/-! ## The claims about the wait and about runs -/

/-- C1: after `Update` returns, the stamp of the selected slot (`m_CurrFrameResource->m_Fence`) is 0
or the completed value of the fence is at least that stamp; `Update` waits on the fence
if and only if the stamp of the selected slot is nonzero and the completed value
is smaller, and then for that stamp; the buffer writes that follow the wait
target the selected slot only. In every state that a run from freshly built
frame resources reaches without wrapping the counter, `Update` returns, and no
command list still in the queue reads the selected slot. -/
theorem Update_waits_for_selected_slot (s : D3DApp) :
    (∀ s', Update s = some s' →
      s'.m_CurrFrameResource = some s.nextIndex.toNat ∧
      s'.currStamp = s.stampOf s.nextIndex.toNat ∧
      (s'.currStamp = 0 ∨ s'.currStamp ≤ s'.m_Fence) ∧
      ∃ evs, s'.trace = s.trace ++ evs ∧
        ((∃ v, Event.waitForFence v ∈ evs) ↔
          (s.stampOf s.nextIndex.toNat ≠ 0 ∧ s.m_Fence < s.stampOf s.nextIndex.toNat)) ∧
        (∀ v, Event.waitForFence v ∈ evs → v = s.stampOf s.nextIndex.toNat) ∧
        (∀ j, (Event.updateInstanceBuffers j ∈ evs ∨ Event.updateMatetialCBs j ∈ evs ∨
            Event.updatePassCB j ∈ evs) → j = s.nextIndex.toNat)) ∧
    (∀ s0 acts, Fresh s0 → run acts s0 = some s →
      s0.m_FenceCount + increments acts < UINT64_RANGE →
      ∃ s', Update s = some s' ∧
        QueueItem.execute (some s.nextIndex.toNat) ∉ s'.m_CommandQueue) := by
  constructor
  · intro s' h
    obtain ⟨fr, -, -, hfr, hcase⟩ := Update_eq_some h
    have hstamp : s.stampOf s.nextIndex.toNat = fr.m_Fence := by
      unfold D3DApp.stampOf
      rw [hfr]
    rcases hcase with ⟨hne, hlt, f, r, hg, rfl⟩ | ⟨hc, rfl⟩
    · have hreach := gpuRunUntil_reached _ _ _ _ hg
      refine ⟨rfl, ?_, ?_, _, List.append_assoc _ _ _, ?_, ?_, ?_⟩
      · simp only [D3DApp.currStamp, D3DApp.stampOf, hfr]
      · right
        simp only [D3DApp.currStamp, D3DApp.stampOf, hfr]
        exact hreach
      · rw [hstamp]
        constructor
        · intro _
          exact ⟨hne, hlt⟩
        · intro _
          exact ⟨fr.m_Fence, by simp⟩
      · intro v hv
        rw [hstamp]
        simpa using hv
      · intro j hj
        simp only [List.singleton_append, List.mem_cons, reduceCtorEq,
          Event.updateInstanceBuffers.injEq, Event.updateMatetialCBs.injEq,
          Event.updatePassCB.injEq, List.not_mem_nil, or_false, false_or] at hj
        rcases hj with hj | hj | hj <;> exact hj
    · refine ⟨rfl, ?_, ?_, _, rfl, ?_, ?_, ?_⟩
      · simp only [D3DApp.currStamp, D3DApp.stampOf, hfr]
      · simp only [D3DApp.currStamp, D3DApp.stampOf, hfr]
        by_cases hz : fr.m_Fence = 0
        · exact Or.inl hz
        · right
          by_contra hlt
          exact hc ⟨hz, by omega⟩
      · rw [hstamp]
        constructor
        · rintro ⟨v, hv⟩
          simp at hv
        · intro h'
          exact absurd h' hc
      · intro v hv
        simp at hv
      · intro j hj
        simp only [List.mem_cons, Event.updateInstanceBuffers.injEq, reduceCtorEq,
          Event.updateMatetialCBs.injEq, Event.updatePassCB.injEq, List.not_mem_nil, or_false,
          false_or] at hj
        rcases hj with hj | hj | hj <;> exact hj
  · intro s0 acts h0 hrun hc
    have hw := WellFormed.after_run acts s0 s h0.wellFormed hrun hc
    obtain ⟨s', hu, -, hidx, -, -, -, -, -, -, hq⟩ := hw.after_Update
    refine ⟨s', hu, ?_⟩
    rw [nextIndex_eq hw.index_nonneg hw.index_lt, ← hidx]
    exact hq

/-- C4: in a frame loop (every `Update` followed by exactly one `Draw`, with any GPU progress,
flushes and resizes in between) that starts from freshly built frame resources
and does not wrap the counter, every call returns, and from the return of an
`Update` until the next `Draw` at most `N - 1 = 2` submitted frames have a stamp
above the completed value of the fence. -/
theorem frame_loop_two_in_flight_after_Update (s0 : D3DApp) (acts : List Action)
    (h0 : Fresh s0) (hloop : frameLoop acts true = some false)
    (hc : s0.m_FenceCount + increments acts < UINT64_RANGE) :
    ∃ s, run acts s0 = some s ∧ s.inFlight ≤ 2 := by
  obtain ⟨s, hrun, hw, hl, -⟩ := run_drawsFollowUpdates acts s0 true false h0.wellFormed
    h0.loopInv (frameLoop_drawsFollowUpdates acts true false hloop) hc
  exact ⟨s, hrun, hl.inFlight_le_two hw⟩

/-- C5, amended: in a run of `Update` and `Draw` calls in which no `Draw` is called twice without
an `Update` in between (with any GPU progress, flushes and resizes, from freshly
built frame resources, the counter not wrapping), at every point of the run at
most `N = 3` submitted frames are uncompleted, and at most `N - 1 = 2` from the return
of an `Update` until the next `Draw`. -/
theorem in_flight_bound_at_every_point (s0 : D3DApp) (pre post : List Action) (p : Bool)
    (h0 : Fresh s0) (hp : drawsFollowUpdates (pre ++ post) true = some p)
    (hc : s0.m_FenceCount + increments (pre ++ post) < UINT64_RANGE) :
    ∃ s, run pre s0 = some s ∧ s.inFlight ≤ 3 ∧
      (drawsFollowUpdates pre true = some false → s.inFlight ≤ 2) := by
  obtain ⟨p1, hp1, -⟩ := drawsFollowUpdates_append pre post true p hp
  rw [increments_append] at hc
  obtain ⟨s, hrun, hw, hl, -⟩ := run_drawsFollowUpdates pre s0 true p1 h0.wellFormed
    h0.loopInv hp1 (by omega)
  refine ⟨s, hrun, hl.inFlight_le_three hw, ?_⟩
  intro hfalse
  rw [hp1] at hfalse
  simp only [Option.some.injEq] at hfalse
  subst hfalse
  exact hl.inFlight_le_two hw

/-- C6, amended: on a ring of three slots that were never drawn to (all stamps 0), any number
of `Update` calls in a row return without waiting, whatever the fence value is:
call `n` hands out slot `(i + n) mod 3`, so the fourth call hands out the slot of
the first again; fence, queue and stamps stay as they were. -/
theorem updates_without_draw_never_wait (s0 : D3DApp) (n : Nat)
    (hlen : s0.m_FrameResources.length = 3)
    (hall : ∀ fr ∈ s0.m_FrameResources, fr.m_Fence = 0)
    (h0 : 0 ≤ s0.m_CurrFrameResourceIndex) (h3 : s0.m_CurrFrameResourceIndex < 3) :
    ∃ s, run (List.replicate n Action.Update) s0 = some s ∧
      s.m_CurrFrameResourceIndex = (s0.m_CurrFrameResourceIndex + n) % 3 ∧
      (0 < n → s.m_CurrFrameResource = some ((s0.m_CurrFrameResourceIndex + n) % 3).toNat) ∧
      s.m_FrameResources = s0.m_FrameResources ∧
      s.m_Fence = s0.m_Fence ∧ s.m_CommandQueue = s0.m_CommandQueue ∧
      ∃ evs, s.trace = s0.trace ++ evs ∧ ∀ v, Event.waitForFence v ∉ evs :=
  run_updates_unstamped n s0 hlen hall h0 h3

/-- C9, amended: while `m_FenceCount` stays below `2 ^ 64`, it never decreases: after a run it is
its old value plus one for each `Draw` and each `FlushCommandQueue` (two for a
`ResizeBuffer`, which flushes twice); `Update` and the GPU leave it unchanged in
every state. -/
theorem counter_counts_draws_and_flushes (s s' : D3DApp) (acts : List Action)
    (hrun : run acts s = some s')
    (hc : s.m_FenceCount + increments acts < UINT64_RANGE) :
    s'.m_FenceCount = s.m_FenceCount + increments acts ∧
    s.m_FenceCount ≤ s'.m_FenceCount ∧
    (∀ t t', Update t = some t' → t'.m_FenceCount = t.m_FenceCount) ∧
    (∀ t, (gpuRetire t).m_FenceCount = t.m_FenceCount) ∧
    (∀ t t', t.m_FenceCount + 1 < UINT64_RANGE → Draw t = some t' →
      t'.m_FenceCount = t.m_FenceCount + 1) ∧
    (∀ t t', t.m_FenceCount + 1 < UINT64_RANGE → FlushCommandQueue t = some t' →
      t'.m_FenceCount = t.m_FenceCount + 1) := by
  have h := run_counter acts s s' hrun hc
  refine ⟨h, by omega, fun t t' ht => (Update_frame ht).1, fun t => (gpuRetire_frame t).1, ?_, ?_⟩
  · intro t t' hlt ht
    exact step_counter (a := Action.Draw) ht hlt
  · intro t t' hlt ht
    exact step_counter (a := Action.FlushCommandQueue) ht hlt

/-- C10, amended: in every state that a run of `Update`, `Draw`, `FlushCommandQueue` (and
`ResizeBuffer`, and GPU steps) reaches from freshly built frame resources, the
stamp of each slot is 0 if no `Draw` was made on the slot, and else the value the
counter had right after the last `Draw` on it; as long as the counter has not
wrapped, every stamp is at most the current counter; and right after a `Draw`
the stamp of the current slot equals the counter. -/
theorem stamps_record_counter_at_last_Draw (s0 s : D3DApp) (acts : List Action)
    (g : Nat → Option Nat) (h0 : Fresh s0)
    (hrun : runTracking acts s0 (fun _ => none) = some (s, g)) :
    (∀ i, s.stampOf i = (g i).getD 0) ∧
    (s0.m_FenceCount + increments acts < UINT64_RANGE → ∀ i, s.stampOf i ≤ s.m_FenceCount) ∧
    (∀ pre, acts = pre ++ [Action.Draw] → s.currStamp = s.m_FenceCount) := by
  have hr := runTracking_run acts s0 s _ g hrun
  refine ⟨runTracking_stamps acts s0 s _ g (fun i => by simp [h0.stampOf_eq_zero i]) hrun, ?_, ?_⟩
  · intro hc i
    exact (WellFormed.after_run acts s0 s h0.wellFormed hr hc).stamps_le i
  · intro pre hpre
    subst hpre
    rw [run_append] at hr
    cases hpre : run pre s0 with
    | none => simp [hpre] at hr
    | some s1 =>
      simp only [hpre, Option.some_bind, run, step] at hr
      split at hr
      · simp at hr
      rename_i s2 hd
      simp only [Option.some.injEq] at hr
      subst hr
      obtain ⟨i, -, -, hcur, -, hstamp⟩ := Draw_frame hd
      simp only [D3DApp.currStamp, hcur, hstamp i, if_pos]

/-! ## Concrete runs -/

/-- From the constructed object `Initialize` returns: three flushes have brought counter and
fence to 3, the ring holds three fresh frame resources, the queue is empty. -/
theorem Initialize_constructed :
    Initialize D3DApp.constructed = some initialApp ∧ Fresh initialApp ∧
    initialApp.m_FenceCount = 3 ∧ initialApp.m_CurrFrameResource = none := by
  decide

/-- C1, witness: after three frames that the GPU has not started on, `Update` returns (after
waiting for slot 1) and no queued command list reads slot 1 any more. -/
theorem Update_waits_for_selected_slot_witness :
    Fresh initialApp ∧
    ∃ s', Update stalledApp = some s' ∧
      QueueItem.execute (some stalledApp.nextIndex.toNat) ∉ s'.m_CommandQueue :=
  ⟨by decide,
    (Update_waits_for_selected_slot stalledApp).2 initialApp
      [Action.Update, Action.Draw, Action.Update, Action.Draw, Action.Update, Action.Draw]
      (by decide) (by decide) (by decide)⟩

/-- C2, witness: from ring index 2 `Update` goes back to slot 0. -/
theorem Update_advances_ring_witness :
    (0 : Int) ≤ 2 ∧ (2 : Int) < gNumFrameResources ∧
    ∀ s', Update { freshApp 3 with m_CurrFrameResourceIndex := 2 } = some s' →
      s'.m_CurrFrameResourceIndex = 0 ∧ s'.m_CurrFrameResource = some 0 :=
  ⟨by decide, by decide, fun s' h =>
    ⟨((Update_advances_ring { freshApp 3 with m_CurrFrameResourceIndex := 2 }
        (by decide) (by decide) (by decide)).1 s' h).1,
     ((Update_advances_ring { freshApp 3 with m_CurrFrameResourceIndex := 2 }
        (by decide) (by decide) (by decide)).1 s' h).2.1⟩⟩

/-- C3, witness: with the counter at 3 and the current pointer at slot 1, `Draw` returns with
the counter and the stamp of slot 1 at 4. -/
theorem Draw_stamps_current_slot_witness :
    updatedApp.m_CurrFrameResource = some 1 ∧ 1 < updatedApp.m_FrameResources.length ∧
    ∃ s', Draw updatedApp = some s' ∧ s'.m_FenceCount = 4 ∧ s'.stampOf 1 = 4 ∧
      s'.stampOf 0 = 0 ∧ s'.stampOf 2 = 0 := by
  obtain ⟨s', hd, hcount, -, -, hstamp, hother, -⟩ :=
    Draw_stamps_current_slot updatedApp 1 rfl (by decide)
  have h4 : s'.m_FenceCount = 4 := hcount.trans (by decide)
  exact ⟨rfl, by decide, s', hd, h4, hstamp.trans h4, (hother 0 (by decide)).trans (by decide),
    (hother 2 (by decide)).trans (by decide)⟩

/-- C4, witness: three frames that the GPU has not started on, then `Update`: the call
returns with two frames in flight. -/
theorem frame_loop_two_in_flight_after_Update_witness :
    Fresh initialApp ∧
    ∃ s, run [Action.Update, Action.Draw, Action.Update, Action.Draw, Action.Update,
        Action.Draw, Action.Update] initialApp = some s ∧ s.inFlight ≤ 2 :=
  ⟨by decide,
    frame_loop_two_in_flight_after_Update initialApp
      [Action.Update, Action.Draw, Action.Update, Action.Draw, Action.Update, Action.Draw,
       Action.Update] (by decide) (by decide) (by decide)⟩

/-- C5, counterexample: after the third `Draw` of a frame loop whose frames the GPU has not
started on, three frames are submitted and uncompleted, more than `N - 1 = 2`;
and four `Draw` calls in a row after one `Update` leave four. -/
theorem three_in_flight_after_third_Draw :
    (run [Action.Update, Action.Draw, Action.Update, Action.Draw, Action.Update, Action.Draw]
      initialApp).map D3DApp.inFlight = some 3 ∧
    (run [Action.Update, Action.Draw, Action.Draw, Action.Draw, Action.Draw]
      initialApp).map D3DApp.inFlight = some 4 := by
  decide

/-- C5, witness: the run of the counterexample stays within three frames in flight. -/
theorem in_flight_bound_at_every_point_witness :
    Fresh initialApp ∧
    ∃ s, run [Action.Update, Action.Draw, Action.Update, Action.Draw, Action.Update,
        Action.Draw] initialApp = some s ∧ s.inFlight ≤ 3 ∧
      (drawsFollowUpdates [Action.Update, Action.Draw, Action.Update, Action.Draw,
        Action.Update, Action.Draw] true = some false → s.inFlight ≤ 2) :=
  ⟨by decide,
    in_flight_bound_at_every_point initialApp
      [Action.Update, Action.Draw, Action.Update, Action.Draw, Action.Update, Action.Draw]
      [Action.gpuRetire, Action.Update] false (by decide) (by decide) (by decide)⟩

/-- C6, counterexample: ten `Update` calls in a row after `Initialize`, no `Draw`, the fence
never moving: all ten return, none waits, and the fourth hands out slot 1, the
slot that the first call handed out. -/
theorem fourth_Update_reuses_first_slot :
    (run [Action.Update] initialApp).map (fun s => s.m_CurrFrameResource) = some (some 1) ∧
    (run (List.replicate 4 Action.Update) initialApp).map
      (fun s => s.m_CurrFrameResource) = some (some 1) ∧
    (run (List.replicate 10 Action.Update) initialApp).map
      (fun s => ((s.trace.drop initialApp.trace.length).any Event.isWait, s.m_Fence)) =
      some (false, 3) := by
  decide

/-- C6, witness: ten `Update` calls in a row on fresh frame resources. -/
theorem updates_without_draw_never_wait_witness :
    (∀ fr ∈ (freshApp 3).m_FrameResources, fr.m_Fence = 0) ∧
    ∃ s, run (List.replicate 10 Action.Update) (freshApp 3) = some s ∧
      s.m_CurrFrameResourceIndex = 1 ∧ s.m_Fence = 3 := by
  obtain ⟨s, hrun, hidx, -, -, hf, -⟩ :=
    updates_without_draw_never_wait (freshApp 3) 10 (by decide) (by decide) (by decide)
      (by decide)
  exact ⟨by decide, s, hrun, hidx.trans (by decide), hf⟩

/-- C7, witness: a `Draw` with the counter at 3 stamps 4, and an `Update` on fresh frame
resources does not wait. -/
theorem zero_stamp_means_never_submitted_witness :
    updatedApp.m_FenceCount < UINT64_RANGE - 1 ∧
    (freshApp 3).stampOf (freshApp 3).nextIndex.toNat = 0 ∧
    (∃ s', Draw updatedApp = some s' ∧ 1 ≤ s'.stampOf 1) ∧
    ∃ t', Update (freshApp 3) = some t' ∧ t'.m_Fence = 3 := by
  obtain ⟨⟨s', hd, hs, -⟩, t', hu, hf, -⟩ :=
    zero_stamp_means_never_submitted updatedApp 1 rfl (by decide) (by decide) (freshApp 3)
      (by decide) (by decide) (by decide) (by decide)
  exact ⟨by decide, by decide, ⟨s', hd, hs⟩, t', hu, hf⟩

/-- C8, witness: the effects of a `Draw` on slot 1 contain the stamp and the signal of one
value. -/
theorem Draw_submits_before_stamping_witness :
    updatedApp.m_CurrFrameResource = some 1 ∧
    ∃ s' evs, Draw updatedApp = some s' ∧ s'.trace = updatedApp.trace ++ evs ∧
      ∃ v, Event.stamp 1 v ∈ evs ∧ Event.signal v ∈ evs := by
  obtain ⟨s', evs, hd, htr, hv, -⟩ := Draw_submits_before_stamping updatedApp 1 rfl (by decide)
  exact ⟨rfl, s', evs, hd, htr, hv⟩

/-- C9, counterexample: with `m_FenceCount` at `2 ^ 64 - 1`, the increment of
`FlushCommandQueue`, and that of `Draw`, wraps the counter to 0: it decreases. -/
theorem counter_wraps_to_zero :
    Fresh (freshApp UINT64_MAX) ∧
    (freshApp UINT64_MAX).m_FenceCount = 2 ^ 64 - 1 ∧
    (freshApp UINT64_MAX).m_FenceCount < UINT64_RANGE ∧
    (FlushCommandQueue (freshApp UINT64_MAX)).map (fun s => s.m_FenceCount) =
      some 0 ∧
    (run [Action.Update, Action.Draw] (freshApp UINT64_MAX)).map
      (fun s => s.m_FenceCount) = some 0 := by
  decide

/-- C9, witness: over three frames after `Initialize` the counter goes from 3 to 6. -/
theorem counter_counts_draws_and_flushes_witness :
    run [Action.Update, Action.Draw, Action.Update, Action.Draw, Action.Update, Action.Draw]
      initialApp = some stalledApp ∧
    stalledApp.m_FenceCount = initialApp.m_FenceCount + 3 :=
  ⟨by decide,
    (counter_counts_draws_and_flushes initialApp stalledApp
      [Action.Update, Action.Draw, Action.Update, Action.Draw, Action.Update, Action.Draw]
      (by decide) (by decide)).1⟩

/-- C10, counterexample: from freshly built frame resources with the counter at `2 ^ 64 - 2`,
two frames later slot 1 carries the stamp `2 ^ 64 - 1` while the counter has wrapped
to 0: a stamp above the current counter. -/
theorem stamp_above_counter_after_wrap :
    Fresh (freshApp (UINT64_MAX - 1)) ∧
    (run [Action.Update, Action.Draw, Action.Update, Action.Draw]
      (freshApp (UINT64_MAX - 1))).map (fun s => (s.stampOf 1, s.m_FenceCount)) =
      some (UINT64_MAX, 0) ∧
    ¬ (UINT64_MAX ≤ 0) := by
  decide

/-- C10, witness: one frame after `Initialize`. -/
theorem stamps_record_counter_at_last_Draw_witness :
    Fresh initialApp ∧
    ∃ s g, runTracking [Action.Update, Action.Draw] initialApp (fun _ => none) = some (s, g) ∧
      (∀ i, s.stampOf i = (g i).getD 0) ∧ (∀ i, s.stampOf i ≤ s.m_FenceCount) ∧
      s.currStamp = s.m_FenceCount := by
  refine ⟨by decide, ?_⟩
  cases h : runTracking [Action.Update, Action.Draw] initialApp (fun _ => none) with
  | none =>
    have hsome : (runTracking [Action.Update, Action.Draw] initialApp
        (fun _ => none)).isSome = true := by decide
    rw [h] at hsome
    simp at hsome
  | some r =>
    obtain ⟨s, g⟩ := r
    have hthm := stamps_record_counter_at_last_Draw initialApp s
      [Action.Update, Action.Draw] g (by decide) h
    exact ⟨s, g, rfl, hthm.1, hthm.2.1 (by decide), hthm.2.2 [Action.Update] rfl⟩

/-! ## The culling pass -/

theorem isVisible_iff (ext : External) (frustum : BoundingFrustum) (forceVisible : Bool)
    (invView : XMFLOAT4X4) (bounds : BoundingBox) (inst : InstanceData) :
    isVisible ext frustum forceVisible invView bounds inst = true ↔
      (instanceTest ext frustum invView bounds inst ≠ ContainmentType.DISJOINT
        ∨ forceVisible = true) := by
  unfold isVisible
  simp only [Bool.or_eq_true, decide_eq_true_eq]
  exact Or.comm

theorem visibleInstances_cons_of_visible {ext : External} {frustum : BoundingFrustum}
    {forceVisible : Bool} {invView : XMFLOAT4X4} {bounds : BoundingBox} {inst : InstanceData}
    (rest : List InstanceData)
    (h : isVisible ext frustum forceVisible invView bounds inst = true) :
    visibleInstances ext frustum forceVisible invView bounds (inst :: rest) =
      inst :: visibleInstances ext frustum forceVisible invView bounds rest := by
  unfold visibleInstances
  exact List.filter_cons_of_pos h

theorem visibleInstances_cons_of_hidden {ext : External} {frustum : BoundingFrustum}
    {forceVisible : Bool} {invView : XMFLOAT4X4} {bounds : BoundingBox} {inst : InstanceData}
    (rest : List InstanceData)
    (h : ¬ isVisible ext frustum forceVisible invView bounds inst = true) :
    visibleInstances ext frustum forceVisible invView bounds (inst :: rest) =
      visibleInstances ext frustum forceVisible invView bounds rest := by
  unfold visibleInstances
  exact List.filter_cons_of_neg h

theorem visibleInstances_append (ext : External) (frustum : BoundingFrustum)
    (forceVisible : Bool) (invView : XMFLOAT4X4) (bounds : BoundingBox)
    (l1 l2 : List InstanceData) :
    visibleInstances ext frustum forceVisible invView bounds (l1 ++ l2) =
      visibleInstances ext frustum forceVisible invView bounds l1 ++
        visibleInstances ext frustum forceVisible invView bounds l2 := by
  unfold visibleInstances
  exact List.filter_append l1 l2

theorem visibleInstances_length_le (ext : External) (frustum : BoundingFrustum)
    (forceVisible : Bool) (invView : XMFLOAT4X4) (bounds : BoundingBox)
    (l : List InstanceData) :
    (visibleInstances ext frustum forceVisible invView bounds l).length ≤ l.length := by
  unfold visibleInstances
  exact List.length_filter_le _ l

theorem visibleInstances_of_forced (ext : External) (frustum : BoundingFrustum)
    (invView : XMFLOAT4X4) (bounds : BoundingBox) (l : List InstanceData) :
    visibleInstances ext frustum true invView bounds l = l := by
  unfold visibleInstances
  apply List.filter_eq_self.2
  intro a _
  simp [isVisible]

theorem compacted_length {visible : List InstanceData} {buf : UploadBuffer InstanceConstants}
    (h : visible.length ≤ buf.length) : (compacted visible buf).length = buf.length := by
  unfold compacted
  simp only [List.length_append, List.length_map, List.length_drop]
  omega

theorem compacted_take (visible : List InstanceData) (buf : UploadBuffer InstanceConstants) :
    (compacted visible buf).take visible.length =
      visible.map (fun inst => some (instanceConstantsOf inst)) := by
  unfold compacted
  exact List.take_left' (List.length_map _ _)

theorem compacted_drop (visible : List InstanceData) (buf : UploadBuffer InstanceConstants) :
    (compacted visible buf).drop visible.length = buf.drop visible.length := by
  unfold compacted
  exact List.drop_left' (List.length_map _ _)

theorem instanceWrites_slot (slot : Nat) :
    ∀ (l : List InstanceData) (index : Nat), ∀ w ∈ instanceWrites slot index l, w.slot = slot
  | [], _, w, h => by simp [instanceWrites] at h
  | inst :: rest, index, w, h => by
    simp only [instanceWrites, List.mem_cons] at h
    rcases h with h | h
    · subst h; rfl
    · exact instanceWrites_slot slot rest (index + 1) w h

theorem instanceWrites_length (slot : Nat) :
    ∀ (l : List InstanceData) (index : Nat), (instanceWrites slot index l).length = l.length
  | [], _ => rfl
  | _ :: rest, index => by
    simp only [instanceWrites, List.length_cons, instanceWrites_length slot rest (index + 1)]

theorem instanceWrites_append (slot : Nat) :
    ∀ (l1 l2 : List InstanceData) (index : Nat),
      instanceWrites slot index (l1 ++ l2) =
        instanceWrites slot index l1 ++ instanceWrites slot (index + l1.length) l2
  | [], l2, index => by simp [instanceWrites]
  | inst :: rest, l2, index => by
    have h : index + 1 + rest.length = index + (rest.length + 1) := by omega
    have ih := instanceWrites_append slot rest l2 (index + 1)
    rw [h] at ih
    show BufferWrite.instanceCB slot index (instanceConstantsOf inst) ::
        instanceWrites slot (index + 1) (rest ++ l2) = _
    rw [ih]
    rfl

/-- The inner loop, with the part of the buffer before the running count split off: the visible
instances are stored behind that part, in order. -/
theorem cullInstances_split (ext : External) (frustum : BoundingFrustum) (forceVisible : Bool)
    (invView : XMFLOAT4X4) (bounds : BoundingBox) (slot : Nat) :
    ∀ (l : List InstanceData) (done todo : UploadBuffer InstanceConstants)
      (log : List BufferWrite),
      (visibleInstances ext frustum forceVisible invView bounds l).length ≤ todo.length →
      cullInstances ext frustum forceVisible invView bounds slot l (done ++ todo) done.length log =
        some (done ++ compacted (visibleInstances ext frustum forceVisible invView bounds l) todo,
          done.length + (visibleInstances ext frustum forceVisible invView bounds l).length,
          log ++ instanceWrites slot done.length
            (visibleInstances ext frustum forceVisible invView bounds l))
  | [], done, todo, log, _ => by
    simp [cullInstances, visibleInstances, compacted, instanceWrites]
  | inst :: rest, done, todo, log, h => by
    by_cases hv : isVisible ext frustum forceVisible invView bounds inst = true
    · rw [visibleInstances_cons_of_visible rest hv] at h ⊢
      have hc := (isVisible_iff ext frustum forceVisible invView bounds inst).1 hv
      cases todo with
      | nil => simp at h
      | cons t ts =>
        have hlen : (visibleInstances ext frustum forceVisible invView bounds rest).length
            ≤ ts.length := by
          simpa using h
        have ih := cullInstances_split ext frustum forceVisible invView bounds slot rest
          (done ++ [some (instanceConstantsOf inst)]) ts
          (log ++ [BufferWrite.instanceCB slot done.length (instanceConstantsOf inst)]) hlen
        have hset : (done ++ t :: ts).set done.length (some (instanceConstantsOf inst)) =
            (done ++ [some (instanceConstantsOf inst)]) ++ ts := by
          simp
        have hlt : done.length < (done ++ t :: ts).length := by simp
        unfold cullInstances
        rw [if_pos hc]
        unfold UploadBuffer.CopyData
        rw [if_pos hlt]
        dsimp only
        rw [hset]
        have hl : (done ++ [some (instanceConstantsOf inst)]).length = done.length + 1 := by simp
        rw [hl] at ih
        rw [ih]
        simp [compacted, instanceWrites, Nat.add_assoc, Nat.add_comm 1]
    · rw [visibleInstances_cons_of_hidden rest hv] at h ⊢
      have hc : ¬ (instanceTest ext frustum invView bounds inst ≠ ContainmentType.DISJOINT
          ∨ forceVisible = true) :=
        fun hc => hv ((isVisible_iff ext frustum forceVisible invView bounds inst).2 hc)
      unfold cullInstances
      rw [if_neg hc]
      exact cullInstances_split ext frustum forceVisible invView bounds slot rest done todo log h

/-- The inner loop from the count 0: the visible instances are stored at the start of the
buffer, in order, and counted. -/
theorem cullInstances_eq (ext : External) (frustum : BoundingFrustum) (forceVisible : Bool)
    (invView : XMFLOAT4X4) (bounds : BoundingBox) (slot : Nat) (l : List InstanceData)
    (buf : UploadBuffer InstanceConstants) (log : List BufferWrite)
    (h : (visibleInstances ext frustum forceVisible invView bounds l).length ≤ buf.length) :
    cullInstances ext frustum forceVisible invView bounds slot l buf 0 log =
      some (compacted (visibleInstances ext frustum forceVisible invView bounds l) buf,
        (visibleInstances ext frustum forceVisible invView bounds l).length,
        log ++ instanceWrites slot 0
          (visibleInstances ext frustum forceVisible invView bounds l)) := by
  have := cullInstances_split ext frustum forceVisible invView bounds slot l [] buf log h
  simpa using this

/-- The inner loop from any count within the buffer. -/
theorem cullInstances_from (ext : External) (frustum : BoundingFrustum) (forceVisible : Bool)
    (invView : XMFLOAT4X4) (bounds : BoundingBox) (slot : Nat) (l : List InstanceData)
    (buf : UploadBuffer InstanceConstants) (c : Nat) (log : List BufferWrite)
    (h : c + (visibleInstances ext frustum forceVisible invView bounds l).length ≤ buf.length) :
    cullInstances ext frustum forceVisible invView bounds slot l buf c log =
      some (buf.take c ++
          compacted (visibleInstances ext frustum forceVisible invView bounds l) (buf.drop c),
        c + (visibleInstances ext frustum forceVisible invView bounds l).length,
        log ++ instanceWrites slot c
          (visibleInstances ext frustum forceVisible invView bounds l)) := by
  have hc : (buf.take c).length = c := by
    rw [List.length_take]; omega
  have hd : (visibleInstances ext frustum forceVisible invView bounds l).length
      ≤ (buf.drop c).length := by
    rw [List.length_drop]; omega
  have := cullInstances_split ext frustum forceVisible invView bounds slot l
    (buf.take c) (buf.drop c) log hd
  rw [List.take_append_drop, hc] at this
  exact this

/-- The outer loop: every item is stored at the start of the one buffer and gets its count. -/
theorem cullItems_eq (ext : External) (frustum : BoundingFrustum) (forceVisible : Bool)
    (invView : XMFLOAT4X4) (slot : Nat) :
    ∀ (items : List RenderItem) (buf : UploadBuffer InstanceConstants) (skullCounts : Nat)
      (log : List BufferWrite),
      (∀ e ∈ items, e.Instances.length ≤ buf.length) →
      cullItems ext frustum forceVisible invView slot items buf skullCounts log =
        some
          (items.map (fun e => { e with InstanceCount :=
              (visibleInstances ext frustum forceVisible invView e.Bounds e.Instances).length }),
            items.foldl (fun b e => compacted
              (visibleInstances ext frustum forceVisible invView e.Bounds e.Instances) b) buf,
            items.foldl (fun _ e =>
              (visibleInstances ext frustum forceVisible invView e.Bounds e.Instances).length)
              skullCounts,
            items.foldl (fun lg e => lg ++ instanceWrites slot 0
              (visibleInstances ext frustum forceVisible invView e.Bounds e.Instances)) log)
  | [], _, _, _, _ => rfl
  | e :: rest, buf, skullCounts, log, h => by
    have he : e.Instances.length ≤ buf.length := h e (List.mem_cons_self _ _)
    have hv : (visibleInstances ext frustum forceVisible invView e.Bounds e.Instances).length
        ≤ buf.length :=
      Nat.le_trans (visibleInstances_length_le _ _ _ _ _ _) he
    have hrest : ∀ r ∈ rest, r.Instances.length ≤
        (compacted (visibleInstances ext frustum forceVisible invView e.Bounds e.Instances)
          buf).length := by
      intro r hr
      rw [compacted_length hv]
      exact h r (List.mem_cons_of_mem _ hr)
    unfold cullItems
    rw [cullInstances_eq ext frustum forceVisible invView e.Bounds slot e.Instances buf log hv]
    dsimp only
    rw [cullItems_eq ext frustum forceVisible invView slot rest _ _ _ hrest]
    rfl

/-- The outer loop over a list in two parts is the loop over the first part followed by the
loop over the second part. -/
theorem cullItems_append (ext : External) (frustum : BoundingFrustum) (forceVisible : Bool)
    (invView : XMFLOAT4X4) (slot : Nat) :
    ∀ (l1 l2 : List RenderItem) (buf : UploadBuffer InstanceConstants) (sc : Nat)
      (log : List BufferWrite),
      cullItems ext frustum forceVisible invView slot (l1 ++ l2) buf sc log =
        match cullItems ext frustum forceVisible invView slot l1 buf sc log with
        | none => none
        | some (r1, b1, c1, lg1) =>
          match cullItems ext frustum forceVisible invView slot l2 b1 c1 lg1 with
          | none => none
          | some (r2, b2, c2, lg2) => some (r1 ++ r2, b2, c2, lg2)
  | [], l2, buf, sc, log => by
    rw [List.nil_append]
    conv => rhs; rw [cullItems]
    dsimp only
    cases cullItems ext frustum forceVisible invView slot l2 buf sc log with
    | none => rfl
    | some r => rfl
  | e :: rest, l2, buf, sc, log => by
    rw [List.cons_append, cullItems]
    conv => rhs; rw [cullItems]
    cases hi : cullInstances ext frustum forceVisible invView e.Bounds slot e.Instances buf 0 log
      with
    | none => rfl
    | some r =>
      obtain ⟨buf1, cnt, log1⟩ := r
      dsimp only
      rw [cullItems_append ext frustum forceVisible invView slot rest l2 buf1 cnt log1]
      cases cullItems ext frustum forceVisible invView slot rest buf1 cnt log1 with
      | none => rfl
      | some r1 =>
        obtain ⟨rest1, b1, c1, lg1⟩ := r1
        dsimp only
        cases cullItems ext frustum forceVisible invView slot l2 b1 c1 lg1 with
        | none => rfl
        | some r2 => rfl

theorem foldl_compacted_length (V : RenderItem → List InstanceData) :
    ∀ (items : List RenderItem) (buf : UploadBuffer InstanceConstants),
      (∀ e ∈ items, (V e).length ≤ buf.length) →
      (items.foldl (fun b e => compacted (V e) b) buf).length = buf.length
  | [], _, _ => rfl
  | e :: rest, buf, h => by
    have he := h e (List.mem_cons_self _ _)
    rw [List.foldl_cons, foldl_compacted_length V rest]
    · exact compacted_length he
    · intro r hr
      rw [compacted_length he]
      exact h r (List.mem_cons_of_mem _ hr)

/-- The function `UpdateInstanceBuffers` returns whenever the current slot has an instance
buffer with room for the instances of every item, and this is its result. -/
theorem UpdateInstanceBuffers_eq (ext : External) (s : App) (slot : Nat) (fb : FrameBuffers)
    (hcur : s.m_CurrFrameResource = some slot) (hfb : s.buffers.get? slot = some fb)
    (hcap : ∀ e ∈ s.m_AllRItems, e.Instances.length ≤ fb.m_InstCB.length) :
    UpdateInstanceBuffers ext s = some { s with
      m_AllRItems := s.m_AllRItems.map
        (fun e => { e with InstanceCount := (s.visibleOf ext e).length }),
      m_SkullCounts :=
        s.m_AllRItems.foldl (fun _ e => (s.visibleOf ext e).length) s.m_SkullCounts,
      buffers := s.buffers.set slot { fb with
        m_InstCB := s.m_AllRItems.foldl (fun b e => compacted (s.visibleOf ext e) b)
          fb.m_InstCB },
      writes := s.m_AllRItems.foldl
        (fun lg e => lg ++ instanceWrites slot 0 (s.visibleOf ext e)) s.writes } := by
  unfold UpdateInstanceBuffers
  rw [hcur]
  dsimp only
  rw [hfb]
  dsimp only
  rw [cullItems_eq ext s.m_LocalProjFrustum s.m_isFrustumCulling
    (ext.XMMatrixInverse s.m_Camera.View) slot s.m_AllRItems fb.m_InstCB s.m_SkullCounts
    s.writes hcap]
  rfl

theorem foldl_writes_eq_append (slot : Nat) (V : RenderItem → List InstanceData) :
    ∀ (items : List RenderItem) (log : List BufferWrite),
      ∃ ws, items.foldl (fun lg e => lg ++ instanceWrites slot 0 (V e)) log = log ++ ws ∧
        ∀ w ∈ ws, w.slot = slot
  | [], log => ⟨[], by simp, by simp⟩
  | e :: rest, log => by
    obtain ⟨ws, h1, h2⟩ := foldl_writes_eq_append slot V rest
      (log ++ instanceWrites slot 0 (V e))
    refine ⟨instanceWrites slot 0 (V e) ++ ws, ?_, ?_⟩
    · rw [List.foldl_cons, h1, List.append_assoc]
    · intro w hw
      rcases List.mem_append.1 hw with hw | hw
      · exact instanceWrites_slot slot _ _ w hw
      · exact h2 w hw

theorem cullInstances_cons (ext : External) (frustum : BoundingFrustum) (forceVisible : Bool)
    (invView : XMFLOAT4X4) (bounds : BoundingBox) (slot : Nat) (inst : InstanceData)
    (rest : List InstanceData) (buf : UploadBuffer InstanceConstants) (c : Nat)
    (log : List BufferWrite) :
    cullInstances ext frustum forceVisible invView bounds slot (inst :: rest) buf c log =
      if instanceTest ext frustum invView bounds inst ≠ ContainmentType.DISJOINT
          ∨ forceVisible = true then
        match buf.CopyData c (instanceConstantsOf inst) with
        | none => none
        | some buf1 =>
          cullInstances ext frustum forceVisible invView bounds slot rest buf1 (c + 1)
            (log ++ [BufferWrite.instanceCB slot c (instanceConstantsOf inst)])
      else cullInstances ext frustum forceVisible invView bounds slot rest buf c log := by
  rw [cullInstances]

/-- The inner loop over a list in two parts is the loop over the first part followed by the
loop over the second part. -/
theorem cullInstances_append (ext : External) (frustum : BoundingFrustum) (forceVisible : Bool)
    (invView : XMFLOAT4X4) (bounds : BoundingBox) (slot : Nat) :
    ∀ (l1 l2 : List InstanceData) (buf : UploadBuffer InstanceConstants) (c : Nat)
      (log : List BufferWrite),
      cullInstances ext frustum forceVisible invView bounds slot (l1 ++ l2) buf c log =
        match cullInstances ext frustum forceVisible invView bounds slot l1 buf c log with
        | none => none
        | some (b, c1, lg) =>
          cullInstances ext frustum forceVisible invView bounds slot l2 b c1 lg
  | [], l2, buf, c, log => by simp [cullInstances]
  | inst :: rest, l2, buf, c, log => by
    rw [List.cons_append, cullInstances_cons, cullInstances_cons]
    split
    · cases hcopy : buf.CopyData c (instanceConstantsOf inst) with
      | none => rfl
      | some buf1 =>
        exact cullInstances_append ext frustum forceVisible invView bounds slot rest l2 _ _ _
    · exact cullInstances_append ext frustum forceVisible invView bounds slot rest l2 _ _ _

theorem ContainmentType.ne_DISJOINT_iff (t : ContainmentType) :
    t ≠ ContainmentType.DISJOINT ↔
      (t = ContainmentType.INTERSECTS ∨ t = ContainmentType.CONTAINS) := by
  cases t <;> simp

/-! ## The claims about the culling pass -/

/-- C11: in the instance loop of `UpdateInstanceBuffers`, the turn of an instance `inst` (reached
after the instances `pre` with the buffer `bufP`, the count `cP` and the writes
`logP`) stores the instance at element `cP` and counts it if and only if the flag
`m_isFrustumCulling` is set or the test of the box of the item against the frustum
transformed by `invView * invWorld` is not `DISJOINT`; it leaves buffer, count and
writes as they were if and only if the flag is not set and the test is `DISJOINT`.
`INTERSECTS` and `CONTAINS` both count. -/
theorem instance_visible_iff_forced_or_not_disjoint (ext : External)
    (frustum : BoundingFrustum) (forceVisible : Bool) (invView : XMFLOAT4X4)
    (bounds : BoundingBox) (slot : Nat) (pre : List InstanceData) (inst : InstanceData)
    (buf : UploadBuffer InstanceConstants) (c : Nat) (log : List BufferWrite)
    (hcap : c + (pre.length + 1) ≤ buf.length) :
    ∃ bufP cP logP buf1 c1 log1,
      cullInstances ext frustum forceVisible invView bounds slot pre buf c log
        = some (bufP, cP, logP) ∧
      cullInstances ext frustum forceVisible invView bounds slot (pre ++ [inst]) buf c log
        = some (buf1, c1, log1) ∧
      ((c1 = cP + 1 ∧
          buf1.get? cP = some (some
            { World := XMMatrixTranspose inst.World,
              TexTransform := XMMatrixTranspose inst.TexTransform,
              MaterialIndex := inst.MaterialIndex }) ∧
          (∀ i, i ≠ cP → buf1.get? i = bufP.get? i) ∧
          log1 = logP ++ [BufferWrite.instanceCB slot cP
            { World := XMMatrixTranspose inst.World,
              TexTransform := XMMatrixTranspose inst.TexTransform,
              MaterialIndex := inst.MaterialIndex }]) ↔
        (forceVisible = true ∨
          ext.Contains (ext.Transform frustum
            (ext.XMMatrixMultiply invView (ext.XMMatrixInverse inst.World))) bounds
            ≠ ContainmentType.DISJOINT)) ∧
      ((c1 = cP ∧ buf1 = bufP ∧ log1 = logP) ↔
        (forceVisible = false ∧
          ext.Contains (ext.Transform frustum
            (ext.XMMatrixMultiply invView (ext.XMMatrixInverse inst.World))) bounds
            = ContainmentType.DISJOINT)) ∧
      ((ext.Contains (ext.Transform frustum
            (ext.XMMatrixMultiply invView (ext.XMMatrixInverse inst.World))) bounds
            = ContainmentType.INTERSECTS ∨
          ext.Contains (ext.Transform frustum
            (ext.XMMatrixMultiply invView (ext.XMMatrixInverse inst.World))) bounds
            = ContainmentType.CONTAINS) → c1 = cP + 1) := by
  have hvis := visibleInstances_length_le ext frustum forceVisible invView bounds pre
  have hpre := cullInstances_from ext frustum forceVisible invView bounds slot pre buf c log
    (by omega)
  have hlenP : (buf.take c ++ compacted
      (visibleInstances ext frustum forceVisible invView bounds pre) (buf.drop c)).length
      = buf.length := by
    rw [List.length_append, compacted_length (by rw [List.length_drop]; omega),
      List.length_take, List.length_drop]
    omega
  generalize hbP : buf.take c ++ compacted
      (visibleInstances ext frustum forceVisible invView bounds pre) (buf.drop c) = bufP
    at hpre hlenP
  generalize hcP : c + (visibleInstances ext frustum forceVisible invView bounds pre).length
    = cP at hpre
  generalize hlP : log ++ instanceWrites slot c
      (visibleInstances ext frustum forceVisible invView bounds pre) = logP at hpre
  have hlt : cP < bufP.length := by omega
  have happ := cullInstances_append ext frustum forceVisible invView bounds slot pre [inst]
    buf c log
  rw [hpre] at happ
  dsimp only at happ
  have htest : instanceTest ext frustum invView bounds inst =
      ext.Contains (ext.Transform frustum
        (ext.XMMatrixMultiply invView (ext.XMMatrixInverse inst.World))) bounds := rfl
  rw [← htest]
  by_cases hc : instanceTest ext frustum invView bounds inst ≠ ContainmentType.DISJOINT
      ∨ forceVisible = true
  · have hstep : cullInstances ext frustum forceVisible invView bounds slot [inst] bufP cP logP
        = some (bufP.set cP (some (instanceConstantsOf inst)), cP + 1,
            logP ++ [BufferWrite.instanceCB slot cP (instanceConstantsOf inst)]) := by
      unfold cullInstances
      rw [if_pos hc]
      unfold UploadBuffer.CopyData
      rw [if_pos hlt]
      rfl
    rw [hstep] at happ
    refine ⟨bufP, cP, logP, _, _, _, hpre, happ, ?_, ?_, ?_⟩
    · constructor
      · intro _
        rcases hc with h | h
        · exact Or.inr h
        · exact Or.inl h
      · intro _
        refine ⟨rfl, ?_, ?_, rfl⟩
        · rw [List.get?_eq_getElem?, List.getElem?_set, if_pos rfl, if_pos hlt]
          rfl
        · intro i hi
          rw [List.get?_eq_getElem?, List.get?_eq_getElem?, List.getElem?_set,
            if_neg (fun h => hi h.symm)]
    · constructor
      · intro h
        omega
      · intro h
        rcases hc with h1 | h1
        · exact absurd h.2 h1
        · rw [h.1] at h1
          exact absurd h1 (by decide)
    · intro _
      rfl
  · have hstep : cullInstances ext frustum forceVisible invView bounds slot [inst] bufP cP logP
        = some (bufP, cP, logP) := by
      unfold cullInstances
      rw [if_neg hc]
      rfl
    rw [hstep] at happ
    have hflag : forceVisible = false := by
      cases forceVisible
      · rfl
      · exact absurd (Or.inr rfl) hc
    have hdis : instanceTest ext frustum invView bounds inst = ContainmentType.DISJOINT := by
      by_contra h
      exact hc (Or.inl h)
    refine ⟨bufP, cP, logP, _, _, _, hpre, happ, ?_, ?_, ?_⟩
    · constructor
      · intro h
        omega
      · intro h
        rcases h with h | h
        · rw [hflag] at h
          exact absurd h (by decide)
        · exact absurd hdis h
    · constructor
      · intro _
        exact ⟨hflag, hdis⟩
      · intro _
        exact ⟨rfl, rfl, rfl⟩
    · intro h
      rw [hdis] at h
      rcases h with h | h <;> exact absurd h (by decide)

theorem get?_append_same_left {α : Type} (A r0 r1 : List α) (i : Nat) (h : i < A.length) :
    (A ++ r1).get? i = (A ++ r0).get? i := by
  rw [List.get?_eq_getElem?, List.get?_eq_getElem?, List.getElem?_append_left h,
    List.getElem?_append_left h]

theorem get?_append_cons_shift {α : Type} (A T : List α) (x : α) (i : Nat)
    (h : A.length ≤ i) : (A ++ x :: T).get? (i + 1) = (A ++ T).get? i := by
  rw [List.get?_eq_getElem?, List.get?_eq_getElem?,
    List.getElem?_append_right (by omega), List.getElem?_append_right h]
  have : i + 1 - A.length = (i - A.length) + 1 := by omega
  rw [this, List.getElem?_cons_succ]

theorem get?_append_cons_self {α : Type} (A T : List α) (x : α) :
    (A ++ x :: T).get? A.length = some x := by
  rw [List.get?_eq_getElem?, List.getElem?_append_right (Nat.le_refl _)]
  simp

/-- C13: with the flag `m_isFrustumCulling` not set, an instance whose test is `DISJOINT`
contributes nothing: the loop over the instances with it gives the same buffer,
count and writes as the loop over the instances without it. An instance whose
test is `INTERSECTS` or `CONTAINS` contributes exactly one entry: the count and the
number of writes are one more than without it, the entry stands at the count `cP`
reached before its turn, the entries before are the same, and the entries of
the later instances move up by one element. -/
theorem disjoint_contributes_nothing_overlap_one (ext : External)
    (frustum : BoundingFrustum) (invView : XMFLOAT4X4) (bounds : BoundingBox) (slot : Nat)
    (pre post : List InstanceData) (inst : InstanceData)
    (buf : UploadBuffer InstanceConstants) (c : Nat) (log : List BufferWrite)
    (hcap : c + (pre.length + 1 + post.length) ≤ buf.length) :
    ∃ bufP cP logP b0 c0 log0 b1 c1 log1,
      cullInstances ext frustum false invView bounds slot pre buf c log
        = some (bufP, cP, logP) ∧
      cullInstances ext frustum false invView bounds slot (pre ++ post) buf c log
        = some (b0, c0, log0) ∧
      cullInstances ext frustum false invView bounds slot (pre ++ inst :: post) buf c log
        = some (b1, c1, log1) ∧
      (ext.Contains (ext.Transform frustum
          (ext.XMMatrixMultiply invView (ext.XMMatrixInverse inst.World))) bounds
          = ContainmentType.DISJOINT →
        b1 = b0 ∧ c1 = c0 ∧ log1 = log0) ∧
      ((ext.Contains (ext.Transform frustum
            (ext.XMMatrixMultiply invView (ext.XMMatrixInverse inst.World))) bounds
            = ContainmentType.INTERSECTS ∨
          ext.Contains (ext.Transform frustum
            (ext.XMMatrixMultiply invView (ext.XMMatrixInverse inst.World))) bounds
            = ContainmentType.CONTAINS) →
        c1 = c0 + 1 ∧ log1.length = log0.length + 1 ∧
        b1.get? cP = some (some
          { World := XMMatrixTranspose inst.World,
            TexTransform := XMMatrixTranspose inst.TexTransform,
            MaterialIndex := inst.MaterialIndex }) ∧
        (∀ i, i < cP → b1.get? i = b0.get? i) ∧
        (∀ i, cP ≤ i → i < c0 → b1.get? (i + 1) = b0.get? i)) := by
  have hp := visibleInstances_length_le ext frustum false invView bounds pre
  have hq := visibleInstances_length_le ext frustum false invView bounds post
  have hpre := cullInstances_from ext frustum false invView bounds slot pre buf c log
    (by omega)
  have h0 := cullInstances_from ext frustum false invView bounds slot (pre ++ post) buf c log
    (by rw [visibleInstances_append, List.length_append]; omega)
  have htest : instanceTest ext frustum invView bounds inst =
      ext.Contains (ext.Transform frustum
        (ext.XMMatrixMultiply invView (ext.XMMatrixInverse inst.World))) bounds := rfl
  rw [← htest]
  by_cases hv : isVisible ext frustum false invView bounds inst = true
  · have hnd : instanceTest ext frustum invView bounds inst ≠ ContainmentType.DISJOINT := by
      rcases (isVisible_iff ext frustum false invView bounds inst).1 hv with h | h
      · exact h
      · exact absurd h (by decide)
    have hV : visibleInstances ext frustum false invView bounds (pre ++ inst :: post) =
        visibleInstances ext frustum false invView bounds pre ++
          inst :: visibleInstances ext frustum false invView bounds post := by
      rw [visibleInstances_append, visibleInstances_cons_of_visible post hv]
    have h1 := cullInstances_from ext frustum false invView bounds slot (pre ++ inst :: post)
      buf c log (by rw [hV, List.length_append, List.length_cons]; omega)
    refine ⟨_, _, _, _, _, _, _, _, _, hpre, h0, h1, ?_, ?_⟩
    · intro h
      exact absurd h hnd
    · intro _
      rw [hV, visibleInstances_append]
      generalize visibleInstances ext frustum false invView bounds pre = Vp at hp
      generalize visibleInstances ext frustum false invView bounds post = Vq at hq
      have hA : (buf.take c ++ Vp.map (fun i => some (instanceConstantsOf i))).length
          = c + Vp.length := by
        rw [List.length_append, List.length_take, List.length_map]
        omega
      have e0 : buf.take c ++ compacted (Vp ++ Vq) (buf.drop c) =
          (buf.take c ++ Vp.map (fun i => some (instanceConstantsOf i))) ++
            (Vq.map (fun i => some (instanceConstantsOf i)) ++
              (buf.drop c).drop (Vp ++ Vq).length) := by
        simp [compacted, List.append_assoc]
      have e1 : buf.take c ++ compacted (Vp ++ inst :: Vq) (buf.drop c) =
          (buf.take c ++ Vp.map (fun i => some (instanceConstantsOf i))) ++
            some (instanceConstantsOf inst) ::
              (Vq.map (fun i => some (instanceConstantsOf i)) ++
                (buf.drop c).drop (Vp ++ inst :: Vq).length) := by
        simp [compacted, List.append_assoc]
      rw [e0, e1]
      refine ⟨?_, ?_, ?_, ?_, ?_⟩
      · simp only [List.length_append, List.length_cons]
        omega
      · simp only [List.length_append, List.length_cons, instanceWrites_length]
        omega
      · rw [← hA]
        exact get?_append_cons_self _ _ _
      · intro i hi
        exact get?_append_same_left _ _ _ i (by rw [hA]; exact hi)
      · intro i hi1 hi2
        rw [get?_append_cons_shift _ _ _ i (by rw [hA]; exact hi1)]
        rw [← List.append_assoc, ← List.append_assoc _ _ ((buf.drop c).drop (Vp ++ Vq).length)]
        apply get?_append_same_left
        simp only [List.length_append, List.length_map, List.length_take] at hi2 ⊢
        omega
  · have hdis : instanceTest ext frustum invView bounds inst = ContainmentType.DISJOINT := by
      by_contra h
      exact hv ((isVisible_iff ext frustum false invView bounds inst).2 (Or.inl h))
    have hV : visibleInstances ext frustum false invView bounds (pre ++ inst :: post) =
        visibleInstances ext frustum false invView bounds (pre ++ post) := by
      rw [visibleInstances_append, visibleInstances_cons_of_hidden post hv,
        visibleInstances_append]
    have h1 := cullInstances_from ext frustum false invView bounds slot (pre ++ inst :: post)
      buf c log (by rw [hV, visibleInstances_append, List.length_append]; omega)
    rw [hV] at h1
    refine ⟨_, _, _, _, _, _, _, _, _, hpre, h0, h1, ?_, ?_⟩
    · intro _
      exact ⟨rfl, rfl, rfl⟩
    · intro h
      rw [hdis] at h
      rcases h with h | h <;> exact absurd h (by decide)

theorem get?_set_self_of_get? {α : Type} (l : List α) (i : Nat) (a b : α)
    (h : l.get? i = some a) : (l.set i b).get? i = some b := by
  have hlt : i < l.length := by
    rw [List.get?_eq_getElem?] at h
    exact (List.getElem?_eq_some_iff.1 h).1
  rw [List.get?_eq_getElem?, List.getElem?_set, if_pos rfl, if_pos hlt]

theorem get?_set_of_ne {α : Type} (l : List α) (i j : Nat) (b : α) (h : j ≠ i) :
    (l.set i b).get? j = l.get? j := by
  rw [List.get?_eq_getElem?, List.get?_eq_getElem?, List.getElem?_set,
    if_neg (fun hij => h hij.symm)]

theorem drawItems_singleton (s : App) (slot i : Nat) (ri : RenderItem)
    (h : s.m_AllRItems.get? i = some ri) :
    drawItems s slot [i] = some
      [{ instanceBufferSlot := slot, instanceBufferStart := 0, IndexCount := ri.IndexCount,
         InstanceCount := ri.InstanceCount, StartIndexLocation := ri.StartIndexLocation,
         BaseVertexLocation := ri.BaseVertexLocation, StartInstanceLocation := 0 }] := by
  rw [drawItems, h]
  rfl

/-- C12: after `UpdateInstanceBuffers` has worked on a render item `e` (with the items `front`
handled before it), the first `InstanceCount` elements of the instance buffer of the
current slot are the visible instances of `e` (the sub-sequence of `e.Instances` that
passes the visibility test) in their order, each as the transposed world matrix,
the transposed texture transform and the material index; `InstanceCount` and
`m_SkullCounts` are the number of visible instances, and the draw of the item binds
that buffer at its start with this count. This is the state in which the function
returns when `e` is the last item (in the scene of `BuildRenderItems` the only one),
and it returns whenever the current slot has an instance buffer with room for
the instances of every item; with further items `back` behind `e` it is the state
from which the function goes on with `back`. -/
theorem instance_buffer_holds_visible_in_order (ext : External) (s : App) (slot : Nat)
    (fb : FrameBuffers) (front : List RenderItem) (e : RenderItem)
    (hcur : s.m_CurrFrameResource = some slot) (hfb : s.buffers.get? slot = some fb)
    (hitems : s.m_AllRItems = front ++ [e])
    (hcap : ∀ r ∈ s.m_AllRItems, r.Instances.length ≤ fb.m_InstCB.length) :
    ∃ s' fb' front',
      UpdateInstanceBuffers ext s = some s' ∧
      s'.buffers.get? slot = some fb' ∧
      front'.length = front.length ∧
      s'.m_AllRItems = front' ++ [{ e with InstanceCount := (s.visibleOf ext e).length }] ∧
      s.visibleOf ext e = e.Instances.filter (fun inst =>
        s.m_isFrustumCulling ||
          decide (ext.Contains (ext.Transform s.m_LocalProjFrustum
            (ext.XMMatrixMultiply (ext.XMMatrixInverse s.m_Camera.View)
              (ext.XMMatrixInverse inst.World))) e.Bounds ≠ ContainmentType.DISJOINT)) ∧
      fb'.m_InstCB.take (s.visibleOf ext e).length =
        (s.visibleOf ext e).map (fun inst => some
          { World := XMMatrixTranspose inst.World,
            TexTransform := XMMatrixTranspose inst.TexTransform,
            MaterialIndex := inst.MaterialIndex }) ∧
      fb'.m_InstCB.length = fb.m_InstCB.length ∧
      s'.m_SkullCounts = (s.visibleOf ext e).length ∧
      DrawRenderItems s' [front.length] = some
        [{ instanceBufferSlot := slot, instanceBufferStart := 0, IndexCount := e.IndexCount,
           InstanceCount := (s.visibleOf ext e).length,
           StartIndexLocation := e.StartIndexLocation,
           BaseVertexLocation := e.BaseVertexLocation, StartInstanceLocation := 0 }] ∧
      (∀ back : List RenderItem,
        UpdateInstanceBuffers ext { s with m_AllRItems := front ++ e :: back } =
          match cullItems ext s.m_LocalProjFrustum s.m_isFrustumCulling
              (ext.XMMatrixInverse s.m_Camera.View) slot back fb'.m_InstCB s'.m_SkullCounts
              s'.writes with
          | none => none
          | some (rest, buf, skullCounts, log) =>
            some { s with
              m_AllRItems := s'.m_AllRItems ++ rest,
              m_SkullCounts := skullCounts,
              buffers := s.buffers.set slot { fb with m_InstCB := buf },
              writes := log }) := by
  have hres := UpdateInstanceBuffers_eq ext s slot fb hcur hfb hcap
  have hcapV : ∀ r ∈ s.m_AllRItems, (s.visibleOf ext r).length ≤ fb.m_InstCB.length :=
    fun r hr => Nat.le_trans (visibleInstances_length_le _ _ _ _ _ _) (hcap r hr)
  have hlen := foldl_compacted_length (fun r => s.visibleOf ext r) s.m_AllRItems fb.m_InstCB hcapV
  have hget := get?_set_self_of_get? s.buffers slot fb
    { fb with
      m_InstCB := s.m_AllRItems.foldl (fun b r => compacted (s.visibleOf ext r) b)
        fb.m_InstCB } hfb
  refine ⟨_, _, front.map (fun r => { r with InstanceCount := (s.visibleOf ext r).length }),
    hres, hget, List.length_map _ _, ?_, rfl, ?_, hlen, ?_, ?_, ?_⟩
  · show s.m_AllRItems.map _ = _
    rw [hitems, List.map_append]
    rfl
  · show (s.m_AllRItems.foldl (fun b r => compacted (s.visibleOf ext r) b) fb.m_InstCB).take _
      = _
    rw [hitems, List.foldl_append]
    exact compacted_take _ _
  · show s.m_AllRItems.foldl (fun _ r => (s.visibleOf ext r).length) s.m_SkullCounts = _
    rw [hitems, List.foldl_append]
    rfl
  · unfold DrawRenderItems
    have hc : ({ s with
        m_AllRItems := s.m_AllRItems.map
          (fun e => { e with InstanceCount := (s.visibleOf ext e).length }),
        m_SkullCounts :=
          s.m_AllRItems.foldl (fun _ e => (s.visibleOf ext e).length) s.m_SkullCounts,
        buffers := s.buffers.set slot { fb with
          m_InstCB := s.m_AllRItems.foldl (fun b e => compacted (s.visibleOf ext e) b)
            fb.m_InstCB },
        writes := s.m_AllRItems.foldl
          (fun lg e => lg ++ instanceWrites slot 0 (s.visibleOf ext e)) s.writes }
          : App).m_CurrFrameResource = some slot := hcur
    rw [hc]
    dsimp only
    rw [hget]
    dsimp only
    refine drawItems_singleton _ slot front.length
      { e with InstanceCount := (s.visibleOf ext e).length } ?_
    show (s.m_AllRItems.map _).get? front.length = _
    rw [hitems, List.map_append, List.get?_eq_getElem?,
      List.getElem?_append_right (by simp)]
    simp
  · intro back
    have hsplit : front ++ e :: back = (front ++ [e]) ++ back := by simp
    have hprefix := cullItems_eq ext s.m_LocalProjFrustum s.m_isFrustumCulling
      (ext.XMMatrixInverse s.m_Camera.View) slot (front ++ [e]) fb.m_InstCB s.m_SkullCounts
      s.writes (by rw [← hitems]; exact hcap)
    unfold UpdateInstanceBuffers
    dsimp only
    rw [hcur]
    dsimp only
    rw [hfb]
    dsimp only
    rw [hsplit, cullItems_append, hprefix]
    dsimp only
    rw [hitems]
    unfold App.visibleOf
    generalize cullItems ext s.m_LocalProjFrustum s.m_isFrustumCulling
      (ext.XMMatrixInverse s.m_Camera.View) slot back _ _ _ = r
    cases r with
    | none => rfl
    | some r => rfl


theorem visibleOf_of_forced (ext : External) (s : App) (e : RenderItem)
    (h : s.m_isFrustumCulling = true) : s.visibleOf ext e = e.Instances := by
  unfold App.visibleOf
  rw [h]
  exact visibleInstances_of_forced _ _ _ _ _

theorem visibleOf_eq_filter (ext : External) (s : App) (e : RenderItem) :
    s.visibleOf ext e = e.Instances.filter (fun inst =>
      s.m_isFrustumCulling ||
        decide (ext.Contains (ext.Transform s.m_LocalProjFrustum
          (ext.XMMatrixMultiply (ext.XMMatrixInverse s.m_Camera.View)
            (ext.XMMatrixInverse inst.World))) e.Bounds ≠ ContainmentType.DISJOINT)) := rfl

theorem visibleOf_of_culling (ext : External) (s : App) (e : RenderItem)
    (h : s.m_isFrustumCulling = false) :
    s.visibleOf ext e = e.Instances.filter (fun inst =>
      decide (ext.Contains (ext.Transform s.m_LocalProjFrustum
        (ext.XMMatrixMultiply (ext.XMMatrixInverse s.m_Camera.View)
          (ext.XMMatrixInverse inst.World))) e.Bounds ≠ ContainmentType.DISJOINT)) := by
  rw [visibleOf_eq_filter, h]
  simp only [Bool.false_or]

theorem drawItems_calls (s : App) (slot : Nat) :
    ∀ (rItem : List Nat) (calls : List DrawCall), drawItems s slot rItem = some calls →
      calls.length = rItem.length ∧
      ∀ d ∈ calls, d.instanceBufferSlot = slot ∧ d.instanceBufferStart = 0 ∧
        d.StartInstanceLocation = 0
  | [], calls, h => by
    rw [drawItems] at h
    cases h
    simp
  | i :: rest, calls, h => by
    rw [drawItems] at h
    cases hi : s.m_AllRItems.get? i with
    | none => rw [hi] at h; cases h
    | some ri =>
      rw [hi] at h
      dsimp only at h
      cases hr : drawItems s slot rest with
      | none => rw [hr] at h; cases h
      | some tail =>
        rw [hr] at h
        cases h
        obtain ⟨h1, h2⟩ := drawItems_calls s slot rest tail hr
        refine ⟨by simp [h1], ?_⟩
        intro d hd
        rcases List.mem_cons.1 hd with hd | hd
        · subst hd
          exact ⟨rfl, rfl, rfl⟩
        · exact h2 d hd

theorem DrawRenderItems_calls {s : App} {rItem : List Nat} {calls : List DrawCall}
    (h : DrawRenderItems s rItem = some calls) :
    ∃ slot, s.m_CurrFrameResource = some slot ∧ calls.length = rItem.length ∧
      ∀ d ∈ calls, d.instanceBufferSlot = slot ∧ d.instanceBufferStart = 0 ∧
        d.StartInstanceLocation = 0 := by
  unfold DrawRenderItems at h
  cases hc : s.m_CurrFrameResource with
  | none => rw [hc] at h; cases h
  | some slot =>
    rw [hc] at h
    dsimp only at h
    cases hb : s.buffers.get? slot with
    | none => rw [hb] at h; cases h
    | some fb =>
      rw [hb] at h
      exact ⟨slot, rfl, drawItems_calls s slot rItem calls h⟩

/-! ## The claims about the flag, the matrices and several items -/

/-- C15, amended: the flag `m_isFrustumCulling` forces visibility. When it is true,
`UpdateInstanceBuffers` counts and writes every instance of every item, whatever the
tests say; when it is false, it counts and writes exactly the instances whose
test is not `DISJOINT`. The window title shows the flag as `"Off"` when it is
true and as `"On"` when it is false, and key `F` toggles it. -/
theorem flag_true_shows_all_false_culls (ext : External) (s : App) (slot : Nat)
    (fb : FrameBuffers)
    (hcur : s.m_CurrFrameResource = some slot) (hfb : s.buffers.get? slot = some fb)
    (hcap : ∀ e ∈ s.m_AllRItems, e.Instances.length ≤ fb.m_InstCB.length) :
    ∃ s', UpdateInstanceBuffers ext s = some s' ∧
      (s.m_isFrustumCulling = true →
        s'.m_AllRItems = s.m_AllRItems.map
          (fun e => { e with InstanceCount := e.Instances.length }) ∧
        s'.writes = s.m_AllRItems.foldl
          (fun lg e => lg ++ instanceWrites slot 0 e.Instances) s.writes) ∧
      (s.m_isFrustumCulling = false →
        s'.m_AllRItems = s.m_AllRItems.map
          (fun e => { e with InstanceCount := (e.Instances.filter (fun inst =>
            decide (ext.Contains (ext.Transform s.m_LocalProjFrustum
              (ext.XMMatrixMultiply (ext.XMMatrixInverse s.m_Camera.View)
                (ext.XMMatrixInverse inst.World))) e.Bounds
                ≠ ContainmentType.DISJOINT))).length }) ∧
        s'.writes = s.m_AllRItems.foldl
          (fun lg e => lg ++ instanceWrites slot 0 (e.Instances.filter (fun inst =>
            decide (ext.Contains (ext.Transform s.m_LocalProjFrustum
              (ext.XMMatrixMultiply (ext.XMMatrixInverse s.m_Camera.View)
                (ext.XMMatrixInverse inst.World))) e.Bounds
                ≠ ContainmentType.DISJOINT)))) s.writes) ∧
      (∀ input : FrameInput, input.TotalTime - s.elapsedTime ≥ 1 →
        (UpdateWindowTitle input s).windowTitle.map (fun t => t.frustumCulling) =
          some (if s.m_isFrustumCulling = true then "Off" else "On")) ∧
      (∀ input : FrameInput, (OnKeyboardInput ext input s).m_isFrustumCulling =
        if input.keyF = true then !s.m_isFrustumCulling else s.m_isFrustumCulling) := by
  refine ⟨_, UpdateInstanceBuffers_eq ext s slot fb hcur hfb hcap, ?_, ?_, ?_, ?_⟩
  · intro hflag
    have hV : (fun e : RenderItem => s.visibleOf ext e) = fun e => e.Instances :=
      funext fun e => visibleOf_of_forced ext s e hflag
    constructor
    · show s.m_AllRItems.map
        (fun e => { e with InstanceCount := ((fun e => s.visibleOf ext e) e).length }) = _
      rw [hV]
    · show s.m_AllRItems.foldl
        (fun lg e => lg ++ instanceWrites slot 0 ((fun e => s.visibleOf ext e) e)) s.writes = _
      rw [hV]
  · intro hflag
    have hV : (fun e : RenderItem => s.visibleOf ext e) = fun e =>
        e.Instances.filter (fun inst =>
          decide (ext.Contains (ext.Transform s.m_LocalProjFrustum
            (ext.XMMatrixMultiply (ext.XMMatrixInverse s.m_Camera.View)
              (ext.XMMatrixInverse inst.World))) e.Bounds ≠ ContainmentType.DISJOINT)) :=
      funext fun e => visibleOf_of_culling ext s e hflag
    constructor
    · show s.m_AllRItems.map
        (fun e => { e with InstanceCount := ((fun e => s.visibleOf ext e) e).length }) = _
      rw [hV]
    · show s.m_AllRItems.foldl
        (fun lg e => lg ++ instanceWrites slot 0 ((fun e => s.visibleOf ext e) e)) s.writes = _
      rw [hV]
  · intro input hin
    unfold UpdateWindowTitle
    rw [if_pos hin]
    cases s.m_isFrustumCulling <;> rfl
  · intro input
    rfl

/-- C18, amended: `UpdateInstanceBuffers` has no abort and never looks at a determinant.
Whatever the view matrix and the world matrices are, invertible or not, it returns
whenever the current slot has an instance buffer with room for the instances of
every item, the frame pipeline part of the object is as before, and the count
of every item is the number of its instances that pass the test made with
whatever `XMMatrixInverse` returned. -/
theorem UpdateInstanceBuffers_never_aborts (ext : External) (s : App) (slot : Nat)
    (fb : FrameBuffers)
    (hcur : s.m_CurrFrameResource = some slot) (hfb : s.buffers.get? slot = some fb)
    (hcap : ∀ e ∈ s.m_AllRItems, e.Instances.length ≤ fb.m_InstCB.length) :
    ∃ s', UpdateInstanceBuffers ext s = some s' ∧
      s'.toD3DApp = s.toD3DApp ∧
      s'.m_AllRItems.map (fun e => e.InstanceCount) =
        s.m_AllRItems.map (fun e => (e.Instances.filter (fun inst =>
          s.m_isFrustumCulling ||
            decide (ext.Contains (ext.Transform s.m_LocalProjFrustum
              (ext.XMMatrixMultiply (ext.XMMatrixInverse s.m_Camera.View)
                (ext.XMMatrixInverse inst.World))) e.Bounds
                ≠ ContainmentType.DISJOINT))).length) := by
  refine ⟨_, UpdateInstanceBuffers_eq ext s slot fb hcur hfb hcap, rfl, ?_⟩
  show (s.m_AllRItems.map _).map _ = _
  rw [List.map_map]
  rfl

/-- C19, amended: after `UpdateInstanceBuffers` has processed several render items, every item
has as `InstanceCount` the number of its visible instances, but the items do not
use disjoint regions: every item is stored from element 0 of the one instance
buffer of the slot, and `DrawRenderItems` binds that buffer at element 0 for every
item. The first `InstanceCount` elements of the buffer are the visible instances
of the item processed last; each item with a visible instance has written
element 0. -/
theorem items_share_region_last_item_kept (ext : External) (s : App) (slot : Nat)
    (fb : FrameBuffers) (front : List RenderItem) (e : RenderItem)
    (hcur : s.m_CurrFrameResource = some slot) (hfb : s.buffers.get? slot = some fb)
    (hitems : s.m_AllRItems = front ++ [e])
    (hcap : ∀ r ∈ s.m_AllRItems, r.Instances.length ≤ fb.m_InstCB.length) :
    ∃ s' fb',
      UpdateInstanceBuffers ext s = some s' ∧
      s'.buffers.get? slot = some fb' ∧
      s'.m_AllRItems.map (fun r => r.InstanceCount) =
        s.m_AllRItems.map (fun r => (s.visibleOf ext r).length) ∧
      fb'.m_InstCB.take (s.visibleOf ext e).length =
        (s.visibleOf ext e).map (fun inst => some (instanceConstantsOf inst)) ∧
      (∃ ws, s'.writes = s.writes ++ ws ∧
        ∀ r ∈ s.m_AllRItems, ∀ inst ∈ (s.visibleOf ext r).head?,
          BufferWrite.instanceCB slot 0 (instanceConstantsOf inst) ∈ ws) ∧
      (∀ rItem calls, DrawRenderItems s' rItem = some calls →
        ∀ d ∈ calls, d.instanceBufferSlot = slot ∧ d.instanceBufferStart = 0 ∧
          d.StartInstanceLocation = 0) := by
  have hres := UpdateInstanceBuffers_eq ext s slot fb hcur hfb hcap
  have hget := get?_set_self_of_get? s.buffers slot fb
    { fb with
      m_InstCB := s.m_AllRItems.foldl (fun b r => compacted (s.visibleOf ext r) b)
        fb.m_InstCB } hfb
  refine ⟨_, _, hres, hget, ?_, ?_, ?_, ?_⟩
  · show (s.m_AllRItems.map _).map _ = _
    rw [List.map_map]
    rfl
  · show (s.m_AllRItems.foldl (fun b r => compacted (s.visibleOf ext r) b) fb.m_InstCB).take _
      = _
    rw [hitems, List.foldl_append]
    exact compacted_take _ _
  · show ∃ ws, s.m_AllRItems.foldl
        (fun lg r => lg ++ instanceWrites slot 0 (s.visibleOf ext r)) s.writes = s.writes ++ ws ∧ _
    generalize s.writes = log
    generalize s.m_AllRItems = items
    induction items generalizing log with
    | nil => exact ⟨[], by simp, by simp⟩
    | cons r rest ih =>
      obtain ⟨ws, h1, h2⟩ := ih (log ++ instanceWrites slot 0 (s.visibleOf ext r))
      refine ⟨instanceWrites slot 0 (s.visibleOf ext r) ++ ws, ?_, ?_⟩
      · rw [List.foldl_cons, h1, List.append_assoc]
      · intro r' hr' inst hinst
        rcases List.mem_cons.1 hr' with hr' | hr'
        · subst hr'
          apply List.mem_append_left
          cases hV : s.visibleOf ext r' with
          | nil => rw [hV] at hinst; simp at hinst
          | cons v vs =>
            rw [hV] at hinst
            simp only [List.head?_cons, Option.mem_def, Option.some.injEq] at hinst
            subst hinst
            simp [instanceWrites]
        · exact List.mem_append_right _ (h2 r' hr' inst hinst)
  · intro rItem calls hcalls
    obtain ⟨slot', hs, _, hd⟩ := DrawRenderItems_calls hcalls
    have : slot' = slot := by
      have h2 : (some slot' : Option Nat) = some slot := hs.symm.trans hcur
      exact Option.some.inj h2
    subst this
    exact hd


/-! ## Concrete scenes -/

/-- C11, witness: with the flag not set, an instance whose point box lies inside the frustum is
counted after an instance before it. -/
theorem instance_visible_iff_forced_or_not_disjoint_witness :
    0 + ([plainInstance 0].length + 1) ≤
        (List.replicate 4 none : UploadBuffer InstanceConstants).length ∧
    ∃ bufP cP logP buf1 c1 log1,
      cullInstances axisLibrary viewFrustum false 1 (pointBox 5) 0 [plainInstance 0]
        (List.replicate 4 none) 0 [] = some (bufP, cP, logP) ∧
      cullInstances axisLibrary viewFrustum false 1 (pointBox 5) 0
        ([plainInstance 0] ++ [plainInstance 1]) (List.replicate 4 none) 0 []
        = some (buf1, c1, log1) ∧
      (axisLibrary.Contains (axisLibrary.Transform viewFrustum
          (axisLibrary.XMMatrixMultiply 1 (axisLibrary.XMMatrixInverse (plainInstance 1).World)))
          (pointBox 5) = ContainmentType.CONTAINS → c1 = cP + 1) :=
  ⟨by decide,
    let ⟨bufP, cP, logP, buf1, c1, log1, h1, h2, _, _, h5⟩ :=
      instance_visible_iff_forced_or_not_disjoint axisLibrary viewFrustum false 1 (pointBox 5) 0
        [plainInstance 0] (plainInstance 1) (List.replicate 4 none) 0 [] (by decide)
    ⟨bufP, cP, logP, buf1, c1, log1, h1, h2, fun h => h5 (Or.inr h)⟩⟩

/-- C12, witness: a scene of two items, the first behind the eye and the second in front of it,
with buffers of four instance elements. -/
theorem instance_buffer_holds_visible_in_order_witness :
    (sceneApp [plainItem (-10) [0], plainItem 5 [0, 1]] false 1).m_CurrFrameResource = some 0 ∧
    (sceneApp [plainItem (-10) [0], plainItem 5 [0, 1]] false 1).buffers.get? 0
      = some (FrameBuffers.create 1 4 2) ∧
    ∃ s' fb',
      UpdateInstanceBuffers axisLibrary
        (sceneApp [plainItem (-10) [0], plainItem 5 [0, 1]] false 1) = some s' ∧
      s'.buffers.get? 0 = some fb' ∧
      fb'.m_InstCB.length = 4 ∧
      s'.m_SkullCounts =
        ((sceneApp [plainItem (-10) [0], plainItem 5 [0, 1]] false 1).visibleOf axisLibrary
          (plainItem 5 [0, 1])).length :=
  ⟨rfl, rfl,
    let ⟨s', fb', _, h1, h2, _, _, _, _, h7, h8, _⟩ :=
      instance_buffer_holds_visible_in_order axisLibrary
        (sceneApp [plainItem (-10) [0], plainItem 5 [0, 1]] false 1) 0
        (FrameBuffers.create 1 4 2) [plainItem (-10) [0]] (plainItem 5 [0, 1]) rfl rfl rfl
        (by decide)
    ⟨s', fb', h1, h2, h7, h8⟩⟩

/-- C13, witness: with the flag not set and the box behind the eye, an instance between two
others contributes nothing. -/
theorem disjoint_contributes_nothing_overlap_one_witness :
    0 + ([plainInstance 0].length + 1 + [plainInstance 2].length) ≤
        (List.replicate 4 none : UploadBuffer InstanceConstants).length ∧
    ∃ b0 c0 log0 b1 c1 log1,
      cullInstances axisLibrary viewFrustum false 1 (pointBox (-10)) 0
        ([plainInstance 0] ++ [plainInstance 2]) (List.replicate 4 none) 0 []
        = some (b0, c0, log0) ∧
      cullInstances axisLibrary viewFrustum false 1 (pointBox (-10)) 0
        ([plainInstance 0] ++ plainInstance 1 :: [plainInstance 2]) (List.replicate 4 none) 0 []
        = some (b1, c1, log1) ∧
      b1 = b0 ∧ c1 = c0 ∧ log1 = log0 :=
  ⟨by decide,
    let ⟨_, _, _, b0, c0, log0, b1, c1, log1, _, h2, h3, h4, _⟩ :=
      disjoint_contributes_nothing_overlap_one axisLibrary viewFrustum 1 (pointBox (-10)) 0
        [plainInstance 0] [plainInstance 2] (plainInstance 1) (List.replicate 4 none) 0 []
        (by decide)
    ⟨b0, c0, log0, b1, c1, log1, h2, h3, h4 (by decide)⟩⟩

/-- C15, counterexample: in a scene whose two instances both test `DISJOINT`, the flag being
false writes and counts none of them (not every one), and the flag being true
writes and counts both (not only the ones that are not `DISJOINT`). -/
theorem flag_false_culls_and_true_shows_disjoint :
    (∀ inst ∈ (plainItem (-10) [0, 1]).Instances,
      instanceTest axisLibrary viewFrustum 1 (pointBox (-10)) inst
        = ContainmentType.DISJOINT) ∧
    (UpdateInstanceBuffers axisLibrary (sceneApp [plainItem (-10) [0, 1]] false 1)).map
      (fun s' => (s'.m_SkullCounts, s'.m_AllRItems.map (fun e => e.InstanceCount),
        s'.writes.length)) = some (0, [0], 0) ∧
    (UpdateInstanceBuffers axisLibrary (sceneApp [plainItem (-10) [0, 1]] true 1)).map
      (fun s' => (s'.m_SkullCounts, s'.m_AllRItems.map (fun e => e.InstanceCount),
        s'.writes.length)) = some (2, [2], 2) := by
  decide

/-- C15, witness: with the flag set, the two instances of an item behind the eye are counted. -/
theorem flag_true_shows_all_false_culls_witness :
    (sceneApp [plainItem (-10) [0, 1]] true 1).m_CurrFrameResource = some 0 ∧
    (sceneApp [plainItem (-10) [0, 1]] true 1).buffers.get? 0
      = some (FrameBuffers.create 1 4 2) ∧
    ∃ s', UpdateInstanceBuffers axisLibrary (sceneApp [plainItem (-10) [0, 1]] true 1)
        = some s' ∧
      s'.m_AllRItems = (sceneApp [plainItem (-10) [0, 1]] true 1).m_AllRItems.map
        (fun e => { e with InstanceCount := e.Instances.length }) :=
  ⟨rfl, rfl,
    let ⟨s', h1, h2, _⟩ :=
      flag_true_shows_all_false_culls axisLibrary (sceneApp [plainItem (-10) [0, 1]] true 1) 0
        (FrameBuffers.create 1 4 2) rfl rfl (by decide)
    ⟨s', h1, (h2 rfl).1⟩⟩

/-- C18, counterexample: with a view matrix and a world matrix of determinant 0,
`UpdateInstanceBuffers` returns as in any other frame; nothing aborts. -/
theorem singular_matrices_do_not_abort :
    Matrix.det (sceneApp
      [{ plainItem 5 [] with Instances := [{ plainInstance 0 with World := 0 }] }] false
        0).m_Camera.View = 0 ∧
    (∀ r ∈ (sceneApp
        [{ plainItem 5 [] with Instances := [{ plainInstance 0 with World := 0 }] }] false
          0).m_AllRItems,
      ∀ inst ∈ r.Instances, Matrix.det inst.World = 0) ∧
    (UpdateInstanceBuffers axisLibrary (sceneApp
      [{ plainItem 5 [] with Instances := [{ plainInstance 0 with World := 0 }] }] false
        0)).isSome = true := by
  refine ⟨?_, ?_, by decide⟩
  · show Matrix.det (0 : XMFLOAT4X4) = 0
    simp
  · intro r hr inst hinst
    simp only [sceneApp, List.mem_singleton] at hr
    subst hr
    simp only [List.mem_singleton] at hinst
    subst hinst
    show Matrix.det (0 : XMFLOAT4X4) = 0
    simp

/-- C18, witness: a scene whose view matrix is the zero matrix. -/
theorem UpdateInstanceBuffers_never_aborts_witness :
    (sceneApp [plainItem 5 [0, 1]] false 0).m_CurrFrameResource = some 0 ∧
    (sceneApp [plainItem 5 [0, 1]] false 0).buffers.get? 0
      = some (FrameBuffers.create 1 4 2) ∧
    Matrix.det (sceneApp [plainItem 5 [0, 1]] false 0).m_Camera.View = 0 ∧
    ∃ s', UpdateInstanceBuffers axisLibrary (sceneApp [plainItem 5 [0, 1]] false 0) = some s' ∧
      s'.toD3DApp = (sceneApp [plainItem 5 [0, 1]] false 0).toD3DApp :=
  ⟨rfl, rfl, by show Matrix.det (0 : XMFLOAT4X4) = 0; simp,
    let ⟨s', h1, h2, _⟩ :=
      UpdateInstanceBuffers_never_aborts axisLibrary (sceneApp [plainItem 5 [0, 1]] false 0) 0
        (FrameBuffers.create 1 4 2) rfl rfl (by decide)
    ⟨s', h1, h2⟩⟩

/-- C19, counterexample: with two render items of one visible instance each (of material 0 and
of material 1), both items are drawn from element 0 of the buffer of slot 0 with
the count 1, and that element holds the instance of the second item: the entry
of the first item was overwritten. -/
theorem later_item_overwrites_earlier_item :
    ((sceneApp [plainItem 5 [0], plainItem 6 [1]] false 1).m_AllRItems.map
      (fun r => ((sceneApp [plainItem 5 [0], plainItem 6 [1]] false 1).visibleOf axisLibrary
        r).map (fun inst => inst.MaterialIndex))) = [[0], [1]] ∧
    (UpdateInstanceBuffers axisLibrary
      (sceneApp [plainItem 5 [0], plainItem 6 [1]] false 1)).map
      (fun s' =>
        ((DrawRenderItems s' s'.mRitemLayer).map (fun calls => calls.map
          (fun d => (d.instanceBufferSlot, d.instanceBufferStart, d.InstanceCount))),
         (s'.buffers.get? 0).map (fun fb' => fb'.m_InstCB.map
          (fun entry => entry.map (fun c => c.MaterialIndex)))))
      = some (some [(0, 0, 1), (0, 0, 1)], some [some 1, none, none, none]) := by
  decide

/-- C19, witness: a scene of two items with one visible instance each. -/
theorem items_share_region_last_item_kept_witness :
    (sceneApp [plainItem 5 [0], plainItem 6 [1]] false 1).m_CurrFrameResource = some 0 ∧
    (sceneApp [plainItem 5 [0], plainItem 6 [1]] false 1).buffers.get? 0
      = some (FrameBuffers.create 1 4 2) ∧
    ∃ s' fb',
      UpdateInstanceBuffers axisLibrary (sceneApp [plainItem 5 [0], plainItem 6 [1]] false 1)
        = some s' ∧
      s'.buffers.get? 0 = some fb' ∧
      fb'.m_InstCB.take
          ((sceneApp [plainItem 5 [0], plainItem 6 [1]] false 1).visibleOf axisLibrary
            (plainItem 6 [1])).length =
        ((sceneApp [plainItem 5 [0], plainItem 6 [1]] false 1).visibleOf axisLibrary
          (plainItem 6 [1])).map (fun inst => some (instanceConstantsOf inst)) :=
  ⟨rfl, rfl,
    let ⟨s', fb', h1, h2, _, h4, _⟩ :=
      items_share_region_last_item_kept axisLibrary
        (sceneApp [plainItem 5 [0], plainItem 6 [1]] false 1) 0 (FrameBuffers.create 1 4 2)
        [plainItem 5 [0]] (plainItem 6 [1]) rfl rfl rfl (by decide)
    ⟨s', fb', h1, h2, h4⟩⟩


/-! ## What a returning `Update` has done -/

theorem CopyData_eq_some {T : Type} {b b1 : UploadBuffer T} {i : Nat} {x : T}
    (h : b.CopyData i x = some b1) : i < b.length ∧ b1 = b.set i (some x) := by
  unfold UploadBuffer.CopyData at h
  by_cases hlt : i < b.length
  · rw [if_pos hlt] at h
    exact ⟨hlt, (Option.some.inj h).symm⟩
  · rw [if_neg hlt] at h
    cases h

theorem cullInstances_log (ext : External) (frustum : BoundingFrustum) (forceVisible : Bool)
    (invView : XMFLOAT4X4) (bounds : BoundingBox) (slot : Nat) :
    ∀ (l : List InstanceData) (buf : UploadBuffer InstanceConstants) (c : Nat)
      (log : List BufferWrite) (b : UploadBuffer InstanceConstants) (c1 : Nat)
      (lg : List BufferWrite),
      cullInstances ext frustum forceVisible invView bounds slot l buf c log = some (b, c1, lg) →
      b.length = buf.length ∧
        ∃ ws, lg = log ++ ws ∧ ∀ w ∈ ws, w.slot = slot ∧ w.isMaterial = false
  | [], buf, c, log, b, c1, lg, h => by
    rw [cullInstances] at h
    cases h
    exact ⟨rfl, [], by simp, by simp⟩
  | inst :: rest, buf, c, log, b, c1, lg, h => by
    rw [cullInstances_cons] at h
    split at h
    · cases hcopy : buf.CopyData c (instanceConstantsOf inst) with
      | none => rw [hcopy] at h; cases h
      | some buf1 =>
        rw [hcopy] at h
        dsimp only at h
        obtain ⟨_, hb1⟩ := CopyData_eq_some hcopy
        subst hb1
        obtain ⟨h1, ws, h2, h3⟩ := cullInstances_log ext frustum forceVisible invView bounds slot
          rest _ _ _ b c1 lg h
        refine ⟨by rw [h1, List.length_set], _ :: ws, by rw [h2, List.append_assoc]; rfl, ?_⟩
        intro w hw
        rcases List.mem_cons.1 hw with hw | hw
        · subst hw
          exact ⟨rfl, rfl⟩
        · exact h3 w hw
    · exact cullInstances_log ext frustum forceVisible invView bounds slot rest buf c log b c1 lg h

theorem cullItems_log (ext : External) (frustum : BoundingFrustum) (forceVisible : Bool)
    (invView : XMFLOAT4X4) (slot : Nat) :
    ∀ (items : List RenderItem) (buf : UploadBuffer InstanceConstants) (sc : Nat)
      (log : List BufferWrite) (items1 : List RenderItem) (b : UploadBuffer InstanceConstants)
      (sc1 : Nat) (lg : List BufferWrite),
      cullItems ext frustum forceVisible invView slot items buf sc log
        = some (items1, b, sc1, lg) →
      b.length = buf.length ∧
        items1.map (fun e => e.Instances) = items.map (fun e => e.Instances) ∧
        ∃ ws, lg = log ++ ws ∧ ∀ w ∈ ws, w.slot = slot ∧ w.isMaterial = false
  | [], buf, sc, log, items1, b, sc1, lg, h => by
    rw [cullItems] at h
    cases h
    exact ⟨rfl, rfl, [], by simp, by simp⟩
  | e :: rest, buf, sc, log, items1, b, sc1, lg, h => by
    rw [cullItems] at h
    cases hi : cullInstances ext frustum forceVisible invView e.Bounds slot e.Instances buf 0 log
      with
    | none => rw [hi] at h; cases h
    | some r =>
      obtain ⟨buf1, cnt, log1⟩ := r
      rw [hi] at h
      dsimp only at h
      cases hr : cullItems ext frustum forceVisible invView slot rest buf1 cnt log1 with
      | none => rw [hr] at h; cases h
      | some r2 =>
        obtain ⟨rest1, buf2, sc2, log2⟩ := r2
        rw [hr] at h
        cases h
        obtain ⟨h1, ws1, h2, h3⟩ := cullInstances_log ext frustum forceVisible invView e.Bounds
          slot e.Instances buf 0 log buf1 cnt log1 hi
        obtain ⟨h4, h5, ws2, h6, h7⟩ := cullItems_log ext frustum forceVisible invView slot rest
          buf1 cnt log1 rest1 b sc1 lg hr
        refine ⟨by rw [h4, h1], by simp [h5], ws1 ++ ws2, by rw [h6, h2, List.append_assoc], ?_⟩
        intro w hw
        rcases List.mem_append.1 hw with hw | hw
        · exact h3 w hw
        · exact h7 w hw

theorem UpdateInstanceBuffers_inv {ext : External} {s s' : App}
    (h : UpdateInstanceBuffers ext s = some s') :
    ∃ slot fb items sc buf ws,
      s.m_CurrFrameResource = some slot ∧ s.buffers.get? slot = some fb ∧
      buf.length = fb.m_InstCB.length ∧
      items.map (fun e => e.Instances) = s.m_AllRItems.map (fun e => e.Instances) ∧
      (∀ w ∈ ws, w.slot = slot ∧ w.isMaterial = false) ∧
      s' = { s with
        m_AllRItems := items, m_SkullCounts := sc,
        buffers := s.buffers.set slot { fb with m_InstCB := buf },
        writes := s.writes ++ ws } := by
  unfold UpdateInstanceBuffers at h
  cases hc : s.m_CurrFrameResource with
  | none => rw [hc] at h; cases h
  | some slot =>
    rw [hc] at h
    dsimp only at h
    cases hb : s.buffers.get? slot with
    | none => rw [hb] at h; cases h
    | some fb =>
      rw [hb] at h
      dsimp only at h
      cases hr : cullItems ext s.m_LocalProjFrustum s.m_isFrustumCulling
          (ext.XMMatrixInverse s.m_Camera.View) slot s.m_AllRItems fb.m_InstCB s.m_SkullCounts
          s.writes with
      | none => rw [hr] at h; cases h
      | some r =>
        obtain ⟨items, buf, sc, lg⟩ := r
        rw [hr] at h
        cases h
        obtain ⟨h1, h2, ws, h3, h4⟩ := cullItems_log ext _ _ _ slot _ _ _ _ _ _ _ _ hr
        subst h3
        exact ⟨slot, fb, items, sc, buf, ws, rfl, hb, h1, h2, h4, rfl⟩

theorem materialsStored_length :
    ∀ (l : List Material) (buf : UploadBuffer MaterialConstants),
      (materialsStored l buf).length = buf.length
  | [], _ => rfl
  | m :: rest, buf => by
    rw [materialsStored]
    split
    · rw [materialsStored_length rest, List.length_set]
    · exact materialsStored_length rest buf

theorem updateMaterials_inv (slot : Nat) :
    ∀ (l : List Material) (buf : UploadBuffer MaterialConstants) (log : List BufferWrite)
      (l1 : List Material) (b : UploadBuffer MaterialConstants) (lg : List BufferWrite),
      updateMaterials slot l buf log = some (l1, b, lg) →
      l1 = l.map Material.afterUpdate ∧ b = materialsStored l buf ∧
        lg = log ++ materialWrites slot l
  | [], buf, log, l1, b, lg, h => by
    rw [updateMaterials] at h
    cases h
    exact ⟨rfl, rfl, by simp [materialWrites]⟩
  | m :: rest, buf, log, l1, b, lg, h => by
    rw [updateMaterials] at h
    by_cases hd : m.NumFramesDirty > 0
    · rw [if_pos hd] at h
      cases hcopy : buf.CopyData m.MatCBIndex (materialConstantsOf m) with
      | none => rw [hcopy] at h; cases h
      | some buf1 =>
        rw [hcopy] at h
        dsimp only at h
        obtain ⟨_, hb1⟩ := CopyData_eq_some hcopy
        subst hb1
        cases hr : updateMaterials slot rest (buf.set m.MatCBIndex (some (materialConstantsOf m)))
            (log ++ [BufferWrite.materialVB slot m.MatCBIndex (materialConstantsOf m)]) with
        | none => rw [hr] at h; cases h
        | some r =>
          obtain ⟨rest1, buf2, log2⟩ := r
          rw [hr] at h
          cases h
          obtain ⟨h1, h2, h3⟩ := updateMaterials_inv slot rest _ _ _ _ _ hr
          refine ⟨?_, ?_, ?_⟩
          · rw [h1, List.map_cons, Material.afterUpdate, if_pos hd]
          · rw [h2, materialsStored, if_pos hd]
          · rw [h3, materialWrites, if_pos hd, List.append_assoc]
            rfl
    · rw [if_neg hd] at h
      cases hr : updateMaterials slot rest buf log with
      | none => rw [hr] at h; cases h
      | some r =>
        obtain ⟨rest1, buf2, log2⟩ := r
        rw [hr] at h
        cases h
        obtain ⟨h1, h2, h3⟩ := updateMaterials_inv slot rest _ _ _ _ _ hr
        refine ⟨?_, ?_, ?_⟩
        · rw [h1, List.map_cons, Material.afterUpdate, if_neg hd]
        · rw [h2, materialsStored, if_neg hd]
        · rw [h3, materialWrites, if_neg hd]

theorem updateMaterials_eq (slot : Nat) :
    ∀ (l : List Material) (buf : UploadBuffer MaterialConstants) (log : List BufferWrite),
      (∀ m ∈ l, m.MatCBIndex < buf.length) →
      updateMaterials slot l buf log =
        some (l.map Material.afterUpdate, materialsStored l buf, log ++ materialWrites slot l)
  | [], buf, log, _ => by simp [updateMaterials, materialsStored, materialWrites]
  | m :: rest, buf, log, h => by
    have hm := h m (List.mem_cons_self _ _)
    rw [updateMaterials]
    by_cases hd : m.NumFramesDirty > 0
    · rw [if_pos hd]
      unfold UploadBuffer.CopyData
      rw [if_pos hm]
      dsimp only
      rw [updateMaterials_eq slot rest _ _ (by
        intro m' hm'
        rw [List.length_set]
        exact h m' (List.mem_cons_of_mem _ hm'))]
      dsimp only
      rw [List.map_cons, Material.afterUpdate, if_pos hd, materialsStored, if_pos hd,
        materialWrites, if_pos hd, List.append_assoc]
      rfl
    · rw [if_neg hd]
      rw [updateMaterials_eq slot rest buf log (fun m' hm' => h m' (List.mem_cons_of_mem _ hm'))]
      dsimp only
      rw [List.map_cons, Material.afterUpdate, if_neg hd, materialsStored, if_neg hd,
        materialWrites, if_neg hd]

theorem UpdateMatetialCBs_inv {s s' : App} (h : UpdateMatetialCBs s = some s') :
    ∃ slot fb,
      s.m_CurrFrameResource = some slot ∧ s.buffers.get? slot = some fb ∧
      s' = { s with
        m_Materials := s.m_Materials.map Material.afterUpdate,
        buffers := s.buffers.set slot
          { fb with m_MatVB := materialsStored s.m_Materials fb.m_MatVB },
        writes := s.writes ++ materialWrites slot s.m_Materials } := by
  unfold UpdateMatetialCBs at h
  cases hc : s.m_CurrFrameResource with
  | none => rw [hc] at h; cases h
  | some slot =>
    rw [hc] at h
    dsimp only at h
    cases hb : s.buffers.get? slot with
    | none => rw [hb] at h; cases h
    | some fb =>
      rw [hb] at h
      dsimp only at h
      cases hr : updateMaterials slot s.m_Materials fb.m_MatVB s.writes with
      | none => rw [hr] at h; cases h
      | some r =>
        obtain ⟨l1, b, lg⟩ := r
        rw [hr] at h
        cases h
        obtain ⟨h1, h2, h3⟩ := updateMaterials_inv slot _ _ _ _ _ _ hr
        subst h1 h2 h3
        exact ⟨slot, fb, rfl, hb, rfl⟩

theorem UpdateMatetialCBs_eq (s : App) (slot : Nat) (fb : FrameBuffers)
    (hcur : s.m_CurrFrameResource = some slot) (hfb : s.buffers.get? slot = some fb)
    (hcap : ∀ m ∈ s.m_Materials, m.MatCBIndex < fb.m_MatVB.length) :
    UpdateMatetialCBs s = some { s with
      m_Materials := s.m_Materials.map Material.afterUpdate,
      buffers := s.buffers.set slot
        { fb with m_MatVB := materialsStored s.m_Materials fb.m_MatVB },
      writes := s.writes ++ materialWrites slot s.m_Materials } := by
  unfold UpdateMatetialCBs
  rw [hcur]
  dsimp only
  rw [hfb]
  dsimp only
  rw [updateMaterials_eq slot s.m_Materials fb.m_MatVB s.writes hcap]

theorem UpdatePassCB_inv {ext : External} {input : FrameInput} {s s' : App}
    (h : UpdatePassCB ext input s = some s') :
    ∃ slot fb,
      s.m_CurrFrameResource = some slot ∧ s.buffers.get? slot = some fb ∧
      0 < fb.m_PassCB.length ∧
      s' = { s with
        m_MainPassCB := mainPassConstants ext input s,
        buffers := s.buffers.set slot
          { fb with m_PassCB := fb.m_PassCB.set 0 (some (mainPassConstants ext input s)) },
        writes := s.writes ++ [BufferWrite.passCB slot 0 (mainPassConstants ext input s)] } := by
  unfold UpdatePassCB at h
  dsimp only at h
  cases hc : s.m_CurrFrameResource with
  | none => rw [hc] at h; cases h
  | some slot =>
    rw [hc] at h
    dsimp only at h
    cases hb : s.buffers.get? slot with
    | none => rw [hb] at h; cases h
    | some fb =>
      rw [hb] at h
      dsimp only at h
      cases hcopy : fb.m_PassCB.CopyData 0 (mainPassConstants ext input s) with
      | none => rw [hcopy] at h; cases h
      | some buf1 =>
        rw [hcopy] at h
        cases h
        obtain ⟨hlt, hb1⟩ := CopyData_eq_some hcopy
        subst hb1
        exact ⟨slot, fb, rfl, hb, hlt, rfl⟩

theorem UpdatePassCB_eq (ext : External) (input : FrameInput) (s : App) (slot : Nat)
    (fb : FrameBuffers)
    (hcur : s.m_CurrFrameResource = some slot) (hfb : s.buffers.get? slot = some fb)
    (hcap : 0 < fb.m_PassCB.length) :
    UpdatePassCB ext input s = some { s with
      m_MainPassCB := mainPassConstants ext input s,
      buffers := s.buffers.set slot
        { fb with m_PassCB := fb.m_PassCB.set 0 (some (mainPassConstants ext input s)) },
      writes := s.writes ++ [BufferWrite.passCB slot 0 (mainPassConstants ext input s)] } := by
  unfold UpdatePassCB
  dsimp only
  rw [hcur]
  dsimp only
  rw [hfb]
  dsimp only
  unfold UploadBuffer.CopyData
  rw [if_pos hcap]

theorem lift_inv {f : D3DApp → Option D3DApp} {s s' : App} (h : App.lift f s = some s') :
    ∃ d, f s.toD3DApp = some d ∧ s' = { s with toD3DApp := d } := by
  unfold App.lift at h
  cases hf : f s.toD3DApp with
  | none => rw [hf] at h; cases h
  | some d =>
    rw [hf] at h
    cases h
    exact ⟨d, rfl, rfl⟩

theorem lift_eq {f : D3DApp → Option D3DApp} {s : App} {d : D3DApp}
    (h : f s.toD3DApp = some d) : App.lift f s = some { s with toD3DApp := d } := by
  unfold App.lift
  rw [h]

theorem Update_selects {s d : D3DApp} (h : Update s = some d) :
    d.m_CurrFrameResource = some s.nextIndex.toNat ∧
      d.m_CurrFrameResourceIndex = s.nextIndex ∧
      d.m_FrameResources = s.m_FrameResources ∧
      s.nextIndex.toNat < s.m_FrameResources.length := by
  obtain ⟨fr, _, _, hfr, hcase⟩ := Update_eq_some h
  have hlt : s.nextIndex.toNat < s.m_FrameResources.length := by
    rw [List.get?_eq_getElem?] at hfr
    exact (List.getElem?_eq_some_iff.1 hfr).1
  rcases hcase with ⟨_, _, f, r, _, hs⟩ | ⟨_, hs⟩
  · subst hs
    exact ⟨rfl, rfl, rfl, hlt⟩
  · subst hs
    exact ⟨rfl, rfl, rfl, hlt⟩


theorem input_frame (ext : External) (input : FrameInput) (s : App) :
    (UpdateWindowTitle input (OnKeyboardInput ext input s)).toD3DApp = s.toD3DApp ∧
    (UpdateWindowTitle input (OnKeyboardInput ext input s)).buffers = s.buffers ∧
    (UpdateWindowTitle input (OnKeyboardInput ext input s)).writes = s.writes ∧
    (UpdateWindowTitle input (OnKeyboardInput ext input s)).m_Materials = s.m_Materials ∧
    (UpdateWindowTitle input (OnKeyboardInput ext input s)).m_AllRItems = s.m_AllRItems ∧
    (UpdateWindowTitle input (OnKeyboardInput ext input s)).mRitemLayer = s.mRitemLayer ∧
    (UpdateWindowTitle input (OnKeyboardInput ext input s)).drawCalls = s.drawCalls ∧
    (UpdateWindowTitle input (OnKeyboardInput ext input s)).m_isFrustumCulling =
      (if input.keyF = true then !s.m_isFrustumCulling else s.m_isFrustumCulling) := by
  unfold UpdateWindowTitle
  split <;> exact ⟨rfl, rfl, rfl, rfl, rfl, rfl, rfl, rfl⟩

theorem get?_set_self_of_lt {α : Type} (l : List α) (i : Nat) (b : α) (h : i < l.length) :
    (l.set i b).get? i = some b := by
  rw [List.get?_eq_getElem?, List.getElem?_set, if_pos rfl, if_pos h]

theorem lt_length_of_get? {α : Type} {l : List α} {i : Nat} {a : α} (h : l.get? i = some a) :
    i < l.length := by
  rw [List.get?_eq_getElem?] at h
  exact (List.getElem?_eq_some_iff.1 h).1

/-- What a returning `Update` of the whole object has done: the ring step of the frame
pipeline, and writes into the buffers of the selected slot. -/
theorem App.Update_inv {ext : External} {input : FrameInput} {s s' : App}
    (h : App.Update ext input s = some s') :
    ∃ fb fb' wsI pc,
      Mawi1e.Update s.toD3DApp = some s'.toD3DApp ∧
      s.buffers.get? s.nextIndex.toNat = some fb ∧
      s'.buffers = s.buffers.set s.nextIndex.toNat fb' ∧
      fb'.m_MatVB = materialsStored s.m_Materials fb.m_MatVB ∧
      fb'.m_InstCB.length = fb.m_InstCB.length ∧
      fb'.m_PassCB = fb.m_PassCB.set 0 (some pc) ∧
      0 < fb.m_PassCB.length ∧
      s'.writes = s.writes ++ wsI ++ materialWrites s.nextIndex.toNat s.m_Materials ++
        [BufferWrite.passCB s.nextIndex.toNat 0 pc] ∧
      (∀ w ∈ wsI, w.slot = s.nextIndex.toNat ∧ w.isMaterial = false) ∧
      s'.m_Materials = s.m_Materials.map Material.afterUpdate ∧
      s'.m_AllRItems.map (fun e => e.Instances) = s.m_AllRItems.map (fun e => e.Instances) ∧
      s'.m_AllRItems.length = s.m_AllRItems.length ∧
      s'.mRitemLayer = s.mRitemLayer ∧
      s'.drawCalls = s.drawCalls := by
  obtain ⟨f1, f2, f3, f4, f5, f6, f7, _⟩ := input_frame ext input s
  unfold App.Update at h
  generalize UpdateWindowTitle input (OnKeyboardInput ext input s) = s0 at h f1 f2 f3 f4 f5 f6 f7
  cases h1 : App.lift Mawi1e.Update s0 with
  | none => rw [h1] at h; cases h
  | some s1 =>
    rw [h1] at h
    dsimp only at h
    obtain ⟨d, hd, hs1⟩ := lift_inv h1
    rw [f1] at hd
    obtain ⟨hsel, -, -, -⟩ := Update_selects hd
    cases h2 : UpdateInstanceBuffers ext s1 with
    | none => rw [h2] at h; cases h
    | some s2 =>
      rw [h2] at h
      dsimp only at h
      obtain ⟨slot2, fb, items, sc, buf, ws, hc2, hb2, hlen2, hit2, hws2, hs2⟩ :=
        UpdateInstanceBuffers_inv h2
      have e2 : slot2 = s.nextIndex.toNat := by
        have : s1.m_CurrFrameResource = some s.nextIndex.toNat := by rw [hs1]; exact hsel
        rw [this] at hc2
        exact (Option.some.inj hc2).symm
      subst e2
      have hb : s.buffers.get? s.nextIndex.toNat = some fb := by
        have : s1.buffers = s.buffers := by rw [hs1]; exact f2
        rw [this] at hb2
        exact hb2
      have hlt := lt_length_of_get? hb
      cases h3 : UpdateMatetialCBs s2 with
      | none => rw [h3] at h; cases h
      | some s3 =>
        rw [h3] at h
        dsimp only at h
        obtain ⟨slot3, fb3, hc3, hb3, hs3⟩ := UpdateMatetialCBs_inv h3
        have e3 : slot3 = s.nextIndex.toNat := by
          have : s2.m_CurrFrameResource = some s.nextIndex.toNat := by
            rw [hs2, hs1]; exact hsel
          rw [this] at hc3
          exact (Option.some.inj hc3).symm
        subst e3
        have hfb3 : fb3 = { fb with m_InstCB := buf } := by
          have : s2.buffers = s.buffers.set s.nextIndex.toNat { fb with m_InstCB := buf } := by
            rw [hs2, hs1]
            show s0.buffers.set _ _ = _
            rw [f2]
          rw [this, get?_set_self_of_lt _ _ _ hlt] at hb3
          exact (Option.some.inj hb3).symm
        subst hfb3
        obtain ⟨slot4, fb4, hc4, hb4, hpos, hs4⟩ := UpdatePassCB_inv h
        have e4 : slot4 = s.nextIndex.toNat := by
          have : s3.m_CurrFrameResource = some s.nextIndex.toNat := by
            rw [hs3, hs2, hs1]; exact hsel
          rw [this] at hc4
          exact (Option.some.inj hc4).symm
        subst e4
        have hB3 : s3.buffers = s.buffers.set s.nextIndex.toNat
            { m_PassCB := fb.m_PassCB, m_MatVB := materialsStored s.m_Materials fb.m_MatVB,
              m_InstCB := buf } := by
          rw [hs3, hs2, hs1]
          show (s0.buffers.set _ _).set _ _ = _
          rw [f2, List.set_set]
          show s.buffers.set _
            { m_PassCB := fb.m_PassCB,
              m_MatVB := materialsStored s0.m_Materials fb.m_MatVB,
              m_InstCB := buf } = _
          rw [f4]
        have hfb4 : fb4 =
            { m_PassCB := fb.m_PassCB,
              m_MatVB := materialsStored s.m_Materials fb.m_MatVB,
              m_InstCB := buf } := by
          rw [hB3, get?_set_self_of_lt _ _ _ hlt] at hb4
          exact (Option.some.inj hb4).symm
        subst hfb4
        refine ⟨fb,
          { m_PassCB := fb.m_PassCB.set 0 (some (mainPassConstants ext input s3)),
            m_MatVB := materialsStored s.m_Materials fb.m_MatVB,
            m_InstCB := buf }, ws,
          mainPassConstants ext input s3, ?_, hb, ?_, rfl, hlen2, rfl, hpos, ?_, hws2, ?_, ?_, ?_,
          ?_, ?_⟩
        · rw [hs4, hs3, hs2, hs1]
          exact hd
        · rw [hs4]
          show s3.buffers.set _ _ = _
          rw [hB3, List.set_set]
        · rw [hs4]
          show s3.writes ++ _ = _
          rw [hs3]
          show (s2.writes ++ materialWrites _ s2.m_Materials) ++ _ = _
          rw [hs2]
          show ((s1.writes ++ ws) ++ materialWrites _ s1.m_Materials) ++ _ = _
          rw [hs1]
          show ((s0.writes ++ ws) ++ materialWrites _ s0.m_Materials) ++ _ = _
          rw [f3, f4]
        · rw [hs4, hs3, hs2, hs1]
          show s0.m_Materials.map Material.afterUpdate = _
          rw [f4]
        · rw [hs4, hs3, hs2]
          show items.map _ = _
          rw [hit2, hs1]
          show s0.m_AllRItems.map _ = _
          rw [f5]
        · have := congrArg List.length hit2
          rw [List.length_map, List.length_map] at this
          rw [hs4, hs3, hs2]
          show items.length = _
          rw [this, hs1]
          show s0.m_AllRItems.length = _
          rw [f5]
        · rw [hs4, hs3, hs2, hs1]
          exact f6
        · rw [hs4, hs3, hs2, hs1]
          exact f7


/-- The function `Update` of the whole object returns whenever its ring step returns and the
buffers of the selected slot have room for the scene. -/
theorem App.Update_returns (ext : External) (input : FrameInput) {s : App} {d : D3DApp}
    {fb : FrameBuffers} (hd : Mawi1e.Update s.toD3DApp = some d)
    (hfb : s.buffers.get? s.nextIndex.toNat = some fb)
    (hfits : fb.Fits s.m_AllRItems s.m_Materials) :
    ∃ s', App.Update ext input s = some s' ∧
      s'.m_AllRItems = s.m_AllRItems.map (fun e => { e with InstanceCount :=
        ((OnKeyboardInput ext input s).visibleOf ext e).length }) ∧
      s'.m_SkullCounts = s.m_AllRItems.foldl
        (fun _ e => ((OnKeyboardInput ext input s).visibleOf ext e).length) s.m_SkullCounts := by
  have hvis : ∀ (d : D3DApp) (e : RenderItem),
      App.visibleOf ext
        { UpdateWindowTitle input (OnKeyboardInput ext input s) with toD3DApp := d } e =
      (OnKeyboardInput ext input s).visibleOf ext e := by
    intro d e
    unfold UpdateWindowTitle
    split <;> rfl
  have hsc : (UpdateWindowTitle input (OnKeyboardInput ext input s)).m_SkullCounts
      = s.m_SkullCounts := by
    unfold UpdateWindowTitle
    split <;> rfl
  obtain ⟨f1, f2, f3, f4, f5, f6, f7, _⟩ := input_frame ext input s
  obtain ⟨hpass, hinst, hmat⟩ := hfits
  obtain ⟨hsel, -, -, -⟩ := Update_selects hd
  have hlt := lt_length_of_get? hfb
  unfold App.Update
  generalize UpdateWindowTitle input (OnKeyboardInput ext input s) = s0
    at f1 f2 f3 f4 f5 f6 f7 hvis hsc
  have h1 : App.lift Mawi1e.Update s0 = some { s0 with toD3DApp := d } :=
    lift_eq (by rw [f1]; exact hd)
  rw [h1]
  dsimp only
  have h2 := UpdateInstanceBuffers_eq ext { s0 with toD3DApp := d } s.nextIndex.toNat fb hsel
    (by show s0.buffers.get? _ = _; rw [f2]; exact hfb)
    (by show ∀ e ∈ s0.m_AllRItems, _; rw [f5]; exact hinst)
  rw [h2]
  dsimp only
  have h3 := UpdateMatetialCBs_eq
    { s0 with
      toD3DApp := d,
      m_AllRItems := s0.m_AllRItems.map (fun e =>
        { e with InstanceCount := (App.visibleOf ext { s0 with toD3DApp := d } e).length }),
      m_SkullCounts := s0.m_AllRItems.foldl
        (fun _ e => (App.visibleOf ext { s0 with toD3DApp := d } e).length) s0.m_SkullCounts,
      buffers := s0.buffers.set s.nextIndex.toNat
        { fb with
          m_InstCB := s0.m_AllRItems.foldl
            (fun b e => compacted (App.visibleOf ext { s0 with toD3DApp := d } e) b)
            fb.m_InstCB },
      writes := s0.m_AllRItems.foldl
        (fun lg e => lg ++ instanceWrites s.nextIndex.toNat 0
          (App.visibleOf ext { s0 with toD3DApp := d } e)) s0.writes }
    s.nextIndex.toNat _ hsel
    (get?_set_self_of_lt _ _ _ (by rw [f2]; exact hlt))
    (by show ∀ m ∈ s0.m_Materials, _; rw [f4]; exact hmat)
  rw [h3]
  dsimp only
  refine ⟨_, UpdatePassCB_eq ext input _ s.nextIndex.toNat _ hsel
    (get?_set_self_of_lt _ _ _ (by rw [List.length_set, f2]; exact hlt)) hpass, ?_, ?_⟩
  · have e1 : (fun e => App.visibleOf ext { s0 with toD3DApp := d } e) =
        fun e => (OnKeyboardInput ext input s).visibleOf ext e := funext (hvis d)
    exact (congrArg (fun f : RenderItem → List InstanceData =>
      s0.m_AllRItems.map (fun e => ({ e with InstanceCount := (f e).length } : RenderItem)))
      e1).trans (by rw [f5])
  · have e1 : (fun e => App.visibleOf ext { s0 with toD3DApp := d } e) =
        fun e => (OnKeyboardInput ext input s).visibleOf ext e := funext (hvis d)
    exact (congrArg (fun f : RenderItem → List InstanceData =>
      s0.m_AllRItems.foldl (fun _ e => (f e).length) s0.m_SkullCounts) e1).trans
      (by rw [f5, hsc])

theorem materialWrites_slot (slot : Nat) :
    ∀ (l : List Material), ∀ w ∈ materialWrites slot l, w.slot = slot ∧ w.isMaterial = true
  | [], w, h => by simp [materialWrites] at h
  | m :: rest, w, h => by
    rw [materialWrites] at h
    split at h
    · rcases List.mem_cons.1 h with h | h
      · subst h
        exact ⟨rfl, rfl⟩
      · exact materialWrites_slot slot rest w h
    · exact materialWrites_slot slot rest w h

theorem materialWrites_mem (slot : Nat) :
    ∀ (l : List Material) (m : Material), m ∈ l → m.NumFramesDirty > 0 →
      BufferWrite.materialVB slot m.MatCBIndex (materialConstantsOf m) ∈ materialWrites slot l
  | [], m, h, _ => by simp at h
  | x :: rest, m, h, hd => by
    rw [materialWrites]
    rcases List.mem_cons.1 h with h | h
    · subst h
      rw [if_pos hd]
      exact List.mem_cons_self _ _
    · split
      · exact List.mem_cons_of_mem _ (materialWrites_mem slot rest m h hd)
      · exact materialWrites_mem slot rest m h hd

/-! ## The claim about the slot that `Update` writes -/

/-- C16: every buffer write made during a returning `Update` (the instance elements of
`UpdateInstanceBuffers`, the material elements of `UpdateMatetialCBs`, the pass
element of `UpdatePassCB`) targets the slot that this `Update` selects, which is
`m_CurrFrameResource` afterwards; the buffers of every other ring slot are as
before. The pass element and the element of every dirty material are among the
writes. `Update` returns whenever its ring step returns and the buffers of the
selected slot have room for the scene. -/
theorem Update_writes_selected_slot_only (ext : External) (input : FrameInput) (s : App) :
    (∀ s', App.Update ext input s = some s' →
      s'.m_CurrFrameResource = some s.nextIndex.toNat ∧
      s'.buffers.length = s.buffers.length ∧
      (∀ j, j ≠ s.nextIndex.toNat → s'.buffers.get? j = s.buffers.get? j) ∧
      ∃ ws pc, s'.writes = s.writes ++ ws ∧
        (∀ w ∈ ws, w.slot = s.nextIndex.toNat) ∧
        BufferWrite.passCB s.nextIndex.toNat 0 pc ∈ ws ∧
        (∀ m ∈ s.m_Materials, m.NumFramesDirty > 0 →
          BufferWrite.materialVB s.nextIndex.toNat m.MatCBIndex
            { MatTransform := XMMatrixTranspose m.MatTransform,
              DiffuseAlbedo := m.DiffuseAlbedo, FresnelR0 := m.FresnelR0,
              Roughness := m.Roughness, DiffuseMapIndex := m.DiffuseSrvHeapIndex } ∈ ws)) ∧
    (∀ d fb, Mawi1e.Update s.toD3DApp = some d →
      s.buffers.get? s.nextIndex.toNat = some fb →
      fb.Fits s.m_AllRItems s.m_Materials →
      ∃ s', App.Update ext input s = some s') := by
  constructor
  · intro s' h
    obtain ⟨fb, fb', wsI, pc, hd, hfb, hB, -, -, -, -, hW, hwsI, -, -, -, -, -⟩ :=
      App.Update_inv h
    obtain ⟨hsel, -, -, -⟩ := Update_selects hd
    refine ⟨hsel, by rw [hB, List.length_set], ?_, ?_⟩
    · intro j hj
      rw [hB]
      exact get?_set_of_ne _ _ _ _ hj
    · refine ⟨wsI ++ materialWrites s.nextIndex.toNat s.m_Materials ++
        [BufferWrite.passCB s.nextIndex.toNat 0 pc], pc, ?_, ?_, ?_, ?_⟩
      · rw [hW]
        simp only [List.append_assoc]
      · intro w hw
        rcases List.mem_append.1 hw with hw | hw
        · rcases List.mem_append.1 hw with hw | hw
          · exact (hwsI w hw).1
          · exact (materialWrites_slot _ _ w hw).1
        · rw [List.mem_singleton] at hw
          subst hw
          rfl
      · exact List.mem_append_right _ (List.mem_singleton_self _)
      · intro m hm hdirty
        apply List.mem_append_left
        apply List.mem_append_right
        exact materialWrites_mem _ _ m hm hdirty
  · intro d fb hd hfb hfits
    obtain ⟨s', hs', -⟩ := App.Update_returns ext input hd hfb hfits
    exact ⟨s', hs'⟩


/-! ## Steps of the whole object -/

theorem drawItems_returns (s : App) (slot : Nat) :
    ∀ (rItem : List Nat), (∀ i ∈ rItem, i < s.m_AllRItems.length) →
      ∃ calls, drawItems s slot rItem = some calls
  | [], _ => ⟨[], rfl⟩
  | i :: rest, h => by
    obtain ⟨calls, hc⟩ := drawItems_returns s slot rest
      (fun j hj => h j (List.mem_cons_of_mem _ hj))
    have hi := h i (List.mem_cons_self _ _)
    obtain ⟨ri, hri⟩ : ∃ ri, s.m_AllRItems.get? i = some ri :=
      ⟨s.m_AllRItems.get ⟨i, hi⟩, List.get?_eq_get hi⟩
    rw [drawItems, hri]
    dsimp only
    rw [hc]
    exact ⟨_, rfl⟩

theorem App.Draw_inv {s s' : App} (h : App.Draw s = some s') :
    ∃ calls d, DrawRenderItems s s.mRitemLayer = some calls ∧
      Mawi1e.Draw s.toD3DApp = some d ∧
      s' = { s with drawCalls := s.drawCalls ++ calls, toD3DApp := d } := by
  unfold App.Draw at h
  cases hc : DrawRenderItems s s.mRitemLayer with
  | none => rw [hc] at h; cases h
  | some calls =>
    rw [hc] at h
    dsimp only at h
    obtain ⟨d, hd, hs⟩ := lift_inv h
    exact ⟨calls, d, rfl, hd, hs⟩

theorem App.Draw_returns {s : App} {c : Nat} {fb : FrameBuffers}
    (hcur : s.m_CurrFrameResource = some c) (hc : c < s.m_FrameResources.length)
    (hfb : s.buffers.get? c = some fb)
    (hlayer : ∀ i ∈ s.mRitemLayer, i < s.m_AllRItems.length) :
    ∃ s', App.Draw s = some s' := by
  obtain ⟨calls, hcalls⟩ := drawItems_returns s c s.mRitemLayer hlayer
  obtain ⟨fr, _, hd⟩ := Draw_eq_some hcur hc
  unfold App.Draw DrawRenderItems
  rw [hcur]
  dsimp only
  rw [hfb]
  dsimp only
  rw [hcalls]
  dsimp only
  exact ⟨_, lift_eq hd⟩

/-- What a step other than `Update` leaves as it was. -/
theorem App.step_frame {ext : External} {a : FrameAction} {s s' : App}
    (h : App.step ext a s = some s') (ha : a.isUpdate = false) :
    s'.m_Materials = s.m_Materials ∧ s'.buffers = s.buffers ∧ s'.writes = s.writes ∧
    s'.m_AllRItems = s.m_AllRItems ∧ s'.mRitemLayer = s.mRitemLayer ∧
    s'.m_CurrFrameResourceIndex = s.m_CurrFrameResourceIndex ∧
    s'.m_CurrFrameResource = s.m_CurrFrameResource ∧
    s'.m_FrameResources.length = s.m_FrameResources.length ∧
    (∀ j, some j ≠ s.m_CurrFrameResource →
      s'.m_FrameResources.get? j = s.m_FrameResources.get? j) := by
  cases a with
  | Update input => cases ha
  | Draw =>
    obtain ⟨calls, d, _, hd, hs⟩ := App.Draw_inv h
    obtain ⟨i, hcur, hi⟩ := Draw_some_inv hd
    obtain ⟨fr, _, hd2⟩ := Draw_eq_some hcur hi
    rw [hd] at hd2
    have hd3 := Option.some.inj hd2
    subst hs
    subst hd3
    refine ⟨rfl, rfl, rfl, rfl, rfl, rfl, rfl, ?_, ?_⟩
    · show (s.m_FrameResources.set i _).length = _
      rw [List.length_set]
    · intro j hj
      show (s.m_FrameResources.set i _).get? j = _
      apply get?_set_of_ne
      intro hji
      apply hj
      rw [hji]
      exact hcur.symm
  | gpuRetire =>
    have h' : App.lift (fun d => some (gpuRetire d)) s = some s' := h
    obtain ⟨d, hd, hs⟩ := lift_inv h'
    have hd2 := (Option.some.inj hd).symm
    obtain ⟨_, g2, g3, g4⟩ := gpuRetire_frame s.toD3DApp
    subst hs
    subst hd2
    exact ⟨rfl, rfl, rfl, rfl, rfl, g4, g3, by rw [g2], fun j _ => by rw [g2]⟩

theorem App.step_materials {ext : External} {a : FrameAction} {s s' : App}
    (h : App.step ext a s = some s') :
    s'.m_Materials = if a.isUpdate = true then s.m_Materials.map Material.afterUpdate
      else s.m_Materials := by
  cases a with
  | Update input =>
    obtain ⟨_, _, _, _, _, _, _, _, _, _, _, _, _, hM, _⟩ := App.Update_inv h
    exact hM
  | Draw => exact (App.step_frame h rfl).1
  | gpuRetire => exact (App.step_frame h rfl).1

theorem afterUpdate_of_clean {m : Material} (h : m.NumFramesDirty = 0) :
    m.afterUpdate = m := by
  unfold Material.afterUpdate
  rw [if_neg (by omega)]

theorem afterUpdate_nonneg {m : Material} (h : 0 ≤ m.NumFramesDirty) :
    0 ≤ m.afterUpdate.NumFramesDirty := by
  unfold Material.afterUpdate
  split
  · show 0 ≤ m.NumFramesDirty - 1
    omega
  · exact h

theorem afterUpdate_of_dirty {m : Material} (h : m.NumFramesDirty > 0) :
    m.afterUpdate = { m with NumFramesDirty := m.NumFramesDirty - 1 } := by
  unfold Material.afterUpdate
  rw [if_pos h]

theorem get?_map_of_get? {α β : Type} (f : α → β) {l : List α} {i : Nat} {a : α}
    (h : l.get? i = some a) : (l.map f).get? i = some (f a) := by
  rw [List.get?_eq_getElem?] at h ⊢
  rw [List.getElem?_map, h]
  rfl

/-- A material whose countdown is 0 stays as it is in every run. -/
theorem App.run_clean_material {ext : External} :
    ∀ (acts : List FrameAction) (s s' : App) (p : Nat) (m : Material),
      App.run ext acts s = some s' → s.m_Materials.get? p = some m → m.NumFramesDirty = 0 →
      s'.m_Materials.get? p = some m
  | [], s, s', p, m, h, hm, _ => by
    rw [App.run] at h
    cases h
    exact hm
  | a :: rest, s, s', p, m, h, hm, h0 => by
    rw [App.run] at h
    cases h1 : App.step ext a s with
    | none => rw [h1] at h; cases h
    | some s1 =>
      rw [h1] at h
      dsimp only at h
      have hM := App.step_materials h1
      have hm1 : s1.m_Materials.get? p = some m := by
        rw [hM]
        split
        · have := get?_map_of_get? Material.afterUpdate hm
          rw [afterUpdate_of_clean h0] at this
          exact this
        · exact hm
      exact App.run_clean_material rest s1 s' p m h hm1 h0

/-- No countdown becomes negative in a run. -/
theorem App.run_countdown_nonneg {ext : External} :
    ∀ (acts : List FrameAction) (s s' : App),
      App.run ext acts s = some s' → (∀ m ∈ s.m_Materials, 0 ≤ m.NumFramesDirty) →
      ∀ m ∈ s'.m_Materials, 0 ≤ m.NumFramesDirty
  | [], s, s', h, hs => by
    rw [App.run] at h
    cases h
    exact hs
  | a :: rest, s, s', h, hs => by
    rw [App.run] at h
    cases h1 : App.step ext a s with
    | none => rw [h1] at h; cases h
    | some s1 =>
      rw [h1] at h
      dsimp only at h
      have hM := App.step_materials h1
      apply App.run_countdown_nonneg rest s1 s' h
      intro m hm
      rw [hM] at hm
      split at hm
      · obtain ⟨m0, hm0, rfl⟩ := List.mem_map.1 hm
        exact afterUpdate_nonneg (hs m0 hm0)
      · exact hs m hm

/-- What a run without `Update` leaves as it was. -/
theorem App.run_frame {ext : External} :
    ∀ (acts : List FrameAction) (s s' : App),
      App.run ext acts s = some s' → (∀ a ∈ acts, a.isUpdate = false) →
      s'.m_Materials = s.m_Materials ∧ s'.buffers = s.buffers ∧ s'.writes = s.writes ∧
      s'.m_AllRItems = s.m_AllRItems ∧ s'.mRitemLayer = s.mRitemLayer ∧
      s'.m_CurrFrameResourceIndex = s.m_CurrFrameResourceIndex ∧
      s'.m_CurrFrameResource = s.m_CurrFrameResource ∧
      s'.m_FrameResources.length = s.m_FrameResources.length ∧
      (∀ j, some j ≠ s.m_CurrFrameResource →
        s'.m_FrameResources.get? j = s.m_FrameResources.get? j)
  | [], s, s', h, _ => by
    rw [App.run] at h
    cases h
    exact ⟨rfl, rfl, rfl, rfl, rfl, rfl, rfl, rfl, fun _ _ => rfl⟩
  | a :: rest, s, s', h, ha => by
    rw [App.run] at h
    cases h1 : App.step ext a s with
    | none => rw [h1] at h; cases h
    | some s1 =>
      rw [h1] at h
      dsimp only at h
      obtain ⟨p1, p2, p3, p4, p5, p6, p7, p8, p9⟩ :=
        App.step_frame h1 (ha a (List.mem_cons_self _ _))
      obtain ⟨q1, q2, q3, q4, q5, q6, q7, q8, q9⟩ :=
        App.run_frame rest s1 s' h (fun b hb => ha b (List.mem_cons_of_mem _ hb))
      refine ⟨q1.trans p1, q2.trans p2, q3.trans p3, q4.trans p4, q5.trans p5, q6.trans p6,
        q7.trans p7, q8.trans p8, ?_⟩
      intro j hj
      rw [q9 j (by rw [p7]; exact hj), p9 j hj]


/-! ## The start-up phase of the frame loop -/

theorem afterUpdate_MatCBIndex (m : Material) : m.afterUpdate.MatCBIndex = m.MatCBIndex := by
  unfold Material.afterUpdate
  split <;> rfl

theorem Fits_congr (fb : FrameBuffers) {fb2 : FrameBuffers} {items items2 : List RenderItem}
    {mats : List Material} (h : fb.Fits items mats)
    (hp : fb2.m_PassCB.length = fb.m_PassCB.length)
    (hi : fb2.m_InstCB.length = fb.m_InstCB.length)
    (hm : fb2.m_MatVB.length = fb.m_MatVB.length)
    (hitems : items2.map (fun e => e.Instances) = items.map (fun e => e.Instances)) :
    fb2.Fits items2 (mats.map Material.afterUpdate) := by
  obtain ⟨h1, h2, h3⟩ := h
  refine ⟨by rw [hp]; exact h1, ?_, ?_⟩
  · intro e he
    have : e.Instances ∈ items2.map (fun e => e.Instances) := List.mem_map_of_mem _ he
    rw [hitems] at this
    obtain ⟨e0, he0, heq⟩ := List.mem_map.1 this
    rw [hi, ← heq]
    exact h2 e0 he0
  · intro m hmem
    obtain ⟨m0, hm0, rfl⟩ := List.mem_map.1 hmem
    rw [afterUpdate_MatCBIndex, hm]
    exact h3 m0 hm0

theorem nextIndex_range {s : D3DApp} (h0 : 0 ≤ s.m_CurrFrameResourceIndex)
    (h3 : s.m_CurrFrameResourceIndex < 3) :
    0 ≤ s.nextIndex ∧ s.nextIndex < 3 ∧ s.nextIndex.toNat < 3 := by
  rw [nextIndex_eq h0 h3]
  omega

/-- In the start-up phase, `Update` returns when it selects a slot that is not stamped, and the
phase goes on with that slot among the selected ones. -/
theorem Prepared.next_Update (ext : External) (input : FrameInput) {S : List Nat} {s : App}
    (hP : App.Prepared S s) (hS : s.nextIndex.toNat ∉ S) :
    ∃ s', App.Update ext input s = some s' ∧ App.Prepared (s.nextIndex.toNat :: S) s' := by
  obtain ⟨hring, ⟨hi0, hi3⟩, hslots, hfits, hlayer, hout⟩ := hP
  obtain ⟨hn0, hn3, hnt⟩ := nextIndex_range hi0 hi3
  have hlt : s.nextIndex.toNat < s.m_FrameResources.length := by rw [hring]; exact hnt
  have hfr : s.m_FrameResources.get? s.nextIndex.toNat
      = some (s.m_FrameResources.get ⟨_, hlt⟩) := List.get?_eq_get hlt
  have hzero := hout _ _ hfr hS
  have hd := Update_of_no_wait (s := s.toD3DApp)
    (by show s.m_CurrFrameResourceIndex + 1 ≤ INT_MAX; unfold INT_MAX; omega) hn0 hfr
    (by rw [hzero]; simp)
  have hltb : s.nextIndex.toNat < s.buffers.length := by rw [hslots]; exact hnt
  have hfb : s.buffers.get? s.nextIndex.toNat = some (s.buffers.get ⟨_, hltb⟩) :=
    List.get?_eq_get hltb
  have hfit := hfits _ (List.get?_mem hfb)
  obtain ⟨s', hs', -⟩ := App.Update_returns ext input hd hfb hfit
  refine ⟨s', hs', ?_⟩
  obtain ⟨fb, fb', wsI, pc, hd', hfb', hB, hM, hI, hPc, hpos, hW, hwsI, hMat, hIt, hLen, hLay, _⟩ :=
    App.Update_inv hs'
  obtain ⟨hsel, hidx, hres, _⟩ := Update_selects hd'
  have hfbeq : fb = s.buffers.get ⟨_, hltb⟩ := by
    rw [hfb] at hfb'
    exact (Option.some.inj hfb').symm
  refine ⟨by show s'.m_FrameResources.length = 3; rw [hres]; exact hring,
    by show 0 ≤ s'.m_CurrFrameResourceIndex ∧ s'.m_CurrFrameResourceIndex < 3
       rw [hidx]; exact ⟨hn0, hn3⟩,
    by rw [hB, List.length_set]; exact hslots, ?_, ?_, ?_⟩
  · intro fbx hfbx
    rw [hB] at hfbx
    rw [hMat]
    rcases List.mem_or_eq_of_mem_set hfbx with hmem | heq
    · exact Fits_congr fbx (hfits fbx hmem) rfl rfl rfl hIt
    · subst heq
      refine Fits_congr fb (by rw [hfbeq]; exact hfit) ?_ hI ?_ hIt
      · rw [hPc, List.length_set]
      · rw [hM, materialsStored_length]
  · intro i hi
    rw [hLay] at hi
    rw [hLen]
    exact hlayer i hi
  · intro j fr hj hnot
    have hj' : s.m_FrameResources.get? j = some fr := by
      have : s'.m_FrameResources = s.m_FrameResources := hres
      rw [← this]
      exact hj
    exact hout j fr hj' (fun h => hnot (List.mem_cons_of_mem _ h))

/-- In the start-up phase, every run of `Draw` and GPU steps returns while the current slot is
a selected one, and the phase goes on. -/
theorem Prepared.after_idle_run (ext : External) {S : List Nat} {c : Nat} :
    ∀ (g : List FrameAction) (s : App), App.Prepared S s →
      s.m_CurrFrameResource = some c → c < 3 → c ∈ S → (∀ a ∈ g, a.isUpdate = false) →
      ∃ s', App.run ext g s = some s' ∧ App.Prepared S s'
  | [], s, hP, _, _, _, _ => ⟨s, rfl, hP⟩
  | a :: rest, s, hP, hcur, hc, hcS, hg => by
    have ha := hg a (List.mem_cons_self _ _)
    have hstep : ∃ s1, App.step ext a s = some s1 := by
      cases a with
      | Update input => cases ha
      | Draw =>
        have hltb : c < s.buffers.length := by rw [hP.slots]; exact hc
        exact App.Draw_returns hcur (by rw [hP.ring]; exact hc) (List.get?_eq_get hltb) hP.layer
      | gpuRetire => exact ⟨_, rfl⟩
    obtain ⟨s1, hs1⟩ := hstep
    obtain ⟨p1, p2, p3, p4, p5, p6, p7, p8, p9⟩ := App.step_frame hs1 ha
    have hP1 : App.Prepared S s1 := by
      refine ⟨by rw [p8]; exact hP.ring, by rw [p6]; exact hP.index,
        by rw [p2]; exact hP.slots, by rw [p2, p4, p1]; exact hP.fits,
        by rw [p5, p4]; exact hP.layer, ?_⟩
      intro j fr hj hnot
      have hne : some j ≠ s.m_CurrFrameResource := by
        rw [hcur]
        intro h
        exact hnot (by rw [Option.some.inj h]; exact hcS)
      rw [p9 j hne] at hj
      exact hP.outside j fr hj hnot
    obtain ⟨s', hs', hP'⟩ := Prepared.after_idle_run ext rest s1 hP1 (by rw [p7]; exact hcur) hc hcS
      (fun b hb => hg b (List.mem_cons_of_mem _ hb))
    refine ⟨s', ?_, hP'⟩
    rw [App.run, hs1]
    exact hs'

theorem materialWrites_eraseIdx (slot : Nat) :
    ∀ (l : List Material) (p : Nat) (m : Material), l.get? p = some m →
      ¬ m.NumFramesDirty > 0 → materialWrites slot l = materialWrites slot (l.eraseIdx p)
  | [], _, _, h, _ => by simp at h
  | x :: rest, 0, m, h, hd => by
    simp only [List.get?_cons_zero, Option.some.injEq] at h
    subst h
    rw [materialWrites, if_neg hd]
    rfl
  | x :: rest, p + 1, m, h, hd => by
    simp only [List.get?_cons_succ] at h
    have ih := materialWrites_eraseIdx slot rest p m h hd
    rw [List.eraseIdx_cons_succ, materialWrites, materialWrites, ih]

/-- The turn of a material in one returning `Update`. -/
theorem Update_material_turn {ext : External} {input : FrameInput} {a b : App} {p : Nat}
    {m : Material} (h : App.Update ext input a = some b) (hm : a.m_Materials.get? p = some m) :
    b.m_CurrFrameResource = some a.nextIndex.toNat ∧
    b.m_CurrFrameResourceIndex = a.nextIndex ∧
    b.m_FrameResources.length = a.m_FrameResources.length ∧
    b.m_Materials.get? p = some m.afterUpdate ∧
    ∃ wsI pc,
      b.writes = a.writes ++ wsI ++ materialWrites a.nextIndex.toNat a.m_Materials ++
        [BufferWrite.passCB a.nextIndex.toNat 0 pc] ∧
      (∀ w ∈ wsI, w.slot = a.nextIndex.toNat ∧ w.isMaterial = false) := by
  obtain ⟨fb, fb', wsI, pc, hd, -, -, -, -, -, -, hW, hwsI, hMat, -, -, -, -⟩ := App.Update_inv h
  obtain ⟨hsel, hidx, hres, _⟩ := Update_selects hd
  refine ⟨hsel, hidx, by show b.m_FrameResources.length = _; rw [hres], ?_, wsI, pc, hW, hwsI⟩
  rw [hMat]
  exact get?_map_of_get? _ hm


theorem countdown_from_three {m : Material} (h : m.NumFramesDirty = 3) :
    m.afterUpdate = { m with NumFramesDirty := 2 } ∧
    m.afterUpdate.afterUpdate = { m with NumFramesDirty := 1 } ∧
    m.afterUpdate.afterUpdate.afterUpdate = { m with NumFramesDirty := 0 } := by
  have e1 : m.afterUpdate = { m with NumFramesDirty := 2 } := by
    rw [afterUpdate_of_dirty (by omega)]
    show { m with NumFramesDirty := m.NumFramesDirty - 1 } = _
    rw [h]
    rfl
  have e2 : ({ m with NumFramesDirty := 2 } : Material).afterUpdate
      = { m with NumFramesDirty := 1 } := by
    rw [afterUpdate_of_dirty (by show (2 : Int) > 0; omega)]
    rfl
  have e3 : ({ m with NumFramesDirty := 1 } : Material).afterUpdate
      = { m with NumFramesDirty := 0 } := by
    rw [afterUpdate_of_dirty (by show (1 : Int) > 0; omega)]
    rfl
  refine ⟨e1, ?_, ?_⟩
  · rw [e1, e2]
  · rw [e1, e2, e3]

theorem three_slots_distinct (i0 x1 x2 x3 : Int)
    (h1 : x1 = (i0 + 1) % 3) (h2 : x2 = (x1 + 1) % 3) (hx3 : x3 = (x2 + 1) % 3) :
    x1.toNat < 3 ∧ x2.toNat < 3 ∧ x3.toNat < 3 ∧ x1.toNat ≠ x2.toNat ∧ x2.toNat ≠ x3.toNat ∧
      x1.toNat ≠ x3.toNat ∧ 0 ≤ x1 ∧ x1 < 3 ∧ 0 ≤ x2 ∧ x2 < 3 ∧ 0 ≤ x3 ∧ x3 < 3 := by
  omega

/-! ## The claim about the countdown of a material -/

/-- C17: let a material stand at place `p` of `m_Materials` with `NumFramesDirty` equal to the
ring depth 3. Whatever `Draw` calls and GPU steps lie between them, the next three
`Update` calls each write the constants of the material at element `MatCBIndex`, all
their writes go to the slot that the call selects, and the three slots are pairwise
distinct slots of the ring; the countdown goes 2, 1, 0. After any further run
the countdown is still 0, and a later `Update` leaves it at 0 and writes what it
would write for the scene without the material. From a state as `Initialize`
leaves it the three `Update` calls and the runs between them return. No countdown
becomes negative in any run. -/
theorem dirty_material_reaches_every_slot (ext : External) (p : Nat) (m : Material)
    (i1 i2 i3 i4 : FrameInput) (g1 g2 g3 : List FrameAction) (a1 : App)
    (hm : a1.m_Materials.get? p = some m) (hdirty : m.NumFramesDirty = gNumFrameResources)
    (hidx : 0 ≤ a1.m_CurrFrameResourceIndex ∧ a1.m_CurrFrameResourceIndex < 3)
    (hg1 : ∀ a ∈ g1, a.isUpdate = false) (hg2 : ∀ a ∈ g2, a.isUpdate = false) :
    (∀ b1 a2 b2 a3 b3 a4 b4,
      App.Update ext i1 a1 = some b1 → App.run ext g1 b1 = some a2 →
      App.Update ext i2 a2 = some b2 → App.run ext g2 b2 = some a3 →
      App.Update ext i3 a3 = some b3 → App.run ext g3 b3 = some a4 →
      App.Update ext i4 a4 = some b4 →
      ∃ slot1 slot2 slot3 slot4 ws1 ws2 ws3 wsI pc,
        (b1.m_CurrFrameResource = some slot1 ∧ b2.m_CurrFrameResource = some slot2 ∧
          b3.m_CurrFrameResource = some slot3 ∧ b4.m_CurrFrameResource = some slot4) ∧
        (slot1 < 3 ∧ slot2 < 3 ∧ slot3 < 3 ∧
          slot1 ≠ slot2 ∧ slot2 ≠ slot3 ∧ slot1 ≠ slot3) ∧
        (b1.writes = a1.writes ++ ws1 ∧ b2.writes = a2.writes ++ ws2 ∧
          b3.writes = a3.writes ++ ws3) ∧
        (BufferWrite.materialVB slot1 m.MatCBIndex
            { MatTransform := XMMatrixTranspose m.MatTransform,
              DiffuseAlbedo := m.DiffuseAlbedo, FresnelR0 := m.FresnelR0,
              Roughness := m.Roughness, DiffuseMapIndex := m.DiffuseSrvHeapIndex } ∈ ws1 ∧
          BufferWrite.materialVB slot2 m.MatCBIndex
            { MatTransform := XMMatrixTranspose m.MatTransform,
              DiffuseAlbedo := m.DiffuseAlbedo, FresnelR0 := m.FresnelR0,
              Roughness := m.Roughness, DiffuseMapIndex := m.DiffuseSrvHeapIndex } ∈ ws2 ∧
          BufferWrite.materialVB slot3 m.MatCBIndex
            { MatTransform := XMMatrixTranspose m.MatTransform,
              DiffuseAlbedo := m.DiffuseAlbedo, FresnelR0 := m.FresnelR0,
              Roughness := m.Roughness, DiffuseMapIndex := m.DiffuseSrvHeapIndex } ∈ ws3) ∧
        ((∀ w ∈ ws1, w.slot = slot1) ∧ (∀ w ∈ ws2, w.slot = slot2) ∧
          (∀ w ∈ ws3, w.slot = slot3)) ∧
        (b1.m_Materials.get? p = some { m with NumFramesDirty := 2 } ∧
          b2.m_Materials.get? p = some { m with NumFramesDirty := 1 } ∧
          b3.m_Materials.get? p = some { m with NumFramesDirty := 0 } ∧
          a4.m_Materials.get? p = some { m with NumFramesDirty := 0 } ∧
          b4.m_Materials.get? p = some { m with NumFramesDirty := 0 }) ∧
        b4.writes = a4.writes ++ wsI ++ materialWrites slot4 (a4.m_Materials.eraseIdx p) ++
          [BufferWrite.passCB slot4 0 pc] ∧
        (∀ w ∈ wsI, w.isMaterial = false)) ∧
    (App.Ready a1 →
      ∃ b1 a2 b2 a3 b3,
        App.Update ext i1 a1 = some b1 ∧ App.run ext g1 b1 = some a2 ∧
        App.Update ext i2 a2 = some b2 ∧ App.run ext g2 b2 = some a3 ∧
        App.Update ext i3 a3 = some b3) ∧
    (∀ acts s s', App.run ext acts s = some s' →
      (∀ x ∈ s.m_Materials, 0 ≤ x.NumFramesDirty) →
      ∀ x ∈ s'.m_Materials, 0 ≤ x.NumFramesDirty) := by
  have hd3 : m.NumFramesDirty = 3 := hdirty
  obtain ⟨c1, c2, c3⟩ := countdown_from_three hd3
  have hn1 := nextIndex_eq hidx.1 hidx.2
  refine ⟨?_, ?_, fun acts s s' h hs => App.run_countdown_nonneg acts s s' h hs⟩
  · intro b1 a2 b2 a3 b3 a4 b4 hu1 hr1 hu2 hr2 hu3 hr3 hu4
    -- the first `Update`
    obtain ⟨t1c, t1i, t1r, t1m, w1, pc1, t1w, t1s⟩ := Update_material_turn hu1 hm
    obtain ⟨f1m, -, -, -, -, f1i, -, f1r, -⟩ := App.run_frame g1 b1 a2 hr1 hg1
    have hm2 : a2.m_Materials.get? p = some m.afterUpdate := by rw [f1m]; exact t1m
    have hi2 : a2.m_CurrFrameResourceIndex = (a1.m_CurrFrameResourceIndex + 1) % 3 := by
      rw [f1i, t1i, hn1]
    have hn2 : a2.nextIndex = (a2.m_CurrFrameResourceIndex + 1) % 3 :=
      nextIndex_eq (by rw [hi2]; omega) (by rw [hi2]; omega)
    -- the second `Update`
    obtain ⟨t2c, t2i, t2r, t2m, w2, pc2, t2w, t2s⟩ := Update_material_turn hu2 hm2
    obtain ⟨f2m, -, -, -, -, f2i, -, f2r, -⟩ := App.run_frame g2 b2 a3 hr2 hg2
    have hm3 : a3.m_Materials.get? p = some m.afterUpdate.afterUpdate := by
      rw [f2m]; exact t2m
    have hi3 : a3.m_CurrFrameResourceIndex = (a2.m_CurrFrameResourceIndex + 1) % 3 := by
      rw [f2i, t2i, hn2]
    have hn3 : a3.nextIndex = (a3.m_CurrFrameResourceIndex + 1) % 3 :=
      nextIndex_eq (by rw [hi3]; omega) (by rw [hi3]; omega)
    -- the third `Update`
    obtain ⟨t3c, t3i, t3r, t3m, w3, pc3, t3w, t3s⟩ := Update_material_turn hu3 hm3
    rw [c3] at t3m
    rw [c2] at t2m hm3
    rw [c1] at t1m hm2
    -- the later `Update`
    have hm4 : a4.m_Materials.get? p = some { m with NumFramesDirty := 0 } :=
      App.run_clean_material g3 b3 a4 p _ hr3 t3m rfl
    obtain ⟨t4c, -, -, t4m, w4, pc4, t4w, t4s⟩ := Update_material_turn hu4 hm4
    rw [afterUpdate_of_clean (m := { m with NumFramesDirty := 0 }) rfl] at t4m
    rw [materialWrites_eraseIdx a4.nextIndex.toNat a4.m_Materials p _ hm4
      (by show ¬ (0 : Int) > 0; omega)] at t4w
    have hslots := three_slots_distinct a1.m_CurrFrameResourceIndex
      a1.nextIndex a2.nextIndex a3.nextIndex hn1
      (by rw [hn2, hi2, hn1]) (by rw [hn3, hi3, hn2])
    obtain ⟨s1, s2, s3, d12, d23, d13, -⟩ := hslots
    refine ⟨a1.nextIndex.toNat, a2.nextIndex.toNat, a3.nextIndex.toNat, a4.nextIndex.toNat,
      w1 ++ materialWrites a1.nextIndex.toNat a1.m_Materials ++
        [BufferWrite.passCB a1.nextIndex.toNat 0 pc1],
      w2 ++ materialWrites a2.nextIndex.toNat a2.m_Materials ++
        [BufferWrite.passCB a2.nextIndex.toNat 0 pc2],
      w3 ++ materialWrites a3.nextIndex.toNat a3.m_Materials ++
        [BufferWrite.passCB a3.nextIndex.toNat 0 pc3],
      w4, pc4, ⟨t1c, t2c, t3c, t4c⟩, ⟨s1, s2, s3, d12, d23, d13⟩, ?_, ?_, ?_,
      ⟨t1m, t2m, t3m, hm4, t4m⟩, t4w, fun w hw => (t4s w hw).2⟩
    · exact ⟨by rw [t1w]; simp only [List.append_assoc],
        by rw [t2w]; simp only [List.append_assoc],
        by rw [t3w]; simp only [List.append_assoc]⟩
    · refine ⟨?_, ?_, ?_⟩
      · apply List.mem_append_left
        apply List.mem_append_right
        exact materialWrites_mem _ _ m (List.get?_mem hm) (by omega)
      · apply List.mem_append_left
        apply List.mem_append_right
        exact materialWrites_mem _ _ { m with NumFramesDirty := 2 } (List.get?_mem hm2)
          (by show (2 : Int) > 0; omega)
      · apply List.mem_append_left
        apply List.mem_append_right
        exact materialWrites_mem _ _ { m with NumFramesDirty := 1 } (List.get?_mem hm3)
          (by show (1 : Int) > 0; omega)
    · have key : ∀ (slot : Nat) (wsI : List BufferWrite) (l : List Material)
          (pc : PassConstants),
          (∀ w ∈ wsI, w.slot = slot ∧ w.isMaterial = false) →
          ∀ w ∈ wsI ++ materialWrites slot l ++ [BufferWrite.passCB slot 0 pc],
            w.slot = slot := by
        intro slot wsI l pc hI w hw
        rcases List.mem_append.1 hw with hw | hw
        · rcases List.mem_append.1 hw with hw | hw
          · exact (hI w hw).1
          · exact (materialWrites_slot _ _ w hw).1
        · rw [List.mem_singleton] at hw
          subst hw
          rfl
      exact ⟨key _ _ _ _ t1s, key _ _ _ _ t2s, key _ _ _ _ t3s⟩
  · intro hready
    have hP0 : App.Prepared [] a1 := hready
    obtain ⟨b1, hu1, hP1⟩ := Prepared.next_Update ext i1 hP0
      (by simp)
    obtain ⟨t1c, t1i, -, -, -⟩ := Update_material_turn hu1 hm
    have hr1 := nextIndex_range hidx.1 hidx.2
    obtain ⟨a2, hrun1, hP2⟩ := Prepared.after_idle_run ext g1 b1 hP1 t1c hr1.2.2
      (List.mem_cons_self _ _) hg1
    obtain ⟨f1m, -, -, -, -, f1i, -, -, -⟩ := App.run_frame g1 b1 a2 hrun1 hg1
    have hi2 : a2.m_CurrFrameResourceIndex = (a1.m_CurrFrameResourceIndex + 1) % 3 := by
      rw [f1i, t1i, hn1]
    have hn2 : a2.nextIndex = (a2.m_CurrFrameResourceIndex + 1) % 3 :=
      nextIndex_eq (by rw [hi2]; omega) (by rw [hi2]; omega)
    have hne2 : a2.nextIndex.toNat ∉ [a1.nextIndex.toNat] := by
      rw [List.mem_singleton, hn2, hi2, hn1]
      omega
    obtain ⟨b2, hu2, hP3⟩ := Prepared.next_Update ext i2 hP2 hne2
    have hm2 : a2.m_Materials.get? p = some m.afterUpdate := by
      rw [f1m]
      exact (Update_material_turn hu1 hm).2.2.2.1
    obtain ⟨t2c, t2i, -, -, -⟩ := Update_material_turn hu2 hm2
    have hr2 : a2.nextIndex.toNat < 3 := by rw [hn2]; omega
    obtain ⟨a3, hrun2, hP4⟩ := Prepared.after_idle_run ext g2 b2 hP3 t2c hr2
      (List.mem_cons_self _ _) hg2
    obtain ⟨-, -, -, -, -, f2i, -, -, -⟩ := App.run_frame g2 b2 a3 hrun2 hg2
    have hi3 : a3.m_CurrFrameResourceIndex = (a2.m_CurrFrameResourceIndex + 1) % 3 := by
      rw [f2i, t2i, hn2]
    have hn3 : a3.nextIndex = (a3.m_CurrFrameResourceIndex + 1) % 3 :=
      nextIndex_eq (by rw [hi3]; omega) (by rw [hi3]; omega)
    have hne3 : a3.nextIndex.toNat ∉ [a2.nextIndex.toNat, a1.nextIndex.toNat] := by
      simp only [List.mem_cons, List.mem_singleton, List.not_mem_nil, or_false]
      rw [hn3, hi3, hn2, hi2, hn1]
      omega
    obtain ⟨b3, hu3, -⟩ := Prepared.next_Update ext i3 hP4 hne3
    exact ⟨b1, a2, b2, a3, b3, hu1, hrun1, hu2, hrun2, hu3⟩


theorem sceneApp_ready (items : List RenderItem) (isFrustumCulling : Bool) (view : XMFLOAT4X4)
    (h : ∀ e ∈ items, e.Instances.length ≤ 4) :
    App.Ready (sceneApp items isFrustumCulling view) := by
  refine ⟨rfl, by show (0 : Int) ≤ 0 ∧ (0 : Int) < 3; decide, rfl, ?_, ?_, ?_⟩
  · intro fb hfb
    have hfb' : fb ∈ List.replicate 3 (FrameBuffers.create 1 4 2) := hfb
    rw [List.mem_replicate] at hfb'
    rw [hfb'.2]
    refine ⟨by decide, h, ?_⟩
    intro m hm
    have hm' : m ∈
        [ mkMaterial "grass" 0 0 { x := 1, y := 1, z := 1, w := 1 }
            { x := 1 / 100, y := 1 / 100, z := 1 / 100 } (125 / 1000),
          mkMaterial "water" 1 1 { x := 1, y := 1, z := 1, w := 1 / 2 }
            { x := 2 / 10, y := 2 / 10, z := 2 / 10 } 0 ] := hm
    simp only [List.mem_cons, List.mem_singleton, List.not_mem_nil, or_false] at hm'
    rcases hm' with rfl | rfl <;> decide
  · intro i hi
    have hi' : i ∈ List.range items.length := hi
    exact List.mem_range.1 hi'
  · intro j fr hj _
    have hmem : fr ∈ List.replicate 3 ({ m_Fence := 0 } : FrameResource) := List.get?_mem hj
    rw [List.mem_replicate] at hmem
    rw [hmem.2]

/-- C16, witness: `Update` returns in a scene whose buffers have room for it. -/
theorem Update_writes_selected_slot_only_witness :
    (FrameBuffers.create 1 4 2).Fits (sceneApp [plainItem 5 [0, 1]] false 1).m_AllRItems
      (sceneApp [plainItem 5 [0, 1]] false 1).m_Materials ∧
    ∃ s', App.Update axisLibrary idleInput (sceneApp [plainItem 5 [0, 1]] false 1) = some s' :=
  ⟨⟨by decide, by decide, by decide⟩,
    (Update_writes_selected_slot_only axisLibrary idleInput
      (sceneApp [plainItem 5 [0, 1]] false 1)).2 _ (FrameBuffers.create 1 4 2) rfl rfl
      ⟨by decide, by decide, by decide⟩⟩

/-- C17, witness: in a scene in which the frame loop can start, three `Update` calls with `Draw`
calls and a GPU step between them return. -/
theorem dirty_material_reaches_every_slot_witness :
    (sceneApp [plainItem 5 [0, 1]] false 1).m_Materials.get? 0 =
      some (mkMaterial "grass" 0 0 { x := 1, y := 1, z := 1, w := 1 }
        { x := 1 / 100, y := 1 / 100, z := 1 / 100 } (125 / 1000)) ∧
    (mkMaterial "grass" 0 0 { x := 1, y := 1, z := 1, w := 1 }
        { x := 1 / 100, y := 1 / 100, z := 1 / 100 } (125 / 1000)).NumFramesDirty
      = gNumFrameResources ∧
    App.Ready (sceneApp [plainItem 5 [0, 1]] false 1) ∧
    ∃ b1 a2 b2 a3 b3,
      App.Update axisLibrary idleInput (sceneApp [plainItem 5 [0, 1]] false 1) = some b1 ∧
      App.run axisLibrary [FrameAction.Draw, FrameAction.gpuRetire] b1 = some a2 ∧
      App.Update axisLibrary idleInput a2 = some b2 ∧
      App.run axisLibrary [FrameAction.Draw] b2 = some a3 ∧
      App.Update axisLibrary idleInput a3 = some b3 :=
  ⟨rfl, rfl, sceneApp_ready _ _ _ (by decide),
    (dirty_material_reaches_every_slot axisLibrary 0
      (mkMaterial "grass" 0 0 { x := 1, y := 1, z := 1, w := 1 }
        { x := 1 / 100, y := 1 / 100, z := 1 / 100 } (125 / 1000))
      idleInput idleInput idleInput idleInput [FrameAction.Draw, FrameAction.gpuRetire]
      [FrameAction.Draw] [] (sceneApp [plainItem 5 [0, 1]] false 1) rfl rfl (by decide)
      (by decide) (by decide)).2.1 (sceneApp_ready _ _ _ (by decide))⟩


/-! ## The start of the application -/

theorem builtMaterials_length :
    (builtMaterials.foldl (fun l m => insertMaterial m l) []).length = 8 := by
  decide

theorem builtMaterials_white :
    (builtMaterials.foldl (fun l m => insertMaterial m l) []).any
      (fun m => m.Name == "white1x1") = true := by
  decide

theorem builtMaterials_index :
    ∀ m ∈ builtMaterials.foldl (fun l m => insertMaterial m l) [], m.MatCBIndex < 8 := by
  decide

theorem fillSkullInstances_length (n : Nat) (l : List InstanceData) :
    (fillSkullInstances n l).length = l.length := by
  unfold fillSkullInstances
  simp [List.range_succ, List.length_set]

theorem ResizeBuffer_returns (s : D3DApp) : ∃ s', ResizeBuffer s = some s' := by
  obtain ⟨f, r, _, _, _, evs, h1, _⟩ := FlushCommandQueue_eq_some s
  unfold ResizeBuffer
  rw [h1]
  dsimp only
  obtain ⟨f2, r2, _, _, _, evs2, h2, _⟩ := FlushCommandQueue_eq_some
    { m_FenceCount := (s.m_FenceCount + 1) % UINT64_RANGE,
      m_FrameResources := s.m_FrameResources,
      m_CurrFrameResource := s.m_CurrFrameResource,
      m_CurrFrameResourceIndex := s.m_CurrFrameResourceIndex,
      m_Fence := f,
      m_CommandQueue := r ++ [QueueItem.execute none],
      trace := s.trace ++ evs ++
        [Event.commandListReset, Event.commandListClose, Event.executeCommandLists none] }
  exact ⟨_, h2⟩

theorem BuildRenderItems_eq {s : App} (submesh : SubMeshGeometry)
    (hl : s.lskull = some submesh)
    (hw : s.m_Materials.any (fun m => m.Name == "white1x1") = true) :
    BuildRenderItems s = some { s with
      m_InstanceCount := 343,
      mRitemLayer := s.mRitemLayer ++ [s.m_AllRItems.length],
      m_AllRItems := s.m_AllRItems ++
        [{ Instances := fillSkullInstances s.m_Materials.length
             (List.replicate 343 { World := 1, TexTransform := 1, MaterialIndex := 0 }),
           Bounds := submesh.Bounds,
           InstanceCount := 0,
           IndexCount := submesh.IndexCount,
           StartIndexLocation := submesh.StartIndexLocation,
           BaseVertexLocation := submesh.BaseVertexLocation }] } := by
  unfold BuildRenderItems
  rw [hl]
  dsimp only
  rw [if_pos hw]

/-- What `Initialize` leaves behind when it starts from the constructed object and the file
`skull.txt` is there. -/
theorem App.Initialize_of_constructed (ext : External) (screenWidth screenHeight : Int)
    (file : SkullFile) (isFrustumCulling : Bool) (camera : Camera) :
    ∃ s e,
      App.Initialize ext screenWidth screenHeight (some file)
        (App.constructed isFrustumCulling camera) = some s ∧
      s.toD3DApp = initialApp ∧
      s.buffers = List.replicate 3 (FrameBuffers.create 1 343 8) ∧
      s.m_Materials = builtMaterials.foldl (fun l m => insertMaterial m l) [] ∧
      s.m_AllRItems = [e] ∧ e.Instances.length = 343 ∧
      s.mRitemLayer = [0] ∧
      s.m_InstanceCount = 343 ∧
      s.m_isFrustumCulling = isFrustumCulling := by
  obtain ⟨d1, hd1⟩ := ResizeBuffer_returns { D3DApp.constructed with m_Fence := 0 }
  have hinit : Mawi1e.Initialize D3DApp.constructed = some initialApp :=
    Mawi1e.Initialize_constructed.1
  unfold Mawi1e.Initialize at hinit
  rw [hd1] at hinit
  dsimp only at hinit
  unfold App.Initialize
  dsimp only
  unfold App.ResizeBuffer
  have hl1 : App.lift Mawi1e.ResizeBuffer
      { App.constructed isFrustumCulling camera with
        screenWidth := screenWidth, screenHeight := screenHeight,
        toD3DApp := { (App.constructed isFrustumCulling camera).toD3DApp with m_Fence := 0 } }
      = some { App.constructed isFrustumCulling camera with
        screenWidth := screenWidth, screenHeight := screenHeight,
        toD3DApp := d1 } := lift_eq hd1
  rw [hl1]
  dsimp only
  rw [BuildRenderItems_eq
    { IndexCount := 3 * file.tcount, StartIndexLocation := 0, BaseVertexLocation := 0,
      Bounds := skullBounds file.positions } rfl builtMaterials_white]
  dsimp only
  rw [lift_eq hinit]
  refine ⟨_, _, rfl, rfl, ?_, rfl, rfl, ?_, rfl, rfl, rfl⟩
  · show [] ++ List.replicate gNumFrameResources.toNat
      (FrameBuffers.create 1 343
        (builtMaterials.foldl (fun l m => insertMaterial m l) []).length) = _
    rw [builtMaterials_length]
    rfl
  · rw [fillSkullInstances_length, List.length_replicate]

/-- The state that `Initialize` leaves behind is one in which the frame loop can start. -/
theorem App.Initialize_ready (ext : External) (screenWidth screenHeight : Int)
    (file : SkullFile) (isFrustumCulling : Bool) (camera : Camera) :
    ∃ s e,
      App.Initialize ext screenWidth screenHeight (some file)
        (App.constructed isFrustumCulling camera) = some s ∧
      App.Ready s ∧
      s.buffers = List.replicate 3 (FrameBuffers.create 1 343 8) ∧
      s.m_Materials.length = 8 ∧
      s.m_AllRItems = [e] ∧ e.Instances.length = 343 ∧
      s.m_InstanceCount = 343 ∧
      s.m_isFrustumCulling = isFrustumCulling := by
  obtain ⟨s, e, hs, hpipe, hbuf, hmat, hitems, hlen, hlayer, hcount, hflag⟩ :=
    App.Initialize_of_constructed ext screenWidth screenHeight file isFrustumCulling camera
  obtain ⟨-, hfresh, -, -⟩ := Mawi1e.Initialize_constructed
  obtain ⟨hring, hstamps, hi0, hi3, -⟩ := hfresh
  refine ⟨s, e, hs, ?_, hbuf, by rw [hmat]; exact builtMaterials_length, hitems, hlen, hcount,
    hflag⟩
  refine ⟨by show s.toD3DApp.m_FrameResources.length = 3; rw [hpipe]; exact hring,
    by show 0 ≤ s.toD3DApp.m_CurrFrameResourceIndex ∧ s.toD3DApp.m_CurrFrameResourceIndex < 3
       rw [hpipe]; exact ⟨hi0, hi3⟩,
    by rw [hbuf]; rfl, ?_, ?_, ?_⟩
  · intro fb hfb
    rw [hbuf, List.mem_replicate] at hfb
    rw [hfb.2, hitems, hmat]
    refine ⟨by decide, ?_, builtMaterials_index⟩
    intro r hr
    rw [List.mem_singleton] at hr
    rw [hr, hlen]
    show 343 ≤ (List.replicate 343 none : UploadBuffer InstanceConstants).length
    rw [List.length_replicate]
  · intro i hi
    rw [hlayer, List.mem_singleton] at hi
    rw [hi, hitems]
    exact Nat.zero_lt_one
  · intro j fr hj _
    have hj' : s.toD3DApp.m_FrameResources.get? j = some fr := hj
    rw [hpipe] at hj'
    exact hstamps fr (List.get?_mem hj')

/-! ## The claims about the frame resource sets and about the forced flag -/

/-- C20: `BuildFrameResources` adds exactly `gNumFrameResources = 3` frame resource sets, each
made with the counts 1, `m_InstanceCount` and `m_Materials.size()`, that is with 1 pass
element, one instance element per possible instance and one material element
per material. `Initialize` calls it after `BuildMaterials` and `BuildRenderItems`: started
from the constructed object it returns with 3 ring slots whose buffers hold 1
pass element, 343 instance elements and 8 material elements, where 343 is
`m_InstanceCount` and the number of instances of all render items and 8 is the
number of materials, and the frame loop can start. -/
theorem BuildFrameResources_three_sets_sized_for_scene (ext : External)
    (screenWidth screenHeight : Int) (file : SkullFile) (isFrustumCulling : Bool)
    (camera : Camera) :
    (∀ s : App,
      (App.BuildFrameResources s).m_FrameResources.length = s.m_FrameResources.length + 3 ∧
      (App.BuildFrameResources s).buffers = s.buffers ++
        List.replicate 3 (FrameBuffers.create 1 s.m_InstanceCount s.m_Materials.length) ∧
      (FrameBuffers.create 1 s.m_InstanceCount s.m_Materials.length).m_PassCB.length = 1 ∧
      (FrameBuffers.create 1 s.m_InstanceCount s.m_Materials.length).m_InstCB.length
        = s.m_InstanceCount ∧
      (FrameBuffers.create 1 s.m_InstanceCount s.m_Materials.length).m_MatVB.length
        = s.m_Materials.length) ∧
    ∃ s,
      App.Initialize ext screenWidth screenHeight (some file)
        (App.constructed isFrustumCulling camera) = some s ∧
      s.m_FrameResources.length = 3 ∧ s.buffers.length = 3 ∧
      (∀ fb ∈ s.buffers,
        fb.m_PassCB.length = 1 ∧ fb.m_InstCB.length = 343 ∧ fb.m_MatVB.length = 8) ∧
      s.m_InstanceCount = 343 ∧ s.m_Materials.length = 8 ∧
      (s.m_AllRItems.map (fun e => e.Instances.length)).sum = 343 ∧
      App.Ready s := by
  constructor
  · intro s
    refine ⟨?_, rfl, ?_, ?_, ?_⟩
    · show (s.m_FrameResources ++ List.replicate gNumFrameResources.toNat _).length = _
      rw [List.length_append, List.length_replicate]
      rfl
    · exact List.length_replicate _ _
    · exact List.length_replicate _ _
    · exact List.length_replicate _ _
  · obtain ⟨s, e, hs, hready, hbuf, hmat, hitems, hlen, hcount, -⟩ :=
      App.Initialize_ready ext screenWidth screenHeight file isFrustumCulling camera
    refine ⟨s, hs, hready.ring, hready.slots, ?_, hcount, hmat, ?_, hready⟩
    · intro fb hfb
      rw [hbuf, List.mem_replicate] at hfb
      rw [hfb.2]
      exact ⟨List.length_replicate _ _, List.length_replicate _ _, List.length_replicate _ _⟩
    · rw [hitems]
      simp [hlen]


/-- C14: with the flag `m_isFrustumCulling` set, whatever the frustum, the boxes and the tests
are, `UpdateInstanceBuffers` gives every render item the number of its instances as
`InstanceCount` and writes all instances of every item in their order from element
0 on; after the call the buffer of the current slot starts with all instances of
the item handled last, and `m_SkullCounts` is their number. For the scene that
`Initialize` builds with `BuildRenderItems`, an `Update` in which the flag is set
returns with the count 343. -/
theorem forced_flag_counts_every_instance (ext : External) (s : App) (slot : Nat)
    (fb : FrameBuffers)
    (hcur : s.m_CurrFrameResource = some slot) (hfb : s.buffers.get? slot = some fb)
    (hflag : s.m_isFrustumCulling = true)
    (hcap : ∀ e ∈ s.m_AllRItems, e.Instances.length ≤ fb.m_InstCB.length) :
    (∃ s' fb',
      UpdateInstanceBuffers ext s = some s' ∧ s'.buffers.get? slot = some fb' ∧
      s'.m_AllRItems = s.m_AllRItems.map
        (fun e => { e with InstanceCount := e.Instances.length }) ∧
      s'.writes = s.m_AllRItems.foldl
        (fun lg e => lg ++ instanceWrites slot 0 e.Instances) s.writes ∧
      (∀ front e, s.m_AllRItems = front ++ [e] →
        fb'.m_InstCB.take e.Instances.length = e.Instances.map (fun inst => some
          { World := XMMatrixTranspose inst.World,
            TexTransform := XMMatrixTranspose inst.TexTransform,
            MaterialIndex := inst.MaterialIndex }) ∧
        s'.m_SkullCounts = e.Instances.length)) ∧
    (∀ (screenWidth screenHeight : Int) (file : SkullFile) (flag0 : Bool) (camera : Camera)
      (input : FrameInput),
      (if input.keyF = true then !flag0 else flag0) = true →
      ∃ s0 s1,
        App.Initialize ext screenWidth screenHeight (some file) (App.constructed flag0 camera)
          = some s0 ∧
        App.Update ext input s0 = some s1 ∧
        s1.m_AllRItems.map (fun e => e.InstanceCount) = [343] ∧
        s1.m_SkullCounts = 343) := by
  constructor
  · have hres := UpdateInstanceBuffers_eq ext s slot fb hcur hfb hcap
    have hget := get?_set_self_of_get? s.buffers slot fb
      { fb with
        m_InstCB := s.m_AllRItems.foldl (fun b r => compacted (s.visibleOf ext r) b)
          fb.m_InstCB } hfb
    have hV : (fun e : RenderItem => s.visibleOf ext e) = fun e => e.Instances :=
      funext fun e => visibleOf_of_forced ext s e hflag
    refine ⟨_, _, hres, hget, ?_, ?_, ?_⟩
    · exact congrArg (fun f : RenderItem → List InstanceData =>
        s.m_AllRItems.map (fun e => ({ e with InstanceCount := (f e).length } : RenderItem))) hV
    · exact congrArg (fun f : RenderItem → List InstanceData =>
        s.m_AllRItems.foldl (fun lg e => lg ++ instanceWrites slot 0 (f e)) s.writes) hV
    · intro front e hitems
      constructor
      · show (s.m_AllRItems.foldl (fun b r => compacted (s.visibleOf ext r) b)
          fb.m_InstCB).take _ = _
        rw [hitems, List.foldl_append]
        show (compacted (s.visibleOf ext e)
          (front.foldl (fun b r => compacted (s.visibleOf ext r) b) fb.m_InstCB)).take _ = _
        rw [visibleOf_of_forced ext s e hflag]
        exact compacted_take _ _
      · show s.m_AllRItems.foldl (fun _ r => (s.visibleOf ext r).length) s.m_SkullCounts = _
        rw [hitems, List.foldl_append]
        show (s.visibleOf ext e).length = _
        rw [visibleOf_of_forced ext s e hflag]
  · intro screenWidth screenHeight file flag0 camera input hkey
    obtain ⟨s0, e, hs0, hready, hbuf, -, hitems, hlen, -, hflag0⟩ :=
      App.Initialize_ready ext screenWidth screenHeight file flag0 camera
    have hP : App.Prepared [] s0 := hready
    obtain ⟨s1, hs1, -⟩ := Prepared.next_Update ext input hP (by simp)
    obtain ⟨fb0, -, -, -, hd, hfb0, -⟩ := App.Update_inv hs1
    have hfit := hP.fits fb0 (List.get?_mem hfb0)
    obtain ⟨s1', hs1', hI, hC⟩ := App.Update_returns ext input hd hfb0 hfit
    rw [hs1] at hs1'
    have heq : s1 = s1' := Option.some.inj hs1'
    subst heq
    have hforced : (OnKeyboardInput ext input s0).m_isFrustumCulling = true := by
      show (if input.keyF = true then !s0.m_isFrustumCulling else s0.m_isFrustumCulling) = true
      rw [hflag0]
      exact hkey
    refine ⟨s0, s1, hs0, hs1, ?_, ?_⟩
    · rw [hI, hitems]
      show [((OnKeyboardInput ext input s0).visibleOf ext e).length] = _
      rw [visibleOf_of_forced ext _ e hforced, hlen]
    · rw [hC, hitems]
      show ((OnKeyboardInput ext input s0).visibleOf ext e).length = _
      rw [visibleOf_of_forced ext _ e hforced, hlen]

/-- C14, witness: with the flag set, two items behind the eye get the counts 1 and 3. -/
theorem forced_flag_counts_every_instance_witness :
    (sceneApp [plainItem (-10) [0], plainItem (-20) [0, 1, 2]] true 1).m_CurrFrameResource
      = some 0 ∧
    (sceneApp [plainItem (-10) [0], plainItem (-20) [0, 1, 2]] true 1).buffers.get? 0
      = some (FrameBuffers.create 1 4 2) ∧
    (sceneApp [plainItem (-10) [0], plainItem (-20) [0, 1, 2]] true 1).m_isFrustumCulling
      = true ∧
    ∃ s', UpdateInstanceBuffers axisLibrary
        (sceneApp [plainItem (-10) [0], plainItem (-20) [0, 1, 2]] true 1) = some s' ∧
      s'.m_AllRItems =
        (sceneApp [plainItem (-10) [0], plainItem (-20) [0, 1, 2]] true 1).m_AllRItems.map
          (fun e => { e with InstanceCount := e.Instances.length }) ∧
      s'.m_SkullCounts = (plainItem (-20) [0, 1, 2]).Instances.length :=
  ⟨rfl, rfl, rfl,
    let ⟨s', _, h1, _, h3, _, h5⟩ :=
      (forced_flag_counts_every_instance axisLibrary
        (sceneApp [plainItem (-10) [0], plainItem (-20) [0, 1, 2]] true 1) 0
        (FrameBuffers.create 1 4 2) rfl rfl rfl (by decide)).1
    ⟨s', h1, h3, (h5 [plainItem (-10) [0]] (plainItem (-20) [0, 1, 2]) rfl).2⟩⟩


/-! ## The matrix that moves the frustum -/

/-- The instance test moves the frustum by `toLocal` of the inverse view matrix and the world
matrix of the instance. -/
theorem instanceTest_eq_toLocal (ext : External) (frustum : BoundingFrustum)
    (invView : XMFLOAT4X4) (bounds : BoundingBox) (inst : InstanceData) :
    instanceTest ext frustum invView bounds inst
      = ext.Contains (ext.Transform frustum (toLocal ext invView inst.World)) bounds :=
  rfl

/-- The inverse of `exactLibrary` is the inverse of matrices. -/
theorem exactLibrary_inverse (M : XMFLOAT4X4) : exactLibrary.XMMatrixInverse M = M⁻¹ := by
  show (M.det)⁻¹ • M.adjugate = M⁻¹
  rw [Matrix.inv_def, Ring.inverse_eq_inv']

/-- C21: the frustum of the instance test is moved by
`toLocal = inverse(view) * inverse(world)`, in this order. When the library multiplies
matrices and inverts invertible ones, and the view and the world matrix are invertible,
`toLocal` is the inverse of `world * view`, on both sides, and for every row vector `p` the
product `((p * world) * view) * toLocal` is `p` again. -/
theorem toLocal_inverts_world_then_view (ext : External) (frustum : BoundingFrustum)
    (bounds : BoundingBox) (inst : InstanceData) (view : XMFLOAT4X4)
    (hmul : ∀ A B, ext.XMMatrixMultiply A B = A * B)
    (hinv : ∀ M : XMFLOAT4X4, M.det ≠ 0 → ext.XMMatrixInverse M = M⁻¹)
    (hview : view.det ≠ 0) (hworld : inst.World.det ≠ 0) :
    instanceTest ext frustum (ext.XMMatrixInverse view) bounds inst
      = ext.Contains
          (ext.Transform frustum (toLocal ext (ext.XMMatrixInverse view) inst.World)) bounds ∧
    toLocal ext (ext.XMMatrixInverse view) inst.World
      = ext.XMMatrixInverse view * ext.XMMatrixInverse inst.World ∧
    toLocal ext (ext.XMMatrixInverse view) inst.World = view⁻¹ * inst.World⁻¹ ∧
    toLocal ext (ext.XMMatrixInverse view) inst.World = (inst.World * view)⁻¹ ∧
    (inst.World * view) * toLocal ext (ext.XMMatrixInverse view) inst.World = 1 ∧
    toLocal ext (ext.XMMatrixInverse view) inst.World * (inst.World * view) = 1 ∧
    ∀ p : Fin 4 → ℚ,
      Matrix.vecMul (Matrix.vecMul (Matrix.vecMul p inst.World) view)
        (toLocal ext (ext.XMMatrixInverse view) inst.World) = p := by
  have h1 : toLocal ext (ext.XMMatrixInverse view) inst.World = view⁻¹ * inst.World⁻¹ := by
    rw [toLocal, hmul, hinv view hview, hinv inst.World hworld]
  have h2 : view⁻¹ * inst.World⁻¹ = (inst.World * view)⁻¹ := (Matrix.mul_inv_rev _ _).symm
  have hdet : (inst.World * view).det ≠ 0 := by
    rw [Matrix.det_mul]
    exact mul_ne_zero hworld hview
  have hunit : IsUnit (inst.World * view).det := isUnit_iff_ne_zero.mpr hdet
  have h3 : (inst.World * view) * toLocal ext (ext.XMMatrixInverse view) inst.World = 1 := by
    rw [h1, h2]
    exact Matrix.mul_nonsing_inv _ hunit
  refine ⟨rfl, ?_, h1, h1.trans h2, h3, ?_, ?_⟩
  · rw [toLocal, hmul]
  · rw [h1, h2]
    exact Matrix.nonsing_inv_mul _ hunit
  · intro p
    rw [Matrix.vecMul_vecMul, Matrix.vecMul_vecMul, ← Matrix.mul_assoc, h3, Matrix.vecMul_one]

/-- C21, witness: with the exact library, the identity as view matrix and an instance whose
world matrix doubles every coordinate. -/
theorem toLocal_inverts_world_then_view_witness :
    (1 : XMFLOAT4X4).det ≠ 0 ∧
    ({ World := Matrix.diagonal (fun _ => 2), TexTransform := 1, MaterialIndex := 0 }
      : InstanceData).World.det ≠ 0 ∧
    toLocal exactLibrary (exactLibrary.XMMatrixInverse 1) (Matrix.diagonal (fun _ => 2))
      = ((Matrix.diagonal (fun _ => 2) : XMFLOAT4X4) * 1)⁻¹ :=
  have hone : (1 : XMFLOAT4X4).det ≠ 0 := by simp
  have htwo : ({ World := Matrix.diagonal (fun _ => 2), TexTransform := 1, MaterialIndex := 0 }
      : InstanceData).World.det ≠ 0 := by
    show (Matrix.diagonal (fun _ => (2 : ℚ)) : XMFLOAT4X4).det ≠ 0
    rw [Matrix.det_diagonal]
    simp
  ⟨hone, htwo,
    (toLocal_inverts_world_then_view exactLibrary viewFrustum (pointBox 5)
      { World := Matrix.diagonal (fun _ => 2), TexTransform := 1, MaterialIndex := 0 } 1
      (fun _ _ => rfl) (fun M _ => exactLibrary_inverse M) hone htwo).2.2.2.1⟩


/-! ## The ring index over a run -/

/-- A step other than `Update` keeps the ring index and the number of ring slots. -/
theorem step_index {a : Action} {s s' : D3DApp} (h : step a s = some s')
    (ha : a ≠ Action.Update) :
    s'.m_CurrFrameResourceIndex = s.m_CurrFrameResourceIndex ∧
      s'.m_FrameResources.length = s.m_FrameResources.length := by
  cases a with
  | Update => exact absurd rfl ha
  | Draw =>
    obtain ⟨i, hcur, hi⟩ := Draw_some_inv h
    obtain ⟨fr, -, hd⟩ := Draw_eq_some hcur hi
    have h' : Draw s = some s' := h
    rw [hd] at h'
    simp only [Option.some.injEq] at h'
    subst h'
    exact ⟨rfl, List.length_set _ _ _⟩
  | FlushCommandQueue =>
    obtain ⟨-, hr, -, hi⟩ := FlushCommandQueue_frame h
    exact ⟨hi, by rw [hr]⟩
  | ResizeBuffer =>
    obtain ⟨-, hr, -, hi⟩ := ResizeBuffer_frame h
    exact ⟨hi, by rw [hr]⟩
  | gpuRetire =>
    simp only [step, Option.some.injEq] at h
    subst h
    obtain ⟨-, hr, -, hi⟩ := gpuRetire_frame s
    exact ⟨hi, by rw [hr]⟩

/-- The ring index after a run: it has advanced once, modulo 3, for every `Update` of the
run. -/
theorem run_index :
    ∀ (acts : List Action) (s s' : D3DApp), run acts s = some s' →
      s.m_FrameResources.length = 3 →
      0 ≤ s.m_CurrFrameResourceIndex → s.m_CurrFrameResourceIndex < 3 →
      s'.m_CurrFrameResourceIndex = (s.m_CurrFrameResourceIndex + updateCount acts) % 3 ∧
        s'.m_FrameResources.length = 3
  | [], s, s', h, hlen, h0, h3 => by
    simp only [run, Option.some.injEq] at h
    subst h
    refine ⟨?_, hlen⟩
    simp only [updateCount, List.count_nil, Nat.cast_zero, add_zero]
    omega
  | a :: rest, s, s', h, hlen, h0, h3 => by
    simp only [run] at h
    split at h
    · simp at h
    rename_i s1 h1
    by_cases ha : a = Action.Update
    · subst ha
      obtain ⟨-, hidx, hring, -⟩ := Update_selects (s := s) (d := s1) h1
      rw [nextIndex_eq h0 h3] at hidx
      obtain ⟨hi, hl⟩ := run_index rest s1 s' h (by rw [hring]; exact hlen)
        (by rw [hidx]; omega) (by rw [hidx]; omega)
      refine ⟨?_, hl⟩
      rw [hi, hidx]
      simp only [updateCount, List.count_cons_self, Nat.cast_add, Nat.cast_one]
      omega
    · obtain ⟨hidx, hring⟩ := step_index h1 ha
      obtain ⟨hi, hl⟩ := run_index rest s1 s' h (by rw [hring]; exact hlen)
        (by rw [hidx]; exact h0) (by rw [hidx]; exact h3)
      refine ⟨?_, hl⟩
      rw [hi, hidx]
      have hc : updateCount (a :: rest) = updateCount rest := by
        unfold updateCount
        exact List.count_cons_of_ne (fun h => ha h.symm) rest
      rw [hc]

/-- The slot that the `Update` at the end of a run selects. -/
theorem run_then_Update {pre : List Action} {s s1 : D3DApp}
    (h : run (pre ++ [Action.Update]) s = some s1)
    (hlen : s.m_FrameResources.length = 3)
    (h0 : 0 ≤ s.m_CurrFrameResourceIndex) (h3 : s.m_CurrFrameResourceIndex < 3) :
    s1.m_CurrFrameResource
        = some ((s.m_CurrFrameResourceIndex + (updateCount pre + 1 : Nat)) % 3).toNat ∧
      s1.m_CurrFrameResourceIndex
        = (s.m_CurrFrameResourceIndex + (updateCount pre + 1 : Nat)) % 3 := by
  rw [run_append] at h
  cases hp : run pre s with
  | none => rw [hp] at h; simp at h
  | some sp =>
    rw [hp] at h
    have hu : Update sp = some s1 := by
      simp only [Option.some_bind, run] at h
      split at h
      · simp at h
      rename_i x hx
      simp only [Option.some.injEq] at h
      subst h
      exact hx
    obtain ⟨hi, hl⟩ := run_index pre s sp hp hlen h0 h3
    obtain ⟨hcur, hidx, -, -⟩ := Update_selects hu
    have hn := nextIndex_eq (s := sp) (by rw [hi]; omega) (by rw [hi]; omega)
    have he : sp.nextIndex = (s.m_CurrFrameResourceIndex + (updateCount pre + 1 : Nat)) % 3 := by
      rw [hn, hi]
      push_cast
      omega
    rw [hcur, hidx, he]
    exact ⟨rfl, rfl⟩

/-- C26: from a ring of three slots and a ring index `i0` in `[0, 3)`, whatever else the run
does between the calls: after a run the index is `(i0 + k) mod 3` for the number `k` of its
`Update` calls, it lies in `[0, 3)` and is a position of the ring; the `k`-th `Update`
selects slot `(i0 + k) mod 3`; two `Update` calls whose numbers differ by 1 or 2 (as those
of three consecutive calls do) select different slots; and after three calls the index is `i0`
again. On a ring without stamps any number of `Update` calls in a row returns. -/
theorem kth_Update_selects_slot_mod_three (s0 : D3DApp)
    (hlen : s0.m_FrameResources.length = 3)
    (h0 : 0 ≤ s0.m_CurrFrameResourceIndex) (h3 : s0.m_CurrFrameResourceIndex < 3) :
    (∀ acts s', run acts s0 = some s' →
      s'.m_CurrFrameResourceIndex = (s0.m_CurrFrameResourceIndex + updateCount acts) % 3 ∧
      0 ≤ s'.m_CurrFrameResourceIndex ∧ s'.m_CurrFrameResourceIndex < 3 ∧
      s'.m_FrameResources.length = 3 ∧
      s'.m_CurrFrameResourceIndex.toNat < s'.m_FrameResources.length ∧
      (updateCount acts = 3 → s'.m_CurrFrameResourceIndex = s0.m_CurrFrameResourceIndex)) ∧
    (∀ pre s1, run (pre ++ [Action.Update]) s0 = some s1 →
      s1.m_CurrFrameResource
        = some ((s0.m_CurrFrameResourceIndex + (updateCount pre + 1 : Nat)) % 3).toNat ∧
      ((s0.m_CurrFrameResourceIndex + (updateCount pre + 1 : Nat)) % 3).toNat
        < s1.m_FrameResources.length) ∧
    (∀ p1 p2 s1 s2, run (p1 ++ [Action.Update]) s0 = some s1 →
      run (p2 ++ [Action.Update]) s0 = some s2 →
      updateCount p1 < updateCount p2 → updateCount p2 < updateCount p1 + 3 →
      s1.m_CurrFrameResource ≠ s2.m_CurrFrameResource) ∧
    ((∀ fr ∈ s0.m_FrameResources, fr.m_Fence = 0) →
      ∀ n, ∃ s', run (List.replicate n Action.Update) s0 = some s') := by
  refine ⟨?_, ?_, ?_, ?_⟩
  · intro acts s' h
    obtain ⟨hi, hl⟩ := run_index acts s0 s' h hlen h0 h3
    refine ⟨hi, by omega, by omega, hl, by omega, ?_⟩
    intro hc
    rw [hi, hc]
    push_cast
    omega
  · intro pre s1 h
    obtain ⟨hcur, -⟩ := run_then_Update h hlen h0 h3
    obtain ⟨-, hl⟩ := run_index _ s0 s1 h hlen h0 h3
    exact ⟨hcur, by omega⟩
  · intro p1 p2 s1 s2 h1 h2 hlt hlt3 heq
    obtain ⟨hc1, -⟩ := run_then_Update h1 hlen h0 h3
    obtain ⟨hc2, -⟩ := run_then_Update h2 hlen h0 h3
    rw [hc1, hc2] at heq
    simp only [Option.some.injEq] at heq
    push_cast at heq
    omega
  · intro hall n
    obtain ⟨s', h, -⟩ := run_updates_unstamped n s0 hlen hall h0 h3
    exact ⟨s', h⟩

/-- C26, witness: from the state that `Initialize` leaves, three frames with the GPU at rest
and a fourth `Update` after the GPU has retired the first frame: the index is back
at 1, the slot of the first `Update`. -/
theorem kth_Update_selects_slot_mod_three_witness :
    initialApp.m_FrameResources.length = 3 ∧
    0 ≤ initialApp.m_CurrFrameResourceIndex ∧ initialApp.m_CurrFrameResourceIndex < 3 ∧
    ∃ s', run [Action.Update, Action.Draw, Action.Update, Action.Draw, Action.Update,
        Action.Draw, Action.gpuRetire, Action.gpuRetire, Action.Update] initialApp = some s' ∧
      s'.m_CurrFrameResourceIndex = 1 ∧ s'.m_CurrFrameResource = some 1 :=
  ⟨by decide, by decide, by decide,
    (run [Action.Update, Action.Draw, Action.Update, Action.Draw, Action.Update,
        Action.Draw, Action.gpuRetire, Action.gpuRetire, Action.Update] initialApp).get
      (by decide),
    by decide,
    ((kth_Update_selects_slot_mod_three initialApp (by decide) (by decide) (by decide)).1
      [Action.Update, Action.Draw, Action.Update, Action.Draw, Action.Update,
        Action.Draw, Action.gpuRetire, Action.gpuRetire, Action.Update] _ (by decide)).1.trans
      (by decide),
    ((kth_Update_selects_slot_mod_three initialApp (by decide) (by decide) (by decide)).2.1
      [Action.Update, Action.Draw, Action.Update, Action.Draw, Action.Update,
        Action.Draw, Action.gpuRetire, Action.gpuRetire] _ (by decide)).1.trans (by decide)⟩


/-! ## The bounding box of the skull -/

/-- The fold of `XMVectorMin` is below its start and below every position, on every axis. -/
theorem foldl_XMVectorMin_le :
    ∀ (positions : List XMFLOAT3) (v : XMFLOAT3),
      ((positions.foldl XMVectorMin v).x ≤ v.x ∧ (positions.foldl XMVectorMin v).y ≤ v.y ∧
        (positions.foldl XMVectorMin v).z ≤ v.z) ∧
      ∀ p ∈ positions, (positions.foldl XMVectorMin v).x ≤ p.x ∧
        (positions.foldl XMVectorMin v).y ≤ p.y ∧ (positions.foldl XMVectorMin v).z ≤ p.z
  | [], v => ⟨⟨le_refl _, le_refl _, le_refl _⟩, fun p hp => by simp at hp⟩
  | q :: rest, v => by
    obtain ⟨⟨hx, hy, hz⟩, hall⟩ := foldl_XMVectorMin_le rest (XMVectorMin v q)
    simp only [List.foldl_cons]
    have hvx : (XMVectorMin v q).x = min v.x q.x := rfl
    have hvy : (XMVectorMin v q).y = min v.y q.y := rfl
    have hvz : (XMVectorMin v q).z = min v.z q.z := rfl
    rw [hvx] at hx
    rw [hvy] at hy
    rw [hvz] at hz
    refine ⟨⟨hx.trans (min_le_left _ _), hy.trans (min_le_left _ _),
      hz.trans (min_le_left _ _)⟩, ?_⟩
    intro p hp
    rcases List.mem_cons.1 hp with rfl | hp
    · exact ⟨hx.trans (min_le_right _ _), hy.trans (min_le_right _ _),
        hz.trans (min_le_right _ _)⟩
    · exact hall p hp

/-- The fold of `XMVectorMax` is above its start and above every position, on every axis. -/
theorem foldl_XMVectorMax_ge :
    ∀ (positions : List XMFLOAT3) (v : XMFLOAT3),
      (v.x ≤ (positions.foldl XMVectorMax v).x ∧ v.y ≤ (positions.foldl XMVectorMax v).y ∧
        v.z ≤ (positions.foldl XMVectorMax v).z) ∧
      ∀ p ∈ positions, p.x ≤ (positions.foldl XMVectorMax v).x ∧
        p.y ≤ (positions.foldl XMVectorMax v).y ∧ p.z ≤ (positions.foldl XMVectorMax v).z
  | [], v => ⟨⟨le_refl _, le_refl _, le_refl _⟩, fun p hp => by simp at hp⟩
  | q :: rest, v => by
    obtain ⟨⟨hx, hy, hz⟩, hall⟩ := foldl_XMVectorMax_ge rest (XMVectorMax v q)
    simp only [List.foldl_cons]
    have hvx : (XMVectorMax v q).x = max v.x q.x := rfl
    have hvy : (XMVectorMax v q).y = max v.y q.y := rfl
    have hvz : (XMVectorMax v q).z = max v.z q.z := rfl
    rw [hvx] at hx
    rw [hvy] at hy
    rw [hvz] at hz
    refine ⟨⟨(le_max_left _ _).trans hx, (le_max_left _ _).trans hy,
      (le_max_left _ _).trans hz⟩, ?_⟩
    intro p hp
    rcases List.mem_cons.1 hp with rfl | hp
    · exact ⟨(le_max_right _ _).trans hx, (le_max_right _ _).trans hy,
        (le_max_right _ _).trans hz⟩
    · exact hall p hp

/-- The fold of `XMVectorMin` takes, on every axis, its start or the coordinate of a
position. -/
theorem foldl_XMVectorMin_attained :
    ∀ (positions : List XMFLOAT3) (v : XMFLOAT3),
      ((positions.foldl XMVectorMin v).x = v.x ∨
        ∃ p ∈ positions, (positions.foldl XMVectorMin v).x = p.x) ∧
      ((positions.foldl XMVectorMin v).y = v.y ∨
        ∃ p ∈ positions, (positions.foldl XMVectorMin v).y = p.y) ∧
      ((positions.foldl XMVectorMin v).z = v.z ∨
        ∃ p ∈ positions, (positions.foldl XMVectorMin v).z = p.z)
  | [], v => ⟨Or.inl rfl, Or.inl rfl, Or.inl rfl⟩
  | q :: rest, v => by
    obtain ⟨hx, hy, hz⟩ := foldl_XMVectorMin_attained rest (XMVectorMin v q)
    simp only [List.foldl_cons]
    have hvx : (XMVectorMin v q).x = min v.x q.x := rfl
    have hvy : (XMVectorMin v q).y = min v.y q.y := rfl
    have hvz : (XMVectorMin v q).z = min v.z q.z := rfl
    rw [hvx] at hx
    rw [hvy] at hy
    rw [hvz] at hz
    refine ⟨?_, ?_, ?_⟩
    · rcases hx with h | ⟨p, hp, h⟩
      · rcases min_choice v.x q.x with hm | hm
        · exact Or.inl (h.trans hm)
        · exact Or.inr ⟨q, List.mem_cons_self _ _, h.trans hm⟩
      · exact Or.inr ⟨p, List.mem_cons_of_mem _ hp, h⟩
    · rcases hy with h | ⟨p, hp, h⟩
      · rcases min_choice v.y q.y with hm | hm
        · exact Or.inl (h.trans hm)
        · exact Or.inr ⟨q, List.mem_cons_self _ _, h.trans hm⟩
      · exact Or.inr ⟨p, List.mem_cons_of_mem _ hp, h⟩
    · rcases hz with h | ⟨p, hp, h⟩
      · rcases min_choice v.z q.z with hm | hm
        · exact Or.inl (h.trans hm)
        · exact Or.inr ⟨q, List.mem_cons_self _ _, h.trans hm⟩
      · exact Or.inr ⟨p, List.mem_cons_of_mem _ hp, h⟩

/-- The fold of `XMVectorMax` takes, on every axis, its start or the coordinate of a
position. -/
theorem foldl_XMVectorMax_attained :
    ∀ (positions : List XMFLOAT3) (v : XMFLOAT3),
      ((positions.foldl XMVectorMax v).x = v.x ∨
        ∃ p ∈ positions, (positions.foldl XMVectorMax v).x = p.x) ∧
      ((positions.foldl XMVectorMax v).y = v.y ∨
        ∃ p ∈ positions, (positions.foldl XMVectorMax v).y = p.y) ∧
      ((positions.foldl XMVectorMax v).z = v.z ∨
        ∃ p ∈ positions, (positions.foldl XMVectorMax v).z = p.z)
  | [], v => ⟨Or.inl rfl, Or.inl rfl, Or.inl rfl⟩
  | q :: rest, v => by
    obtain ⟨hx, hy, hz⟩ := foldl_XMVectorMax_attained rest (XMVectorMax v q)
    simp only [List.foldl_cons]
    have hvx : (XMVectorMax v q).x = max v.x q.x := rfl
    have hvy : (XMVectorMax v q).y = max v.y q.y := rfl
    have hvz : (XMVectorMax v q).z = max v.z q.z := rfl
    rw [hvx] at hx
    rw [hvy] at hy
    rw [hvz] at hz
    refine ⟨?_, ?_, ?_⟩
    · rcases hx with h | ⟨p, hp, h⟩
      · rcases max_choice v.x q.x with hm | hm
        · exact Or.inl (h.trans hm)
        · exact Or.inr ⟨q, List.mem_cons_self _ _, h.trans hm⟩
      · exact Or.inr ⟨p, List.mem_cons_of_mem _ hp, h⟩
    · rcases hy with h | ⟨p, hp, h⟩
      · rcases max_choice v.y q.y with hm | hm
        · exact Or.inl (h.trans hm)
        · exact Or.inr ⟨q, List.mem_cons_self _ _, h.trans hm⟩
      · exact Or.inr ⟨p, List.mem_cons_of_mem _ hp, h⟩
    · rcases hz with h | ⟨p, hp, h⟩
      · rcases max_choice v.z q.z with hm | hm
        · exact Or.inl (h.trans hm)
        · exact Or.inr ⟨q, List.mem_cons_self _ _, h.trans hm⟩
      · exact Or.inr ⟨p, List.mem_cons_of_mem _ hp, h⟩

/-- A coordinate between two bounds lies within half their distance of their middle. -/
theorem abs_sub_middle_le {lo hi c : ℚ} (h1 : lo ≤ c) (h2 : c ≤ hi) :
    |c - 1 / 2 * (lo + hi)| ≤ 1 / 2 * (hi - lo) := by
  rw [abs_le]
  constructor <;> linarith

/-- C29: for a non-empty list of positions with coordinates in `[-FLT_MAX, FLT_MAX]`, in exact
arithmetic: the box that `BuildInstancesTheSkull` stores in the submesh is
`skullBounds`, whose centre is `(min + max) / 2` and whose extents are `(max - min) / 2`
for the folds `min` and `max` of the loop; on every axis `min` is a lower bound of the
positions that one of them attains and `max` an upper bound that one of them
attains; every position lies in the box; and the extents are not negative. -/
theorem skull_box_contains_every_vertex (positions : List XMFLOAT3) (tcount : Nat) (s : App)
    (hne : positions ≠ [])
    (hrange : ∀ p ∈ positions, (-FLT_MAX ≤ p.x ∧ p.x ≤ FLT_MAX) ∧
      (-FLT_MAX ≤ p.y ∧ p.y ≤ FLT_MAX) ∧ (-FLT_MAX ≤ p.z ∧ p.z ≤ FLT_MAX)) :
    ∃ (submesh : SubMeshGeometry) (vMin vMax : XMFLOAT3),
      (BuildInstancesTheSkull (some { positions := positions, tcount := tcount }) s).lskull
        = some submesh ∧
      submesh.Bounds = skullBounds positions ∧
      vMin = positions.foldl XMVectorMin { x := FLT_MAX, y := FLT_MAX, z := FLT_MAX } ∧
      vMax = positions.foldl XMVectorMax { x := -FLT_MAX, y := -FLT_MAX, z := -FLT_MAX } ∧
      (∀ p ∈ positions, vMin.x ≤ p.x ∧ vMin.y ≤ p.y ∧ vMin.z ≤ p.z) ∧
      ((∃ p ∈ positions, vMin.x = p.x) ∧ (∃ p ∈ positions, vMin.y = p.y) ∧
        (∃ p ∈ positions, vMin.z = p.z)) ∧
      (∀ p ∈ positions, p.x ≤ vMax.x ∧ p.y ≤ vMax.y ∧ p.z ≤ vMax.z) ∧
      ((∃ p ∈ positions, vMax.x = p.x) ∧ (∃ p ∈ positions, vMax.y = p.y) ∧
        (∃ p ∈ positions, vMax.z = p.z)) ∧
      submesh.Bounds.Center = { x := 1 / 2 * (vMin.x + vMax.x), y := 1 / 2 * (vMin.y + vMax.y),
                                z := 1 / 2 * (vMin.z + vMax.z) } ∧
      submesh.Bounds.Extents = { x := 1 / 2 * (vMax.x - vMin.x), y := 1 / 2 * (vMax.y - vMin.y),
                                 z := 1 / 2 * (vMax.z - vMin.z) } ∧
      (∀ p ∈ positions, submesh.Bounds.Holds p) ∧
      0 ≤ submesh.Bounds.Extents.x ∧ 0 ≤ submesh.Bounds.Extents.y ∧
      0 ≤ submesh.Bounds.Extents.z := by
  obtain ⟨-, hlo⟩ := foldl_XMVectorMin_le positions { x := FLT_MAX, y := FLT_MAX, z := FLT_MAX }
  obtain ⟨-, hhi⟩ :=
    foldl_XMVectorMax_ge positions { x := -FLT_MAX, y := -FLT_MAX, z := -FLT_MAX }
  obtain ⟨ax, ay, az⟩ :=
    foldl_XMVectorMin_attained positions { x := FLT_MAX, y := FLT_MAX, z := FLT_MAX }
  obtain ⟨bx, b_y, bz⟩ :=
    foldl_XMVectorMax_attained positions { x := -FLT_MAX, y := -FLT_MAX, z := -FLT_MAX }
  obtain ⟨q, hq⟩ := List.exists_mem_of_ne_nil positions hne
  obtain ⟨⟨rx1, rx2⟩, ⟨ry1, ry2⟩, ⟨rz1, rz2⟩⟩ := hrange q hq
  obtain ⟨lx, ly, lz⟩ := hlo q hq
  obtain ⟨ux, uy, uz⟩ := hhi q hq
  refine ⟨_, _, _, rfl, rfl, rfl, rfl, hlo, ⟨?_, ?_, ?_⟩, hhi, ⟨?_, ?_, ?_⟩, rfl, rfl, ?_, ?_,
    ?_, ?_⟩
  · rcases ax with h | h
    · exact ⟨q, hq, le_antisymm lx (by rw [h]; exact rx2)⟩
    · exact h
  · rcases ay with h | h
    · exact ⟨q, hq, le_antisymm ly (by rw [h]; exact ry2)⟩
    · exact h
  · rcases az with h | h
    · exact ⟨q, hq, le_antisymm lz (by rw [h]; exact rz2)⟩
    · exact h
  · rcases bx with h | h
    · exact ⟨q, hq, le_antisymm (by rw [h]; exact rx1) ux⟩
    · exact h
  · rcases b_y with h | h
    · exact ⟨q, hq, le_antisymm (by rw [h]; exact ry1) uy⟩
    · exact h
  · rcases bz with h | h
    · exact ⟨q, hq, le_antisymm (by rw [h]; exact rz1) uz⟩
    · exact h
  · intro p hp
    obtain ⟨l1, l2, l3⟩ := hlo p hp
    obtain ⟨u1, u2, u3⟩ := hhi p hp
    exact ⟨abs_sub_middle_le l1 u1, abs_sub_middle_le l2 u2, abs_sub_middle_le l3 u3⟩
  · show (0 : ℚ) ≤ 1 / 2 * (_ - _)
    linarith [lx.trans ux]
  · show (0 : ℚ) ≤ 1 / 2 * (_ - _)
    linarith [ly.trans uy]
  · show (0 : ℚ) ≤ 1 / 2 * (_ - _)
    linarith [lz.trans uz]

/-- C29, witness: two vertices, `(1, 2, 3)` and `(-1, 0, 5)`; the box has its centre at
`(0, 1, 4)` and the extents `(1, 1, 1)`. -/
theorem skull_box_contains_every_vertex_witness :
    ([{ x := 1, y := 2, z := 3 }, { x := -1, y := 0, z := 5 }] : List XMFLOAT3) ≠ [] ∧
    (∀ p ∈ ([{ x := 1, y := 2, z := 3 }, { x := -1, y := 0, z := 5 }] : List XMFLOAT3),
      (-FLT_MAX ≤ p.x ∧ p.x ≤ FLT_MAX) ∧
      (-FLT_MAX ≤ p.y ∧ p.y ≤ FLT_MAX) ∧ (-FLT_MAX ≤ p.z ∧ p.z ≤ FLT_MAX)) ∧
    (skullBounds [{ x := 1, y := 2, z := 3 }, { x := -1, y := 0, z := 5 }]).Holds
      { x := 1, y := 2, z := 3 } ∧
    (skullBounds [{ x := 1, y := 2, z := 3 }, { x := -1, y := 0, z := 5 }]).Center.z = 4 ∧
    (skullBounds [{ x := 1, y := 2, z := 3 }, { x := -1, y := 0, z := 5 }]).Extents.z = 1 :=
  have hne : ([{ x := 1, y := 2, z := 3 }, { x := -1, y := 0, z := 5 }] : List XMFLOAT3) ≠ [] :=
    List.cons_ne_nil _ _
  have hrange : ∀ p ∈ ([{ x := 1, y := 2, z := 3 }, { x := -1, y := 0, z := 5 }] : List XMFLOAT3),
      (-FLT_MAX ≤ p.x ∧ p.x ≤ FLT_MAX) ∧
      (-FLT_MAX ≤ p.y ∧ p.y ≤ FLT_MAX) ∧ (-FLT_MAX ≤ p.z ∧ p.z ≤ FLT_MAX) := by
    intro p hp
    simp only [List.mem_cons, List.mem_singleton, List.not_mem_nil, or_false] at hp
    rcases hp with rfl | rfl <;> norm_num [FLT_MAX]
  have h := skull_box_contains_every_vertex
    [{ x := 1, y := 2, z := 3 }, { x := -1, y := 0, z := 5 }] 0
    (sceneApp [] false 1) hne hrange
  ⟨hne, hrange,
    (let ⟨_, _, _, h1, h2, _, _, _, _, _, _, _, _, h3, _⟩ := h
     h2 ▸ h3 { x := 1, y := 2, z := 3 } (List.mem_cons_self _ _)),
    by norm_num [skullBounds, XMVectorMin, XMVectorMax, FLT_MAX],
    by norm_num [skullBounds, XMVectorMin, XMVectorMax, FLT_MAX]⟩


/-! ## The function `GetBoundingBoxFromVertex` -/

/-- The loop of `GetBoundingBoxFromVertex` leaves both vectors as they were loaded. -/
theorem foldl_discarding (vertices : List XMFLOAT3) (acc : XMFLOAT3 × XMFLOAT3) :
    vertices.foldl
      (fun (acc : XMFLOAT3 × XMFLOAT3) pos =>
        let _min := XMVectorMin pos acc.1
        let _max := XMVectorMax pos acc.2
        acc) acc = acc := by
  induction vertices with
  | nil => rfl
  | cons v rest ih => exact ih

/-- For every list of vertices `GetBoundingBoxFromVertex` returns the same box: the point
`(FLT_MAX, FLT_MAX, FLT_MAX)` in exact arithmetic. -/
theorem GetBoundingBoxFromVertex_eq (vertices : List XMFLOAT3) :
    GetBoundingBoxFromVertex vertices
      = { Center := { x := FLT_MAX, y := FLT_MAX, z := FLT_MAX },
          Extents := { x := 0, y := 0, z := 0 } } := by
  unfold GetBoundingBoxFromVertex
  simp only [foldl_discarding]
  have hc : (1 : ℚ) / 2 * (FLT_MAX + FLT_MAX) = FLT_MAX := by ring
  have he : (1 : ℚ) / 2 * (FLT_MAX - FLT_MAX) = 0 := by ring
  rw [hc, he]

/-- C30, the code at the failing input: for the single vertex `(0, 0, 0)` the function
`GetBoundingBoxFromVertex` returns the box with centre `(FLT_MAX, FLT_MAX, FLT_MAX)` and
extents `(0, 0, 0)`, which does not hold the vertex; the loop of `BuildInstancesTheSkull`
on the same list gives the box of the minimum and the maximum, which holds it. -/
theorem GetBoundingBoxFromVertex_misses_the_vertex :
    GetBoundingBoxFromVertex [{ x := 0, y := 0, z := 0 }]
      = { Center := { x := FLT_MAX, y := FLT_MAX, z := FLT_MAX },
          Extents := { x := 0, y := 0, z := 0 } } ∧
    ¬ (GetBoundingBoxFromVertex [{ x := 0, y := 0, z := 0 }]).Holds { x := 0, y := 0, z := 0 } ∧
    (skullBounds [{ x := 0, y := 0, z := 0 }]).Holds { x := 0, y := 0, z := 0 } := by
  refine ⟨GetBoundingBoxFromVertex_eq _, ?_, ?_⟩
  · rw [GetBoundingBoxFromVertex_eq]
    intro h
    have hx : |(0 : ℚ) - FLT_MAX| ≤ 0 := h.1
    norm_num [FLT_MAX] at hx
  · norm_num [BoundingBox.Holds, skullBounds, XMVectorMin, XMVectorMax, FLT_MAX]


/-! ## The window messages -/

/-- C24, the code at the failing input: a `WM_SIZE` message with `wParam = SIZE_RESTORED` and
the new size 1024 by 768, in a window that is neither minimised nor maximised and is not
being dragged. The handler stores the new width and height and returns without a call
of `ResizeBuffer`: the frame pipeline part, the camera and `m_LocalProjFrustum` are as
before. The same message with `SIZE_MAXIMIZED`, or with a `wParam` above `SIZE_MAXIMIZED`,
does call `ResizeBuffer`, and so does `WM_EXITSIZEMOVE`. -/
theorem restored_size_message_skips_ResizeBuffer :
    sceneWindow.m_SizeMinimized = false ∧ sceneWindow.m_SizeMaximized = false ∧
    sceneWindow.m_Resizing = false ∧ sceneWindow.m_D3DApp = true ∧
    (∃ w, MessageHandler axisLibrary (Message.WM_SIZE SIZE_RESTORED (1024 + 65536 * 768))
        sceneWindow = some w ∧
      w.screenWidth = 1024 ∧ w.screenHeight = 768 ∧
      sceneWindow.screenWidth = 800 ∧ sceneWindow.screenHeight = 600 ∧
      w.m_SizeMinimized = false ∧ w.m_Resizing = false ∧
      w.resizeCalls = 0 ∧
      w.toD3DApp = sceneWindow.toD3DApp ∧
      w.m_Camera = sceneWindow.m_Camera ∧
      w.m_LocalProjFrustum = sceneWindow.m_LocalProjFrustum) ∧
    (∃ w, MessageHandler axisLibrary (Message.WM_SIZE SIZE_MAXIMIZED (1024 + 65536 * 768))
        sceneWindow = some w ∧ w.resizeCalls = 1) ∧
    (∃ w, MessageHandler axisLibrary (Message.WM_SIZE 3 (1024 + 65536 * 768))
        sceneWindow = some w ∧ w.resizeCalls = 1) ∧
    (∃ w, MessageHandler axisLibrary Message.WM_EXITSIZEMOVE sceneWindow = some w ∧
      w.resizeCalls = 1) :=
  ⟨rfl, rfl, rfl, rfl,
    ⟨_, rfl, rfl, rfl, rfl, rfl, rfl, rfl, rfl, rfl, rfl, rfl⟩,
    ⟨_, rfl, rfl⟩, ⟨_, rfl, rfl⟩, ⟨_, rfl, rfl⟩⟩


/-! ## The allocator reset of `Draw` -/

/-- C25, counterexample: after an `Update` and a `Draw` from the state that `Initialize` leaves,
with the GPU at rest, the command list of slot 1 is still in the queue, so the
allocator of slot 1 is in use and its reset fails. A further `Draw` returns all the
same: after the reset it records the draws of slot 1, closes and submits the
command list, presents, stamps the slot and signals. -/
theorem Draw_submits_with_allocator_in_use :
    (run [Action.Update, Action.Draw] initialApp).map
      (fun s => (s.m_CurrFrameResource, s.allocatorInUse 1,
        (Draw s).map (fun s' => (s'.trace.drop s.trace.length, s'.m_CommandQueue))))
      = some (some 1, true,
          some ([Event.allocatorReset 1, Event.commandListReset, Event.recordDrawRenderItems 1,
                 Event.commandListClose, Event.executeCommandLists (some 1), Event.present,
                 Event.stamp 1 5, Event.signal 5],
                [QueueItem.execute (some 1), QueueItem.signal 4,
                 QueueItem.execute (some 1), QueueItem.signal 5])) := by
  decide

/-- C25, amended: `Draw` does not look at the result of the allocator reset. With the current
pointer at slot `i` of the ring and the allocator of that slot still in use, `Draw`
returns, and after the reset it goes on as in any other frame: it records the
draws of the slot, closes and submits the command list, presents, stamps the slot
and signals, and the submitted command list is in the queue behind what was
there. -/
theorem Draw_ignores_failed_allocator_reset (s : D3DApp) (i : Nat)
    (hcur : s.m_CurrFrameResource = some i) (hi : i < s.m_FrameResources.length)
    (huse : s.allocatorInUse i = true) :
    ∃ s', Draw s = some s' ∧
      QueueItem.execute (some i) ∈ s.m_CommandQueue ∧
      s'.trace = s.trace ++
        [Event.allocatorReset i, Event.commandListReset, Event.recordDrawRenderItems i,
         Event.commandListClose, Event.executeCommandLists (some i), Event.present,
         Event.stamp i ((s.m_FenceCount + 1) % UINT64_RANGE),
         Event.signal ((s.m_FenceCount + 1) % UINT64_RANGE)] ∧
      s'.m_CommandQueue = s.m_CommandQueue ++
        [QueueItem.execute (some i), QueueItem.signal ((s.m_FenceCount + 1) % UINT64_RANGE)] ∧
      s'.stampOf i = (s.m_FenceCount + 1) % UINT64_RANGE := by
  obtain ⟨fr, hfr, hd⟩ := Draw_eq_some hcur hi
  refine ⟨_, hd, ?_, rfl, rfl, ?_⟩
  · simpa [D3DApp.allocatorInUse] using huse
  · rw [stampOf_of_set s _ rfl hi i, if_pos rfl]

/-- C25, witness: the state after an `Update` and a `Draw` with the GPU at rest, where the
allocator of the current slot 1 is in use. -/
theorem Draw_ignores_failed_allocator_reset_witness :
    ∃ s, run [Action.Update, Action.Draw] initialApp = some s ∧
      s.m_CurrFrameResource = some 1 ∧ 1 < s.m_FrameResources.length ∧
      s.allocatorInUse 1 = true ∧
      ∃ s', Draw s = some s' ∧ s'.stampOf 1 = 5 :=
  ⟨(run [Action.Update, Action.Draw] initialApp).get (by decide), by decide, by decide,
    by decide, by decide,
    let ⟨s', h1, _, _, _, h5⟩ :=
      Draw_ignores_failed_allocator_reset
        ((run [Action.Update, Action.Draw] initialApp).get (by decide)) 1
        (by decide) (by decide) (by decide)
    ⟨s', h1, h5.trans (by decide)⟩⟩


/-! ## The grid of instances -/

/-- A loop in a loop visits the pairs of the two lists in order. -/
theorem foldl_foldl_pairs {α β γ : Type} (F : β → α → γ → α) (ys : List γ) :
    ∀ (xs : List β) (init : α),
      xs.foldl (fun acc x => ys.foldl (F x) acc) init
        = (xs.flatMap (fun x => ys.map (fun y => (x, y)))).foldl (fun acc p => F p.1 acc p.2) init
  | [], init => rfl
  | x :: xs, init => by
    rw [List.foldl_cons, List.flatMap_cons, List.foldl_append, List.foldl_map]
    exact foldl_foldl_pairs F ys xs _

/-- A loop of assignments `acc[f x] = g x`, where the place tells the element (`dec (f x) = x`):
the element at a place of the list that the loop assigns is `g (dec p)`, the others are as
before. -/
theorem foldl_set_getElem? {α β : Type} (f : β → Nat) (g : β → α) (dec : Nat → β) :
    ∀ (xs : List β) (acc : List α), (∀ x ∈ xs, dec (f x) = x) →
      ((xs.foldl (fun a x => a.set (f x) (g x)) acc).length = acc.length) ∧
      ∀ p, (xs.foldl (fun a x => a.set (f x) (g x)) acc)[p]?
        = if p < acc.length ∧ p ∈ xs.map f then some (g (dec p)) else acc[p]?
  | [], acc, _ => ⟨rfl, fun p => by simp⟩
  | x :: xs, acc, hdec => by
    obtain ⟨hl, hg⟩ := foldl_set_getElem? f g dec xs (acc.set (f x) (g x))
      (fun y hy => hdec y (List.mem_cons_of_mem _ hy))
    rw [List.length_set] at hl
    refine ⟨hl, fun p => ?_⟩
    rw [List.foldl_cons, hg p, List.length_set]
    by_cases hp : p < acc.length ∧ p ∈ xs.map f
    · rw [if_pos hp, if_pos ⟨hp.1, by rw [List.map_cons]; exact List.mem_cons_of_mem _ hp.2⟩]
    · rw [if_neg hp, List.getElem?_set]
      by_cases hx : f x = p
      · rw [if_pos hx]
        by_cases hlt : p < acc.length
        · rw [if_pos (hx ▸ hlt),
            if_pos ⟨hlt, by rw [List.map_cons, hx]; exact List.mem_cons_self _ _⟩,
            ← hx, hdec x (List.mem_cons_self _ _)]
        · rw [if_neg (fun h => hlt (hx ▸ h)), if_neg (fun h => hlt h.1)]
          exact (List.getElem?_eq_none (by omega)).symm
      · rw [if_neg hx, if_neg]
        rintro ⟨hlt, hmem⟩
        rw [List.map_cons] at hmem
        rcases List.mem_cons.1 hmem with h | h
        · exact hx h.symm
        · exact hp ⟨hlt, h⟩

/-- The positions of the grid in the order of the three loops. -/
theorem mem_grid (t : (Nat × Nat) × Nat) :
    t ∈ ((List.range 7).flatMap (fun k => (List.range 7).map (fun i => (k, i)))).flatMap
        (fun p => (List.range 7).map (fun j => (p, j)))
      ↔ t.1.1 < 7 ∧ t.1.2 < 7 ∧ t.2 < 7 := by
  obtain ⟨⟨k, i⟩, j⟩ := t
  simp only [List.mem_flatMap, List.mem_map, List.mem_range, Prod.mk.injEq, Prod.exists]
  constructor
  · rintro ⟨a, b, ⟨c, hc, d, hd, rfl, rfl⟩, e, he, ⟨rfl, rfl⟩, rfl⟩
    exact ⟨hc, hd, he⟩
  · rintro ⟨hk, hi, hj⟩
    exact ⟨k, i, ⟨k, hk, i, hi, rfl, rfl⟩, j, hj, ⟨rfl, rfl⟩, rfl⟩

/-- The three loops of `BuildRenderItems` as one loop over the positions of the grid. -/
theorem fillSkullInstances_flat (m : Nat) (l : List InstanceData) :
    fillSkullInstances m l
      = (((List.range 7).flatMap (fun k => (List.range 7).map (fun i => (k, i)))).flatMap
          (fun p => (List.range 7).map (fun j => (p, j)))).foldl
          (fun a (t : (Nat × Nat) × Nat) =>
            a.set (t.1.1 * 7 * 7 + t.1.2 * 7 + t.2) (skullInstance m t.1.1 t.1.2 t.2)) l := by
  unfold fillSkullInstances
  rw [foldl_foldl_pairs
    (fun (k : Nat) (acck : List InstanceData) (i : Nat) =>
      (List.range 7).foldl (fun accj j =>
        accj.set (k * 7 * 7 + i * 7 + j) (skullInstance m k i j)) acck)]
  exact foldl_foldl_pairs
    (fun (p : Nat × Nat) (acc : List InstanceData) (j : Nat) =>
      acc.set (p.1 * 7 * 7 + p.2 * 7 + j) (skullInstance m p.1 p.2 j)) (List.range 7) _ l

/-- The list that the three loops of `BuildRenderItems` leave: the instance of the grid
position `(k, i, j)` at the place `k * 49 + i * 7 + j`, for a list of 343 elements. -/
theorem fillSkullInstances_eq (m : Nat) (l : List InstanceData) (hl : l.length = 343) :
    fillSkullInstances m l
      = (List.range 343).map (fun p => skullInstance m (p / 49) (p / 7 % 7) (p % 7)) := by
  have hdec : ∀ t ∈ (((List.range 7).flatMap (fun k => (List.range 7).map (fun i => (k, i)))).flatMap
      (fun p => (List.range 7).map (fun j => (p, j)))),
      (fun p : Nat => ((p / 49, p / 7 % 7), p % 7)) (t.1.1 * 7 * 7 + t.1.2 * 7 + t.2) = t := by
    intro t ht
    obtain ⟨hk, hi, hj⟩ := (mem_grid t).1 ht
    obtain ⟨⟨k, i⟩, j⟩ := t
    simp only at hk hi hj
    simp only [Prod.mk.injEq]
    omega
  obtain ⟨hlen, hget⟩ := foldl_set_getElem?
    (fun t : (Nat × Nat) × Nat => t.1.1 * 7 * 7 + t.1.2 * 7 + t.2)
    (fun t : (Nat × Nat) × Nat => skullInstance m t.1.1 t.1.2 t.2)
    (fun p : Nat => ((p / 49, p / 7 % 7), p % 7)) _ l hdec
  rw [fillSkullInstances_flat]
  apply List.ext_getElem?
  intro p
  rw [hget p, hl]
  by_cases hp : p < 343
  · have hmem : p ∈ List.map (fun t : (Nat × Nat) × Nat => t.1.1 * 7 * 7 + t.1.2 * 7 + t.2)
        (((List.range 7).flatMap (fun k => (List.range 7).map (fun i => (k, i)))).flatMap
          (fun p => (List.range 7).map (fun j => (p, j)))) := by
      refine List.mem_map.2 ⟨((p / 49, p / 7 % 7), p % 7), (mem_grid _).2 ?_, ?_⟩
      · simp only
        omega
      · simp only
        omega
    rw [if_pos ⟨hp, hmem⟩, List.getElem?_map, List.getElem?_range hp]
    rfl
  · rw [if_neg (fun h => hp h.1), List.getElem?_eq_none (by omega),
      List.getElem?_eq_none (by simp; omega)]

/-- The world matrix of the instance of the grid position `(k, i, j)`: the translation to
`(-100 + j * 200 / 6, -100 + i * 200 / 6, -100 + k * 200 / 6)`. -/
theorem skullInstance_World (m k i j : Nat) :
    (skullInstance m k i j).World
      = Matrix.of ![![1, 0, 0, 0], ![0, 1, 0, 0], ![0, 0, 1, 0],
          ![-100 + (j : ℚ) * 200 / 6, -100 + (i : ℚ) * 200 / 6, -100 + (k : ℚ) * 200 / 6, 1]] := by
  have hx : -(1 / 2 : ℚ) * 200 + (j : ℚ) * (200 / (7 - 1)) = -100 + (j : ℚ) * 200 / 6 := by ring
  have hy : -(1 / 2 : ℚ) * 200 + (i : ℚ) * (200 / (7 - 1)) = -100 + (i : ℚ) * 200 / 6 := by ring
  have hz : -(1 / 2 : ℚ) * 200 + (k : ℚ) * (200 / (7 - 1)) = -100 + (k : ℚ) * 200 / 6 := by ring
  show Matrix.of ![![1, 0, 0, 0], ![0, 1, 0, 0], ![0, 0, 1, 0],
      ![-(1 / 2 : ℚ) * 200 + (j : ℚ) * (200 / (7 - 1)),
        -(1 / 2 : ℚ) * 200 + (i : ℚ) * (200 / (7 - 1)),
        -(1 / 2 : ℚ) * 200 + (k : ℚ) * (200 / (7 - 1)), 1]] = _
  rw [hx, hy, hz]

/-- A coordinate of the grid lies in `[-100, 100]`. -/
theorem grid_coordinate_range (j : Nat) (hj : j < 7) :
    (-100 : ℚ) ≤ -100 + (j : ℚ) * 200 / 6 ∧ -100 + (j : ℚ) * 200 / 6 ≤ 100 := by
  have h0 : (0 : ℚ) ≤ (j : ℚ) := Nat.cast_nonneg j
  have h6 : (j : ℚ) ≤ 6 := by exact_mod_cast (by omega : j ≤ 6)
  constructor <;> linarith

/-- The render item that `BuildRenderItems` appends, with its list of instances. -/
theorem BuildRenderItems_item (s : App) (submesh : SubMeshGeometry)
    (hl : s.lskull = some submesh)
    (hw : s.m_Materials.any (fun m => m.Name == "white1x1") = true) :
    ∃ s' e,
      BuildRenderItems s = some s' ∧
      s'.m_AllRItems = s.m_AllRItems ++ [e] ∧
      s'.m_InstanceCount = 343 ∧
      e.Instances = (List.range 343).map
        (fun p => skullInstance s.m_Materials.length (p / 49) (p / 7 % 7) (p % 7)) := by
  refine ⟨_, _, BuildRenderItems_eq submesh hl hw, rfl, rfl, ?_⟩
  rw [fillSkullInstances_eq s.m_Materials.length _ (List.length_replicate _ _)]

/-- C22: with the skull geometry built and a material `"white1x1"` in the map,
`BuildRenderItems` returns and appends one render item that has exactly `7 * 7 * 7 = 343`
instances, and sets `m_InstanceCount` to 343. For `k`, `i`, `j` below 7 the place
`k * 49 + i * 7 + j` lies below 343, different grid positions have different places, and
every place below 343 is the place of a grid position. The instance at the place of
`(k, i, j)` is the one assigned for that position; its world matrix is the translation to
`(-100 + j * 200 / 6, -100 + i * 200 / 6, -100 + k * 200 / 6)`, whose coordinates lie in
`[-100, 100]`, with `-100` at 0 and `100` at 6. -/
theorem BuildRenderItems_fills_grid_of_343 (s : App) (submesh : SubMeshGeometry)
    (hl : s.lskull = some submesh)
    (hw : s.m_Materials.any (fun m => m.Name == "white1x1") = true) :
    ∃ s' e,
      BuildRenderItems s = some s' ∧
      s'.m_AllRItems = s.m_AllRItems ++ [e] ∧
      s'.m_InstanceCount = 343 ∧
      e.Instances.length = 7 * 7 * 7 ∧ e.Instances.length = 343 ∧
      e.Instances = (List.range 343).map
        (fun p => skullInstance s.m_Materials.length (p / 49) (p / 7 % 7) (p % 7)) ∧
      (∀ k i j, k < 7 → i < 7 → j < 7 →
        k * 49 + i * 7 + j < 343 ∧
        e.Instances.get? (k * 49 + i * 7 + j)
          = some (skullInstance s.m_Materials.length k i j) ∧
        (skullInstance s.m_Materials.length k i j).World
          = Matrix.of ![![1, 0, 0, 0], ![0, 1, 0, 0], ![0, 0, 1, 0],
              ![-100 + (j : ℚ) * 200 / 6, -100 + (i : ℚ) * 200 / 6,
                -100 + (k : ℚ) * 200 / 6, 1]] ∧
        ((-100 : ℚ) ≤ -100 + (j : ℚ) * 200 / 6 ∧ -100 + (j : ℚ) * 200 / 6 ≤ 100) ∧
        ((-100 : ℚ) ≤ -100 + (i : ℚ) * 200 / 6 ∧ -100 + (i : ℚ) * 200 / 6 ≤ 100) ∧
        ((-100 : ℚ) ≤ -100 + (k : ℚ) * 200 / 6 ∧ -100 + (k : ℚ) * 200 / 6 ≤ 100)) ∧
      (∀ k i j k' i' j', k < 7 → i < 7 → j < 7 → k' < 7 → i' < 7 → j' < 7 →
        k * 49 + i * 7 + j = k' * 49 + i' * 7 + j' → k = k' ∧ i = i' ∧ j = j') ∧
      (∀ p, p < 343 → ∃ k i j, k < 7 ∧ i < 7 ∧ j < 7 ∧ p = k * 49 + i * 7 + j) ∧
      (-100 + ((0 : Nat) : ℚ) * 200 / 6 = -100 ∧ -100 + ((6 : Nat) : ℚ) * 200 / 6 = 100) := by
  obtain ⟨s', e, h1, h2, h3, h4⟩ := BuildRenderItems_item s submesh hl hw
  have hlen : e.Instances.length = 343 := by
    rw [h4, List.length_map, List.length_range]
  refine ⟨s', e, h1, h2, h3, hlen, hlen, h4, ?_, ?_, ?_, ?_⟩
  · intro k i j hk hi hj
    have hp : k * 49 + i * 7 + j < 343 := by omega
    refine ⟨hp, ?_, skullInstance_World _ k i j, grid_coordinate_range j hj,
      grid_coordinate_range i hi, grid_coordinate_range k hk⟩
    rw [h4, List.get?_eq_getElem?, List.getElem?_map, List.getElem?_range hp]
    have e1 : (k * 49 + i * 7 + j) / 49 = k := by omega
    have e2 : (k * 49 + i * 7 + j) / 7 % 7 = i := by omega
    have e3 : (k * 49 + i * 7 + j) % 7 = j := by omega
    show some (skullInstance _ ((k * 49 + i * 7 + j) / 49) ((k * 49 + i * 7 + j) / 7 % 7)
      ((k * 49 + i * 7 + j) % 7)) = _
    rw [e1, e2, e3]
  · intro k i j k' i' j' hk hi hj hk' hi' hj' h
    omega
  · intro p hp
    exact ⟨p / 49, p / 7 % 7, p % 7, by omega, by omega, by omega, by omega⟩
  · constructor <;> norm_num

/-- C22, witness: a scene with the skull geometry and the eight materials. -/
theorem BuildRenderItems_fills_grid_of_343_witness :
    (BuildMaterials (BuildInstancesTheSkull (some { positions := [], tcount := 1 })
      (App.constructed false plainCamera))).lskull
      = some { IndexCount := 3, StartIndexLocation := 0, BaseVertexLocation := 0,
               Bounds := skullBounds [] } ∧
    (BuildMaterials (BuildInstancesTheSkull (some { positions := [], tcount := 1 })
      (App.constructed false plainCamera))).m_Materials.any
        (fun m => m.Name == "white1x1") = true ∧
    ∃ s' e,
      BuildRenderItems (BuildMaterials (BuildInstancesTheSkull
        (some { positions := [], tcount := 1 }) (App.constructed false plainCamera))) = some s' ∧
      s'.m_AllRItems = [e] ∧ e.Instances.length = 343 :=
  ⟨rfl, builtMaterials_white,
    let ⟨s', e, h1, h2, _, _, h5, _⟩ :=
      BuildRenderItems_fills_grid_of_343
        (BuildMaterials (BuildInstancesTheSkull (some { positions := [], tcount := 1 })
          (App.constructed false plainCamera)))
        { IndexCount := 3, StartIndexLocation := 0, BaseVertexLocation := 0,
          Bounds := skullBounds [] } rfl builtMaterials_white
    ⟨s', e, h1, h2, h5⟩⟩


/-! ## The indices of the built scene -/

/-- The scene that `Initialize` leaves behind when it starts from the constructed object and the
file `skull.txt` is there: the buffers, the materials, and the one render item with
its instances. -/
theorem App.Initialize_scene (ext : External) (screenWidth screenHeight : Int)
    (file : SkullFile) (isFrustumCulling : Bool) (camera : Camera) :
    ∃ s e,
      App.Initialize ext screenWidth screenHeight (some file)
        (App.constructed isFrustumCulling camera) = some s ∧
      s.buffers = List.replicate 3 (FrameBuffers.create 1 343 8) ∧
      s.m_Materials = builtMaterials.foldl (fun l m => insertMaterial m l) [] ∧
      s.m_AllRItems = [e] ∧
      e.Instances = (List.range 343).map
        (fun p => skullInstance 8 (p / 49) (p / 7 % 7) (p % 7)) ∧
      e.Bounds = skullBounds file.positions ∧
      s.m_InstanceCount = 343 := by
  obtain ⟨d1, hd1⟩ := ResizeBuffer_returns { D3DApp.constructed with m_Fence := 0 }
  have hinit : Mawi1e.Initialize D3DApp.constructed = some initialApp :=
    Mawi1e.Initialize_constructed.1
  unfold Mawi1e.Initialize at hinit
  rw [hd1] at hinit
  dsimp only at hinit
  unfold App.Initialize
  dsimp only
  unfold App.ResizeBuffer
  have hl1 : App.lift Mawi1e.ResizeBuffer
      { App.constructed isFrustumCulling camera with
        screenWidth := screenWidth, screenHeight := screenHeight,
        toD3DApp := { (App.constructed isFrustumCulling camera).toD3DApp with m_Fence := 0 } }
      = some { App.constructed isFrustumCulling camera with
        screenWidth := screenWidth, screenHeight := screenHeight,
        toD3DApp := d1 } := lift_eq hd1
  rw [hl1]
  dsimp only
  rw [BuildRenderItems_eq
    { IndexCount := 3 * file.tcount, StartIndexLocation := 0, BaseVertexLocation := 0,
      Bounds := skullBounds file.positions } rfl builtMaterials_white]
  dsimp only
  rw [lift_eq hinit]
  refine ⟨_, _, rfl, ?_, rfl, rfl, ?_, rfl, rfl⟩
  · show [] ++ List.replicate gNumFrameResources.toNat
      (FrameBuffers.create 1 343
        (builtMaterials.foldl (fun l m => insertMaterial m l) []).length) = _
    rw [builtMaterials_length]
    rfl
  · rw [fillSkullInstances_eq _ _ (List.length_replicate _ _)]
    show List.map (fun p => skullInstance
      (builtMaterials.foldl (fun l m => insertMaterial m l) []).length
        (p / 49) (p / 7 % 7) (p % 7)) (List.range 343) = _
    rw [builtMaterials_length]

/-- The indices of the eight materials. -/
theorem builtMaterials_indices :
    (builtMaterials.foldl (fun l m => insertMaterial m l) []).map (fun m => m.MatCBIndex)
      = [0, 1, 2, 3, 5, 4, 6, 7] ∧
    (builtMaterials.foldl (fun l m => insertMaterial m l) []).map
      (fun m => m.DiffuseSrvHeapIndex) = [0, 1, 2, 3, 4, 3, 5, 6] := by
  decide

/-- C28: in the scene that `Initialize` leaves behind (started from the constructed object,
with `skull.txt` present) there are 8 materials; their `MatCBIndex` values are pairwise
distinct and are exactly the numbers `0..7`, each below the number of materials,
which is the number of elements of the material buffer of every ring slot; every
`DiffuseSrvHeapIndex` is below 7, the `NumDescriptors` of the heap of
`BuildDescriptorHeaps`, which holds 7 views; and the instance at place `p` has the
`MaterialIndex` `p mod 8`, below 8. -/
theorem built_scene_material_indices_in_range (ext : External) (screenWidth screenHeight : Int)
    (file : SkullFile) (isFrustumCulling : Bool) (camera : Camera) :
    ∃ s e,
      App.Initialize ext screenWidth screenHeight (some file)
        (App.constructed isFrustumCulling camera) = some s ∧
      s.m_Materials.length = 8 ∧
      (s.m_Materials.map (fun m => m.MatCBIndex)).Nodup ∧
      (∀ n, n ∈ s.m_Materials.map (fun m => m.MatCBIndex) ↔ n < 8) ∧
      (∀ m ∈ s.m_Materials, m.MatCBIndex < s.m_Materials.length) ∧
      (∀ fb ∈ s.buffers, fb.m_MatVB.length = s.m_Materials.length) ∧
      (∀ m ∈ s.m_Materials, m.DiffuseSrvHeapIndex < srvHeapNumDescriptors) ∧
      srvHeapNumDescriptors = 7 ∧ srvHeapTextures.length = srvHeapNumDescriptors ∧
      s.m_AllRItems = [e] ∧
      (∀ inst ∈ e.Instances, inst.MaterialIndex < 8) ∧
      (∀ p, p < 343 → (e.Instances.get? p).map (fun inst => inst.MaterialIndex)
        = some (p % s.m_Materials.length)) := by
  obtain ⟨s, e, hs, hbuf, hmat, hitems, hinst, -, -⟩ :=
    App.Initialize_scene ext screenWidth screenHeight file isFrustumCulling camera
  have hlen : s.m_Materials.length = 8 := by rw [hmat]; exact builtMaterials_length
  have hidx := builtMaterials_indices.1
  have hsrv := builtMaterials_indices.2
  rw [← hmat] at hidx hsrv
  refine ⟨s, e, hs, hlen, ?_, ?_, ?_, ?_, ?_, rfl, rfl, hitems, ?_, ?_⟩
  · rw [hidx]
    decide
  · intro n
    rw [hidx]
    simp only [List.mem_cons, List.mem_singleton, List.not_mem_nil, or_false]
    omega
  · intro m hm
    rw [hmat] at hm ⊢
    rw [builtMaterials_length]
    exact builtMaterials_index m hm
  · intro fb hfb
    rw [hbuf] at hfb
    rw [List.eq_of_mem_replicate hfb, hlen]
    exact List.length_replicate _ _
  · intro m hm
    have h : m.DiffuseSrvHeapIndex ∈ s.m_Materials.map (fun m => m.DiffuseSrvHeapIndex) :=
      List.mem_map.2 ⟨m, hm, rfl⟩
    rw [hsrv] at h
    simp only [List.mem_cons, List.mem_singleton, List.not_mem_nil, or_false] at h
    show m.DiffuseSrvHeapIndex < 7
    omega
  · intro inst hinst'
    rw [hinst] at hinst'
    obtain ⟨p, -, rfl⟩ := List.mem_map.1 hinst'
    exact Nat.mod_lt _ (by decide)
  · intro p hp
    rw [hinst, hlen, List.get?_eq_getElem?, List.getElem?_map, List.getElem?_range hp]
    show some ((p / 49 * 7 * 7 + p / 7 % 7 * 7 + p % 7) % 8) = some (p % 8)
    have : p / 49 * 7 * 7 + p / 7 % 7 * 7 + p % 7 = p := by omega
    rw [this]


/-! ## The culling pass without a bound on the buffer -/

/-- When the inner loop returns, the instances that pass the test had room from the running
count on, or none passed. -/
theorem cullInstances_some_le (ext : External) (frustum : BoundingFrustum)
    (forceVisible : Bool) (invView : XMFLOAT4X4) (bounds : BoundingBox) (slot : Nat) :
    ∀ (l : List InstanceData) (buf : UploadBuffer InstanceConstants) (c : Nat)
      (log : List BufferWrite) (r : UploadBuffer InstanceConstants × Nat × List BufferWrite),
      cullInstances ext frustum forceVisible invView bounds slot l buf c log = some r →
      visibleInstances ext frustum forceVisible invView bounds l = [] ∨
        c + (visibleInstances ext frustum forceVisible invView bounds l).length ≤ buf.length
  | [], _, _, _, _, _ => Or.inl rfl
  | inst :: rest, buf, c, log, r, h => by
    rw [cullInstances_cons] at h
    by_cases hv : isVisible ext frustum forceVisible invView bounds inst = true
    · have hc := (isVisible_iff ext frustum forceVisible invView bounds inst).1 hv
      rw [if_pos hc] at h
      cases hcopy : buf.CopyData c (instanceConstantsOf inst) with
      | none => rw [hcopy] at h; cases h
      | some buf1 =>
        rw [hcopy] at h
        dsimp only at h
        obtain ⟨hlt, hb1⟩ := CopyData_eq_some hcopy
        have hlen : buf1.length = buf.length := by rw [hb1, List.length_set]
        right
        rw [visibleInstances_cons_of_visible rest hv, List.length_cons]
        rcases cullInstances_some_le ext frustum forceVisible invView bounds slot rest buf1
          (c + 1) _ r h with h0 | h1
        · rw [h0, List.length_nil]
          omega
        · omega
    · have hc : ¬ (instanceTest ext frustum invView bounds inst ≠ ContainmentType.DISJOINT
          ∨ forceVisible = true) :=
        fun hc => hv ((isVisible_iff ext frustum forceVisible invView bounds inst).2 hc)
      rw [if_neg hc] at h
      rw [visibleInstances_cons_of_hidden rest hv]
      exact cullInstances_some_le ext frustum forceVisible invView bounds slot rest buf c log r h

/-- When the inner loop returns from the count 0, the instances that pass the test have room
in the buffer. -/
theorem cullInstances_zero_le {ext : External} {frustum : BoundingFrustum}
    {forceVisible : Bool} {invView : XMFLOAT4X4} {bounds : BoundingBox} {slot : Nat}
    {l : List InstanceData} {buf : UploadBuffer InstanceConstants} {log : List BufferWrite}
    {r : UploadBuffer InstanceConstants × Nat × List BufferWrite}
    (h : cullInstances ext frustum forceVisible invView bounds slot l buf 0 log = some r) :
    (visibleInstances ext frustum forceVisible invView bounds l).length ≤ buf.length := by
  rcases cullInstances_some_le ext frustum forceVisible invView bounds slot l buf 0 log r h
    with h0 | h1
  · rw [h0]
    exact Nat.zero_le _
  · omega

/-- The outer loop returns whenever the instances of every item that pass the test have room in
the buffer, and this is its result. -/
theorem cullItems_fits (ext : External) (frustum : BoundingFrustum) (forceVisible : Bool)
    (invView : XMFLOAT4X4) (slot : Nat) :
    ∀ (items : List RenderItem) (buf : UploadBuffer InstanceConstants) (skullCounts : Nat)
      (log : List BufferWrite),
      (∀ e ∈ items,
        (visibleInstances ext frustum forceVisible invView e.Bounds e.Instances).length
          ≤ buf.length) →
      cullItems ext frustum forceVisible invView slot items buf skullCounts log =
        some
          (items.map (fun e => { e with InstanceCount :=
              (visibleInstances ext frustum forceVisible invView e.Bounds e.Instances).length }),
            items.foldl (fun b e => compacted
              (visibleInstances ext frustum forceVisible invView e.Bounds e.Instances) b) buf,
            items.foldl (fun _ e =>
              (visibleInstances ext frustum forceVisible invView e.Bounds e.Instances).length)
              skullCounts,
            items.foldl (fun lg e => lg ++ instanceWrites slot 0
              (visibleInstances ext frustum forceVisible invView e.Bounds e.Instances)) log)
  | [], _, _, _, _ => rfl
  | e :: rest, buf, skullCounts, log, h => by
    have hv : (visibleInstances ext frustum forceVisible invView e.Bounds e.Instances).length
        ≤ buf.length := h e (List.mem_cons_self _ _)
    have hrest : ∀ r ∈ rest,
        (visibleInstances ext frustum forceVisible invView r.Bounds r.Instances).length ≤
        (compacted (visibleInstances ext frustum forceVisible invView e.Bounds e.Instances)
          buf).length := by
      intro r hr
      rw [compacted_length hv]
      exact h r (List.mem_cons_of_mem _ hr)
    unfold cullItems
    rw [cullInstances_eq ext frustum forceVisible invView e.Bounds slot e.Instances buf log hv]
    dsimp only
    rw [cullItems_fits ext frustum forceVisible invView slot rest _ _ _ hrest]
    rfl

/-- When the outer loop returns, the instances of every item that pass the test have room in the
buffer. -/
theorem cullItems_some_le (ext : External) (frustum : BoundingFrustum) (forceVisible : Bool)
    (invView : XMFLOAT4X4) (slot : Nat) :
    ∀ (items : List RenderItem) (buf : UploadBuffer InstanceConstants) (sc : Nat)
      (log : List BufferWrite)
      (r : List RenderItem × UploadBuffer InstanceConstants × Nat × List BufferWrite),
      cullItems ext frustum forceVisible invView slot items buf sc log = some r →
      ∀ e ∈ items,
        (visibleInstances ext frustum forceVisible invView e.Bounds e.Instances).length
          ≤ buf.length
  | [], _, _, _, _, _ => fun e he => by simp at he
  | e :: rest, buf, sc, log, r, h => by
    rw [cullItems] at h
    cases hi : cullInstances ext frustum forceVisible invView e.Bounds slot e.Instances buf 0 log
      with
    | none => rw [hi] at h; cases h
    | some r1 =>
      obtain ⟨buf1, cnt, log1⟩ := r1
      rw [hi] at h
      dsimp only at h
      have hlen : buf1.length = buf.length :=
        (cullInstances_log ext frustum forceVisible invView e.Bounds slot _ _ _ _ _ _ _ hi).1
      cases hr : cullItems ext frustum forceVisible invView slot rest buf1 cnt log1 with
      | none => rw [hr] at h; cases h
      | some r2 =>
        have ih := cullItems_some_le ext frustum forceVisible invView slot rest buf1 cnt log1 r2 hr
        intro x hx
        rcases List.mem_cons.1 hx with rfl | hx
        · exact cullInstances_zero_le hi
        · rw [← hlen]
          exact ih x hx

/-- The function `UpdateInstanceBuffers` returns whenever the current slot has an instance
buffer with room for the instances of every item that pass the test, and this is
its result. -/
theorem UpdateInstanceBuffers_fits (ext : External) (s : App) (slot : Nat) (fb : FrameBuffers)
    (hcur : s.m_CurrFrameResource = some slot) (hfb : s.buffers.get? slot = some fb)
    (hcap : ∀ e ∈ s.m_AllRItems, (s.visibleOf ext e).length ≤ fb.m_InstCB.length) :
    UpdateInstanceBuffers ext s = some { s with
      m_AllRItems := s.m_AllRItems.map
        (fun e => { e with InstanceCount := (s.visibleOf ext e).length }),
      m_SkullCounts :=
        s.m_AllRItems.foldl (fun _ e => (s.visibleOf ext e).length) s.m_SkullCounts,
      buffers := s.buffers.set slot { fb with
        m_InstCB := s.m_AllRItems.foldl (fun b e => compacted (s.visibleOf ext e) b)
          fb.m_InstCB },
      writes := s.m_AllRItems.foldl
        (fun lg e => lg ++ instanceWrites slot 0 (s.visibleOf ext e)) s.writes } := by
  unfold UpdateInstanceBuffers
  rw [hcur]
  dsimp only
  rw [hfb]
  dsimp only
  rw [cullItems_fits ext s.m_LocalProjFrustum s.m_isFrustumCulling
    (ext.XMMatrixInverse s.m_Camera.View) slot s.m_AllRItems fb.m_InstCB s.m_SkullCounts
    s.writes hcap]
  rfl

/-- When `UpdateInstanceBuffers` returns, the current slot has an instance buffer with room for
the instances of every item that pass the test, and this is the result. -/
theorem UpdateInstanceBuffers_some {ext : External} {s s' : App}
    (h : UpdateInstanceBuffers ext s = some s') :
    ∃ slot fb,
      s.m_CurrFrameResource = some slot ∧ s.buffers.get? slot = some fb ∧
      (∀ e ∈ s.m_AllRItems, (s.visibleOf ext e).length ≤ fb.m_InstCB.length) ∧
      s' = { s with
        m_AllRItems := s.m_AllRItems.map
          (fun e => { e with InstanceCount := (s.visibleOf ext e).length }),
        m_SkullCounts :=
          s.m_AllRItems.foldl (fun _ e => (s.visibleOf ext e).length) s.m_SkullCounts,
        buffers := s.buffers.set slot { fb with
          m_InstCB := s.m_AllRItems.foldl (fun b e => compacted (s.visibleOf ext e) b)
            fb.m_InstCB },
        writes := s.m_AllRItems.foldl
          (fun lg e => lg ++ instanceWrites slot 0 (s.visibleOf ext e)) s.writes } := by
  have h0 := h
  unfold UpdateInstanceBuffers at h
  cases hc : s.m_CurrFrameResource with
  | none => rw [hc] at h; cases h
  | some slot =>
    rw [hc] at h
    dsimp only at h
    cases hb : s.buffers.get? slot with
    | none => rw [hb] at h; cases h
    | some fb =>
      rw [hb] at h
      dsimp only at h
      cases hr : cullItems ext s.m_LocalProjFrustum s.m_isFrustumCulling
          (ext.XMMatrixInverse s.m_Camera.View) slot s.m_AllRItems fb.m_InstCB s.m_SkullCounts
          s.writes with
      | none => rw [hr] at h; cases h
      | some r =>
        have hcap : ∀ e ∈ s.m_AllRItems, (s.visibleOf ext e).length ≤ fb.m_InstCB.length :=
          cullItems_some_le ext _ _ _ slot _ _ _ _ r hr
        refine ⟨slot, fb, rfl, hb, hcap, ?_⟩
        rw [UpdateInstanceBuffers_fits ext s slot fb hc hb hcap] at h0
        exact (Option.some.inj h0).symm


/-! ## Running the culling pass twice -/

/-- Dropping the first elements of a compacted buffer compacts the rest of the instances into
the rest of the buffer. -/
theorem compacted_drop_comm (v : List InstanceData) (b : UploadBuffer InstanceConstants)
    (n : Nat) : (compacted v b).drop n = compacted (v.drop n) (b.drop n) := by
  unfold compacted
  rw [List.drop_append_eq_append_drop, List.length_map, List.map_drop, List.drop_drop,
    List.drop_drop, List.length_drop]
  congr 2
  omega

/-- Dropping the first elements of the buffer that the items leave. -/
theorem foldl_compacted_drop (V : RenderItem → List InstanceData) (n : Nat) :
    ∀ (items : List RenderItem) (b : UploadBuffer InstanceConstants),
      (items.foldl (fun b e => compacted (V e) b) b).drop n
        = items.foldl (fun b e => compacted ((V e).drop n) b) (b.drop n)
  | [], _ => rfl
  | e :: rest, b => by
    rw [List.foldl_cons, List.foldl_cons, foldl_compacted_drop V n rest, compacted_drop_comm]

/-- Storing the instances of the items into the buffer that the items left changes
nothing. -/
theorem foldl_compacted_idem (V : RenderItem → List InstanceData) :
    ∀ (items : List RenderItem) (b : UploadBuffer InstanceConstants),
      items.foldl (fun b e => compacted (V e) b) (items.foldl (fun b e => compacted (V e) b) b)
        = items.foldl (fun b e => compacted (V e) b) b := by
  intro items
  induction items using List.reverseRecOn with
  | nil => intro b; rfl
  | append_singleton front e ih =>
    intro b
    simp only [List.foldl_append, List.foldl_cons, List.foldl_nil]
    have h1 : ∀ Y : UploadBuffer InstanceConstants,
        compacted (V e) (front.foldl (fun b e => compacted (V e) b) (compacted (V e) Y))
          = compacted (V e) (front.foldl (fun b e => compacted (V e) b) Y) := by
      intro Y
      show _ ++ _ = _ ++ _
      rw [foldl_compacted_drop V (V e).length front, compacted_drop,
        ← foldl_compacted_drop V (V e).length front]
    rw [h1, ih]

/-- The count that the items leave in `m_SkullCounts` is left again by a second pass. -/
theorem foldl_count_idem {α : Type} (c : α → Nat) (l : List α) (x : Nat) :
    l.foldl (fun _ e => c e) (l.foldl (fun _ e => c e) x) = l.foldl (fun _ e => c e) x := by
  induction l using List.reverseRecOn with
  | nil => rfl
  | append_singleton front e _ =>
    simp only [List.foldl_append, List.foldl_cons, List.foldl_nil]

/-- A fold over items with new counts is the fold over the items. -/
theorem foldl_map_count {β : Type} (g : RenderItem → Nat) (F : β → RenderItem → β)
    (hF : ∀ b e, F b { e with InstanceCount := g e } = F b e) :
    ∀ (items : List RenderItem) (b : β),
      (items.map (fun e => { e with InstanceCount := g e })).foldl F b = items.foldl F b
  | [], _ => rfl
  | e :: rest, b => by
    rw [List.map_cons, List.foldl_cons, List.foldl_cons, hF, foldl_map_count g F hF rest]

/-- C23: a call of `UpdateInstanceBuffers` that returns leaves `m_LocalProjFrustum`, the camera
with its view matrix and the flag as they were; every render item keeps its
instance list, in order and contents, its bounding box and its draw arguments, and
only `InstanceCount` is set, to the number of instances that pass the test. A second
call on the result returns as well and leaves the same buffers, the same render
items with the same counts, and the same `m_SkullCounts`. -/
theorem UpdateInstanceBuffers_reads_scene_and_repeats (ext : External) (s s' : App)
    (h : UpdateInstanceBuffers ext s = some s') :
    s'.m_LocalProjFrustum = s.m_LocalProjFrustum ∧
    s'.m_Camera = s.m_Camera ∧
    s'.m_Camera.View = s.m_Camera.View ∧
    s'.m_isFrustumCulling = s.m_isFrustumCulling ∧
    s'.m_AllRItems = s.m_AllRItems.map
      (fun e => { e with InstanceCount := (s.visibleOf ext e).length }) ∧
    s'.m_AllRItems.map (fun e => e.Instances) = s.m_AllRItems.map (fun e => e.Instances) ∧
    s'.m_AllRItems.map (fun e => e.Bounds) = s.m_AllRItems.map (fun e => e.Bounds) ∧
    s'.m_AllRItems.map (fun e => (e.IndexCount, e.StartIndexLocation, e.BaseVertexLocation))
      = s.m_AllRItems.map
          (fun e => (e.IndexCount, e.StartIndexLocation, e.BaseVertexLocation)) ∧
    ∃ s'', UpdateInstanceBuffers ext s' = some s'' ∧
      s''.buffers = s'.buffers ∧
      s''.m_AllRItems = s'.m_AllRItems ∧
      s''.m_SkullCounts = s'.m_SkullCounts := by
  obtain ⟨slot, fb, hcur, hfb, hcap, hs'⟩ := UpdateInstanceBuffers_some h
  have hitems : s'.m_AllRItems = s.m_AllRItems.map
      (fun e => { e with InstanceCount := (s.visibleOf ext e).length }) := by rw [hs']
  have hbuf : s'.buffers = s.buffers.set slot { fb with
      m_InstCB := s.m_AllRItems.foldl (fun b e => compacted (s.visibleOf ext e) b)
        fb.m_InstCB } := by rw [hs']
  have hsc : s'.m_SkullCounts
      = s.m_AllRItems.foldl (fun _ e => (s.visibleOf ext e).length) s.m_SkullCounts := by
    rw [hs']
  have hcur' : s'.m_CurrFrameResource = some slot := by rw [hs']; exact hcur
  have hvis : ∀ e, s'.visibleOf ext e = s.visibleOf ext e := by
    intro e
    rw [hs']
    rfl
  have hlen : (s.m_AllRItems.foldl (fun b e => compacted (s.visibleOf ext e) b)
      fb.m_InstCB).length = fb.m_InstCB.length :=
    foldl_compacted_length (fun e => s.visibleOf ext e) _ _ hcap
  have hfb' : s'.buffers.get? slot = some { fb with
      m_InstCB := s.m_AllRItems.foldl (fun b e => compacted (s.visibleOf ext e) b)
        fb.m_InstCB } := by
    rw [hbuf]
    exact get?_set_self_of_get? s.buffers slot fb _ hfb
  have hcap' : ∀ e ∈ s'.m_AllRItems, (s'.visibleOf ext e).length ≤
      (s.m_AllRItems.foldl (fun b e => compacted (s.visibleOf ext e) b) fb.m_InstCB).length := by
    intro e he
    rw [hitems] at he
    obtain ⟨e0, he0, rfl⟩ := List.mem_map.1 he
    rw [hvis, hlen]
    exact hcap e0 he0
  have h2 := UpdateInstanceBuffers_fits ext s' slot _ hcur' hfb' hcap'
  refine ⟨by rw [hs'], by rw [hs'], by rw [hs'], by rw [hs'], hitems, ?_, ?_, ?_, _, h2, ?_, ?_,
    ?_⟩
  · rw [hitems, List.map_map]
    rfl
  · rw [hitems, List.map_map]
    rfl
  · rw [hitems, List.map_map]
    rfl
  · show s'.buffers.set slot _ = s'.buffers
    have hfold : s'.m_AllRItems.foldl (fun b e => compacted (s'.visibleOf ext e) b)
        (s.m_AllRItems.foldl (fun b e => compacted (s.visibleOf ext e) b) fb.m_InstCB)
        = s.m_AllRItems.foldl (fun b e => compacted (s.visibleOf ext e) b) fb.m_InstCB := by
      rw [hitems, foldl_map_count (fun e => (s.visibleOf ext e).length)
        (fun b e => compacted (s'.visibleOf ext e) b) (fun _ _ => rfl)]
      have hF : (fun (b : UploadBuffer InstanceConstants) e => compacted (s'.visibleOf ext e) b)
          = (fun b e => compacted (s.visibleOf ext e) b) := by
        funext b e
        rw [hvis]
      rw [hF]
      exact foldl_compacted_idem (fun e => s.visibleOf ext e) _ _
    show s'.buffers.set slot { fb with m_InstCB := _ } = _
    dsimp only
    rw [hfold, hbuf, List.set_set]
  · show s'.m_AllRItems.map (fun e => { e with InstanceCount := (s'.visibleOf ext e).length })
      = s'.m_AllRItems
    rw [hitems, List.map_map]
    apply List.map_congr_left
    intro e _
    show { ({ e with InstanceCount := (s.visibleOf ext e).length } : RenderItem) with
      InstanceCount := (s'.visibleOf ext
        { e with InstanceCount := (s.visibleOf ext e).length }).length } = _
    rw [hvis]
    rfl
  · show s'.m_AllRItems.foldl (fun _ e => (s'.visibleOf ext e).length) s'.m_SkullCounts
      = s'.m_SkullCounts
    rw [hitems, foldl_map_count (fun e => (s.visibleOf ext e).length)
      (fun (_ : Nat) e => (s'.visibleOf ext e).length) (fun _ _ => rfl)]
    have hF : (fun (_ : Nat) (e : RenderItem) => (s'.visibleOf ext e).length)
        = (fun _ e => (s.visibleOf ext e).length) := by
      funext b e
      rw [hvis]
    rw [hF, hsc]
    exact foldl_count_idem (fun e => (s.visibleOf ext e).length) _ _

/-- C23, witness: a scene of two items, one behind the eye and one in front of it with two
instances; the call returns, and so does a second call, with the same buffers. -/
theorem UpdateInstanceBuffers_reads_scene_and_repeats_witness :
    ∃ s' s'',
      UpdateInstanceBuffers axisLibrary (sceneApp [plainItem (-10) [0], plainItem 5 [0, 1]] false 1)
        = some s' ∧
      UpdateInstanceBuffers axisLibrary s' = some s'' ∧
      s''.buffers = s'.buffers ∧ s''.m_SkullCounts = s'.m_SkullCounts :=
  have h : (UpdateInstanceBuffers axisLibrary
      (sceneApp [plainItem (-10) [0], plainItem 5 [0, 1]] false 1)).isSome = true := by decide
  let ⟨_, _, _, _, _, _, _, _, s'', h1, h2, _, h4⟩ :=
    UpdateInstanceBuffers_reads_scene_and_repeats axisLibrary
      (sceneApp [plainItem (-10) [0], plainItem 5 [0, 1]] false 1) _
      (Option.some_get h).symm
  ⟨_, s'', (Option.some_get h).symm, h1, h2, h4⟩


/-! ## The places of the instance writes -/

/-- The places of the writes that store a list of instances from `index` on. -/
theorem instanceWrites_index (slot : Nat) :
    ∀ (l : List InstanceData) (index : Nat), ∀ w ∈ instanceWrites slot index l,
      index ≤ w.index ∧ w.index < index + l.length
  | [], _, w, h => by simp [instanceWrites] at h
  | inst :: rest, index, w, h => by
    simp only [instanceWrites, List.mem_cons] at h
    rcases h with h | h
    · subst h
      exact ⟨Nat.le_refl _, by simp [BufferWrite.index]⟩
    · obtain ⟨h1, h2⟩ := instanceWrites_index slot rest (index + 1) w h
      rw [List.length_cons]
      omega

/-- Every write of the outer loop is a write of one of the items. -/
theorem foldl_writes_mem (slot : Nat) (V : RenderItem → List InstanceData) :
    ∀ (items : List RenderItem) (log : List BufferWrite),
      ∃ ws, items.foldl (fun lg e => lg ++ instanceWrites slot 0 (V e)) log = log ++ ws ∧
        ∀ w ∈ ws, ∃ e ∈ items, w ∈ instanceWrites slot 0 (V e)
  | [], log => ⟨[], by simp, by simp⟩
  | e :: rest, log => by
    obtain ⟨ws, h1, h2⟩ := foldl_writes_mem slot V rest (log ++ instanceWrites slot 0 (V e))
    refine ⟨instanceWrites slot 0 (V e) ++ ws, ?_, ?_⟩
    · rw [List.foldl_cons, h1, List.append_assoc]
    · intro w hw
      rcases List.mem_append.1 hw with hw | hw
      · exact ⟨e, List.mem_cons_self _ _, hw⟩
      · obtain ⟨r, hr, hwr⟩ := h2 w hw
        exact ⟨r, List.mem_cons_of_mem _ hr, hwr⟩

/-- C27: with the current pointer at a slot with buffers, for every behaviour of the library.
In the loop over the instances of an item, the running count at the turn of an
instance, which is the place passed to `CopyData` when the instance passes the
test, is below the number of instances of the item. When `UpdateInstanceBuffers` returns,
every place it has written is below the number of instances of one of the items and
inside the buffer, and the `InstanceCount` of every item is at most its number of
instances. It returns whenever the buffer has room for the instances of every
item. In the scene that `Initialize` builds, the one render item has 343 instances
and the instance buffer of every ring slot has `m_InstanceCount = 343` elements. -/
theorem instance_writes_stay_inside_buffer (ext : External) (s : App) (slot : Nat)
    (fb : FrameBuffers)
    (hcur : s.m_CurrFrameResource = some slot) (hfb : s.buffers.get? slot = some fb) :
    (∀ (e : RenderItem) (pre post : List InstanceData) (inst : InstanceData)
        (buf b : UploadBuffer InstanceConstants) (c : Nat) (log lg : List BufferWrite),
      e.Instances = pre ++ inst :: post →
      cullInstances ext s.m_LocalProjFrustum s.m_isFrustumCulling
        (ext.XMMatrixInverse s.m_Camera.View) e.Bounds slot pre buf 0 log = some (b, c, lg) →
      c < e.Instances.length ∧
      cullInstances ext s.m_LocalProjFrustum s.m_isFrustumCulling
        (ext.XMMatrixInverse s.m_Camera.View) e.Bounds slot e.Instances buf 0 log
        = if instanceTest ext s.m_LocalProjFrustum (ext.XMMatrixInverse s.m_Camera.View)
              e.Bounds inst ≠ ContainmentType.DISJOINT ∨ s.m_isFrustumCulling = true then
            match b.CopyData c (instanceConstantsOf inst) with
            | none => none
            | some buf1 =>
              cullInstances ext s.m_LocalProjFrustum s.m_isFrustumCulling
                (ext.XMMatrixInverse s.m_Camera.View) e.Bounds slot post buf1 (c + 1)
                (lg ++ [BufferWrite.instanceCB slot c (instanceConstantsOf inst)])
          else
            cullInstances ext s.m_LocalProjFrustum s.m_isFrustumCulling
              (ext.XMMatrixInverse s.m_Camera.View) e.Bounds slot post b c lg) ∧
    (∀ s', UpdateInstanceBuffers ext s = some s' →
      ∃ ws, s'.writes = s.writes ++ ws ∧
        (∀ w ∈ ws, ∃ e ∈ s.m_AllRItems,
          w.index < e.Instances.length ∧ w.index < fb.m_InstCB.length) ∧
        (∀ e' ∈ s'.m_AllRItems, e'.InstanceCount ≤ e'.Instances.length)) ∧
    ((∀ e ∈ s.m_AllRItems, e.Instances.length ≤ fb.m_InstCB.length) →
      ∃ s', UpdateInstanceBuffers ext s = some s') ∧
    (∀ (screenWidth screenHeight : Int) (file : SkullFile) (isFrustumCulling : Bool)
        (camera : Camera),
      ∃ s0 e,
        App.Initialize ext screenWidth screenHeight (some file)
          (App.constructed isFrustumCulling camera) = some s0 ∧
        s0.m_AllRItems = [e] ∧ e.Instances.length = 343 ∧
        s0.m_InstanceCount = 343 ∧ s0.buffers.length = 3 ∧
        ∀ fb0 ∈ s0.buffers, fb0.m_InstCB.length = s0.m_InstanceCount ∧
          e.Instances.length ≤ fb0.m_InstCB.length) := by
  refine ⟨?_, ?_, ?_, ?_⟩
  · intro e pre post inst buf b c log lg hsplit hpre
    have hle := cullInstances_zero_le hpre
    rw [cullInstances_eq ext _ _ _ e.Bounds slot pre buf log hle] at hpre
    simp only [Option.some.injEq, Prod.mk.injEq] at hpre
    obtain ⟨hb, hc, hlg⟩ := hpre
    constructor
    · rw [hsplit, List.length_append, List.length_cons, ← hc]
      have := visibleInstances_length_le ext s.m_LocalProjFrustum s.m_isFrustumCulling
        (ext.XMMatrixInverse s.m_Camera.View) e.Bounds pre
      omega
    · rw [hsplit, cullInstances_append, cullInstances_eq ext _ _ _ e.Bounds slot pre buf log hle]
      dsimp only
      rw [hb, hc, hlg]
      exact cullInstances_cons ext _ _ _ _ slot inst post b c lg
  · intro s' h
    obtain ⟨slot', fb', hcur', hfb', hcap, hs'⟩ := UpdateInstanceBuffers_some h
    have hslot : slot' = slot := by
      rw [hcur] at hcur'
      exact (Option.some.inj hcur').symm
    subst hslot
    have hfbeq : fb' = fb := by
      rw [hfb] at hfb'
      exact (Option.some.inj hfb').symm
    subst hfbeq
    obtain ⟨ws, hws, hmem⟩ := foldl_writes_mem slot' (fun e => s.visibleOf ext e) s.m_AllRItems
      s.writes
    refine ⟨ws, by rw [hs']; exact hws, ?_, ?_⟩
    · intro w hw
      obtain ⟨e, he, hwe⟩ := hmem w hw
      obtain ⟨-, hlt⟩ := instanceWrites_index slot' _ 0 w hwe
      have hv : (s.visibleOf ext e).length ≤ e.Instances.length :=
        visibleInstances_length_le _ _ _ _ _ _
      have hc := hcap e he
      exact ⟨e, he, by omega, by omega⟩
    · intro e' he'
      rw [hs'] at he'
      obtain ⟨e, -, rfl⟩ := List.mem_map.1 he'
      exact visibleInstances_length_le _ _ _ _ _ _
  · intro hcap
    exact ⟨_, UpdateInstanceBuffers_eq ext s slot fb hcur hfb hcap⟩
  · intro screenWidth screenHeight file isFrustumCulling camera
    obtain ⟨s0, e, hs0, hbuf, -, hitems, hinst, -, hcount⟩ :=
      App.Initialize_scene ext screenWidth screenHeight file isFrustumCulling camera
    have hlen : e.Instances.length = 343 := by
      rw [hinst, List.length_map, List.length_range]
    refine ⟨s0, e, hs0, hitems, hlen, hcount, by rw [hbuf]; exact List.length_replicate _ _, ?_⟩
    intro fb0 hfb0
    rw [hbuf] at hfb0
    rw [List.eq_of_mem_replicate hfb0, hcount, hlen]
    exact ⟨List.length_replicate _ _, Nat.le_of_eq (List.length_replicate _ _).symm⟩

/-- C27, witness: a scene of one item with two instances in front of the eye and buffers of
four instance elements: the call returns and writes the places 0 and 1. -/
theorem instance_writes_stay_inside_buffer_witness :
    (sceneApp [plainItem 5 [0, 1]] false 1).m_CurrFrameResource = some 0 ∧
    (sceneApp [plainItem 5 [0, 1]] false 1).buffers.get? 0 = some (FrameBuffers.create 1 4 2) ∧
    ∃ s', UpdateInstanceBuffers axisLibrary (sceneApp [plainItem 5 [0, 1]] false 1) = some s' ∧
      s'.writes.map (fun w => w.index) = [0, 1] :=
  ⟨rfl, rfl,
    let ⟨s', h⟩ :=
      (instance_writes_stay_inside_buffer axisLibrary (sceneApp [plainItem 5 [0, 1]] false 1) 0
        (FrameBuffers.create 1 4 2) rfl rfl).2.2.1 (by decide)
    ⟨s', h, by
      have h2 : (UpdateInstanceBuffers axisLibrary (sceneApp [plainItem 5 [0, 1]] false 1)).map
          (fun s' => s'.writes.map (fun w => w.index)) = some [0, 1] := by decide
      rw [h] at h2
      exact Option.some.inj h2⟩⟩

end Mawi1e
